import Mathlib


/-!
# DiMMon runtime kernel: a shallow embedding

The object graph of `dmm_base.c` / `dmm_base.h` (nodes, hooks, peer records,
reference counts), the event base of `dmm_event.c`, the timers of
`dmm_timer.c`, the socket events of `dmm_sockevent.c`, the wave-finish events
of `dmm_wave.c` and the control-message dispatch of `dmm_base.c`, as pure
functions over an explicit heap.

Conventions of the embedding.

* A pointer is a natural number; `0` is `NULL`.  The heap tells, per kind of
  object, what is stored at each address; a list links addresses.
* A C string is the list of its characters before the terminating NUL.
* A function returns `none` when the C code leaves defined behaviour or aborts:
  a failed `assert`, or an access through a `NULL` or dangling pointer.
* The callbacks of a node type, `malloc`, `sscanf` and the clock are the
  environment `Env`; the callbacks are state transformers.
* `State.trace` is a ghost log (most recent entry first) of callback
  invocations and of releases of messages.
-/

namespace Dimmon

abbrev Ptr := Nat

/-! ## errno values (Linux) -/

def ENOENT : Int := 2
def ENOMEM : Int := 12
def EEXIST : Int := 17
def EINVAL : Int := 22
def ENOTSUP : Int := 95

/-! ## dmm_types.h, dmm_base.h constants -/

def DMM_REFNUM_MAX : Nat := 4294967295
def UINT32_MOD : Nat := 4294967296
def DMM_NODENAMESIZE : Nat := 32
def DMM_HOOKNAMESIZE : Nat := 32
def DMM_TYPENAMESIZE : Nat := 32
def DMM_ADDRSIZE : Nat := 32

def DMM_NODE_INVALID : Nat := 1
def DMM_HOOK_INVALID_BIT : Nat := 1

/-- Mask clearing bit 0 of a 32-bit word: the value of `~DMM_NODE_INVALID`,
`~DMM_HOOK_INVALID_BIT` and `~DMM_TIMER_INVALID`. -/
def NOT_BIT0 : Nat := 4294967294

/-- The enum `DMM_HOOK_DIRECTION` of dmm_base.h. -/
inductive DMM_HOOK_DIRECTION where
  | DMM_HOOK_IN
  | DMM_HOOK_OUT
deriving DecidableEq, Repr

/-- Numeric value of a direction: `DMM_HOOK_IN = 2`, `DMM_HOOK_OUT = 0`. -/
def DMM_HOOK_DIRECTION.val : DMM_HOOK_DIRECTION → Nat
  | .DMM_HOOK_IN => 2
  | .DMM_HOOK_OUT => 0

def NUL : Char := Char.ofNat 0

/-- The character `s[i]` of a C string: past the end the terminator is read. -/
def cstr_at (s : List Char) (i : Nat) : Char := s.getD i NUL

/-- The test `strncmp(a, b, n) == 0` on C strings. -/
def strncmp_eq (a b : List Char) (n : Nat) : Bool := a.take n == b.take n

/-- The call `strncpy(dst, src, n); dst[n] = 0` seen on C strings. -/
def strncpy (src : List Char) (n : Nat) : List Char := src.take n

/-! ## Data model -/

/-- The struct `dmm_type`: a callback member is `true` when the function
pointer is not `NULL`; the behaviour of the callbacks is in `Env`. -/
structure dmm_type where
  addr : Ptr
  tp_name : List Char
  ctor : Bool
  dtor : Bool
  rcvdata : Bool
  rcvmsg : Bool
  newhook : Bool
  rmhook : Bool
deriving DecidableEq, Repr

/-- The struct `dmm_node`.  The lists hold the addresses of the linked
objects, head first. -/
structure dmm_node where
  nd_id : Nat
  nd_name : List Char
  nd_flags : Nat
  nd_type : dmm_type
  nd_rcvmsg : Nat
  nd_pvt : Nat
  nd_inhooks : List Ptr
  nd_outhooks : List Ptr
  nd_events : List Ptr
  nd_refs : Nat
deriving DecidableEq, Repr

/-- The struct `dmm_hook`; `hk_peers` lists the `hp_peer` of the peer records,
head first; `hk_rcvdata` is `0` for `NULL`. -/
structure dmm_hook where
  hk_name : List Char
  hk_flags : Nat
  hk_node : Ptr
  hk_rcvdata : Nat
  hk_pvt : Nat
  hk_peers : List Ptr
  hk_refs : Nat
deriving DecidableEq, Repr

/-- The struct `timespec`. -/
structure timespec where
  tv_sec : Int
  tv_nsec : Int
deriving DecidableEq, Repr

/-- The functions an `ev_destructor` can point to. -/
inductive event_destructor where
  | timer_destructor
  | sockevent_destructor
  | wavefinish_destructor
deriving DecidableEq, Repr

/-- The members of `struct dmm_timer` after the embedded `tm_event`. -/
structure dmm_timer where
  tm_flags : Nat
  tm_next : timespec
  tm_interval : timespec
deriving DecidableEq, Repr

/-- The members of `struct dmm_sockevent` after the embedded `se_event`. -/
structure dmm_sockevent where
  se_fd : Int
  se_sockevents : Nat
deriving DecidableEq, Repr

/-- The members of `struct dmm_wavefinish` after the embedded `wf_event`. -/
structure dmm_wavefinish where
  wf_waveid : Nat
deriving DecidableEq, Repr

/-- The struct enclosing an event base. -/
inductive event_ext where
  | timer (t : dmm_timer)
  | sockevent (s : dmm_sockevent)
  | wavefinish (w : dmm_wavefinish)
deriving DecidableEq, Repr

/-- The struct `dmm_event` together with the struct that embeds it as its
first member (so both have the same address).  `ev_nodes` lists the `en_node`
of the subscriber records in queue order. -/
structure dmm_event where
  ev_id : Nat
  ev_nodes : List Ptr
  ev_refs : Nat
  ev_destructor : Option event_destructor
  ext : event_ext
deriving DecidableEq, Repr

/-- The payload `cm_data` of a control message, seen through the struct the
runtime casts it to. -/
inductive msg_data where
  | empty
  | startup (fd lineno : Int)
  | nodecreate (type : List Char)
  | nodeconnect (srchook dstnode dsthook : List Char)
  | nodedisconnect (srchook dstnode dsthook : List Char)
  | timercreate_resp (id : Nat)
  | timerrm (id : Nat)
  | timerset (id : Nat) (next interval : timespec) (flags : Nat)
  | timersubscribe (id : Nat)
  | timerunsubscribe (id : Nat)
  | timertrigger (id : Nat)
  | sockeventsubscribe (fd : Int) (events : Nat)
  | sockeventunsubscribe (fd : Int)
  | sockeventtrigger (fd : Int) (events : Nat)
  | prepend_set (dn_sensor dn_len : Nat) (dn_data : List Nat)
  | raw (bytes : List Nat)
deriving DecidableEq, Repr

/-- The struct `dmm_msg`. -/
structure dmm_msg where
  ptr : Ptr
  cm_src : Nat
  cm_cmd : Nat
  cm_type : Nat
  cm_token : Nat
  cm_flags : Nat
  cm_len : Nat
  cm_data : msg_data
deriving DecidableEq, Repr

/-- The struct `dmm_data`: the address of the datanode buffer, its length
(a `dmm_size_t`) and the reference count. -/
structure dmm_data where
  da_nodes : Ptr
  da_len : Nat
  da_refs : Nat
deriving DecidableEq, Repr

/-- Entries of the ghost log. -/
inductive Ev where
  | ctor (node : Ptr)
  | dtor (node : Ptr)
  | newhook (hook : Ptr)
  | rmhook (hook : Ptr)
  | rcvmsg (node : Ptr) (msg : dmm_msg)
  | rcvdata (hook data : Ptr)
  | msg_free (msg : dmm_msg)
  | node_free (node : Ptr)
  | hook_free (hook : Ptr)
  | event_free (event : Ptr)
  | data_ref (data : Ptr)
  | data_free (data : Ptr)
  | malloc (p : Ptr) (size : Nat)
deriving DecidableEq, Repr

/-- The global state of the process: the heap (per kind of object, what is
stored at each address), the static variables of the runtime, the interest list
of the epoll instance and the clock. -/
@[ext]
structure State where
  nalloc : Nat := 0
  nodes : Ptr → Option dmm_node := fun _ => none
  hooks : Ptr → Option dmm_hook := fun _ => none
  events : Ptr → Option dmm_event := fun _ => none
  datas : Ptr → Option dmm_data := fun _ => none
  nodelist : List Ptr := []
  lastnodeid : Nat := 0
  lasteventid : Nat := 0
  typelist : List dmm_type := []
  timerlist : List Ptr := []
  timer_trigger_list : List Ptr := []
  sockeventlist : List Ptr := []
  wavefinishlist : List Ptr := []
  dmm_wave_id : Nat := 0
  epoll : List (Int × Nat) := []
  realtime : timespec := ⟨0, 0⟩
  clock_errno : Int := 0
  trace : List Ev := []

/-- The environment of the runtime: the allocator, libc and the callbacks of
the node types.  `malloc_ok k` tells whether the allocation number `k` of the
run succeeds; `sscanf_id addr` is the id read by `sscanf(addr, "[%u]", &id)`
when it returns a positive count; `fd_ok fd` tells whether `fd` is an open
descriptor that epoll accepts.  A callback receives the addresses it is called
with and the state, and returns its result and the state it leaves. -/
structure Env where
  malloc_ok : Nat → Bool
  sscanf_id : List Char → Option Nat
  fd_ok : Int → Bool
  ctor : dmm_type → Ptr → State → Int × State
  dtor : dmm_type → Ptr → State → State
  rcvdata : dmm_type → Ptr → Ptr → State → Int × State
  rcvmsg : dmm_type → Ptr → dmm_msg → State → Int × State
  newhook : dmm_type → Ptr → State → Int × State
  rmhook : dmm_type → Ptr → State → State
  hook_rcvdata : Nat → Ptr → Ptr → State → Int × State

/-! ## Heap access -/

def State.log (st : State) (e : Ev) : State := { st with trace := e :: st.trace }

def State.node? (st : State) (p : Ptr) : Option dmm_node := st.nodes p

def State.hook? (st : State) (p : Ptr) : Option dmm_hook := st.hooks p

def State.event? (st : State) (p : Ptr) : Option dmm_event := st.events p

/-- Store `n` at the address `p`. -/
def State.setNode (st : State) (p : Ptr) (n : dmm_node) : State :=
  { st with nodes := Function.update st.nodes p (some n) }

def State.setHook (st : State) (p : Ptr) (h : dmm_hook) : State :=
  { st with hooks := Function.update st.hooks p (some h) }

def State.setEvent (st : State) (p : Ptr) (e : dmm_event) : State :=
  { st with events := Function.update st.events p (some e) }

/-- Nothing is stored at the address `p` any more. -/
def State.delNode (st : State) (p : Ptr) : State :=
  { st with nodes := Function.update st.nodes p none }

def State.delHook (st : State) (p : Ptr) : State :=
  { st with hooks := Function.update st.hooks p none }

def State.delEvent (st : State) (p : Ptr) : State :=
  { st with events := Function.update st.events p none }

/-- One more allocation has been requested. -/
def State.bump (st : State) : State := { st with nalloc := st.nalloc + 1 }

/-- The log with `e` added when `b` holds. -/
def State.logIf (st : State) (b : Bool) (e : Ev) : State := if b then st.log e else st

def State.setLastnodeid (st : State) (id : Nat) : State := { st with lastnodeid := id }

/-- The macro `LIST_INSERT_HEAD(&nodelist, node, nd_nodes)`. -/
def State.linkNode (st : State) (p : Ptr) : State := { st with nodelist := p :: st.nodelist }

/-- The macro `LIST_REMOVE(node, nd_nodes)`. -/
def State.unlinkNode (st : State) (p : Ptr) : State :=
  { st with nodelist := st.nodelist.erase p }

/-- The callback `ctor` of the type, when it has one. -/
def call_ctor (env : Env) (st : State) (t : dmm_type) (node : Ptr) : Int × State :=
  if t.ctor then env.ctor t node (st.log (Ev.ctor node)) else (0, st)

/-- The callback `dtor` of the type, when it has one. -/
def call_dtor (env : Env) (st : State) (t : dmm_type) (node : Ptr) : State :=
  if t.dtor then env.dtor t node (st.log (Ev.dtor node)) else st

/-- The callback `newhook` of the type, when it has one. -/
def call_newhook (env : Env) (st : State) (t : dmm_type) (hook : Ptr) : Int × State :=
  if t.newhook then env.newhook t hook (st.log (Ev.newhook hook)) else (0, st)

/-- The callback `rmhook` of the type, when it has one. -/
def call_rmhook (env : Env) (st : State) (t : dmm_type) (hook : Ptr) : State :=
  if t.rmhook then env.rmhook t hook (st.log (Ev.rmhook hook)) else st

/-- The callback `rcvmsg` of the type (which is not `NULL`). -/
def call_rcvmsg (env : Env) (st : State) (t : dmm_type) (node : Ptr) (msg : dmm_msg) :
    Int × State :=
  env.rcvmsg t node msg (st.log (Ev.rcvmsg node msg))

/-- The macro `DMM_MALLOC`: the result is a fresh address, or `none` for `NULL`. -/
def DMM_MALLOC (env : Env) (st : State) : Option Ptr × State :=
  (if env.malloc_ok st.nalloc then some (st.nalloc + 1) else none, st.bump)

/-! ## dmm_memman.h -/

def dmm_refinit : Nat := 0

/-- The function `dmm_refacquire`; the assertion `*refs < DMM_REFNUM_MAX`. -/
def dmm_refacquire (refs : Nat) : Option Nat :=
  if refs < DMM_REFNUM_MAX then some (refs + 1) else none

/-- The function `dmm_refrelease`: the new count and whether it is zero; the
assertion `*refs > 0`. -/
def dmm_refrelease (refs : Nat) : Option (Bool × Nat) :=
  if refs > 0 then some (refs - 1 == 0, refs - 1) else none

/-! ## dmm_base.h: node and hook references -/

def DMM_NODE_ISVALID (n : dmm_node) : Bool := n.nd_flags &&& DMM_NODE_INVALID == 0

def DMM_HOOK_ISVALID (h : dmm_hook) : Bool := h.hk_flags &&& DMM_HOOK_INVALID_BIT == 0

def DMM_HOOK_ISIN (h : dmm_hook) : Bool :=
  h.hk_flags &&& DMM_HOOK_DIRECTION.DMM_HOOK_IN.val != 0

def DMM_HOOK_ISOUT (h : dmm_hook) : Bool := !DMM_HOOK_ISIN h

/-- The function `dmm_node_free`. -/
def dmm_node_free (st : State) (p : Ptr) : State := (st.log (Ev.node_free p)).delNode p

/-- The function `dmm_hook_free`. -/
def dmm_hook_free (st : State) (p : Ptr) : State := (st.log (Ev.hook_free p)).delHook p

/-- The function `dmm_node_ref`. -/
def dmm_node_ref (st : State) (p : Ptr) : Option State := do
  let n ← st.node? p
  let r ← dmm_refacquire n.nd_refs
  some (st.setNode p { n with nd_refs := r })

/-- The function `dmm_node_unref`: on the last release the node is invalidated,
its type destructor runs, it leaves the node list and is freed. -/
def dmm_node_unref (env : Env) (st : State) (p : Ptr) : Option State := do
  let n ← st.node? p
  let (last, r) ← dmm_refrelease n.nd_refs
  let st := st.setNode p { n with nd_refs := r }
  if last then
    if n.nd_inhooks ≠ [] then none
    else if n.nd_outhooks ≠ [] then none
    else
      let st := st.setNode p { n with nd_refs := r, nd_flags := n.nd_flags ||| DMM_NODE_INVALID }
      let st := call_dtor env st n.nd_type p
      some (dmm_node_free (st.unlinkNode p) p)
  else
    some st

/-- The function `dmm_hook_ref`. -/
def dmm_hook_ref (st : State) (p : Ptr) : Option State := do
  let h ← st.hook? p
  let r ← dmm_refacquire h.hk_refs
  some (st.setHook p { h with hk_refs := r })

/-- The macro `LIST_REMOVE(hook, hk_nodehooks)`: the hook leaves the list of
its owner it is linked in. -/
def unlink_nodehook (st : State) (node : Ptr) (owner : dmm_node) (p : Ptr) : State :=
  st.setNode node
    { owner with nd_inhooks := owner.nd_inhooks.erase p, nd_outhooks := owner.nd_outhooks.erase p }

/-- The function `dmm_hook_unref`: on the last release the hook is invalidated,
the `rmhook` callback of the owner type runs, the hook leaves the hook list of
its owner, is freed, and the reference to the owner is released. -/
def dmm_hook_unref (env : Env) (st : State) (p : Ptr) : Option State := do
  let h ← st.hook? p
  let (last, r) ← dmm_refrelease h.hk_refs
  let st := st.setHook p { h with hk_refs := r }
  if last then
    let st := st.setHook p { h with hk_refs := r, hk_flags := h.hk_flags ||| DMM_HOOK_INVALID_BIT }
    if h.hk_peers ≠ [] then none
    else
      let owner ← st.node? h.hk_node
      let st := call_rmhook env st owner.nd_type p
      let h2 ← st.hook? p
      let node := h2.hk_node
      let owner2 ← st.node? node
      let st := unlink_nodehook st node owner2 p
      let st := dmm_hook_free st p
      dmm_node_unref env st node
  else
    some st

/-! ## dmm_base.c: hooks -/

/-- The scan of `dmm_hook_create` and `dmm_node_setname`:
`for (i = 0; i < limit; ++i) if (name[i] is NUL, '[' or ']') break;`
called with `i` and the number of iterations left; the result is the final `i`. -/
def name_scan (name : List Char) : Nat → Nat → Nat
  | 0, i => i
  | k + 1, i =>
    if cstr_at name i = NUL ∨ cstr_at name i = '[' ∨ cstr_at name i = ']' then i
    else name_scan name k (i + 1)

/-- The macro `LIST_INSERT_HEAD` on the hook list of `n` for the direction. -/
def insert_nodehook (n : dmm_node) (dir : DMM_HOOK_DIRECTION) (p : Ptr) : dmm_node :=
  match dir with
  | .DMM_HOOK_IN => { n with nd_inhooks := p :: n.nd_inhooks }
  | .DMM_HOOK_OUT => { n with nd_outhooks := p :: n.nd_outhooks }

/-- The end of `dmm_hook_create`, once `newhook` has accepted the hook at `p`:
the assertion on `hk_rcvdata`, the hook becomes valid and enters the hook list
of its node, and the references of the node and of the hook are acquired. -/
def hook_link (st : State) (node : Ptr) (dir : DMM_HOOK_DIRECTION) (p : Ptr) : Option State := do
  let h ← st.hook? p
  if DMM_HOOK_ISOUT h && h.hk_rcvdata != 0 then none
  else
    let st := st.setHook p { h with hk_flags := h.hk_flags &&& NOT_BIT0 }
    let n ← st.node? node
    let st := st.setNode node (insert_nodehook n dir p)
    let st ← dmm_node_ref st node
    dmm_hook_ref st p

/-- The hook as `dmm_hook_create` initialises it before `newhook` runs:
invalid, of direction `dir`, named, owned by `node`, without peers and with a
reference count of zero. -/
def fresh_hook (node : Ptr) (dir : DMM_HOOK_DIRECTION) (name : List Char) : dmm_hook :=
  { hk_name := strncpy name (DMM_HOOKNAMESIZE - 1),
    hk_flags := DMM_HOOK_INVALID_BIT ||| dir.val, hk_node := node, hk_rcvdata := 0, hk_pvt := 0,
    hk_peers := [], hk_refs := dmm_refinit }

/-- The function `dmm_hook_create`: the error code and `*hookp`.  Both paths
that reject the name call `dmm_log(DMM_LOG_ERR, "Name \"%s\" is invalid for
hook")` without an argument for the `%s` before they would return `EINVAL`:
`vfprintf` reads an argument that was not passed, which is undefined, so the
model gives no result there. -/
def dmm_hook_create (env : Env) (st : State) (node : Ptr) (dir : DMM_HOOK_DIRECTION)
    (name : List Char) : Option ((Int × Option Ptr) × State) := do
  let n ← st.node? node
  if !DMM_NODE_ISVALID n then some ((EINVAL, none), st)
  else if cstr_at name 0 = NUL then none
  else
    let i := name_scan name (DMM_HOOKNAMESIZE - 1) 0
    if cstr_at name i ≠ NUL then none
    else
      match DMM_MALLOC env st with
      | (none, st) => some ((ENOMEM, none), st)
      | (some p, st) =>
        match call_newhook env (st.setHook p (fresh_hook node dir name)) n.nd_type p with
        | (err, st) =>
        if err ≠ 0 then some ((err, none), dmm_hook_free st p)
        else do
          let st ← hook_link st node dir p
          some ((0, some p), st)

/-- The loop `LIST_FOREACH(hook, list, hk_nodehooks) if (strncmp(...) == 0) break;`
of `dmm_hook_find`: the first hook of the list with that name. -/
def find_hook_named (st : State) (name : List Char) : List Ptr → Option (Option (Ptr × dmm_hook))
  | [] => some none
  | p :: ps =>
    match st.hook? p with
    | none => none
    | some h =>
      if strncmp_eq h.hk_name name DMM_HOOKNAMESIZE then some (some (p, h))
      else find_hook_named st name ps

/-- The function `dmm_hook_find`: the hook found, with a reference acquired,
or `NULL`. -/
def dmm_hook_find (st : State) (node : Ptr) (dir : DMM_HOOK_DIRECTION) (name : List Char) :
    Option (Option Ptr × State) := do
  let n ← st.node? node
  let found ← match dir with
    | .DMM_HOOK_IN => find_hook_named st name n.nd_inhooks
    | .DMM_HOOK_OUT => find_hook_named st name n.nd_outhooks
  match found with
  | none => some (none, st)
  | some (p, h) =>
    if !DMM_HOOK_ISVALID h then some (none, st)
    else do
      let st ← dmm_hook_ref st p
      some (some p, st)

/-- The function `dmm_hook_get`: find the hook or create it. -/
def dmm_hook_get (env : Env) (st : State) (node : Ptr) (dir : DMM_HOOK_DIRECTION)
    (name : List Char) : Option ((Int × Option Ptr) × State) := do
  let (found, st) ← dmm_hook_find st node dir name
  match found with
  | none => dmm_hook_create env st node dir name
  | some p =>
    let h ← st.hook? p
    if !DMM_HOOK_ISVALID h then some ((EINVAL, none), st)
    else some ((0, some p), st)

/-- The function `dmm_hook_addpeer`. -/
def dmm_hook_addpeer (env : Env) (st : State) (hook peerhook : Ptr) : Option (Int × State) := do
  let h ← st.hook? hook
  if peerhook ∈ h.hk_peers then some (EEXIST, st)
  else
    match DMM_MALLOC env st with
    | (none, st) => some (ENOMEM, st)
    | (some _, st) =>
      let st := st.setHook hook { h with hk_peers := peerhook :: h.hk_peers }
      do
        let st ← dmm_hook_ref st peerhook
        some (0, st)

/-- The function `dmm_hook_rmpeer`. -/
def dmm_hook_rmpeer (env : Env) (st : State) (hook peerhook : Ptr) : Option (Int × State) := do
  let h ← st.hook? hook
  if peerhook ∉ h.hk_peers then some (ENOENT, st)
  else
    let st := st.setHook hook { h with hk_peers := h.hk_peers.erase peerhook }
    let st ← dmm_hook_unref env st peerhook
    some (0, st)

/-- The body of the loop of `dmm_hook_rm` for the peer record of `peer`. -/
def dmm_hook_rm_step (env : Env) (hook : Ptr) (st : State) (peer : Ptr) : Option State := do
  let (_, st) ← dmm_hook_rmpeer env st peer hook
  let (_, st) ← dmm_hook_rmpeer env st hook peer
  some st

/-- The function `dmm_hook_rm`.  `LIST_FOREACH_SAFE` visits the peer records
that are linked when the loop starts. -/
def dmm_hook_rm (env : Env) (st : State) (hook : Ptr) : Option State := do
  let st ← dmm_hook_ref st hook
  let h ← st.hook? hook
  let st := st.setHook hook { h with hk_flags := h.hk_flags ||| DMM_HOOK_INVALID_BIT }
  let st ← h.hk_peers.foldlM (dmm_hook_rm_step env hook) st
  dmm_hook_unref env st hook

/-! ## dmm_module.c: type lookup -/

/-- The function `dmm_type_find`: the first descriptor of the type list whose
name compares equal. -/
def dmm_type_find (st : State) (name : List Char) : Option dmm_type :=
  st.typelist.find? (fun t => strncmp_eq name t.tp_name DMM_TYPENAMESIZE)

/-! ## dmm_event.c and dmm_event.h -/

/-- The function `dmm_event_ref`. -/
def dmm_event_ref (st : State) (p : Ptr) : Option State := do
  let e ← st.event? p
  let r ← dmm_refacquire e.ev_refs
  some (st.setEvent p { e with ev_refs := r })

/-- The call `DMM_FREE` of an event object. -/
def dmm_event_free (st : State) (p : Ptr) : State := (st.log (Ev.event_free p)).delEvent p

/-- The call `epoll_ctl(dmm_epollfd, EPOLL_CTL_DEL, fd, NULL)`: the errno, and
the interest list it leaves. -/
def epoll_ctl_del (st : State) (fd : Int) : Int × State :=
  if st.epoll.any (fun x => x.1 == fd) then
    (0, { st with epoll := st.epoll.filter (fun x => x.1 != fd) })
  else (ENOENT, st)

/-- The function `timer_destructor`. -/
def timer_destructor (st : State) (p : Ptr) : Option State :=
  some (dmm_event_free st p)

/-- The function `sockevent_destructor`. -/
def sockevent_destructor (st : State) (p : Ptr) : Option State := do
  let e ← st.event? p
  match e.ext with
  | .sockevent s =>
    let st := { st with sockeventlist := st.sockeventlist.erase p }
    let (err, st) := epoll_ctl_del st s.se_fd
    if err ≠ 0 ∧ err ≠ ENOENT then none
    else some (dmm_event_free st p)
  | _ => none

/-- The function `wavefinish_destructor`. -/
def wavefinish_destructor (st : State) (p : Ptr) : Option State :=
  let st := { st with wavefinishlist := st.wavefinishlist.erase p }
  some (dmm_event_free st p)

/-- The function `dmm_event_unref`: on the last release the destructor of the
event runs. -/
def dmm_event_unref (st : State) (p : Ptr) : Option State := do
  let e ← st.event? p
  let (last, r) ← dmm_refrelease e.ev_refs
  let st := st.setEvent p { e with ev_refs := r }
  if last then
    if e.ev_nodes ≠ [] then none
    else
      match e.ev_destructor with
      | none => none
      | some .timer_destructor => timer_destructor st p
      | some .sockevent_destructor => sockevent_destructor st p
      | some .wavefinish_destructor => wavefinish_destructor st p
  else
    some st

/-- The function `dmm_event_init`, on the event object at `p`; the counter
`lasteventid` is a `uint32_t`. -/
def dmm_event_init (st : State) (p : Ptr) : Option State := do
  let e ← st.event? p
  let st := st.setEvent p { e with ev_refs := dmm_refinit }
  let st ← dmm_event_ref st p
  let id := (st.lasteventid + 1) % UINT32_MOD
  let st := { st with lasteventid := id }
  let e ← st.event? p
  some (st.setEvent p { e with ev_id := id, ev_nodes := [], ev_destructor := none })

/-- The function `dmm_event_issubscribed`. -/
def dmm_event_issubscribed (st : State) (event node : Ptr) : Option Bool := do
  let n ← st.node? node
  some (decide (event ∈ n.nd_events))

/-- The function `dmm_event_subscribe`. -/
def dmm_event_subscribe (env : Env) (st : State) (event node : Ptr) : Option (Int × State) :=
  match DMM_MALLOC env st with
  | (none, st) => some (ENOMEM, st)
  | (some _, st) =>
    match DMM_MALLOC env st with
    | (none, st) => some (ENOMEM, st)
    | (some _, st) => do
      let e ← st.event? event
      let st := st.setEvent event { e with ev_nodes := e.ev_nodes ++ [node] }
      let st ← dmm_node_ref st node
      let n ← st.node? node
      let st := st.setNode node { n with nd_events := event :: n.nd_events }
      let st ← dmm_event_ref st event
      some (0, st)

/-- The function `dmm_event_checkedsubscribe`. -/
def dmm_event_checkedsubscribe (env : Env) (st : State) (event node : Ptr) :
    Option (Int × State) := do
  if (← dmm_event_issubscribed st event node) then some (0, st)
  else dmm_event_subscribe env st event node

/-- The function `dmm_event_unsubscribe`. -/
def dmm_event_unsubscribe (env : Env) (st : State) (event node : Ptr) : Option (Int × State) := do
  let e ← st.event? event
  if node ∉ e.ev_nodes then some (ENOENT, st)
  else
    let n ← st.node? node
    if event ∉ n.nd_events then none
    else
      let st := st.setEvent event { e with ev_nodes := e.ev_nodes.erase node }
      let st := st.setNode node { n with nd_events := n.nd_events.erase event }
      let st ← dmm_event_unref st event
      let st ← dmm_node_unref env st node
      some (0, st)

/-- The function `dmm_node_unsubscribeallevents`; `LIST_FOREACH_SAFE` visits
the records linked when the loop starts. -/
def dmm_node_unsubscribeallevents (env : Env) (st : State) (node : Ptr) : Option State := do
  let n ← st.node? node
  n.nd_events.foldlM (fun st ev => do
    let (_, st) ← dmm_event_unsubscribe env st ev node
    some st) st

/-- The function `dmm_event_unsubscribeall`. -/
def dmm_event_unsubscribeall (env : Env) (st : State) (event : Ptr) : Option State := do
  let e ← st.event? event
  e.ev_nodes.foldlM (fun st nd => do
    let (_, st) ← dmm_event_unsubscribe env st event nd
    some st) st

/-! ## dmm_base.c: nodes -/

/-- The node as `dmm_node_create` initialises it before the constructor
runs: invalid, with the new id, unnamed, without hooks and subscriptions and
with a reference count of zero. -/
def fresh_node (id : Nat) (type : dmm_type) : dmm_node :=
  { nd_id := id, nd_name := [], nd_flags := DMM_NODE_INVALID, nd_type := type,
    nd_rcvmsg := 0, nd_pvt := 0, nd_inhooks := [], nd_outhooks := [], nd_events := [],
    nd_refs := dmm_refinit }

/-- The function `dmm_node_create`: the error code and `*nodep`; the counter
`lastnodeid` is a `uint32_t`. -/
def dmm_node_create (env : Env) (st : State) (typenamestr : List Char) :
    Option ((Int × Option Ptr) × State) :=
  match dmm_type_find st typenamestr with
  | none => some ((EINVAL, none), st)
  | some type =>
    match DMM_MALLOC env st with
    | (none, st) => some ((ENOMEM, none), st)
    | (some p, st) =>
      let id := (st.lastnodeid + 1) % UINT32_MOD
      let st := st.setLastnodeid id
      match call_ctor env (st.setNode p (fresh_node id type)) type p with
      | (err, st) =>
      if err ≠ 0 then some ((err, none), dmm_node_free st p)
      else do
        let st ← dmm_node_ref st p
        let n ← st.node? p
        let st := st.setNode p { n with nd_flags := n.nd_flags &&& NOT_BIT0 }
        some ((0, some p), st.linkNode p)

/-- The function `dmm_node_rm`. -/
def dmm_node_rm (env : Env) (st : State) (node : Ptr) : Option State := do
  let n ← st.node? node
  let st := st.setNode node { n with nd_flags := n.nd_flags ||| DMM_NODE_INVALID }
  let st ← n.nd_inhooks.foldlM (dmm_hook_rm env) st
  let n ← st.node? node
  let st ← n.nd_outhooks.foldlM (dmm_hook_rm env) st
  let st ← dmm_node_unsubscribeallevents env st node
  dmm_node_unref env st node

/-- The function `dmm_node_setname`; `none` stands for a `NULL` name.  The
path that rejects the name calls `dmm_log(DMM_LOG_ERR, "Name \"%s\" is
invalid for node")` without an argument for the `%s` before it would return
`EINVAL`: `vfprintf` reads an argument that was not passed, which is undefined,
so the model gives no result there. -/
def dmm_node_setname (st : State) (node : Ptr) (name : Option (List Char)) :
    Option (Int × State) := do
  let n ← st.node? node
  if !DMM_NODE_ISVALID n then some (EINVAL, st)
  else
    match name with
    | none => some (0, st.setNode node { n with nd_name := [] })
    | some name =>
      if cstr_at name 0 = NUL then some (0, st.setNode node { n with nd_name := [] })
      else
        let i := name_scan name (DMM_NODENAMESIZE - 1) 0
        if cstr_at name i ≠ NUL then none
        else some (0, st.setNode node { n with nd_name := strncpy name (DMM_NODENAMESIZE - 1) })

/-- The function `dmm_node_unname`. -/
def dmm_node_unname (st : State) (node : Ptr) : Option (Int × State) :=
  dmm_node_setname st node none

/-- The function `dmm_node_connect`. -/
def dmm_node_connect (env : Env) (st : State) (srcnode : Ptr) (srchookname : List Char)
    (dstnode : Ptr) (dsthookname : List Char) : Option (Int × State) := do
  let ((err, srchook), st) ← dmm_hook_get env st srcnode .DMM_HOOK_OUT srchookname
  if err ≠ 0 then some (err, st)
  else
    let srchook ← srchook
    let ((err, dsthook), st) ← dmm_hook_get env st dstnode .DMM_HOOK_IN dsthookname
    if err ≠ 0 then
      let st ← dmm_hook_unref env st srchook
      some (err, st)
    else
      let dsthook ← dsthook
      let (err, st) ← dmm_hook_addpeer env st srchook dsthook
      let (err, st) ←
        if err = 0 then do
          let (err, st) ← dmm_hook_addpeer env st dsthook srchook
          if err ≠ 0 then
            let (_, st) ← dmm_hook_rmpeer env st srchook dsthook
            some (err, st)
          else some (err, st)
        else some (err, st)
      let st ← dmm_hook_unref env st dsthook
      let st ← dmm_hook_unref env st srchook
      some (err, st)

/-- The function `dmm_node_disconnect`. -/
def dmm_node_disconnect (env : Env) (st : State) (srcnode : Ptr) (srchookname : List Char)
    (dstnode : Ptr) (dsthookname : List Char) : Option (Int × State) := do
  let sn ← st.node? srcnode
  let dn ← st.node? dstnode
  if !DMM_NODE_ISVALID sn || !DMM_NODE_ISVALID dn then some (EINVAL, st)
  else
    let (srchook, st) ← dmm_hook_find st srcnode .DMM_HOOK_OUT srchookname
    match srchook with
    | none => some (ENOENT, st)
    | some srchook =>
      let (dsthook, st) ← dmm_hook_find st dstnode .DMM_HOOK_IN dsthookname
      match dsthook with
      | none =>
        let st ← dmm_hook_unref env st srchook
        some (ENOENT, st)
      | some dsthook =>
        let (_, st) ← dmm_hook_rmpeer env st srchook dsthook
        let (err, st) ← dmm_hook_rmpeer env st dsthook srchook
        let st ← dmm_hook_unref env st dsthook
        let st ← dmm_hook_unref env st srchook
        some (err, st)

/-- The loop of `dmm_node_id2ref`: the first node of the list with that id. -/
def find_node_id (st : State) (id : Nat) : List Ptr → Option (Option Ptr)
  | [] => some none
  | p :: ps =>
    match st.node? p with
    | none => none
    | some n => if n.nd_id = id then some (some p) else find_node_id st id ps

/-- The function `dmm_node_id2ref`. -/
def dmm_node_id2ref (st : State) (id : Nat) : Option (Option Ptr × State) := do
  match (← find_node_id st id st.nodelist) with
  | none => some (none, st)
  | some p =>
    let st ← dmm_node_ref st p
    some (some p, st)

/-- The loop of `dmm_node_name2ref`: the first node of the list with that name. -/
def find_node_name (st : State) (name : List Char) : List Ptr → Option (Option Ptr)
  | [] => some none
  | p :: ps =>
    match st.node? p with
    | none => none
    | some n =>
      if strncmp_eq n.nd_name name DMM_NODENAMESIZE then some (some p)
      else find_node_name st name ps

/-- The function `dmm_node_name2ref`. -/
def dmm_node_name2ref (st : State) (name : List Char) : Option (Option Ptr × State) := do
  match (← find_node_name st name st.nodelist) with
  | none => some (none, st)
  | some p =>
    let st ← dmm_node_ref st p
    some (some p, st)

/-- The function `dmm_node_addr2ref`. -/
def dmm_node_addr2ref (env : Env) (st : State) (addr : List Char) :
    Option (Option Ptr × State) :=
  if cstr_at addr 0 = '[' then
    match env.sscanf_id addr with
    | some id => dmm_node_id2ref st id
    | none => some (none, st)
  else dmm_node_name2ref st addr

/-! ## timespec.h -/

/-- The function `TIMESPEC_INC`: the new value of `*a`. -/
def TIMESPEC_INC (a b : timespec) : timespec :=
  let nsec := a.tv_nsec + b.tv_nsec
  let sec := a.tv_sec + b.tv_sec
  if nsec ≥ 1000000000 then ⟨sec + 1, nsec - 1000000000⟩ else ⟨sec, nsec⟩

def TIMESPEC_ISZERO (a : timespec) : Bool := a.tv_sec == 0 && a.tv_nsec == 0

def TIMESPEC_GT (a b : timespec) : Bool :=
  decide (a.tv_sec > b.tv_sec) || (a.tv_sec == b.tv_sec && decide (a.tv_nsec > b.tv_nsec))

/-- The call `clock_gettime(CLOCK_REALTIME, &now)`: the errno on failure. -/
def clock_gettime (st : State) : Except Int timespec :=
  if st.clock_errno ≠ 0 then .error st.clock_errno else .ok st.realtime

/-! ## dmm_timer.c -/

def DMM_TIMER_INVALID : Nat := 1
def DMM_TIMER_REGISTERED : Nat := 2
/-- The value of `~DMM_TIMER_REGISTERED` on a 32-bit word. -/
def NOT_BIT1 : Nat := 4294967293
def DMM_TIMERSET_ABS : Nat := 1
def DMM_TIMERSET_CHANGEINTERVALONLY : Nat := 2

def DMM_TIMER_ISVALID (t : dmm_timer) : Bool := t.tm_flags &&& DMM_TIMER_INVALID == 0
def DMM_TIMER_ISREGISTERED (t : dmm_timer) : Bool := t.tm_flags &&& DMM_TIMER_REGISTERED != 0

/-- Read the timer at `p`: the event base and the timer members. -/
def State.timer? (st : State) (p : Ptr) : Option (dmm_event × dmm_timer) := do
  let e ← st.event? p
  match e.ext with
  | .timer t => some (e, t)
  | _ => none

/-- Store the timer members of the timer at `p`, whose base is `e`. -/
def State.setTimer (st : State) (p : Ptr) (e : dmm_event) (t : dmm_timer) : State :=
  st.setEvent p { e with ext := .timer t }

/-- The function `dmm_timer_deregister`. -/
def dmm_timer_deregister (st : State) (timer : Ptr) : Option State := do
  let (e, t) ← st.timer? timer
  if !DMM_TIMER_ISREGISTERED t then some st
  else
    let st := { st with timer_trigger_list := st.timer_trigger_list.erase timer }
    let st := st.setTimer timer e { t with tm_flags := t.tm_flags &&& NOT_BIT1 }
    dmm_event_unref st timer

/-- The place of a new timer in `timer_trigger_list`: before the first timer
whose `tm_next` is later than `next`. -/
def trigger_insert (st : State) (timer : Ptr) (next : timespec) : List Ptr → Option (List Ptr)
  | [] => some [timer]
  | p :: ps => do
    let (_, t) ← st.timer? p
    if TIMESPEC_GT t.tm_next next then some (timer :: p :: ps)
    else
      let rest ← trigger_insert st timer next ps
      some (p :: rest)

/-- The function `dmm_timer_register`. -/
def dmm_timer_register (st : State) (timer : Ptr) : Option State := do
  let (e, t) ← st.timer? timer
  if !DMM_TIMER_ISVALID t then some st
  else if TIMESPEC_ISZERO t.tm_next then none
  else if DMM_TIMER_ISREGISTERED t then none
  else
    let l ← trigger_insert st timer t.tm_next st.timer_trigger_list
    let st := { st with timer_trigger_list := l }
    let st := st.setTimer timer e { t with tm_flags := t.tm_flags ||| DMM_TIMER_REGISTERED }
    dmm_event_ref st timer

/-- The function `dmm_timer_create`: the error code and `*timerp`. -/
def dmm_timer_create (env : Env) (st : State) : Option ((Int × Option Ptr) × State) :=
  match DMM_MALLOC env st with
  | (none, st) => some ((ENOMEM, none), st)
  | (some p, st) => do
    let e : dmm_event :=
      { ev_id := 0, ev_nodes := [], ev_refs := 0, ev_destructor := none,
        ext := .timer ⟨0, ⟨0, 0⟩, ⟨0, 0⟩⟩ }
    let st := st.setEvent p e
    let st ← dmm_event_init st p
    let e ← st.event? p
    let e := { e with ev_destructor := some .timer_destructor,
                      ext := .timer ⟨DMM_TIMER_INVALID &&& NOT_BIT0, ⟨0, 0⟩, ⟨0, 0⟩⟩ }
    let st := st.setEvent p e
    let st := { st with timerlist := p :: st.timerlist }
    some ((0, some p), st)

/-- The function `dmm_timer_rm`. -/
def dmm_timer_rm (env : Env) (st : State) (timer : Ptr) : Option State := do
  let (e, t) ← st.timer? timer
  let t := { t with tm_flags := t.tm_flags ||| DMM_TIMER_INVALID }
  let st := st.setTimer timer e t
  let st ← if DMM_TIMER_ISREGISTERED t then dmm_timer_deregister st timer else some st
  let st ← dmm_event_unsubscribeall env st timer
  let st := { st with timerlist := st.timerlist.erase timer }
  dmm_event_unref st timer

/-- The loop of `dmm_timer_id2ref`: the first timer of `timerlist` with that id. -/
def find_timer_id (st : State) (id : Nat) : List Ptr → Option (Option (Ptr × dmm_timer))
  | [] => some none
  | p :: ps =>
    match st.timer? p with
    | none => none
    | some (e, t) => if e.ev_id = id then some (some (p, t)) else find_timer_id st id ps

/-- The function `dmm_timer_id2ref`: the address of the timer, `0` for `NULL`. -/
def dmm_timer_id2ref (st : State) (id : Nat) : Option (Ptr × State) := do
  match (← find_timer_id st id st.timerlist) with
  | none => some (0, st)
  | some (p, t) =>
    if DMM_TIMER_ISVALID t then
      let st ← dmm_event_ref st p
      some (p, st)
    else some (p, st)

/-- The function `dmm_timer_set`. -/
def dmm_timer_set (st : State) (timer : Ptr) (next interval : timespec) (flags : Nat) :
    Option (Int × State) := do
  let afterset : Option (Option Int × State) :=
    if TIMESPEC_ISZERO next then
      if TIMESPEC_ISZERO interval then some (some EINVAL, st)
      else do
        let r : Option (Option Int × State) :=
          if flags &&& DMM_TIMERSET_CHANGEINTERVALONLY = 0 then
            match clock_gettime st with
            | .error e => some (some e, st)
            | .ok now => do
              let (e, t) ← st.timer? timer
              some (none, st.setTimer timer e { t with tm_next := TIMESPEC_INC now interval })
          else some (none, st)
        match (← r) with
        | (some err, st) => some (some err, st)
        | (none, st) =>
          let (e, t) ← st.timer? timer
          some (none, st.setTimer timer e { t with tm_interval := interval })
    else do
      let (e, t) ← st.timer? timer
      let st := st.setTimer timer e { t with tm_next := next }
      let r : Option (Option Int × State) :=
        if flags &&& DMM_TIMERSET_ABS = 0 then
          match clock_gettime st with
          | .error e => some (some e, st)
          | .ok now => do
            let (e, t) ← st.timer? timer
            some (none, st.setTimer timer e { t with tm_next := TIMESPEC_INC t.tm_next now })
        else some (none, st)
      match (← r) with
      | (some err, st) => some (some err, st)
      | (none, st) =>
        let (e, t) ← st.timer? timer
        some (none, st.setTimer timer e { t with tm_interval := interval })
  match (← afterset) with
  | (some err, st) => some (err, st)
  | (none, st) =>
    let (_, t) ← st.timer? timer
    let st ← if DMM_TIMER_ISREGISTERED t then dmm_timer_deregister st timer else some st
    let st ← dmm_timer_register st timer
    some (0, st)

/-- The function `dmm_timer_unset`. -/
def dmm_timer_unset (st : State) (timer : Ptr) : Option State := do
  let (_, t) ← st.timer? timer
  if DMM_TIMER_ISREGISTERED t then dmm_timer_deregister st timer else some st

/-- The function `dmm_timer_subscribe`. -/
def dmm_timer_subscribe (env : Env) (st : State) (timer node : Ptr) : Option (Int × State) := do
  let n ← st.node? node
  if !DMM_NODE_ISVALID n then some (EINVAL, st)
  else
    let (_, t) ← st.timer? timer
    if !DMM_TIMER_ISVALID t then some (EINVAL, st)
    else dmm_event_checkedsubscribe env st timer node

/-- The function `dmm_timer_unsubscribe`. -/
def dmm_timer_unsubscribe (env : Env) (st : State) (timer node : Ptr) : Option (Int × State) :=
  dmm_event_unsubscribe env st timer node

/-! ## dmm_sockevent.c -/

def DMM_SOCKEVENT_IN : Nat := 1
def DMM_SOCKEVENT_OUT : Nat := 2
def DMM_SOCKEVENT_ERR : Nat := 4
def EPOLLIN : Nat := 1
def EPOLLOUT : Nat := 4
def EBADF : Int := 9

/-- The function `se_ev_2_epoll_ev`. -/
def se_ev_2_epoll_ev (sev : Nat) : Nat :=
  (if sev &&& DMM_SOCKEVENT_IN ≠ 0 then EPOLLIN else 0) |||
  (if sev &&& DMM_SOCKEVENT_OUT ≠ 0 then EPOLLOUT else 0)

/-- The call `epoll_ctl(dmm_epollfd, EPOLL_CTL_ADD, fd, &ev)`: the errno (0 on
success).  A descriptor already in the interest list gives `EEXIST`; one that
is not open gives `EBADF`. -/
def epoll_ctl_add (env : Env) (st : State) (fd : Int) (events : Nat) : Int × State :=
  if st.epoll.any (fun x => x.1 == fd) then (EEXIST, st)
  else if env.fd_ok fd then (0, { st with epoll := (fd, events) :: st.epoll })
  else (EBADF, st)

/-- The call `epoll_ctl(dmm_epollfd, EPOLL_CTL_MOD, fd, &ev)`. -/
def epoll_ctl_mod (st : State) (fd : Int) (events : Nat) : Int × State :=
  if st.epoll.any (fun x => x.1 == fd) then
    (0, { st with epoll := st.epoll.map (fun x => if x.1 = fd then (fd, events) else x) })
  else (ENOENT, st)

/-- Read the socket event at `p`. -/
def State.sockevent? (st : State) (p : Ptr) : Option (dmm_event × dmm_sockevent) := do
  let e ← st.event? p
  match e.ext with
  | .sockevent s => some (e, s)
  | _ => none

/-- The loop of `dmm_sockevent_fd2ref`. -/
def find_sockevent_fd (st : State) (fd : Int) : List Ptr → Option (Option Ptr)
  | [] => some none
  | p :: ps =>
    match st.sockevent? p with
    | none => none
    | some (_, s) => if s.se_fd = fd then some (some p) else find_sockevent_fd st fd ps

/-- The function `dmm_sockevent_fd2ref`. -/
def dmm_sockevent_fd2ref (st : State) (fd : Int) : Option (Option Ptr × State) := do
  match (← find_sockevent_fd st fd st.sockeventlist) with
  | none => some (none, st)
  | some p =>
    let st ← dmm_event_ref st p
    some (some p, st)

/-- The function `dmm_sockevent_subscribe`.  The `ev.events` passed to
`EPOLL_CTL_MOD` is the one computed for `EPOLL_CTL_ADD`. -/
def dmm_sockevent_subscribe (env : Env) (st : State) (fd : Int) (events : Nat) (node : Ptr) :
    Option (Int × State) :=
  match DMM_MALLOC env st with
  | (none, st) => some (ENOMEM, st)
  | (some p, st) =>
    match epoll_ctl_add env st fd (se_ev_2_epoll_ev events) with
    | (0, st) => do
      let e : dmm_event :=
        { ev_id := 0, ev_nodes := [], ev_refs := 0, ev_destructor := none,
          ext := .sockevent ⟨0, 0⟩ }
      let st := st.setEvent p e
      let st ← dmm_event_init st p
      let e ← st.event? p
      let st := st.setEvent p
        { e with ev_destructor := some .sockevent_destructor, ext := .sockevent ⟨fd, events⟩ }
      let st := { st with sockeventlist := p :: st.sockeventlist }
      let (err, st) ← dmm_event_subscribe env st p node
      let st ← dmm_event_unref st p
      some (err, st)
    | (err, st) =>
      if err ≠ EEXIST then some (err, st)
      else do
        let (se, st) ← dmm_sockevent_fd2ref st fd
        let se ← se
        let (e, s) ← st.sockevent? se
        let r : Option (Option Int × State) :=
          if s.se_sockevents ≠ events then
            let st := st.setEvent se { e with ext := .sockevent { s with se_sockevents := events } }
            match epoll_ctl_mod st fd (se_ev_2_epoll_ev events) with
            | (0, st) => some (none, st)
            | (err, st) => do
              let st ← dmm_event_unref st se
              some (some err, st)
          else some (none, st)
        match (← r) with
        | (some err, st) => some (err, st)
        | (none, st) =>
          let (err, st) ← dmm_event_checkedsubscribe env st se node
          let st ← dmm_event_unref st se
          some (err, st)

/-- The function `dmm_sockevent_unsubscribe`. -/
def dmm_sockevent_unsubscribe (env : Env) (st : State) (fd : Int) (node : Ptr) :
    Option (Int × State) := do
  let (se, st) ← dmm_sockevent_fd2ref st fd
  match se with
  | none => some (ENOENT, st)
  | some se =>
    let (err, st) ← dmm_event_unsubscribe env st se node
    let st ← dmm_event_unref st se
    some (err, st)

/-! ## dmm_wave.c -/

/-- Read the wave-finish event at `p`. -/
def State.wavefinish? (st : State) (p : Ptr) : Option (dmm_event × dmm_wavefinish) := do
  let e ← st.event? p
  match e.ext with
  | .wavefinish w => some (e, w)
  | _ => none

/-- The function `dmm_current_wave`. -/
def dmm_current_wave (st : State) : Nat := st.dmm_wave_id

/-- The loop of `dmm_wavefinish_id2ref`. -/
def find_wavefinish_id (st : State) (id : Nat) : List Ptr → Option (Option Ptr)
  | [] => some none
  | p :: ps =>
    match st.wavefinish? p with
    | none => none
    | some (_, w) => if w.wf_waveid = id then some (some p) else find_wavefinish_id st id ps

/-- The function `dmm_wavefinish_id2ref`. -/
def dmm_wavefinish_id2ref (st : State) (id : Nat) : Option (Option Ptr × State) := do
  match (← find_wavefinish_id st id st.wavefinishlist) with
  | none => some (none, st)
  | some p =>
    let st ← dmm_event_ref st p
    some (some p, st)

/-- The function `dmm_wavefinish_subscribe`. -/
def dmm_wavefinish_subscribe (env : Env) (st : State) (node : Ptr) : Option (Int × State) := do
  let curwaveid := dmm_current_wave st
  let (wf, st) ← dmm_wavefinish_id2ref st curwaveid
  match wf with
  | some wf =>
    let (err, st) ← dmm_event_subscribe env st wf node
    let st ← dmm_event_unref st wf
    some (err, st)
  | none =>
    match DMM_MALLOC env st with
    | (none, st) => some (ENOMEM, st)
    | (some p, st) =>
      let e : dmm_event :=
        { ev_id := 0, ev_nodes := [], ev_refs := 0, ev_destructor := none,
          ext := .wavefinish ⟨0⟩ }
      let st := st.setEvent p e
      let st ← dmm_event_init st p
      let e ← st.event? p
      let st := st.setEvent p
        { e with ev_destructor := some .wavefinish_destructor, ext := .wavefinish ⟨curwaveid⟩ }
      let st := { st with wavefinishlist := p :: st.wavefinishlist }
      let (err, st) ← dmm_event_subscribe env st p node
      let st ← dmm_event_unref st p
      some (err, st)

/-! ## dmm_message.h and dmm_base.c: control messages -/

def DMM_MSG_RESP : Nat := 1
def DMM_MSG_ERR : Nat := 2
def DMM_MSGTYPE_GENERIC : Nat := 0x0ddfe6d5

def DMM_MSG_STARTUP : Nat := 1
def DMM_MSG_NODECREATE : Nat := 10
def DMM_MSG_NODERM : Nat := 11
def DMM_MSG_NODECONNECT : Nat := 12
def DMM_MSG_NODEDISCONNECT : Nat := 13
def DMM_MSG_NODESETNAME : Nat := 14
def DMM_MSG_TIMERCREATE : Nat := 30
def DMM_MSG_TIMERSET : Nat := 31
def DMM_MSG_TIMERRM : Nat := 32
def DMM_MSG_TIMERSUBSCRIBE : Nat := 33
def DMM_MSG_TIMERUNSUBSCRIBE : Nat := 34
def DMM_MSG_TIMERTRIGGER : Nat := 35
def DMM_MSG_SOCKEVENTSUBSCRIBE : Nat := 40
def DMM_MSG_SOCKEVENTUNSUBSCRIBE : Nat := 41
def DMM_MSG_SOCKEVENTTRIGGER : Nat := 42
def DMM_MSG_WAVEFINISH : Nat := 100
def DMM_MSG_WAVEFINISHSUBSCRIBE : Nat := 101

/-! The `sizeof` of the payload structs (LP64). -/

def sizeof_startup : Nat := 8
def sizeof_nodecreate : Nat := 32
def sizeof_nodeconnect : Nat := 96
def sizeof_nodedisconnect : Nat := 96
def sizeof_timercreate_resp : Nat := 4
def sizeof_timerset : Nat := 48
def sizeof_timersubscribe : Nat := 4
def sizeof_timerunsubscribe : Nat := 4
def sizeof_timertrigger : Nat := 4
def sizeof_timerrm : Nat := 4
def sizeof_sockeventsubscribe : Nat := 8
def sizeof_sockeventunsubscribe : Nat := 4
def sizeof_sockeventtrigger : Nat := 8

/-- The function `dmm_msg_create`; the payload of the new message is not
written yet. -/
def dmm_msg_create (env : Env) (st : State) (src cmd type token flags len : Nat) :
    Option dmm_msg × State :=
  match DMM_MALLOC env st with
  | (none, st) => (none, st)
  | (some p, st) =>
    (some { ptr := p, cm_src := src, cm_cmd := cmd, cm_type := type, cm_token := token,
            cm_flags := flags, cm_len := len, cm_data := .empty }, st)

/-- The function `dmm_msg_create_resp`. -/
def dmm_msg_create_resp (env : Env) (st : State) (src : Nat) (msg : dmm_msg) (len : Nat) :
    Option dmm_msg × State :=
  dmm_msg_create env st src msg.cm_cmd msg.cm_type msg.cm_token DMM_MSG_RESP len

/-- The function `dmm_msg_free`. -/
def dmm_msg_free (st : State) (msg : dmm_msg) : State := st.log (Ev.msg_free msg)

/-- What the `switch` of `dmm_msg_process_generic` leaves: the local variables
`resp`, `err`, `msg_freed`, and the state. -/
structure generic_result where
  resp : Option dmm_msg
  err : Int
  msg_freed : Bool
  st : State

/-- The macro `PASS_MSG_TO_NODE` of `dmm_msg_process_generic`. -/
def PASS_MSG_TO_NODE (env : Env) (st : State) (node : Ptr) (msg : dmm_msg) :
    Option generic_result := do
  let n ← st.node? node
  if n.nd_type.rcvmsg then
    match call_rcvmsg env st n.nd_type node msg with
    | (err, st) => some ⟨none, err, true, st⟩
  else some ⟨none, EINVAL, false, st⟩

/-- The prologue shared by the cases of `dmm_msg_process_generic` that answer:
`assert(msg->cm_len == len)`, then the response is created; without a response
the case ends with `ENOMEM`, else `action` runs with the response. -/
def with_resp (env : Env) (st : State) (msg : dmm_msg) (len resplen : Nat)
    (action : dmm_msg → State → Option generic_result) : Option generic_result :=
  if msg.cm_len ≠ len then none
  else
    match dmm_msg_create_resp env st 0 msg resplen with
    | (none, st) => some ⟨none, ENOMEM, false, st⟩
    | (some resp, st) => action resp st

/-- The `switch` statement of `dmm_msg_process_generic`. -/
def generic_switch (env : Env) (st : State) (node : Ptr) (msg : dmm_msg) :
    Option generic_result :=
  if msg.cm_cmd = DMM_MSG_NODECREATE then
    with_resp env st msg sizeof_nodecreate 0 fun resp st =>
      match msg.cm_data with
      | .nodecreate type => do
        let ((err, newnode), st) ← dmm_node_create env st type
        if err = 0 then
          let nn ← st.node? (← newnode)
          some ⟨some { resp with cm_src := nn.nd_id }, err, false, st⟩
        else some ⟨some resp, err, false, st⟩
      | _ => none
  else if msg.cm_cmd = DMM_MSG_NODERM then
    with_resp env st msg 0 0 fun resp st => do
      let st ← dmm_node_rm env st node
      some ⟨some resp, 0, false, st⟩
  else if msg.cm_cmd = DMM_MSG_NODECONNECT then
    with_resp env st msg sizeof_nodeconnect 0 fun resp st =>
      match msg.cm_data with
      | .nodeconnect srchook dstaddr dsthook => do
        let (dstnode, st) ← dmm_node_addr2ref env st dstaddr
        match dstnode with
        | some dstnode =>
          let (err, st) ← dmm_node_connect env st node srchook dstnode dsthook
          let st ← dmm_node_unref env st dstnode
          some ⟨some resp, err, false, st⟩
        | none => some ⟨some resp, EINVAL, false, st⟩
      | _ => none
  else if msg.cm_cmd = DMM_MSG_NODEDISCONNECT then
    with_resp env st msg sizeof_nodedisconnect 0 fun resp st =>
      match msg.cm_data with
      | .nodedisconnect srchook dstaddr dsthook => do
        let (dstnode, st) ← dmm_node_addr2ref env st dstaddr
        match dstnode with
        | some dstnode =>
          let (err, st) ← dmm_node_disconnect env st node srchook dstnode dsthook
          let st ← dmm_node_unref env st dstnode
          some ⟨some resp, err, false, st⟩
        | none => some ⟨some resp, EINVAL, false, st⟩
      | _ => none
  else if msg.cm_cmd = DMM_MSG_STARTUP then
    if msg.cm_len ≠ sizeof_startup then none else PASS_MSG_TO_NODE env st node msg
  else if msg.cm_cmd = DMM_MSG_TIMERCREATE then
    with_resp env st msg 0 sizeof_timercreate_resp fun resp st => do
      let ((err, timer), st) ← dmm_timer_create env st
      if err = 0 then
        let e ← st.event? (← timer)
        some ⟨some { resp with cm_data := .timercreate_resp e.ev_id }, err, false, st⟩
      else some ⟨some { resp with cm_data := .timercreate_resp 0 }, err, false, st⟩
  else if msg.cm_cmd = DMM_MSG_TIMERSET then
    with_resp env st msg sizeof_timerset 0 fun resp st =>
      match msg.cm_data with
      | .timerset id next interval flags => do
        let (timer, st) ← dmm_timer_id2ref st id
        let (err, st) ← dmm_timer_set st timer next interval flags
        let st ← dmm_event_unref st timer
        some ⟨some resp, err, false, st⟩
      | _ => none
  else if msg.cm_cmd = DMM_MSG_TIMERSUBSCRIBE then
    with_resp env st msg sizeof_timersubscribe 0 fun resp st =>
      match msg.cm_data with
      | .timersubscribe id => do
        let (timer, st) ← dmm_timer_id2ref st id
        let (err, st) ← dmm_timer_subscribe env st timer node
        let st ← dmm_event_unref st timer
        some ⟨some resp, err, false, st⟩
      | _ => none
  else if msg.cm_cmd = DMM_MSG_TIMERUNSUBSCRIBE then
    with_resp env st msg sizeof_timerunsubscribe 0 fun resp st =>
      match msg.cm_data with
      | .timerunsubscribe id => do
        let (timer, st) ← dmm_timer_id2ref st id
        let (err, st) ← dmm_timer_unsubscribe env st timer node
        let st ← dmm_event_unref st timer
        some ⟨some resp, err, false, st⟩
      | _ => none
  else if msg.cm_cmd = DMM_MSG_TIMERTRIGGER then
    if msg.cm_len ≠ sizeof_timertrigger then none else PASS_MSG_TO_NODE env st node msg
  else if msg.cm_cmd = DMM_MSG_TIMERRM then
    with_resp env st msg sizeof_timerrm 0 fun resp st =>
      match msg.cm_data with
      | .timerrm id => do
        let (timer, st) ← dmm_timer_id2ref st id
        if timer = 0 then some ⟨some resp, ENOENT, false, st⟩
        else
          let st ← dmm_event_unref st timer
          let st ← dmm_timer_rm env st timer
          some ⟨some resp, 0, false, st⟩
      | _ => none
  else if msg.cm_cmd = DMM_MSG_SOCKEVENTSUBSCRIBE then
    with_resp env st msg sizeof_sockeventsubscribe 0 fun resp st =>
      match msg.cm_data with
      | .sockeventsubscribe fd events => do
        let (err, st) ← dmm_sockevent_subscribe env st fd events node
        some ⟨some resp, err, false, st⟩
      | _ => none
  else if msg.cm_cmd = DMM_MSG_SOCKEVENTUNSUBSCRIBE then
    with_resp env st msg sizeof_sockeventunsubscribe 0 fun resp st =>
      match msg.cm_data with
      | .sockeventunsubscribe fd => do
        let (err, st) ← dmm_sockevent_unsubscribe env st fd node
        some ⟨some resp, err, false, st⟩
      | _ => none
  else if msg.cm_cmd = DMM_MSG_SOCKEVENTTRIGGER then
    if msg.cm_len ≠ sizeof_sockeventtrigger then none else PASS_MSG_TO_NODE env st node msg
  else if msg.cm_cmd = DMM_MSG_WAVEFINISHSUBSCRIBE then
    with_resp env st msg 0 0 fun resp st => do
      let (err, st) ← dmm_wavefinish_subscribe env st node
      some ⟨some resp, err, false, st⟩
  else if msg.cm_cmd = DMM_MSG_WAVEFINISH then
    if msg.cm_len ≠ 0 then none else PASS_MSG_TO_NODE env st node msg
  else
    some ⟨none, EINVAL, false, st⟩

/-- The function `dmm_msg_send_id`, over the function that applies a message
to a resolved node. -/
def send_id_via (apply : State → Ptr → dmm_msg → Option (Int × State))
    (st : State) (dst : Nat) (msg : dmm_msg) : Option (Int × State) := do
  let (node, st) ← dmm_node_id2ref st dst
  match node with
  | none => some (ENOENT, st)
  | some node => apply st node msg

/-- The function `dmm_msg_process_generic`, over the function `send_id` that
sends the response. -/
def dmm_msg_process_generic (env : Env)
    (send_id : State → Nat → dmm_msg → Option (Int × State))
    (st : State) (node : Ptr) (msg : dmm_msg) : Option (Int × State) := do
  if msg.cm_type ≠ DMM_MSGTYPE_GENERIC then none
  else
    let r ← generic_switch env st node msg
    let (err, st) ←
      match r.resp with
      | some resp =>
        let (resp, err) :=
          if r.err ≠ 0 then ({ resp with cm_flags := resp.cm_flags ||| DMM_MSG_ERR }, (0 : Int))
          else (resp, r.err)
        match send_id r.st msg.cm_src resp with
        | none => none
        | some (_, st) => some (err, st)
      | none => some (r.err, r.st)
    let st := if !r.msg_freed then dmm_msg_free st msg else st
    some (err, st)

/-- The function `dmm_msg_apply`.  The argument `fuel` bounds the nesting of
sends made by the runtime itself (a request, then its response). -/
def dmm_msg_apply (env : Env) : Nat → State → Ptr → dmm_msg → Option (Int × State)
  | 0, _, _, _ => none
  | fuel + 1, st, node, msg => do
    let n ← st.node? node
    if !DMM_NODE_ISVALID n then
      let st := dmm_msg_free st msg
      let st ← dmm_node_unref env st node
      some (EINVAL, st)
    else
      let (err, st) ←
        if msg.cm_type = DMM_MSGTYPE_GENERIC ∧ msg.cm_flags &&& DMM_MSG_RESP = 0 then
          dmm_msg_process_generic env (send_id_via (dmm_msg_apply env fuel)) st node msg
        else if n.nd_type.rcvmsg then
          some (call_rcvmsg env st n.nd_type node msg)
        else some (EINVAL, st)
      let st ← dmm_node_unref env st node
      some (err, st)

/-- The function `dmm_msg_send_ref`. -/
def dmm_msg_send_ref (env : Env) (fuel : Nat) (st : State) (node : Ptr) (msg : dmm_msg) :
    Option (Int × State) :=
  dmm_msg_apply env fuel st node msg

/-- The function `dmm_msg_send_id`. -/
def dmm_msg_send_id (env : Env) (fuel : Nat) (st : State) (dst : Nat) (msg : dmm_msg) :
    Option (Int × State) :=
  send_id_via (dmm_msg_apply env fuel) st dst msg

/-! ## Assumptions on the environment -/

/-- The callbacks leave the state of the runtime as they found it. -/
structure Env.Passive (env : Env) : Prop where
  ctor : ∀ t p s, (env.ctor t p s).2 = s
  dtor : ∀ t p s, env.dtor t p s = s
  rcvdata : ∀ t h d s, (env.rcvdata t h d s).2 = s
  rcvmsg : ∀ t n m s, (env.rcvmsg t n m s).2 = s
  newhook : ∀ t p s, (env.newhook t p s).2 = s
  rmhook : ∀ t p s, env.rmhook t p s = s
  hook_rcvdata : ∀ f h d s, (env.hook_rcvdata f h d s).2 = s

/-- The type accepts every hook: its `newhook` callback, when it has one,
returns `0`. -/
def accepts_hooks (env : Env) (t : dmm_type) : Prop :=
  t.newhook = true → ∀ p s, (env.newhook t p s).1 = 0

/-- The hook list of a node for a direction. -/
def dmm_node.hooks (n : dmm_node) : DMM_HOOK_DIRECTION → List Ptr
  | .DMM_HOOK_IN => n.nd_inhooks
  | .DMM_HOOK_OUT => n.nd_outhooks

/-- The name is a C string that `dmm_hook_create` accepts, as the
specification words it: not empty, without brackets, shorter than the
32-byte buffer. -/
def hook_name_ok (name : List Char) : Prop :=
  name ≠ [] ∧ '[' ∉ name ∧ ']' ∉ name ∧ name.length ≤ 31

/-- The hook that a successful `dmm_hook_create` leaves: valid and holding
the temporary reference. -/
def created_hook (node : Ptr) (dir : DMM_HOOK_DIRECTION) (name : List Char) : dmm_hook :=
  { fresh_hook node dir name with
    hk_flags := (DMM_HOOK_INVALID_BIT ||| dir.val) &&& NOT_BIT0, hk_refs := 1 }

/-- The node `n` once the new hook `p` heads its hook list and holds a
reference to it. -/
def node_with_hook (n : dmm_node) (dir : DMM_HOOK_DIRECTION) (p : Ptr) : dmm_node :=
  { insert_nodehook n dir p with nd_refs := n.nd_refs + 1 }

/-- The node `owner` once the hook `p` has left its hook lists and dropped
its reference. -/
def node_without_hook (owner : dmm_node) (p : Ptr) : dmm_node :=
  { owner with nd_inhooks := owner.nd_inhooks.erase p, nd_outhooks := owner.nd_outhooks.erase p,
               nd_refs := owner.nd_refs - 1 }

/-- The allocator has not handed out the addresses above its counter: no hook
is stored there and no hook list mentions them. -/
structure State.alloc_ok (st : State) : Prop where
  hooks_fresh : ∀ p : Nat, st.nalloc < p → st.hook? p = none
  lists_fresh : ∀ q n, st.node? q = some n →
    ∀ p : Nat, p ∈ n.nd_inhooks ∨ p ∈ n.nd_outhooks → p ≤ st.nalloc

/-- A created hook with the given peer list and reference count. -/
def hook_with (node : Ptr) (dir : DMM_HOOK_DIRECTION) (name : List Char) (peers : List Ptr)
    (refs : Nat) : dmm_hook :=
  { created_hook node dir name with hk_peers := peers, hk_refs := refs }

/-- The state after connecting node `A` (stored as `a`) to node `B` (stored
as `b`) through two new hooks: the out-hook at the first fresh address and the
in-hook at the second one, each with the other as its only peer and with one
reference, linked at the head of the hook list of its node. -/
def st_connected (st : State) (A B : Ptr) (o i : List Char) (a b : dmm_node) : State :=
  (((((st.bump.bump.bump.bump.logIf a.nd_type.newhook (Ev.newhook (st.nalloc + 1))).logIf
      b.nd_type.newhook (Ev.newhook (st.nalloc + 2))).setHook (st.nalloc + 1)
      (hook_with A .DMM_HOOK_OUT o [st.nalloc + 2] 1)).setHook (st.nalloc + 2)
      (hook_with B .DMM_HOOK_IN i [st.nalloc + 1] 1)).setNode A
      (node_with_hook a .DMM_HOOK_OUT (st.nalloc + 1))).setNode B
      (node_with_hook b .DMM_HOOK_IN (st.nalloc + 2))

/-- The state after the two hooks of `st_connected` have been disconnected:
the heap and the lists of `st`, four more allocations, and in the log the
`newhook` and `rmhook` callbacks and the release of the two hooks. -/
def st_disconnected (st : State) (a b : dmm_node) : State :=
  (((((st.bump.bump.bump.bump.logIf a.nd_type.newhook (Ev.newhook (st.nalloc + 1))).logIf
      b.nd_type.newhook (Ev.newhook (st.nalloc + 2))).logIf
      b.nd_type.rmhook (Ev.rmhook (st.nalloc + 2))).log (Ev.hook_free (st.nalloc + 2))).logIf
      a.nd_type.rmhook (Ev.rmhook (st.nalloc + 1))).log (Ev.hook_free (st.nalloc + 1))

/-! ## A concrete environment and concrete states -/

/-- Read the decimal digits at the head of `s`. -/
def scan_digits : List Char → Nat → Nat
  | [], acc => acc
  | c :: cs, acc => if c.isDigit then scan_digits cs (acc * 10 + (c.toNat - 48)) else acc

/-- The white space that a conversion of `sscanf` skips: space, `\t`, `\n`,
`\v`, `\f`, `\r`. -/
def isspace (c : Char) : Bool :=
  c.toNat = 32 || (9 ≤ c.toNat && c.toNat ≤ 13)

/-- The call `sscanf(addr, "[%u]", &id) > 0` as the C library does it: the
bracket is matched, then `%u` skips white space, takes a sign and reads the
decimal digits, of which there must be one; the number is converted as by
`strtoul` (saturating at `ULONG_MAX` of 64 bits, negated modulo 2^64 after a
minus sign) and stored in the 32-bit `id`.  What follows the digits does not
change the count. -/
def scan_id : List Char → Option Nat
  | '[' :: cs =>
    let cs := cs.dropWhile isspace
    let neg := cs.head? = some '-'
    let cs := if cs.head? = some '-' ∨ cs.head? = some '+' then cs.tail else cs
    match cs with
    | c :: _ =>
      if c.isDigit then
        let v := scan_digits cs 0
        let w := if 18446744073709551616 ≤ v then 18446744073709551615
          else if neg then (18446744073709551616 - v) % 18446744073709551616 else v
        some (w % UINT32_MOD)
      else none
    | [] => none
  | _ => none

/-- An environment where every allocation succeeds and every callback returns
`0` without touching the state. -/
def env0 : Env :=
  { malloc_ok := fun _ => true
    sscanf_id := scan_id
    fd_ok := fun _ => true
    ctor := fun _ _ s => (0, s)
    dtor := fun _ _ s => s
    rcvdata := fun _ _ _ s => (0, s)
    rcvmsg := fun _ _ _ s => (0, s)
    newhook := fun _ _ s => (0, s)
    rmhook := fun _ _ s => s
    hook_rcvdata := fun _ _ _ s => (0, s) }

/-- A type with all its callbacks. -/
def type_full : dmm_type :=
  { addr := 1, tp_name := ['t'], ctor := true, dtor := true, rcvdata := true, rcvmsg := true,
    newhook := true, rmhook := true }

/-- A type without callbacks. -/
def type_bare : dmm_type :=
  { addr := 2, tp_name := ['b'], ctor := false, dtor := false, rcvdata := false, rcvmsg := false,
    newhook := false, rmhook := false }

/-- The state at start-up with the two types registered. -/
def st_boot : State := { typelist := [type_bare, type_full] }

/-- The state an operation leaves (the start-up state when it aborts). -/
def state_of {α : Type} (r : Option (α × State)) : State :=
  match r with
  | some (_, s) => s
  | none => {}

/-- After creating node A (address 1, id 1) of the type with callbacks. -/
def st_A : State := state_of (dmm_node_create env0 st_boot ['t'])

/-- After creating node B (address 2, id 2) of the type without callbacks. -/
def st_AB : State := state_of (dmm_node_create env0 st_A ['b'])

/-- Node A as `dmm_node_create` leaves it. -/
def node_A : dmm_node :=
  { nd_id := 1, nd_name := [], nd_flags := 0, nd_type := type_full, nd_rcvmsg := 0,
    nd_pvt := 0, nd_inhooks := [], nd_outhooks := [], nd_events := [], nd_refs := 1 }

/-- Node B as `dmm_node_create` leaves it. -/
def node_B : dmm_node :=
  { nd_id := 2, nd_name := [], nd_flags := 0, nd_type := type_bare, nd_rcvmsg := 0,
    nd_pvt := 0, nd_inhooks := [], nd_outhooks := [], nd_events := [], nd_refs := 1 }

/-- After connecting the out-hook `o` of node A to the in-hook `i` of node B:
the out-hook is at address 3 and the in-hook at address 4. -/
def st_conn : State := state_of (dmm_node_connect env0 st_AB 1 ['o'] 2 ['i'])

/-- Node A once its out-hook `o` exists. -/
def node_A_conn : dmm_node := node_with_hook node_A .DMM_HOOK_OUT 3

/-- Node B once its in-hook `i` exists. -/
def node_B_conn : dmm_node := node_with_hook node_B .DMM_HOOK_IN 4

/-- The out-hook `o` of node A, connected to the in-hook of node B. -/
def hook_o : dmm_hook := hook_with 1 .DMM_HOOK_OUT ['o'] [4] 1

/-- The in-hook `i` of node B, connected to the out-hook of node A. -/
def hook_i : dmm_hook := hook_with 2 .DMM_HOOK_IN ['i'] [3] 1

/-- The state after connecting node `A` (stored as `a`) to itself through two
new hooks: the out-hook at the first fresh address and the in-hook at the
second one, each with the other as its only peer and with one reference, both
linked at the head of the hook lists of `A`, which holds two more
references. -/
def st_connected_self (st : State) (A : Ptr) (o i : List Char) (a : dmm_node) : State :=
  ((((st.bump.bump.bump.bump.logIf a.nd_type.newhook (Ev.newhook (st.nalloc + 1))).logIf
      a.nd_type.newhook (Ev.newhook (st.nalloc + 2))).setHook (st.nalloc + 1)
      (hook_with A .DMM_HOOK_OUT o [st.nalloc + 2] 1)).setHook (st.nalloc + 2)
      (hook_with A .DMM_HOOK_IN i [st.nalloc + 1] 1)).setNode A
      (node_with_hook (node_with_hook a .DMM_HOOK_OUT (st.nalloc + 1)) .DMM_HOOK_IN
        (st.nalloc + 2))

/-! ## Statement helpers for the message dispatch -/

/-- The command codes that have a `case` label in the `switch` of
`dmm_msg_process_generic`. -/
def generic_commands : List Nat :=
  [DMM_MSG_NODECREATE, DMM_MSG_NODERM, DMM_MSG_NODECONNECT, DMM_MSG_NODEDISCONNECT,
   DMM_MSG_STARTUP, DMM_MSG_TIMERCREATE, DMM_MSG_TIMERSET, DMM_MSG_TIMERSUBSCRIBE,
   DMM_MSG_TIMERUNSUBSCRIBE, DMM_MSG_TIMERTRIGGER, DMM_MSG_TIMERRM,
   DMM_MSG_SOCKEVENTSUBSCRIBE, DMM_MSG_SOCKEVENTUNSUBSCRIBE, DMM_MSG_SOCKEVENTTRIGGER,
   DMM_MSG_WAVEFINISHSUBSCRIBE, DMM_MSG_WAVEFINISH]

/-- A generic request from the node with id `src`, with the given command,
payload length and payload, stored at address 100, with token 7. -/
def request (src cmd len : Nat) (data : msg_data) : dmm_msg :=
  { ptr := 100, cm_src := src, cm_cmd := cmd, cm_type := DMM_MSGTYPE_GENERIC, cm_token := 7,
    cm_flags := 0, cm_len := len, cm_data := data }

/-- A request to set the timer with id 99 to fire in one second, once. -/
def request_timerset : dmm_msg :=
  request 1 DMM_MSG_TIMERSET sizeof_timerset (.timerset 99 ⟨1, 0⟩ ⟨0, 0⟩ 0)

/-- A request to remove the timer with id 99. -/
def request_timerrm : dmm_msg := request 1 DMM_MSG_TIMERRM sizeof_timerrm (.timerrm 99)

/-- A request to subscribe the receiver to the timer with id 99. -/
def request_timersubscribe : dmm_msg :=
  request 1 DMM_MSG_TIMERSUBSCRIBE sizeof_timersubscribe (.timersubscribe 99)

/-- A request to unsubscribe the receiver from the timer with id 99. -/
def request_timerunsubscribe : dmm_msg :=
  request 1 DMM_MSG_TIMERUNSUBSCRIBE sizeof_timerunsubscribe (.timerunsubscribe 99)

/-- The response to `request_timerrm` as the runtime sends it when the timer
does not exist: at address 3, from the system, with the response and error
flags. -/
def response_timerrm : dmm_msg :=
  { ptr := 3, cm_src := 0, cm_cmd := DMM_MSG_TIMERRM, cm_type := DMM_MSGTYPE_GENERIC,
    cm_token := 7, cm_flags := DMM_MSG_RESP ||| DMM_MSG_ERR, cm_len := 0, cm_data := .empty }

/-- A message of a module-defined type (not the generic one). -/
def msg_module : dmm_msg :=
  { ptr := 100, cm_src := 1, cm_cmd := 5, cm_type := 77, cm_token := 7, cm_flags := 0,
    cm_len := 0, cm_data := .empty }

/-- A response of the generic type. -/
def msg_response : dmm_msg :=
  { ptr := 100, cm_src := 1, cm_cmd := DMM_MSG_NODECREATE, cm_type := DMM_MSGTYPE_GENERIC,
    cm_token := 7, cm_flags := DMM_MSG_RESP, cm_len := 0, cm_data := .empty }

/-! ## modules/prepend/prepend.c: the control messages of a prepend node -/

def DMM_MSGTYPE_PREPEND : Nat := 0x8ed9b58c
def DMM_MSG_PREPEND_SET : Nat := 1
def DMM_MSG_PREPEND_GET : Nat := 2
def DMM_MSG_PREPEND_CLEAR : Nat := 3

/-- The struct `pvt_data` of a prepend node: the stored datanode (sensor,
length, bytes), `none` for `NULL`, and the out-hook, `none` for `NULL`. -/
structure pvt_data where
  dn : Option (Nat × Nat × List Nat)
  outhook : Option Ptr
deriving DecidableEq, Repr

/-- The macro `CREATE_SEND_EMPTY_RESP` of `rcvmsg` in `prepend.c` (the same
text is in `net/ip/recv.c`): the values of `err` and of `*msg` after it, over
the function `send_id` that sends the response. -/
def CREATE_SEND_EMPTY_RESP (env : Env)
    (send_id : State → Nat → dmm_msg → Option (Int × State))
    (st : State) (nd_id : Nat) (msg : dmm_msg) (err : Int) : Option ((Int × dmm_msg) × State) :=
  match dmm_msg_create_resp env st nd_id msg 0 with
  | (some resp, st) =>
    let msg := if err ≠ 0 then { msg with cm_flags := msg.cm_flags ||| DMM_MSG_ERR } else msg
    match send_id st msg.cm_src resp with
    | none => none
    | some (_, st) => some ((err, msg), st)
  | (none, st) => some ((if err ≠ 0 then err else ENOMEM, msg), st)

/-- The function `rcvmsg` of `prepend.c`: the error code and the private data
it leaves. -/
def prepend_rcvmsg (env : Env) (send_id : State → Nat → dmm_msg → Option (Int × State))
    (st : State) (node : Ptr) (pvt : pvt_data) (msg : dmm_msg) :
    Option ((Int × pvt_data) × State) := do
  let n ← st.node? node
  if msg.cm_flags &&& DMM_MSG_RESP ≠ 0 then some ((0, pvt), st)
  else
    let ((err, pvt, msg), st) ←
      if msg.cm_type = DMM_MSGTYPE_PREPEND then
        if msg.cm_cmd = DMM_MSG_PREPEND_SET then
          match msg.cm_data with
          | .prepend_set sensor len data =>
            match DMM_MALLOC env st with
            | (none, st) => do
              let ((err, msg), st) ← CREATE_SEND_EMPTY_RESP env send_id st n.nd_id msg ENOMEM
              some ((err, { pvt with dn := none }, msg), st)
            | (some _, st) => do
              let ((err, msg), st) ← CREATE_SEND_EMPTY_RESP env send_id st n.nd_id msg 0
              some ((err, { pvt with dn := some (sensor, len, data) }, msg), st)
          | _ => none
        else if msg.cm_cmd = DMM_MSG_PREPEND_CLEAR then do
          let ((err, msg), st) ← CREATE_SEND_EMPTY_RESP env send_id st n.nd_id msg 0
          some ((err, { pvt with dn := none }, msg), st)
        else some ((ENOTSUP, pvt, msg), st)
      else some ((ENOTSUP, pvt, msg), st)
    some ((err, pvt), dmm_msg_free st msg)

/-- An environment whose allocator fails the request number `k` (counted from
zero) and no other. -/
def env_fail (k : Nat) : Env := { env0 with malloc_ok := fun i => i ≠ k }

/-- A `PREPEND_SET` request from node 1 (token 7), at address 100. -/
def request_prepend_set : dmm_msg :=
  { ptr := 100, cm_src := 1, cm_cmd := DMM_MSG_PREPEND_SET, cm_type := DMM_MSGTYPE_PREPEND,
    cm_token := 7, cm_flags := 0, cm_len := 12, cm_data := .prepend_set 5 4 [1, 2, 3, 4] }

/-- The response to `request_prepend_set` that reaches node 1 when the
allocation of the datanode fails: from node 2, at address 4, with the response
flag only. -/
def response_prepend_set : dmm_msg :=
  { ptr := 4, cm_src := 2, cm_cmd := DMM_MSG_PREPEND_SET, cm_type := DMM_MSGTYPE_PREPEND,
    cm_token := 7, cm_flags := DMM_MSG_RESP, cm_len := 0, cm_data := .empty }

/-! ## Runs of creations and the states used for the id counters and names -/

/-- A run of calls of `dmm_node_create`, one per type name of the list,
successful or not: the ids of the nodes created, in the order of creation, and
the final state. -/
def create_nodes (env : Env) : State → List (List Char) → Option (List Nat × State)
  | st, [] => some ([], st)
  | st, t :: ts => do
    let ((_, r), st) ← dmm_node_create env st t
    let (ids, st') ← create_nodes env st ts
    match r with
    | none => some (ids, st')
    | some p =>
      let n ← st.node? p
      some (n.nd_id :: ids, st')

/-- The start-up state once the node id counter has reached its last value. -/
def st_lastid : State := { st_boot with lastnodeid := 4294967295 }

/-- Node 1 named `x`. -/
def st_named1 : State := state_of (dmm_node_setname st_AB 1 (some ['x']))

/-- Node 1 and node 2 both named `x`. -/
def st_named2 : State := state_of (dmm_node_setname st_named1 2 (some ['x']))

/-- The calls of the runtime that create an event object: `dmm_timer_create`,
and `dmm_sockevent_subscribe` and `dmm_wavefinish_subscribe` when the event
they look up does not exist yet. -/
inductive event_call where
  | timer_create
  | sockevent_subscribe (fd : Int) (events : Nat) (node : Ptr)
  | wavefinish_subscribe (node : Ptr)
deriving DecidableEq, Repr

/-- One call that may create an event: the address of the event object it has
created, and the state.  `dmm_timer_create` returns the address; the two
subscribing functions return an error code only, and the event they have
created is the one that they have linked at the head of their list, which is
one longer than before. -/
def run_event_call (env : Env) (st : State) : event_call → Option (Option Ptr × State)
  | .timer_create => (dmm_timer_create env st).map (fun r => (r.1.2, r.2))
  | .sockevent_subscribe fd events node =>
    (dmm_sockevent_subscribe env st fd events node).map (fun r =>
      (if r.2.sockeventlist.length = st.sockeventlist.length + 1 then r.2.sockeventlist.head?
        else none, r.2))
  | .wavefinish_subscribe node =>
    (dmm_wavefinish_subscribe env st node).map (fun r =>
      (if r.2.wavefinishlist.length = st.wavefinishlist.length + 1 then r.2.wavefinishlist.head?
        else none, r.2))

/-- A run of calls that may create events, successful or not: the ids of the
events created, in the order of creation, and the final state. -/
def create_events (env : Env) : State → List event_call → Option (List Nat × State)
  | st, [] => some ([], st)
  | st, c :: cs => do
    let (r, st) ← run_event_call env st c
    let (ids, st') ← create_events env st cs
    match r with
    | none => some (ids, st')
    | some p =>
      let e ← st.event? p
      some (e.ev_id :: ids, st')

/-- The step from `s` to `s1` neither creates nor frees an event: the counter
and the three lists of events are the same, and every address holds an event
with the same id and the same destructor, or none, as before. -/
structure ekeep (s s1 : State) : Prop where
  last : s1.lasteventid = s.lasteventid
  tl : s1.timerlist = s.timerlist
  sl : s1.sockeventlist = s.sockeventlist
  wl : s1.wavefinishlist = s.wavefinishlist
  ids : ∀ q, (s1.event? q).map (fun e => (e.ev_id, e.ev_destructor)) =
    (s.event? q).map (fun e => (e.ev_id, e.ev_destructor))

/-- The step from `s` to `s1` creates no event: the counter is the same and
no list of events is longer. -/
structure edrop (s s1 : State) : Prop where
  last : s1.lasteventid = s.lasteventid
  tl : s1.timerlist.length ≤ s.timerlist.length
  sl : s1.sockeventlist.length ≤ s.sockeventlist.length
  wl : s1.wavefinishlist.length ≤ s.wavefinishlist.length

/-- What one call that may create an event does to the counter, and the id
of the event `r` it has created: the counter stays or is incremented (modulo
2^32), and the event has the incremented counter as its id. -/
def call_id_ok (s s1 : State) (r : Option Ptr) : Prop :=
  (s1.lasteventid = s.lasteventid ∨ s1.lasteventid = (s.lasteventid + 1) % UINT32_MOD) ∧
  ∀ p, r = some p → ∃ e, s1.event? p = some e ∧
    e.ev_id = (s.lasteventid + 1) % UINT32_MOD ∧ s1.lasteventid = e.ev_id

/-! ## dmm_base.c: data frames -/

/-- The value of `sizeof(struct dmm_datanode)`: two 32-bit fields and a
flexible array member. -/
def sizeof_dmm_datanode : Nat := 8

/-- The modulus of `size_t` arithmetic (LP64). -/
def SIZE_MOD : Nat := 18446744073709551616

def State.data? (st : State) (p : Ptr) : Option dmm_data := st.datas p

def State.setData (st : State) (p : Ptr) (d : dmm_data) : State :=
  { st with datas := Function.update st.datas p (some d) }

def State.delData (st : State) (p : Ptr) : State :=
  { st with datas := Function.update st.datas p none }

/-- The macro `DMM_MALLOC(size)` where the size matters: the log records the
size of the block that was reserved. -/
def DMM_MALLOC_size (env : Env) (st : State) (size : Nat) : Option Ptr × State :=
  match DMM_MALLOC env st with
  | (none, st) => (none, st)
  | (some p, st) => (some p, st.log (Ev.malloc p size))

/-- The function `dmm_data_ref`; the log records the acquisition. -/
def dmm_data_ref (st : State) (p : Ptr) : Option State := do
  let d ← st.data? p
  let r ← dmm_refacquire d.da_refs
  some ((st.setData p { d with da_refs := r }).log (Ev.data_ref p))

/-- The function `dmm_data_free`. -/
def dmm_data_free (st : State) (p : Ptr) : State := (st.log (Ev.data_free p)).delData p

/-- The function `dmm_data_unref`. -/
def dmm_data_unref (st : State) (p : Ptr) : Option State := do
  let d ← st.data? p
  let (last, r) ← dmm_refrelease d.da_refs
  let st := st.setData p { d with da_refs := r }
  if last then some (dmm_data_free st p) else some st

/-- The function `dmm_data_create_raw`; `numnodes` and `datalen` are `size_t`,
the sum is computed in `size_t` and stored in `da_len`, a `dmm_size_t`
(`uint32_t`); the buffer is allocated with the stored length. -/
def dmm_data_create_raw (env : Env) (st : State) (numnodes datalen : Nat) :
    Option Ptr × State :=
  match DMM_MALLOC env st with
  | (none, st) => (none, st)
  | (some data, st) =>
    let da_len := (((numnodes + 1) * sizeof_dmm_datanode + datalen) % SIZE_MOD) % UINT32_MOD
    match DMM_MALLOC_size env st da_len with
    | (none, st) => (none, dmm_data_free st data)
    | (some nodes, st) =>
      let st := st.setData data { da_nodes := nodes, da_len := da_len, da_refs := dmm_refinit }
      match dmm_data_ref st data with
      | none => (none, st)
      | some st => (some data, st)

/-- The receive function `dmm_data_passtohook` selects: the per-hook function
when `hk_rcvdata` is set, else the `rcvdata` of the owner type; `none` when
both are `NULL`. -/
def rcvfunc (env : Env) (h : dmm_hook) (t : dmm_type) :
    Option (Ptr → Ptr → State → Int × State) :=
  if h.hk_rcvdata ≠ 0 then some (env.hook_rcvdata h.hk_rcvdata)
  else if t.rcvdata then some (env.rcvdata t)
  else none

/-- The function `dmm_data_passtohook`. -/
def dmm_data_passtohook (env : Env) (st : State) (data hook : Ptr) : Option (Int × State) := do
  let h ← st.hook? hook
  if !DMM_HOOK_ISIN h then none
  else if !DMM_HOOK_ISVALID h then some (EINVAL, st)
  else
    let n ← st.node? h.hk_node
    match rcvfunc env h n.nd_type with
    | some f =>
      let st ← dmm_hook_ref st hook
      let (res, st) := f hook data (st.log (Ev.rcvdata hook data))
      let st ← dmm_hook_unref env st hook
      some (res, st)
    | none => some (ENOTSUP, st)

/-- The body of the loop of `dmm_data_send` for the peer record of `peer`. -/
def dmm_data_send_step (env : Env) (data : Ptr) (st : State) (peer : Ptr) : Option State := do
  let st ← dmm_data_ref st data
  let (_, st) ← dmm_data_passtohook env st data peer
  some st

/-- The function `dmm_data_send`.  The loop visits the peer records that are
linked when it starts. -/
def dmm_data_send (env : Env) (st : State) (data hook : Ptr) : Option State := do
  let h ← st.hook? hook
  if !DMM_HOOK_ISOUT h then none
  else if !DMM_HOOK_ISVALID h then some st
  else
    let st ← dmm_hook_ref st hook
    let st ← h.hk_peers.foldlM (dmm_data_send_step env data) st
    dmm_hook_unref env st hook

/-! ## dmm_module.c: the type registry -/

/-- The function `strlen`: the number of characters before the first NUL. -/
def strlen (s : List Char) : Nat := (s.takeWhile (fun c => c != NUL)).length

/-- The function `dmm_type_register`. -/
def dmm_type_register (st : State) (type : dmm_type) : Int × State :=
  let namelen := strlen type.tp_name
  if namelen = 0 ∨ namelen > DMM_TYPENAMESIZE - 1 then (EINVAL, st)
  else if (dmm_type_find st type.tp_name).isSome then (EEXIST, st)
  else (0, { st with typelist := type :: st.typelist })

/-- A type name as `dmm_type_register` accepts it: a C string of 1 to 31
bytes. -/
def type_name_ok (name : List Char) : Prop :=
  NUL ∉ name ∧ 1 ≤ name.length ∧ name.length ≤ 31

/-- Every descriptor of the registry has a name that fits `tp_name`, as is the
case for a registry filled by `dmm_type_register`. -/
def registry_ok (st : State) : Prop := ∀ t ∈ st.typelist, type_name_ok t.tp_name

/-- A descriptor without callbacks, with the given address and name. -/
def type_named (addr : Nat) (name : List Char) : dmm_type :=
  { addr := addr, tp_name := name, ctor := false, dtor := false, rcvdata := false,
    rcvmsg := false, newhook := false, rmhook := false }

/-- A state whose registry is empty. -/
def st_empty : State := {}

/-! ## Concrete states with a timer -/

/-- After creating a timer (address 3, event id 1) in the two-node state. -/
def st_T : State := state_of (dmm_timer_create env0 st_AB)

/-- The timer as `dmm_timer_create` leaves it. -/
def event_T : dmm_event :=
  { ev_id := 1, ev_nodes := [], ev_refs := 1, ev_destructor := some .timer_destructor,
    ext := .timer ⟨0, ⟨0, 0⟩, ⟨0, 0⟩⟩ }

/-- The state `st_T` at the time 100 s. -/
def st_T100 : State := { st_T with realtime := ⟨100, 0⟩ }

/-- The timer of `st_T100` armed to fire at 110 s, every 10 s. -/
def st_armed : State := state_of (dmm_timer_set st_T100 3 ⟨10, 0⟩ ⟨10, 0⟩ 0)

/-- The timer of `st_armed` after `dmm_timer_unset`. -/
def st_unset : State := (dmm_timer_unset st_armed 3).getD {}

/-- What a timer looks like from outside: its flags, its next fire time and
its interval. -/
def timer_view (st : State) (p : Ptr) : Option (Nat × timespec × timespec) :=
  (st.timer? p).map (fun r => (r.2.tm_flags, r.2.tm_next, r.2.tm_interval))

/-! ## Statement helpers for the fan-out of data frames -/

/-- Whether `dmm_data_passtohook` calls a receive function for the in-hook
`peer`: the hook is valid and it, or the type of its node, has one. -/
def delivered (env : Env) (st : State) (peer : Ptr) : Bool :=
  match st.hook? peer with
  | none => false
  | some x =>
    DMM_HOOK_ISVALID x &&
      (match st.node? x.hk_node with
       | none => false
       | some n => (rcvfunc env x n.nd_type).isSome)

/-- The log entries of a fan-out over `peers`, most recent first: for each
peer in turn the acquisition of a reference on the frame, then the call of the
receive function when there is one. -/
def delivery_log (env : Env) (st : State) (data : Ptr) : List Ptr → List Ev
  | [] => []
  | p :: ps =>
    delivery_log env st data ps ++
      ((if delivered env st p then [Ev.rcvdata p data] else []) ++ [Ev.data_ref data])

/-- The connected state with a data frame (address 7, buffer at 8) holding
its first reference. -/
def st_data : State := (dmm_data_create_raw env0 st_conn 0 0).2

/-- An environment whose type-level receive function releases the reference
on the frame it is handed, as the modules do, and returns `EINVAL`. -/
def env_unref : Env :=
  { env0 with rcvdata := fun _ _ d s => (EINVAL, (dmm_data_unref s d).getD s) }

/-- Node B (type without callbacks) connected to node A (type with
callbacks): the out-hook `o` of B at address 3, the in-hook `i` of A at 4. -/
def st_conn_BA : State := state_of (dmm_node_connect env0 st_AB 2 ['o'] 1 ['i'])

/-- The state `st_conn_BA` with a second in-hook `j` on node A (address 7)
connected to the out-hook of B, and a data frame at address 10. -/
def st_data_BA : State :=
  (dmm_data_create_raw env0 (state_of (dmm_node_connect env0 st_conn_BA 2 ['o'] 1 ['j'])) 0 0).2

/-- The out-hook `o` of node B in `st_data_BA`, with its two peers. -/
def hook_o_BA : dmm_hook := hook_with 2 .DMM_HOOK_OUT ['o'] [7, 4] 2

/-- The data frame of `st_data_BA`. -/
def data_BA : dmm_data := { da_nodes := 11, da_len := 8, da_refs := 1 }

/-- The condition of the claim on a peer, read off the stored objects: the
in-hook is valid and has a receive-data function, its own (`hk_rcvdata` is
not `NULL`) or the one of the type of its node. -/
def has_receiver (st : State) (peer : Ptr) : Bool :=
  match st.hook? peer with
  | none => false
  | some x =>
    DMM_HOOK_ISVALID x &&
      (x.hk_rcvdata != 0 ||
        (match st.node? x.hk_node with
         | none => false
         | some n => n.nd_type.rcvdata))

/-- The receive-data function of a peer as the claim means it: the function
of the hook when the hook has one, else the function of the type of its
node. -/
def receiver_of (env : Env) (st : State) (peer : Ptr) : Ptr → Ptr → State → Int × State :=
  match st.hook? peer with
  | none => fun _ _ s => (0, s)
  | some x =>
    if x.hk_rcvdata != 0 then env.hook_rcvdata x.hk_rcvdata
    else
      match st.node? x.hk_node with
      | none => fun _ _ s => (0, s)
      | some n => env.rcvdata n.nd_type

/-- One round of the fan-out as the claim words it, for the peers as they are
in `st0`: the frame gains one reference; then, when the peer is valid and has
a receive-data function, that function is invoked once, with the peer and the
frame, while the peer holds one more reference, and its result code is
dropped. -/
def fanout_round (env : Env) (st0 : State) (data : Ptr) (s : State) (peer : Ptr) : State :=
  match s.data? data, st0.hook? peer with
  | some d, some x =>
    let s1 := (s.setData data { d with da_refs := d.da_refs + 1 }).log (Ev.data_ref data)
    if has_receiver st0 peer then
      (receiver_of env st0 peer peer data
        ((s1.setHook peer { x with hk_refs := x.hk_refs + 1 }).log
          (Ev.rcvdata peer data))).2.setHook peer x
    else s1
  | _, _ => s

/-- The log entries of a fan-out over `peers` as the claim words it, most
recent first: for each peer in turn the acquisition of a reference on the
frame, then the invocation of the receive-data function when the peer is valid
and has one. -/
def fanout_log (st : State) (data : Ptr) : List Ptr → List Ev
  | [] => []
  | p :: ps =>
    fanout_log st data ps ++
      ((if has_receiver st p then [Ev.rcvdata p data] else []) ++ [Ev.data_ref data])

/-- What a receiver of the frame `data` may do to the state `s` it is called
in: it changes the data heap only, and it leaves the frame allocated with at
least one reference and not more references than it found (it releases the
reference it was handed, or keeps it). -/
def keeps_frame (data : Ptr) (s s' : State) : Prop :=
  (∃ ds, s' = { s with datas := ds }) ∧
  ∀ r, s.data? data = some r →
    ∃ r', s'.data? data = some r' ∧ 1 ≤ r'.da_refs ∧ r'.da_refs ≤ r.da_refs

/-- The receive-data functions of the environment, of the types and of the
hooks, keep the frame `data` whenever they are called with it while it holds
the reference of the sender and the one taken for the receiver. -/
def Env.receivers_keep (env : Env) (data : Ptr) : Prop :=
  (∀ t h s r, s.data? data = some r → 2 ≤ r.da_refs →
    keeps_frame data s (env.rcvdata t h data s).2) ∧
  (∀ k h s r, s.data? data = some r → 2 ≤ r.da_refs →
    keeps_frame data s (env.hook_rcvdata k h data s).2)

/-! ## dmm_base.c and dmm_event.c: broadcasting a message to the subscribers -/

/-- The function `dmm_msg_copy`: the copy lives at a new address. -/
def dmm_msg_copy (env : Env) (st : State) (msg : dmm_msg) : Option dmm_msg × State :=
  match DMM_MALLOC env st with
  | (none, st) => (none, st)
  | (some p, st) => (some { msg with ptr := p }, st)

/-- The body of the loop of `dmm_event_sendsubscribed` for the subscriber
record of `node`. -/
def sendsubscribed_step (env : Env) (fuel : Nat) (msg : dmm_msg) (st : State) (node : Ptr) :
    Option State := do
  let n ← st.node? node
  if !DMM_NODE_ISVALID n then some st
  else
    match dmm_msg_copy env st msg with
    | (some copy, st) => do
      let st ← dmm_node_ref st node
      let (_, st) ← dmm_msg_send_ref env fuel st node copy
      some st
    | (none, st) => some st

/-- The records that `TAILQ_FOREACH_SAFE` still has to visit are linked: the
event at `event` is there and the last records of its subscriber list are
`rest`. -/
def subscribers_linked (st : State) (event : Ptr) (rest : List Ptr) : Bool :=
  match st.event? event with
  | none => false
  | some e => e.ev_nodes.drop (e.ev_nodes.length - rest.length) == rest

/-- The loop `TAILQ_FOREACH_SAFE(en, &event->ev_nodes, en_nodelist, tmp_en)` of
`dmm_event_sendsubscribed`, at the record of `node` with the records `rest`
after it.  The macro reads the next record before the body runs and goes on
there once the body has returned, so a handler may unlink the record of the
node it serves and the records before it, not a record after it.  When `rest`
is not empty and is no longer the tail of the live list (a handler has
unsubscribed a node still to be visited or removed the event, which frees the
records, or has subscribed a node), the model gives no result: the loop would
read a record that was freed, or visit records the model does not tell apart,
records being known by their place in the list only. -/
def sendsubscribed_walk (env : Env) (fuel : Nat) (msg : dmm_msg) (event : Ptr) :
    List Ptr → State → Option State
  | [], st => some st
  | node :: rest, st => do
    let st ← sendsubscribed_step env fuel msg st node
    if rest = [] then some st
    else if subscribers_linked st event rest then sendsubscribed_walk env fuel msg event rest st
    else none

/-- The function `dmm_event_sendsubscribed`. -/
def dmm_event_sendsubscribed (env : Env) (fuel : Nat) (st : State) (event : Ptr)
    (msg : dmm_msg) : Option State := do
  let e ← st.event? event
  let st ← sendsubscribed_walk env fuel msg event e.ev_nodes st
  some (dmm_msg_free st msg)

/-! ## dmm_timer.c: the trigger pass -/

/-- The constant `coalesce_interval`: one millisecond. -/
def coalesce_interval : timespec := ⟨0, 1000000⟩

/-- The function `dmm_timer_trigger`. -/
def dmm_timer_trigger (env : Env) (fuel : Nat) (st : State) (timer : Ptr) :
    Option (Int × State) := do
  let (e, t) ← st.timer? timer
  if !DMM_TIMER_ISVALID t then
    let st ← dmm_event_unref st timer
    some (EINVAL, st)
  else
    match dmm_msg_create env st 0 DMM_MSG_TIMERTRIGGER DMM_MSGTYPE_GENERIC 0 0
        sizeof_timertrigger with
    | (none, st) => some (ENOMEM, st)
    | (some msg, st) =>
      let msg := { msg with cm_data := .timertrigger e.ev_id }
      let st ← dmm_event_sendsubscribed env fuel st timer msg
      some (0, st)

/-- The macro `LIST_NEXT(p, tm_trigger)` read off the list: `none` when `p` is
not linked in the list (its link field is stale), `some none` for `NULL`. -/
def list_next : List Ptr → Ptr → Option (Option Ptr)
  | [], _ => none
  | a :: rest, p => if a = p then some rest.head? else list_next rest p

/-- What the loop of `dmm_timers_trigger` does with the timer `tm` once it has
decided to fire it: reference, trigger, then, when the timer is still valid,
deregister and, for a periodic timer, advance `tm_next` and register again;
release. -/
def timers_trigger_body (env : Env) (fuel : Nat) (st : State) (tm : Ptr) : Option State := do
  let st ← dmm_event_ref st tm
  let (_, st) ← dmm_timer_trigger env fuel st tm
  let (_, t) ← st.timer? tm
  let st ←
    if DMM_TIMER_ISVALID t then do
      let st ← dmm_timer_deregister st tm
      let (e, t) ← st.timer? tm
      if !TIMESPEC_ISZERO t.tm_interval then
        dmm_timer_register
          (st.setTimer tm e { t with tm_next := TIMESPEC_INC t.tm_next t.tm_interval }) tm
      else some st
    else some st
  dmm_event_unref st tm

/-- The loop `LIST_FOREACH_SAFE(tm, &timer_trigger_list, tm_trigger, tmptm)`
of `dmm_timers_trigger`, from the element `tm` on (`none` for `NULL`); `k`
bounds the number of iterations.  The successor `tmptm` is read before the
body runs, and the next iteration reads the list as the body left it. -/
def timers_trigger_loop (env : Env) (fuel : Nat) (now : timespec) :
    Nat → Bool → State → Option Ptr → Option State
  | _, _, st, none => some st
  | 0, _, _, some _ => none
  | k + 1, force_trigger, st, some tm => do
    let tmptm ← list_next st.timer_trigger_list tm
    let (_, t) ← st.timer? tm
    if !force_trigger && TIMESPEC_GT t.tm_next now then some st
    else
      let st ← timers_trigger_body env fuel st tm
      timers_trigger_loop env fuel now k false st tmptm

/-- The function `dmm_timers_trigger`. -/
def dmm_timers_trigger (env : Env) (fuel k : Nat) (st : State) (force_trigger : Bool) :
    Option (Int × State) :=
  match clock_gettime st with
  | .error e => some (e, st)
  | .ok now => do
    let now := TIMESPEC_INC now coalesce_interval
    let st ← timers_trigger_loop env fuel now k force_trigger st st.timer_trigger_list.head?
    some (0, st)

/-- The function `dmm_timers_next`: the error code and `*next`. -/
def dmm_timers_next (st : State) : Option (Int × timespec) :=
  match st.timer_trigger_list with
  | [] => some (ENOENT, ⟨0, 0⟩)
  | p :: _ => do
    let (_, t) ← st.timer? p
    some (0, t.tm_next)

/-! ## dmm_base.c: the timeout of the main loop -/

/-- The conversion of a `long` to `int` (two's complement, 32 bits). -/
def to_int32 (x : Int) : Int := (x + 2147483648) % 4294967296 - 2147483648

/-- The value of `timeout_ms` in `dmm_main_loop` when a timer is armed: the
difference is computed in `long` (no overflow of `long` is assumed), the
division truncates toward zero, the result is stored in an `int`. -/
def timeout_ms (now next : timespec) : Int :=
  let t := to_int32 ((next.tv_sec - now.tv_sec) * 1000 +
    Int.tdiv (next.tv_nsec - now.tv_nsec) 1000000)
  if t < 0 then 0 else t

/-- The start of an iteration of `dmm_main_loop`: the timeout handed to
`epoll_wait`, or the error code the loop ends with. -/
def main_loop_timeout (st : State) : Option (Except Int Int) :=
  match clock_gettime st with
  | .error e => some (.error e)
  | .ok now => do
    let (err, next) ← dmm_timers_next st
    if err = 0 then some (.ok (timeout_ms now next))
    else if err = ENOENT then some (.ok (-1))
    else some (.error err)

/-! ## dmm_wave.c: the end of a wave -/

/-- The function `dmm_wave_start`; the counter is a `uint32_t`. -/
def dmm_wave_start (st : State) : Int × State :=
  (0, { st with dmm_wave_id := (st.dmm_wave_id + 1) % UINT32_MOD })

/-- The function `dmm_wavefinish_rm`. -/
def dmm_wavefinish_rm (env : Env) (st : State) (wf : Ptr) : Option State := do
  let st ← dmm_event_unsubscribeall env st wf
  let st := { st with wavefinishlist := st.wavefinishlist.erase wf }
  dmm_event_unref st wf

/-- The function `dmm_wave_finish`. -/
def dmm_wave_finish (env : Env) (fuel : Nat) (st : State) : Option (Int × State) := do
  let (wf, st) ← dmm_wavefinish_id2ref st (dmm_current_wave st)
  match wf with
  | none => some (0, st)
  | some wf =>
    let (err, st) ←
      match dmm_msg_create env st 0 DMM_MSG_WAVEFINISH DMM_MSGTYPE_GENERIC 0 0 0 with
      | (some msg, st) => do
        let st ← dmm_event_sendsubscribed env fuel st wf msg
        some ((0 : Int), st)
      | (none, st) => some (ENOMEM, st)
    let st ← dmm_event_unsubscribeall env st wf
    let st ← dmm_wavefinish_rm env st wf
    some (err, st)

/-! ## Concrete states for the trigger pass and the end of a wave -/

/-- The state with the clock set to `sec` seconds. -/
def State.at_time (st : State) (sec : Int) : State := { st with realtime := ⟨sec, 0⟩ }

/-- The timer of `st_T100` (address 3, id 1) with node 1 and node 2
subscribed. -/
def st_subscribed : State :=
  state_of (dmm_timer_subscribe env0 (state_of (dmm_timer_subscribe env0 st_T100 3 1)) 3 2)

/-- The timer of `st_subscribed` armed at 100 s as a one-shot timer for
110 s, and the clock moved to 200 s. -/
def st_oneshot : State :=
  (state_of (dmm_timer_set st_subscribed 3 ⟨10, 0⟩ ⟨0, 0⟩ 0)).at_time 200

/-- The timer of `st_subscribed` armed at 100 s for 110 s with an interval of
10 s, and the clock moved to 200 s. -/
def st_periodic : State :=
  (state_of (dmm_timer_set st_subscribed 3 ⟨10, 0⟩ ⟨10, 0⟩ 0)).at_time 200

/-- An environment in which the `rcvmsg` callback of a node answers a
`TIMER_TRIGGER` message by sending itself a `TIMER_REMOVE` request for the
timer that fired, and frees every message it receives. -/
def env_remove : Env :=
  { env0 with
    rcvmsg := fun _ node msg s =>
      match msg.cm_data with
      | .timertrigger id =>
        match s.node? node with
        | some n =>
          (0, ((dmm_msg_send_id env0 2 s n.nd_id
            { ptr := 200, cm_src := n.nd_id, cm_cmd := DMM_MSG_TIMERRM,
              cm_type := DMM_MSGTYPE_GENERIC, cm_token := 0, cm_flags := 0,
              cm_len := sizeof_timerrm, cm_data := .timerrm id }).map
              (fun r => r.2)).getD s |>.log (Ev.msg_free msg))
        | none => (0, s)
      | _ => (0, s.log (Ev.msg_free msg)) }

/-- The two-node state after node 1 has subscribed to the end of the current
wave. -/
def st_wave1 : State := state_of (dmm_wavefinish_subscribe env0 st_AB 1)

/-- The state `st_wave1` after node 2 has subscribed too. -/
def st_wave12 : State := state_of (dmm_wavefinish_subscribe env0 st_wave1 2)

/-- The state `st_wave1` after node 1 has subscribed a second time. -/
def st_wave11 : State := state_of (dmm_wavefinish_subscribe env0 st_wave1 1)

/-- The subscriber list of the event at `p`. -/
def subscribers (st : State) (p : Ptr) : Option (List Ptr) :=
  (st.event? p).map (fun e => e.ev_nodes)

/-- The subscription list of the node at `p`. -/
def subscriptions (st : State) (p : Ptr) : Option (List Ptr) :=
  (st.node? p).map (fun n => n.nd_events)

/-- The timer of `st_T100` with node 1 subscribed, armed at 100 s for 110 s
with an interval of 10 s, and the clock moved to 200 s. -/
def st_periodic1 : State :=
  (state_of (dmm_timer_set (state_of (dmm_timer_subscribe env0 st_T100 3 1)) 3
    ⟨10, 0⟩ ⟨10, 0⟩ 0)).at_time 200

/-- Two timers at 100 s: the timer at address 3 armed for 110 s with an
interval of 50 s, a second timer (address 4) armed for 150 s as a one-shot
timer; then the clock moved to 200 s. -/
def st_two_timers : State :=
  (state_of (dmm_timer_set (state_of (dmm_timer_set
    (state_of (dmm_timer_create env0 st_T100)) 3 ⟨10, 0⟩ ⟨50, 0⟩ 0)) 4 ⟨50, 0⟩ ⟨0, 0⟩ 0)).at_time 200

/-- The addresses of the nodes that received a `TIMER_TRIGGER` message for
the timer with id `id`, latest first. -/
def triggers_received (st : State) (id : Nat) : List Ptr :=
  st.trace.filterMap (fun e =>
    match e with
    | .rcvmsg n m => if m.cm_data = .timertrigger id then some n else none
    | _ => none)

/-- The number of `TIMER_TRIGGER` messages for the timer with id `id` that the
runtime has freed: one per firing when no subscriber lacks a `rcvmsg`
callback. -/
def triggers_fired (st : State) (id : Nat) : Nat :=
  (st.trace.filter (fun e =>
    match e with
    | .msg_free m => decide (m.cm_data = .timertrigger id ∧ m.cm_src = 0)
    | _ => false)).length

/-- The state `st_periodic1` once the loop of the trigger pass has taken its
reference on the timer. -/
def st_periodic1_ref : State := (dmm_event_ref st_periodic1 3).getD {}

/-- The state after the `TIMER_TRIGGER` message of the timer of
`st_periodic1` has been delivered in the environment whose handler removes
the timer. -/
def st_periodic1_removed : State := state_of (dmm_timer_trigger env_remove 2 st_periodic1_ref 3)

/-- The timer of `st_periodic1_removed`: invalid, not registered, without
subscribers, kept alive by the reference of the loop. -/
def event_removed : dmm_event :=
  { ev_id := 1, ev_nodes := [], ev_refs := 1, ev_destructor := some .timer_destructor,
    ext := .timer ⟨DMM_TIMER_INVALID, ⟨110, 0⟩, ⟨10, 0⟩⟩ }

/-- The timer of `st_periodic1`: registered, with node 1 subscribed. -/
def event_periodic1 : dmm_event :=
  { ev_id := 1, ev_nodes := [1], ev_refs := 3, ev_destructor := some .timer_destructor,
    ext := .timer ⟨DMM_TIMER_REGISTERED, ⟨110, 0⟩, ⟨10, 0⟩⟩ }

/-! ## Statement helpers for the timeout of the main loop -/

/-- A `timespec` whose nanoseconds are in `[0, 10^9)`. -/
def timespec.normalised (a : timespec) : Prop := 0 ≤ a.tv_nsec ∧ a.tv_nsec < 1000000000

/-- The time from `now` to `next` in nanoseconds. -/
def ns_until (now next : timespec) : Int :=
  (next.tv_sec - now.tv_sec) * 1000000000 + (next.tv_nsec - now.tv_nsec)

/-- The value the main loop computes before it is stored in the `int`. -/
def timeout_long (now next : timespec) : Int :=
  (next.tv_sec - now.tv_sec) * 1000 + Int.tdiv (next.tv_nsec - now.tv_nsec) 1000000

/-- The timeout in words: the time to the deadline in whole milliseconds,
rounded down when the nanoseconds of `next` are not below those of `now` and
rounded up when they are, and not below 0. -/
def timeout_spec (now next : timespec) : Int :=
  max 0 (if now.tv_nsec ≤ next.tv_nsec then ns_until now next / 1000000
    else -((-(ns_until now next)) / 1000000))

/-! ## Statement helpers for broadcasts and for the end of a wave -/

/-- What the delivery of a copy of `msg` to the subscriber `q` leaves when the
callbacks are passive: nothing for an invalid node; else one allocation for
the copy and, when it succeeds, the call of the `rcvmsg` callback of the type,
or the release of the copy when the type has none. -/
def delivery_step (env : Env) (msg : dmm_msg) (s : State) (q : Ptr) : State :=
  match s.node? q with
  | none => s
  | some n =>
    if !DMM_NODE_ISVALID n then s
    else if !env.malloc_ok s.nalloc then s.bump
    else if n.nd_type.rcvmsg then s.bump.log (Ev.rcvmsg q { msg with ptr := s.nalloc + 1 })
    else s.bump.log (Ev.msg_free { msg with ptr := s.nalloc + 1 })

/-- A message that the dispatch hands to the node as it is: a `WAVEFINISH` or
a `TIMER_TRIGGER` message of the generic type, not a response, with the
payload length the dispatch asserts. -/
def passed_to_node (msg : dmm_msg) : Prop :=
  msg.cm_type = DMM_MSGTYPE_GENERIC ∧ msg.cm_flags &&& DMM_MSG_RESP = 0 ∧
  ((msg.cm_cmd = DMM_MSG_WAVEFINISH ∧ msg.cm_len = 0) ∨
   (msg.cm_cmd = DMM_MSG_TIMERTRIGGER ∧ msg.cm_len = sizeof_timertrigger))

/-- The `WAVEFINISH` message that `dmm_wave_finish` creates at address `p`. -/
def wavefinish_msg (p : Ptr) : dmm_msg :=
  { ptr := p, cm_src := 0, cm_cmd := DMM_MSG_WAVEFINISH, cm_type := DMM_MSGTYPE_GENERIC,
    cm_token := 0, cm_flags := 0, cm_len := 0, cm_data := .empty }

/-- The body of the loop of `dmm_event_unsubscribeall` for the subscriber
record of `nd`. -/
def unsubscribe_step (env : Env) (p : Ptr) (st : State) (nd : Ptr) : Option State := do
  let (_, st) ← dmm_event_unsubscribe env st p nd
  some st

/-- The state `s` with another allocation counter and another log. -/
def State.relog (s : State) (a : Nat) (t : List Ev) : State := { s with nalloc := a, trace := t }

/-- The state `s` with another node heap. -/
def State.withNodes (s : State) (N : Ptr → Option dmm_node) : State := { s with nodes := N }

/-- The state `s` with another list of wave-finish events. -/
def State.withWavefinishlist (s : State) (l : List Ptr) : State := { s with wavefinishlist := l }

/-- The wave-finish event of `st_wave12`, with its two subscribers. -/
def event_wave12 : dmm_event :=
  { ev_id := 1, ev_nodes := [1, 2], ev_refs := 2,
    ev_destructor := some .wavefinish_destructor, ext := .wavefinish ⟨0⟩ }

/-- A node of `st_wave12`: subscribed to the event at address 3. -/
def node_sub (n : dmm_node) : dmm_node := { n with nd_events := [3], nd_refs := 2 }

/-- What a `rcvmsg` callback may do during a broadcast, from the state `s` it
is called in to the state `s1` it leaves: the events, the nodes, the list of
wave-finish events and the wave id are as they were, and the log has only
grown.  It may allocate, handle data frames and hooks, and write to the
log. -/
structure wkeep (s s1 : State) : Prop where
  events : s1.events = s.events
  nodes : s1.nodes = s.nodes
  wl : s1.wavefinishlist = s.wavefinishlist
  wid : s1.dmm_wave_id = s.dmm_wave_id
  trace : ∃ t, s1.trace = t ++ s.trace

/-- Every `rcvmsg` callback of the environment keeps the events and the
nodes. -/
def Env.rcvmsg_keeps (env : Env) : Prop :=
  ∀ t n m s, wkeep s (env.rcvmsg t n m s).2

/-- The wave-finish events are well formed, as `dmm_wavefinish_subscribe`
leaves them: the list of wave-finish events has no repetition; each event of
the list has the destructor of wave-finish events, at least one subscriber
record, one reference per subscriber record (the place in the list is not
counted), subscribers that are live nodes, and as many records of a node as
that node has records of the event; no two events of the list are keyed by
the same wave id; a node holds one reference per subscription besides the one
of the node list; and nothing refers to an address above the allocation
counter. -/
structure wave_inv (st : State) : Prop where
  listed : st.wavefinishlist.Nodup
  ev : ∀ p ∈ st.wavefinishlist, ∃ e w, st.wavefinish? p = some (e, w) ∧
    e.ev_destructor = some .wavefinish_destructor ∧ e.ev_refs = e.ev_nodes.length ∧
    e.ev_nodes ≠ [] ∧
    (∀ q ∈ e.ev_nodes, ∃ n, st.node? q = some n) ∧
    (∀ q n, st.node? q = some n → n.nd_events.count p = e.ev_nodes.count q)
  ids : ∀ p ∈ st.wavefinishlist, ∀ x ∈ st.wavefinishlist, ∀ e w ex wx,
    st.wavefinish? p = some (e, w) → st.wavefinish? x = some (ex, wx) →
    w.wf_waveid = wx.wf_waveid → x = p
  noderefs : ∀ q n, st.node? q = some n → n.nd_events.length + 1 ≤ n.nd_refs
  fresh : ∀ p, st.nalloc < p → st.event? p = none ∧ p ∉ st.wavefinishlist ∧
    ∀ q n, st.node? q = some n → p ∉ n.nd_events

/-- The wave-finish event of `st_wave11`: node 1 has subscribed twice. -/
def event_wave11 : dmm_event :=
  { ev_id := 1, ev_nodes := [1, 1], ev_refs := 2,
    ev_destructor := some .wavefinish_destructor, ext := .wavefinish ⟨0⟩ }

/-- The state in which `dmm_wavefinish_subscribe` subscribes the node to the
wave-finish event it has just created at the first fresh address: the event
holds the reference of its creator and heads the list of wave-finish
events. -/
def wavefinish_created (st : State) : State :=
  { (({ st.bump with lasteventid := (st.lasteventid + 1) % UINT32_MOD } : State).setEvent
      (st.nalloc + 1)
      ⟨(st.lasteventid + 1) % UINT32_MOD, [], 1, some .wavefinish_destructor,
        .wavefinish ⟨st.dmm_wave_id⟩⟩) with
    wavefinishlist := (st.nalloc + 1) :: st.wavefinishlist }

/-- An environment whose `rcvmsg` callbacks consume the message they are
handed, as the handlers of the modules do: they free it and return `0`. -/
def env_ack : Env :=
  { env0 with rcvmsg := fun _ _ msg s => (0, s.log (Ev.msg_free msg)) }

/-! ## dmm_message.h: datanodes, and modules/wavebuf/wavebuf.c -/

/-- The struct `dmm_datanode`; the `dn_len` payload bytes are kept as one
value. -/
structure dmm_datanode where
  dn_sensor : Nat
  dn_len : Nat
  dn_data : Nat
deriving DecidableEq, Repr

/-- The macro `DMM_DN_SIZE`. -/
def DMM_DN_SIZE (dn : dmm_datanode) : Nat := sizeof_dmm_datanode + dn.dn_len

/-- The macro `DMM_DN_ISEND`. -/
def DMM_DN_ISEND (dn : dmm_datanode) : Bool := dn.dn_sensor == 0 && dn.dn_len == 0

/-- The constant `dmm_empty_datanode`. -/
def dmm_empty_datanode : dmm_datanode := ⟨0, 0, 0⟩

/-- The contents of the buffers `da_nodes`, by the address of the frame: the
datanodes laid out from the start of the buffer. -/
abbrev Mem := Ptr → Option (List dmm_datanode)

/-- The struct `pvt_data` of a wavebuf node: the out-hook (`none` for `NULL`)
and the frames of `databuf`, head first. -/
structure wavebuf_pvt where
  hook : Option Ptr
  databuf : List Ptr
deriving DecidableEq, Repr

/-- The scan `for (dn = DMM_DATA_NODES(data); !DMM_DN_ISEND(dn);
DMM_DN_ADVANCE(dn));` of `rcvmsg`: the datanodes before the first end node;
`none` when the buffer holds no end node (the scan leaves the buffer). -/
def scan_to_end : List dmm_datanode → Option (List dmm_datanode)
  | [] => none
  | dn :: rest => if DMM_DN_ISEND dn then some [] else (scan_to_end rest).map (fun l => dn :: l)

/-- The pointer difference `(char *)dn - (char *)DMM_DATA_NODES(data)` after
the scan: the sizes of the datanodes passed. -/
def dnsumlen (l : List dmm_datanode) : Nat := (l.map DMM_DN_SIZE).sum

/-- The first loop of `rcvmsg`: the datanodes of each buffered frame up to its
end node, and `len`, a `size_t`. -/
def wavebuf_measure (mem : Mem) : List Ptr → Option (List (List dmm_datanode) × Nat)
  | [] => some ([], 0)
  | f :: fs => do
    let nodes ← mem f
    let part ← scan_to_end nodes
    let (parts, len) ← wavebuf_measure mem fs
    some (part :: parts, (dnsumlen part + len) % SIZE_MOD)

/-- The second loop of `rcvmsg`: every buffered frame is released (after its
datanodes were copied, when there is an outgoing frame). -/
def wavebuf_release (st : State) : List Ptr → Option State
  | [] => some st
  | f :: fs => do
    let st ← dmm_data_unref st f
    wavebuf_release st fs

/-- The function `rcvmsg` of `wavebuf.c`: the error code, the private data and
the buffer contents it leaves, and the frames it handed to `DMM_DATA_SEND`.
Copying more bytes than the outgoing buffer holds is a fault. -/
def wavebuf_rcvmsg (env : Env) (st : State) (mem : Mem) (pvt : wavebuf_pvt) (msg : dmm_msg) :
    Option ((Int × wavebuf_pvt × Mem × List Ptr) × State) :=
  if msg.cm_flags &&& DMM_MSG_RESP ≠ 0 then some ((0, pvt, mem, []), dmm_msg_free st msg)
  else if msg.cm_type ≠ DMM_MSGTYPE_GENERIC ∨ msg.cm_cmd ≠ DMM_MSG_WAVEFINISH then
    some ((ENOTSUP, pvt, mem, []), dmm_msg_free st msg)
  else do
    let (parts, len) ← wavebuf_measure mem pvt.databuf
    let (data, st) :=
      match pvt.hook with
      | some _ => dmm_data_create_raw env st 0 len
      | none => (none, st)
    match data, pvt.hook with
    | some data, some hook =>
      let d ← st.data? data
      let content := parts.flatten
      if dnsumlen content + sizeof_dmm_datanode > d.da_len then none
      else
        let st ← wavebuf_release st pvt.databuf
        let mem := Function.update mem data (some (content ++ [dmm_empty_datanode]))
        let st ← dmm_data_send env st data hook
        let st ← dmm_data_unref st data
        some ((0, { pvt with databuf := [] }, mem, [data]), dmm_msg_free st msg)
    | _, _ =>
      let st ← wavebuf_release st pvt.databuf
      some ((ENOMEM, { pvt with databuf := [] }, mem, []), dmm_msg_free st msg)

/-- The function `rcvdata` of `wavebuf.c`, over the function `send_id` that
sends the subscription request; `node_id` is the id of the owner of the
hook. -/
def wavebuf_rcvdata (env : Env) (send_id : State → Nat → dmm_msg → Option (Int × State))
    (st : State) (pvt : wavebuf_pvt) (node_id : Nat) (data : Ptr) :
    Option ((Int × wavebuf_pvt) × State) :=
  match DMM_MALLOC env st with
  | (none, st) => do
    let st ← dmm_data_unref st data
    some ((ENOMEM, pvt), st)
  | (some _, st) =>
    if pvt.databuf = [] then
      match dmm_msg_create env st node_id DMM_MSG_WAVEFINISHSUBSCRIBE DMM_MSGTYPE_GENERIC 0 0 0 with
      | (none, st) => do
        let st ← dmm_data_unref st data
        some ((ENOMEM, pvt), st)
      | (some msg, st) => do
        let (_, st) ← send_id st node_id msg
        some ((0, { pvt with databuf := pvt.databuf ++ [data] }), st)
    else some ((0, { pvt with databuf := pvt.databuf ++ [data] }), st)

/-- The state after `dmm_data_create_raw(0, len)` has succeeded in `st`: the
frame at the first fresh address holds one reference and records `8 + len`
bytes, its buffer at the second one was allocated with that size. -/
def st_frame (st : State) (len : Nat) : State :=
  ((st.bump.bump.log (Ev.malloc (st.nalloc + 2) (sizeof_dmm_datanode + len))).setData
    (st.nalloc + 1)
    { da_nodes := st.nalloc + 2, da_len := sizeof_dmm_datanode + len, da_refs := 1 }).log
    (Ev.data_ref (st.nalloc + 1))

/-- A terminated buffer: the datanodes `part`, none of them an end node, then
the end node and whatever follows it. -/
def frame_holds (mem : Mem) (f : Ptr) (part : List dmm_datanode) : Prop :=
  (∀ dn ∈ part, DMM_DN_ISEND dn = false) ∧
  ∃ e rest, DMM_DN_ISEND e = true ∧ mem f = some (part ++ e :: rest)

/-! ### Concrete wavebuf inputs -/

/-- The state `st_conn_BA` (node B plays the wavebuf node, its out-hook is at
address 3) after two frames were created with `datalen` `len1` and `len2`:
the first at address 7 (buffer 8), the second at address 9 (buffer 10). -/
def st_wavebuf (len1 len2 : Nat) : State :=
  (dmm_data_create_raw env0 (dmm_data_create_raw env0 st_conn_BA 0 len1).2 0 len2).2

/-- The private data of the wavebuf node after the frames 7 and 9 arrived in
this order. -/
def pvt_wavebuf : wavebuf_pvt := { hook := some 3, databuf := [7, 9] }

/-- The datanodes of the two small frames before their end nodes: one
datanode of 4 bytes in the first, two of 2 and 6 bytes in the second. -/
def payload_small (f : Ptr) : List dmm_datanode :=
  if f = 7 then [⟨5, 4, 41⟩] else if f = 9 then [⟨6, 2, 42⟩, ⟨7, 6, 43⟩] else []

/-- The buffers of the two small frames, each closed by an end node. -/
def mem_small : Mem := fun f =>
  if f = 7 ∨ f = 9 then some (payload_small f ++ [dmm_empty_datanode]) else none

/-- The datanodes of two large frames before their end nodes: one datanode of
`2^31 - 8` bytes in each, so that each frame is `2^31 + 8` bytes long. -/
def payload_large (f : Ptr) : List dmm_datanode :=
  if f = 7 then [⟨5, 2147483640, 41⟩] else if f = 9 then [⟨6, 2147483640, 42⟩] else []

/-- The buffers of the two large frames, each closed by an end node. -/
def mem_large : Mem := fun f =>
  if f = 7 ∨ f = 9 then some (payload_large f ++ [dmm_empty_datanode]) else none

/-! ## Statement helpers for the invariant of the trigger queue -/

/-- The `tm_next` of the timer at `p` (zero when no timer is stored there). -/
def next_of (st : State) (p : Ptr) : timespec :=
  match st.timer? p with
  | some (_, t) => t.tm_next
  | none => ⟨0, 0⟩

/-- The timer at `p` is armed: it exists and its registered flag is set. -/
def armed (st : State) (p : Ptr) : Prop :=
  ∃ e t, st.timer? p = some (e, t) ∧ DMM_TIMER_ISREGISTERED t = true

/-- The invariant of the trigger queue: it is sorted non-decreasing on
`tm_next`, it holds exactly the armed timers, and every timer in it is valid
with a non-zero `tm_next`. -/
structure timer_queue_ok (st : State) : Prop where
  sorted : st.timer_trigger_list.Pairwise
    (fun p q => TIMESPEC_GT (next_of st p) (next_of st q) = false)
  registered : ∀ p, armed st p ↔ p ∈ st.timer_trigger_list
  queued : ∀ p ∈ st.timer_trigger_list, ∃ e t, st.timer? p = some (e, t) ∧
    DMM_TIMER_ISVALID t = true ∧ TIMESPEC_ISZERO t.tm_next = false

/-- What `dmm_timers_next` answers: not-found when no timer is armed, else the
`tm_next` of an armed timer that no armed timer precedes. -/
def timers_next_min (st : State) : Prop :=
  ((∀ p, ¬ armed st p) ∧ (dmm_timers_next st).map Prod.fst = some ENOENT) ∨
  (∃ p, armed st p ∧ dmm_timers_next st = some (0, next_of st p) ∧
    ∀ q, armed st q → TIMESPEC_GT (next_of st p) (next_of st q) = false)

/-- The bookkeeping behind the invariant: no timer is linked twice in the
trigger queue, the reference count of a timer covers its subscriber records
and its place in the queue, and nothing is stored at the addresses the
allocator has not handed out. -/
structure timer_heap_ok (st : State) : Prop where
  nodup : st.timer_trigger_list.Nodup
  refs : ∀ p e t, st.timer? p = some (e, t) →
    e.ev_nodes.length + (if DMM_TIMER_ISREGISTERED t then 1 else 0) ≤ e.ev_refs
  fresh : ∀ p, st.nalloc < p → st.event? p = none

/-- The invariant of the trigger queue with its bookkeeping. -/
def timer_inv (st : State) : Prop := timer_queue_ok st ∧ timer_heap_ok st

/-- The step from `s` to `s'` left the event heap and the trigger queue alone
and freed no address for reuse. -/
def tframe (s s' : State) : Prop :=
  s'.events = s.events ∧ s'.timer_trigger_list = s.timer_trigger_list ∧ s.nalloc ≤ s'.nalloc

/-- The clock reads `now` and `clock_gettime` fails with `errno` (0: it works). -/
def State.withClock (st : State) (now : timespec) (errno : Int) : State :=
  { st with realtime := now, clock_errno := errno }

/-- One call of the timer interface of `dmm_timer.c`, or the passing of time.
Setting a timer needs a working clock. -/
inductive timer_step (env : Env) : State → State → Prop
  | create (s s' : State) (r : Int × Option Ptr) :
      dmm_timer_create env s = some (r, s') → timer_step env s s'
  | set (s s' : State) (timer : Ptr) (next interval : timespec) (flags : Nat) (err : Int) :
      s.clock_errno = 0 → dmm_timer_set s timer next interval flags = some (err, s') →
      timer_step env s s'
  | unset (s s' : State) (timer : Ptr) :
      dmm_timer_unset s timer = some s' → timer_step env s s'
  | rm (s s' : State) (timer : Ptr) :
      dmm_timer_rm env s timer = some s' → timer_step env s s'
  | subscribe (s s' : State) (timer node : Ptr) (err : Int) :
      dmm_timer_subscribe env s timer node = some (err, s') → timer_step env s s'
  | unsubscribe (s s' : State) (timer node : Ptr) (err : Int) :
      dmm_timer_unsubscribe env s timer node = some (err, s') → timer_step env s s'
  | trigger (s s' : State) (fuel k : Nat) (force_trigger : Bool) (err : Int) :
      dmm_timers_trigger env fuel k s force_trigger = some (err, s') → timer_step env s s'
  | clock (s : State) (now : timespec) (errno : Int) :
      timer_step env s (s.withClock now errno)

/-- The states reached from `s0` by calls of the timer interface. -/
inductive timer_reachable (env : Env) (s0 : State) : State → Prop
  | init : timer_reachable env s0 s0
  | step (s s' : State) : timer_reachable env s0 s → timer_step env s s' →
      timer_reachable env s0 s'

/-- A state at startup: no event object exists, the trigger queue is empty. -/
def timer_init (s0 : State) : Prop :=
  s0.timer_trigger_list = [] ∧ ∀ p, s0.event? p = none

/-! ## Statement helpers for the symmetry of connections -/

/-- What the symmetry of connections reads in the hook at `H`: the peer list
and whether the hook is an in-hook. -/
def hshape (s : State) (H : Ptr) : Option (List Ptr × Bool) :=
  (s.hook? H).map (fun h => (h.hk_peers, DMM_HOOK_ISIN h))

/-- The two hook lists of the node at `a`: in-hooks, out-hooks. -/
def nshape (s : State) (a : Ptr) : Option (List Ptr × List Ptr) :=
  (s.node? a).map (fun n => (n.nd_inhooks, n.nd_outhooks))

/-- C25 as a predicate on a state: for every hook `H` and every peer record
of `H` that points at `P`, the hook `P` exists, its peer list holds exactly
one record that points back at `H`, and `H` is an out-hook exactly when `P` is
an in-hook. -/
def peers_symmetric (s : State) : Prop :=
  ∀ H h P, s.hook? H = some h → P ∈ h.hk_peers →
    ∃ p, s.hook? P = some p ∧ p.hk_peers.count H = 1 ∧
      (DMM_HOOK_ISOUT h = true ↔ DMM_HOOK_ISIN p = true)

/-- The invariant behind the symmetry, on the peer lists `sh`, the hook lists
`ns` and the allocation counter `k`.  Between the two halves of a connect or a
disconnect one record `x = (H, P)` lacks its counterpart. -/
structure graph_ok (x : Option (Ptr × Ptr)) (sh : Ptr → Option (List Ptr × Bool))
    (ns : Ptr → Option (List Ptr × List Ptr)) (k : Nat) : Prop where
  back : ∀ H l d P, sh H = some (l, d) → P ∈ l →
    ∃ l', sh P = some (l', !d) ∧ (H ∈ l' ∨ x = some (H, P))
  nodup : ∀ H l d, sh H = some (l, d) → l.Nodup
  listed_in : ∀ a li lo p l d, ns a = some (li, lo) → p ∈ li → sh p = some (l, d) → d = true
  listed_out : ∀ a li lo p l d, ns a = some (li, lo) → p ∈ lo → sh p = some (l, d) → d = false
  fresh_hooks : ∀ p, k < p → sh p = none
  fresh_lists : ∀ a li lo p, ns a = some (li, lo) → p ∈ li ∨ p ∈ lo → p ≤ k

/-- The invariant `graph_ok` of a state. -/
def peer_ok (x : Option (Ptr × Ptr)) (s : State) : Prop :=
  graph_ok x (hshape s) (nshape s) s.nalloc

/-- The hook lists only lost entries from `ns` to `ns'`: what a list of `ns'`
holds was in the same list of the same node in `ns`. -/
def lists_shrink (ns ns' : Ptr → Option (List Ptr × List Ptr)) : Prop :=
  ∀ a li' lo' p, ns' a = some (li', lo') →
    (p ∈ li' → ∃ li lo, ns a = some (li, lo) ∧ p ∈ li) ∧
    (p ∈ lo' → ∃ li lo, ns a = some (li, lo) ∧ p ∈ lo)

/-- The state after the last reference of the node at `a` (of type `t`) was
released, with passive callbacks: the destructor of the type was called, the
node left the node list and was freed. -/
def State.node_destroyed (s : State) (a : Ptr) (t : dmm_type) : State :=
  (((s.logIf t.dtor (Ev.dtor a)).unlinkNode a).log (Ev.node_free a)).delNode a

/-- The state after the last reference of the hook at `H` was released, up to
the release of its reference to the owner `a` (stored as `n`, of type `t`),
with passive callbacks: `rmhook` was called, the hook left the hook list of
its owner and was freed. -/
def State.hook_destroyed (s : State) (H a : Ptr) (n : dmm_node) : State :=
  ((((s.logIf n.nd_type.rmhook (Ev.rmhook H)).setNode a
    { n with nd_inhooks := n.nd_inhooks.erase H, nd_outhooks := n.nd_outhooks.erase H }).log
    (Ev.hook_free H)).delHook H)

/-- One call of the interface that builds and takes down the graph. -/
inductive graph_step (env : Env) : State → State → Prop
  | node_create (s s' : State) (type : List Char) (r : Int × Option Ptr) :
      dmm_node_create env s type = some (r, s') → graph_step env s s'
  | connect (s s' : State) (src : Ptr) (srchook : List Char) (dst : Ptr) (dsthook : List Char)
      (err : Int) :
      dmm_node_connect env s src srchook dst dsthook = some (err, s') → graph_step env s s'
  | disconnect (s s' : State) (src : Ptr) (srchook : List Char) (dst : Ptr)
      (dsthook : List Char) (err : Int) :
      dmm_node_disconnect env s src srchook dst dsthook = some (err, s') → graph_step env s s'
  | hook_rm (s s' : State) (hook : Ptr) :
      dmm_hook_rm env s hook = some s' → graph_step env s s'
  | node_rm (s s' : State) (node : Ptr) :
      dmm_node_rm env s node = some s' → graph_step env s s'

/-- The states reached from `s0` by calls of that interface. -/
inductive graph_reachable (env : Env) (s0 : State) : State → Prop
  | init : graph_reachable env s0 s0
  | step (s s' : State) : graph_reachable env s0 s → graph_step env s s' →
      graph_reachable env s0 s'

/-- A state before any connection: no hook exists, no node lists one. -/
def graph_init (s0 : State) : Prop :=
  (∀ p, s0.hook? p = none) ∧
  ∀ a n, s0.node? a = some n → n.nd_inhooks = [] ∧ n.nd_outhooks = []

/-! # Properties

## C strings and the name scan -/

theorem cstr_at_eq_NUL_iff (name : List Char) (h : NUL ∉ name) (i : Nat) :
    cstr_at name i = NUL ↔ name.length ≤ i := by
  unfold cstr_at
  constructor
  · intro h1
    by_contra h2
    push_neg at h2
    rw [List.getD_eq_getElem _ _ h2] at h1
    exact h (h1 ▸ List.getElem_mem h2)
  · intro h1
    simp [List.getD, List.getElem?_eq_none h1]

theorem name_scan_spec (name : List Char) (h : NUL ∉ name) (k : Nat) : ∀ i,
    cstr_at name (name_scan name k i) = NUL ↔
      (name.length ≤ i + k ∧ ∀ c ∈ name.drop i, c ≠ '[' ∧ c ≠ ']') := by
  induction k with
  | zero =>
    intro i
    simp only [name_scan, cstr_at_eq_NUL_iff name h, Nat.add_zero]
    constructor
    · intro h1
      exact ⟨h1, by simp [List.drop_eq_nil_of_le h1]⟩
    · exact fun h1 => h1.1
  | succ k ih =>
    intro i
    unfold name_scan
    by_cases hi : name.length ≤ i
    · have : cstr_at name i = NUL := (cstr_at_eq_NUL_iff name h i).2 hi
      simp only [this, true_or, if_true]
      simp [List.drop_eq_nil_of_le hi]
      omega
    · push_neg at hi
      have hne : cstr_at name i ≠ NUL := fun hc => by
        have := (cstr_at_eq_NUL_iff name h i).1 hc; omega
      have hd : name.drop i = name[i] :: name.drop (i + 1) := List.drop_eq_getElem_cons hi
      have hc : cstr_at name i = name[i] := by
        simp [cstr_at, List.getD, List.getElem?_eq_getElem hi]
      by_cases hb : cstr_at name i = '[' ∨ cstr_at name i = ']'
      · have : cstr_at name i = NUL ∨ cstr_at name i = '[' ∨ cstr_at name i = ']' := Or.inr hb
        simp only [this, if_true]
        constructor
        · intro h1; exact absurd h1 hne
        · intro ⟨_, h2⟩
          have := h2 name[i] (hd ▸ List.mem_cons_self _ _)
          rw [hc] at hb
          tauto
      · have : ¬ (cstr_at name i = NUL ∨ cstr_at name i = '[' ∨ cstr_at name i = ']') := by
          tauto
        simp only [this, if_false]
        rw [ih (i + 1), hd]
        rw [hc] at hb
        push_neg at hb
        simp only [List.mem_cons, forall_eq_or_imp]
        constructor
        · intro ⟨h1, h2⟩; exact ⟨by omega, hb, h2⟩
        · intro ⟨h1, _, h2⟩; exact ⟨by omega, h2⟩

/-- A name passes the check of `dmm_hook_create` and `dmm_node_setname`. -/
theorem name_check_iff (name : List Char) (h : NUL ∉ name) (size : Nat) :
    (cstr_at name 0 ≠ NUL ∧ cstr_at name (name_scan name size 0) = NUL) ↔
      (name ≠ [] ∧ '[' ∉ name ∧ ']' ∉ name ∧ name.length ≤ size) := by
  rw [name_scan_spec name h, Ne, cstr_at_eq_NUL_iff name h]
  simp only [List.drop_zero, Nat.zero_add, Nat.le_zero, List.length_eq_zero]
  constructor
  · intro ⟨h1, h2, h3⟩
    exact ⟨h1, fun hc => (h3 _ hc).1 rfl, fun hc => (h3 _ hc).2 rfl, h2⟩
  · intro ⟨h1, h2, h3, h4⟩
    exact ⟨h1, h4, fun c hc => ⟨fun e => h2 (e ▸ hc), fun e => h3 (e ▸ hc)⟩⟩

/-! ## The heap -/

@[simp] theorem node?_setNode_same (st : State) (p : Ptr) (n : dmm_node) :
    (st.setNode p n).node? p = some n := by
  simp [State.node?, State.setNode]

theorem node?_setNode_ne (st : State) {p q : Ptr} (n : dmm_node) (h : p ≠ q) :
    (st.setNode q n).node? p = st.node? p := by
  simp [State.node?, State.setNode, Function.update_noteq h]

theorem node?_setNode (st : State) (p q : Ptr) (n : dmm_node) :
    (st.setNode q n).node? p = if p = q then some n else st.node? p := by
  by_cases h : p = q
  · subst h; simp
  · simp [h, node?_setNode_ne st n h]

@[simp] theorem hook?_setHook_same (st : State) (p : Ptr) (x : dmm_hook) :
    (st.setHook p x).hook? p = some x := by
  simp [State.hook?, State.setHook]

theorem hook?_setHook_ne (st : State) {p q : Ptr} (x : dmm_hook) (h : p ≠ q) :
    (st.setHook q x).hook? p = st.hook? p := by
  simp [State.hook?, State.setHook, Function.update_noteq h]

theorem hook?_setHook (st : State) (p q : Ptr) (x : dmm_hook) :
    (st.setHook q x).hook? p = if p = q then some x else st.hook? p := by
  by_cases h : p = q
  · subst h; simp
  · simp [h, hook?_setHook_ne st x h]

@[simp] theorem event?_setEvent_same (st : State) (p : Ptr) (x : dmm_event) :
    (st.setEvent p x).event? p = some x := by
  simp [State.event?, State.setEvent]

theorem event?_setEvent_ne (st : State) {p q : Ptr} (x : dmm_event) (h : p ≠ q) :
    (st.setEvent q x).event? p = st.event? p := by
  simp [State.event?, State.setEvent, Function.update_noteq h]

theorem event?_setEvent (st : State) (p q : Ptr) (x : dmm_event) :
    (st.setEvent q x).event? p = if p = q then some x else st.event? p := by
  by_cases h : p = q
  · subst h; simp
  · simp [h, event?_setEvent_ne st x h]

@[simp] theorem node?_setHook (st : State) (q : Ptr) (x : dmm_hook) (p : Ptr) :
    (st.setHook q x).node? p = st.node? p := rfl
@[simp] theorem node?_setEvent (st : State) (q : Ptr) (x : dmm_event) (p : Ptr) :
    (st.setEvent q x).node? p = st.node? p := rfl
@[simp] theorem hook?_setNode (st : State) (q : Ptr) (x : dmm_node) (p : Ptr) :
    (st.setNode q x).hook? p = st.hook? p := rfl
@[simp] theorem hook?_setEvent (st : State) (q : Ptr) (x : dmm_event) (p : Ptr) :
    (st.setEvent q x).hook? p = st.hook? p := rfl
@[simp] theorem event?_setNode (st : State) (q : Ptr) (x : dmm_node) (p : Ptr) :
    (st.setNode q x).event? p = st.event? p := rfl
@[simp] theorem event?_setHook (st : State) (q : Ptr) (x : dmm_hook) (p : Ptr) :
    (st.setHook q x).event? p = st.event? p := rfl
@[simp] theorem node?_log (st : State) (e : Ev) (p : Ptr) : (st.log e).node? p = st.node? p := rfl
@[simp] theorem hook?_log (st : State) (e : Ev) (p : Ptr) : (st.log e).hook? p = st.hook? p := rfl
@[simp] theorem event?_log (st : State) (e : Ev) (p : Ptr) : (st.log e).event? p = st.event? p := rfl
@[simp] theorem node?_logIf (st : State) (b : Bool) (e : Ev) (p : Ptr) :
    (st.logIf b e).node? p = st.node? p := by cases b <;> rfl
@[simp] theorem hook?_logIf (st : State) (b : Bool) (e : Ev) (p : Ptr) :
    (st.logIf b e).hook? p = st.hook? p := by cases b <;> rfl
@[simp] theorem event?_logIf (st : State) (b : Bool) (e : Ev) (p : Ptr) :
    (st.logIf b e).event? p = st.event? p := by cases b <;> rfl
@[simp] theorem node?_bump (st : State) (p : Ptr) : st.bump.node? p = st.node? p := rfl
@[simp] theorem hook?_bump (st : State) (p : Ptr) : st.bump.hook? p = st.hook? p := rfl
@[simp] theorem event?_bump (st : State) (p : Ptr) : st.bump.event? p = st.event? p := rfl
@[simp] theorem node?_linkNode (st : State) (q p : Ptr) : (st.linkNode q).node? p = st.node? p := rfl
@[simp] theorem hook?_linkNode (st : State) (q p : Ptr) : (st.linkNode q).hook? p = st.hook? p := rfl
@[simp] theorem event?_linkNode (st : State) (q p : Ptr) :
    (st.linkNode q).event? p = st.event? p := rfl
@[simp] theorem node?_unlinkNode (st : State) (q p : Ptr) :
    (st.unlinkNode q).node? p = st.node? p := rfl
@[simp] theorem hook?_unlinkNode (st : State) (q p : Ptr) :
    (st.unlinkNode q).hook? p = st.hook? p := rfl
@[simp] theorem event?_unlinkNode (st : State) (q p : Ptr) :
    (st.unlinkNode q).event? p = st.event? p := rfl
@[simp] theorem node?_setLastnodeid (st : State) (q p : Ptr) :
    (st.setLastnodeid q).node? p = st.node? p := rfl
@[simp] theorem hook?_setLastnodeid (st : State) (q p : Ptr) :
    (st.setLastnodeid q).hook? p = st.hook? p := rfl
@[simp] theorem event?_setLastnodeid (st : State) (q p : Ptr) :
    (st.setLastnodeid q).event? p = st.event? p := rfl
@[simp] theorem node?_delHook (st : State) (q p : Ptr) : (st.delHook q).node? p = st.node? p := rfl
@[simp] theorem event?_delHook (st : State) (q p : Ptr) :
    (st.delHook q).event? p = st.event? p := rfl
@[simp] theorem hook?_delNode (st : State) (q p : Ptr) : (st.delNode q).hook? p = st.hook? p := rfl
@[simp] theorem event?_delNode (st : State) (q p : Ptr) :
    (st.delNode q).event? p = st.event? p := rfl
@[simp] theorem node?_delEvent (st : State) (q p : Ptr) :
    (st.delEvent q).node? p = st.node? p := rfl
@[simp] theorem hook?_delEvent (st : State) (q p : Ptr) :
    (st.delEvent q).hook? p = st.hook? p := rfl

@[simp] theorem hook?_delHook_same (st : State) (p : Ptr) : (st.delHook p).hook? p = none := by
  simp [State.hook?, State.delHook]

theorem hook?_delHook_ne (st : State) {p q : Ptr} (h : p ≠ q) :
    (st.delHook q).hook? p = st.hook? p := by
  simp [State.hook?, State.delHook, Function.update_noteq h]

@[simp] theorem node?_delNode_same (st : State) (p : Ptr) : (st.delNode p).node? p = none := by
  simp [State.node?, State.delNode]

theorem node?_delNode_ne (st : State) {p q : Ptr} (h : p ≠ q) :
    (st.delNode q).node? p = st.node? p := by
  simp [State.node?, State.delNode, Function.update_noteq h]

@[simp] theorem event?_delEvent_same (st : State) (p : Ptr) :
    (st.delEvent p).event? p = none := by
  simp [State.event?, State.delEvent]

theorem event?_delEvent_ne (st : State) {p q : Ptr} (h : p ≠ q) :
    (st.delEvent q).event? p = st.event? p := by
  simp [State.event?, State.delEvent, Function.update_noteq h]

@[simp] theorem delHook_setHook (st : State) (p : Ptr) (a : dmm_hook) :
    (st.setHook p a).delHook p = st.delHook p := by
  simp [State.setHook, State.delHook]

@[simp] theorem delNode_setNode (st : State) (p : Ptr) (a : dmm_node) :
    (st.setNode p a).delNode p = st.delNode p := by
  simp [State.setNode, State.delNode]

@[simp] theorem delEvent_setEvent (st : State) (p : Ptr) (a : dmm_event) :
    (st.setEvent p a).delEvent p = st.delEvent p := by
  simp [State.setEvent, State.delEvent]

theorem delHook_fresh {st : State} {p : Ptr} (h : st.hook? p = none) : st.delHook p = st := by
  cases st
  simp only [State.delHook, State.hook?] at h ⊢
  simp [← h]

theorem delNode_fresh {st : State} {p : Ptr} (h : st.node? p = none) : st.delNode p = st := by
  cases st
  simp only [State.delNode, State.node?] at h ⊢
  simp [← h]

theorem delEvent_fresh {st : State} {p : Ptr} (h : st.event? p = none) : st.delEvent p = st := by
  cases st
  simp only [State.delEvent, State.event?] at h ⊢
  simp [← h]

@[simp] theorem setNode_setNode (st : State) (p : Ptr) (a b : dmm_node) :
    (st.setNode p a).setNode p b = st.setNode p b := by
  simp [State.setNode]

@[simp] theorem setHook_setHook (st : State) (p : Ptr) (a b : dmm_hook) :
    (st.setHook p a).setHook p b = st.setHook p b := by
  simp [State.setHook]

@[simp] theorem setEvent_setEvent (st : State) (p : Ptr) (a b : dmm_event) :
    (st.setEvent p a).setEvent p b = st.setEvent p b := by
  simp [State.setEvent]

theorem setNode_stored {st : State} {p : Ptr} {n : dmm_node} (h : st.node? p = some n) :
    st.setNode p n = st := by
  cases st
  simp only [State.setNode, State.node?] at h ⊢
  simp [← h]

theorem setHook_stored {st : State} {p : Ptr} {x : dmm_hook} (h : st.hook? p = some x) :
    st.setHook p x = st := by
  cases st
  simp only [State.setHook, State.hook?] at h ⊢
  simp [← h]

theorem setEvent_stored {st : State} {p : Ptr} {x : dmm_event} (h : st.event? p = some x) :
    st.setEvent p x = st := by
  cases st
  simp only [State.setEvent, State.event?] at h ⊢
  simp [← h]

theorem setHook_comm (st : State) {p q : Ptr} (a b : dmm_hook) (h : p ≠ q) :
    (st.setHook p a).setHook q b = (st.setHook q b).setHook p a := by
  simp [State.setHook, Function.update_comm h]

theorem setNode_comm (st : State) {p q : Ptr} (a b : dmm_node) (h : p ≠ q) :
    (st.setNode p a).setNode q b = (st.setNode q b).setNode p a := by
  simp [State.setNode, Function.update_comm h]

/-! Normal form of a state: the allocation counter first, then the log, then
the heap updates. -/

@[simp] theorem log_bump (st : State) (e : Ev) : (st.log e).bump = st.bump.log e := rfl
@[simp] theorem logIf_bump (st : State) (b : Bool) (e : Ev) :
    (st.logIf b e).bump = st.bump.logIf b e := by cases b <;> rfl
@[simp] theorem setHook_bump (st : State) (p : Ptr) (a : dmm_hook) :
    (st.setHook p a).bump = st.bump.setHook p a := rfl
@[simp] theorem setNode_bump (st : State) (p : Ptr) (a : dmm_node) :
    (st.setNode p a).bump = st.bump.setNode p a := rfl
@[simp] theorem setEvent_bump (st : State) (p : Ptr) (a : dmm_event) :
    (st.setEvent p a).bump = st.bump.setEvent p a := rfl
@[simp] theorem delHook_bump (st : State) (p : Ptr) : (st.delHook p).bump = st.bump.delHook p := rfl
@[simp] theorem delNode_bump (st : State) (p : Ptr) : (st.delNode p).bump = st.bump.delNode p := rfl
@[simp] theorem delEvent_bump (st : State) (p : Ptr) :
    (st.delEvent p).bump = st.bump.delEvent p := rfl

@[simp] theorem setHook_logIf (st : State) (p : Ptr) (a : dmm_hook) (b : Bool) (e : Ev) :
    (st.setHook p a).logIf b e = (st.logIf b e).setHook p a := by cases b <;> rfl
@[simp] theorem setNode_logIf (st : State) (p : Ptr) (a : dmm_node) (b : Bool) (e : Ev) :
    (st.setNode p a).logIf b e = (st.logIf b e).setNode p a := by cases b <;> rfl
@[simp] theorem setEvent_logIf (st : State) (p : Ptr) (a : dmm_event) (b : Bool) (e : Ev) :
    (st.setEvent p a).logIf b e = (st.logIf b e).setEvent p a := by cases b <;> rfl
@[simp] theorem delHook_logIf (st : State) (p : Ptr) (b : Bool) (e : Ev) :
    (st.delHook p).logIf b e = (st.logIf b e).delHook p := by cases b <;> rfl
@[simp] theorem delNode_logIf (st : State) (p : Ptr) (b : Bool) (e : Ev) :
    (st.delNode p).logIf b e = (st.logIf b e).delNode p := by cases b <;> rfl
@[simp] theorem delEvent_logIf (st : State) (p : Ptr) (b : Bool) (e : Ev) :
    (st.delEvent p).logIf b e = (st.logIf b e).delEvent p := by cases b <;> rfl
@[simp] theorem setHook_log (st : State) (p : Ptr) (a : dmm_hook) (e : Ev) :
    (st.setHook p a).log e = (st.log e).setHook p a := rfl
@[simp] theorem setNode_log (st : State) (p : Ptr) (a : dmm_node) (e : Ev) :
    (st.setNode p a).log e = (st.log e).setNode p a := rfl
@[simp] theorem setEvent_log (st : State) (p : Ptr) (a : dmm_event) (e : Ev) :
    (st.setEvent p a).log e = (st.log e).setEvent p a := rfl
@[simp] theorem delHook_log (st : State) (p : Ptr) (e : Ev) :
    (st.delHook p).log e = (st.log e).delHook p := rfl
@[simp] theorem delNode_log (st : State) (p : Ptr) (e : Ev) :
    (st.delNode p).log e = (st.log e).delNode p := rfl
@[simp] theorem delEvent_log (st : State) (p : Ptr) (e : Ev) :
    (st.delEvent p).log e = (st.log e).delEvent p := rfl

@[simp] theorem dmm_hook_free_eq (st : State) (p : Ptr) :
    dmm_hook_free st p = (st.log (Ev.hook_free p)).delHook p := rfl
@[simp] theorem dmm_node_free_eq (st : State) (p : Ptr) :
    dmm_node_free st p = (st.log (Ev.node_free p)).delNode p := rfl
@[simp] theorem dmm_event_free_eq (st : State) (p : Ptr) :
    dmm_event_free st p = (st.log (Ev.event_free p)).delEvent p := rfl

/-! Heap updates of nodes come last. -/

@[simp] theorem setNode_setHook (st : State) (p q : Ptr) (a : dmm_hook) (b : dmm_node) :
    (st.setNode q b).setHook p a = (st.setHook p a).setNode q b := rfl
@[simp] theorem setNode_delHook (st : State) (p q : Ptr) (b : dmm_node) :
    (st.setNode q b).delHook p = (st.delHook p).setNode q b := rfl
@[simp] theorem delNode_setHook (st : State) (p q : Ptr) (a : dmm_hook) :
    (st.delNode q).setHook p a = (st.setHook p a).delNode q := rfl
@[simp] theorem delNode_delHook (st : State) (p q : Ptr) :
    (st.delNode q).delHook p = (st.delHook p).delNode q := rfl

@[simp] theorem nalloc_bump (st : State) : st.bump.nalloc = st.nalloc + 1 := rfl
@[simp] theorem nalloc_log (st : State) (e : Ev) : (st.log e).nalloc = st.nalloc := rfl
@[simp] theorem nalloc_logIf (st : State) (b : Bool) (e : Ev) :
    (st.logIf b e).nalloc = st.nalloc := by cases b <;> rfl
@[simp] theorem nalloc_setHook (st : State) (p : Ptr) (a : dmm_hook) :
    (st.setHook p a).nalloc = st.nalloc := rfl
@[simp] theorem nalloc_setNode (st : State) (p : Ptr) (a : dmm_node) :
    (st.setNode p a).nalloc = st.nalloc := rfl
@[simp] theorem nalloc_setEvent (st : State) (p : Ptr) (a : dmm_event) :
    (st.setEvent p a).nalloc = st.nalloc := rfl
@[simp] theorem nalloc_delHook (st : State) (p : Ptr) : (st.delHook p).nalloc = st.nalloc := rfl
@[simp] theorem nalloc_delNode (st : State) (p : Ptr) : (st.delNode p).nalloc = st.nalloc := rfl
@[simp] theorem nalloc_delEvent (st : State) (p : Ptr) : (st.delEvent p).nalloc = st.nalloc := rfl

/-- A write that two later writes shadow is forgotten. -/
@[simp] theorem setHook_setHook_setHook (st : State) (p q : Ptr) (a b c : dmm_hook) :
    ((st.setHook p a).setHook q b).setHook p c = (st.setHook q b).setHook p c := by
  by_cases h : p = q
  · subst h; simp
  · rw [setHook_comm st a b h, setHook_setHook]

@[simp] theorem setNode_setNode_setNode (st : State) (p q : Ptr) (a b c : dmm_node) :
    ((st.setNode p a).setNode q b).setNode p c = (st.setNode q b).setNode p c := by
  by_cases h : p = q
  · subst h; simp
  · rw [setNode_comm st a b h, setNode_setNode]

@[simp] theorem setHook_setHook_delHook (st : State) (p q : Ptr) (a b : dmm_hook) :
    ((st.setHook p a).setHook q b).delHook p = (st.setHook q b).delHook p := by
  by_cases h : p = q
  · subst h; simp
  · rw [setHook_comm st a b h, delHook_setHook]

@[simp] theorem setHook_delHook_delHook (st : State) (p q : Ptr) (a : dmm_hook) :
    ((st.setHook p a).delHook q).delHook p = (st.delHook q).delHook p := by
  by_cases h : p = q
  · subst h; simp
  · simp [State.setHook, State.delHook, Function.update_comm h]

theorem delHook_comm (st : State) {p q : Ptr} (h : p ≠ q) :
    (st.delHook p).delHook q = (st.delHook q).delHook p := by
  simp [State.delHook, Function.update_comm h]

theorem setHook_delHook_comm (st : State) {p q : Ptr} (a : dmm_hook) (h : p ≠ q) :
    (st.setHook p a).delHook q = (st.delHook q).setHook p a := by
  simp [State.setHook, State.delHook, Function.update_comm h]

/-! ## Passive callbacks -/

theorem call_newhook_passive {env : Env} (hp : env.Passive) (st : State) (t : dmm_type) (p : Ptr) :
    call_newhook env st t p = ((call_newhook env st t p).1, st.logIf t.newhook (Ev.newhook p)) := by
  unfold call_newhook State.logIf
  by_cases h : t.newhook = true
  · simp only [h, if_true]; exact Prod.ext rfl (hp.newhook _ _ _)
  · simp [h]

theorem call_ctor_passive {env : Env} (hp : env.Passive) (st : State) (t : dmm_type) (p : Ptr) :
    call_ctor env st t p = ((call_ctor env st t p).1, st.logIf t.ctor (Ev.ctor p)) := by
  unfold call_ctor State.logIf
  by_cases h : t.ctor = true
  · simp only [h, if_true]; exact Prod.ext rfl (hp.ctor _ _ _)
  · simp [h]

theorem call_rmhook_passive {env : Env} (hp : env.Passive) (st : State) (t : dmm_type) (p : Ptr) :
    call_rmhook env st t p = st.logIf t.rmhook (Ev.rmhook p) := by
  unfold call_rmhook State.logIf
  by_cases h : t.rmhook = true
  · simp only [h, if_true]; exact hp.rmhook _ _ _
  · simp [h]

theorem call_dtor_passive {env : Env} (hp : env.Passive) (st : State) (t : dmm_type) (p : Ptr) :
    call_dtor env st t p = st.logIf t.dtor (Ev.dtor p) := by
  unfold call_dtor State.logIf
  by_cases h : t.dtor = true
  · simp only [h, if_true]; exact hp.dtor _ _ _
  · simp [h]

theorem call_rcvmsg_passive {env : Env} (hp : env.Passive) (st : State) (t : dmm_type) (p : Ptr)
    (m : dmm_msg) :
    call_rcvmsg env st t p m = ((call_rcvmsg env st t p m).1, st.log (Ev.rcvmsg p m)) :=
  Prod.ext rfl (hp.rcvmsg _ _ _ _)

theorem call_newhook_accepts {env : Env} {t : dmm_type} (h : accepts_hooks env t) (s : State)
    (p : Ptr) : (call_newhook env s t p).1 = 0 := by
  unfold call_newhook
  by_cases ht : t.newhook = true
  · simp only [ht, if_true]; exact h ht _ _
  · simp [ht]

/-! ## References -/

theorem dmm_node_ref_eq {st : State} {p : Ptr} {n : dmm_node} (h : st.node? p = some n)
    (hr : n.nd_refs < DMM_REFNUM_MAX) :
    dmm_node_ref st p = some (st.setNode p { n with nd_refs := n.nd_refs + 1 }) := by
  simp [dmm_node_ref, h, dmm_refacquire, hr]

theorem dmm_hook_ref_eq {st : State} {p : Ptr} {x : dmm_hook} (h : st.hook? p = some x)
    (hr : x.hk_refs < DMM_REFNUM_MAX) :
    dmm_hook_ref st p = some (st.setHook p { x with hk_refs := x.hk_refs + 1 }) := by
  simp [dmm_hook_ref, h, dmm_refacquire, hr]

theorem dmm_event_ref_eq {st : State} {p : Ptr} {x : dmm_event} (h : st.event? p = some x)
    (hr : x.ev_refs < DMM_REFNUM_MAX) :
    dmm_event_ref st p = some (st.setEvent p { x with ev_refs := x.ev_refs + 1 }) := by
  simp [dmm_event_ref, h, dmm_refacquire, hr]

/-- Releasing a reference that is not the last one only decrements the count. -/
theorem dmm_node_unref_eq {env : Env} {st : State} {p : Ptr} {n : dmm_node}
    (h : st.node? p = some n) (hr : 2 ≤ n.nd_refs) :
    dmm_node_unref env st p = some (st.setNode p { n with nd_refs := n.nd_refs - 1 }) := by
  have h1 : n.nd_refs > 0 := by omega
  have h2 : ¬ (n.nd_refs - 1 = 0) := by omega
  simp [dmm_node_unref, h, dmm_refrelease, h1, h2]

theorem dmm_hook_unref_eq {env : Env} {st : State} {p : Ptr} {x : dmm_hook}
    (h : st.hook? p = some x) (hr : 2 ≤ x.hk_refs) :
    dmm_hook_unref env st p = some (st.setHook p { x with hk_refs := x.hk_refs - 1 }) := by
  have h1 : x.hk_refs > 0 := by omega
  have h2 : ¬ (x.hk_refs - 1 = 0) := by omega
  simp [dmm_hook_unref, h, dmm_refrelease, h1, h2]

theorem dmm_event_unref_eq {st : State} {p : Ptr} {x : dmm_event}
    (h : st.event? p = some x) (hr : 2 ≤ x.ev_refs) :
    dmm_event_unref st p = some (st.setEvent p { x with ev_refs := x.ev_refs - 1 }) := by
  have h1 : x.ev_refs > 0 := by omega
  have h2 : ¬ (x.ev_refs - 1 = 0) := by omega
  simp [dmm_event_unref, h, dmm_refrelease, h1, h2]

/-! ## Creating a hook -/

theorem hook_link_eq {st : State} {node p : Ptr} {dir : DMM_HOOK_DIRECTION} {h : dmm_hook}
    {n : dmm_node} (hh : st.hook? p = some h) (hn : st.node? node = some n)
    (hrd : h.hk_rcvdata = 0) (hnr : n.nd_refs < DMM_REFNUM_MAX) (hhr : h.hk_refs < DMM_REFNUM_MAX) :
    hook_link st node dir p =
      some ((st.setHook p { h with hk_flags := h.hk_flags &&& NOT_BIT0,
                                   hk_refs := h.hk_refs + 1 }).setNode node
        (node_with_hook n dir p)) := by
  have hir : (insert_nodehook n dir p).nd_refs = n.nd_refs := by cases dir <;> rfl
  have hcond : (DMM_HOOK_ISOUT h && h.hk_rcvdata != 0) = false := by simp [hrd]
  unfold hook_link
  simp only [hh, hcond, Option.bind_eq_bind, Option.some_bind,
    Bool.false_eq_true, if_false, node?_setHook, hn]
  rw [dmm_node_ref_eq (n := insert_nodehook n dir p) (by simp) (by rw [hir]; exact hnr)]
  simp only [Option.some_bind]
  rw [dmm_hook_ref_eq (x := { h with hk_flags := h.hk_flags &&& NOT_BIT0 }) (by simp) hhr]
  simp only [setNode_setHook, setNode_setNode, setHook_setHook, hir, node_with_hook]

/-- The state that a successful `dmm_hook_create` leaves. -/
theorem dmm_hook_create_ok {env : Env} (hp : env.Passive) {st : State} {node : Ptr} {n : dmm_node}
    (dir : DMM_HOOK_DIRECTION) {name : List Char}
    (hn : st.node? node = some n) (hvalid : DMM_NODE_ISVALID n = true)
    (hrefs : n.nd_refs < DMM_REFNUM_MAX) (hacc : accepts_hooks env n.nd_type)
    (hmem : env.malloc_ok st.nalloc = true)
    (h0 : cstr_at name 0 ≠ NUL)
    (h1 : cstr_at name (name_scan name (DMM_HOOKNAMESIZE - 1) 0) = NUL) :
    dmm_hook_create env st node dir name = some ((0, some (st.nalloc + 1)),
      ((st.bump.logIf n.nd_type.newhook (Ev.newhook (st.nalloc + 1))).setHook (st.nalloc + 1)
          (created_hook node dir name)).setNode node (node_with_hook n dir (st.nalloc + 1))) := by
  unfold dmm_hook_create
  simp only [hn, hvalid, h0, h1, DMM_MALLOC, hmem, Option.bind_eq_bind, Option.some_bind,
    Bool.not_true, if_false, ne_eq, not_true_eq_false, ite_true, Bool.false_eq_true]
  rw [call_newhook_passive hp]
  simp only [call_newhook_accepts hacc, not_true_eq_false, if_false]
  rw [hook_link_eq (h := fresh_hook node dir name) (n := n)
    (by simp) (by simpa using hn) rfl hrefs
    (by simp [DMM_REFNUM_MAX, fresh_hook, dmm_refinit])]
  simp only [Option.some_bind, setHook_logIf, setHook_setHook]
  rfl

/-- A rejected name: the call of `dmm_log` that lacks its argument is reached. -/
theorem dmm_hook_create_badname {env : Env} {st : State} {node : Ptr} {n : dmm_node}
    (dir : DMM_HOOK_DIRECTION) {name : List Char}
    (hn : st.node? node = some n) (hvalid : DMM_NODE_ISVALID n = true)
    (hbad : ¬ (cstr_at name 0 ≠ NUL ∧
      cstr_at name (name_scan name (DMM_HOOKNAMESIZE - 1) 0) = NUL)) :
    dmm_hook_create env st node dir name = none := by
  unfold dmm_hook_create
  simp only [hn, hvalid, Option.bind_eq_bind, Option.some_bind, Bool.not_true,
    Bool.false_eq_true, if_false]
  by_cases h0 : cstr_at name 0 = NUL
  · simp [h0]
  · have h1 : ¬ cstr_at name (name_scan name (DMM_HOOKNAMESIZE - 1) 0) = NUL :=
      fun h => hbad ⟨h0, h⟩
    simp [h0, h1]

/-! ## Finding hooks -/

theorem find_hook_named_some {st : State} {name : List Char} {l : List Ptr} {p : Ptr}
    {h : dmm_hook} (hf : find_hook_named st name l = some (some (p, h))) :
    st.hook? p = some h ∧ p ∈ l ∧ strncmp_eq h.hk_name name DMM_HOOKNAMESIZE = true := by
  induction l with
  | nil => simp [find_hook_named] at hf
  | cons q l ih =>
    unfold find_hook_named at hf
    cases hq : st.hook? q with
    | none => simp [hq] at hf
    | some x =>
      simp only [hq] at hf
      by_cases hn : strncmp_eq x.hk_name name DMM_HOOKNAMESIZE = true
      · simp only [hn, if_true, Option.some.injEq, Prod.mk.injEq] at hf
        obtain ⟨rfl, rfl⟩ := hf
        exact ⟨hq, List.mem_cons_self _ _, hn⟩
      · simp only [hn, if_false] at hf
        obtain ⟨h1, h2, h3⟩ := ih hf
        exact ⟨h1, List.mem_cons_of_mem _ h2, h3⟩

/-- Storing a hook with the name it had does not change which hook a name
finds, only what is read at the address. -/
theorem find_hook_named_setHook {st : State} {q : Ptr} {x0 x : dmm_hook}
    (hq : st.hook? q = some x0) (hname : x.hk_name = x0.hk_name) (name : List Char)
    (l : List Ptr) :
    find_hook_named (st.setHook q x) name l =
      (find_hook_named st name l).map (Option.map (fun r => (r.1, if r.1 = q then x else r.2))) := by
  induction l with
  | nil => rfl
  | cons p l ih =>
    unfold find_hook_named
    by_cases hp : p = q
    · subst hp
      simp only [hook?_setHook_same, hq, hname]
      by_cases hn : strncmp_eq x0.hk_name name DMM_HOOKNAMESIZE = true
      · simp [hn]
      · simp [hn, ih]
    · rw [hook?_setHook_ne st x hp]
      cases hh : st.hook? p with
      | none => simp
      | some y =>
        by_cases hn : strncmp_eq y.hk_name name DMM_HOOKNAMESIZE = true
        · simp [hn, hp]
        · simp [hn, ih]

theorem find_hook_named_setNode (st : State) (q : Ptr) (n : dmm_node) (name : List Char)
    (l : List Ptr) : find_hook_named (st.setNode q n) name l = find_hook_named st name l := by
  induction l with
  | nil => rfl
  | cons p l ih => unfold find_hook_named; simp [ih]

/-- The function `dmm_hook_find` on a hook that exists and is valid. -/
theorem dmm_hook_find_found {st : State} {node : Ptr} {n : dmm_node} {d : DMM_HOOK_DIRECTION}
    {name : List Char} {p : Ptr} {h : dmm_hook}
    (hn : st.node? node = some n)
    (hf : find_hook_named st name (n.hooks d) = some (some (p, h)))
    (hv : DMM_HOOK_ISVALID h = true) (hr : h.hk_refs < DMM_REFNUM_MAX) :
    dmm_hook_find st node d name =
      some (some p, st.setHook p { h with hk_refs := h.hk_refs + 1 }) := by
  have hh := (find_hook_named_some hf).1
  unfold dmm_hook_find
  cases d <;>
    simp only [dmm_node.hooks] at hf <;>
    simp [hn, hf, hv, dmm_hook_ref_eq hh hr]

/-- The function `dmm_hook_find` when the node has no hook of that name. -/
theorem dmm_hook_find_none {st : State} {node : Ptr} {n : dmm_node} {d : DMM_HOOK_DIRECTION}
    {name : List Char} (hn : st.node? node = some n)
    (hf : find_hook_named st name (n.hooks d) = some none) :
    dmm_hook_find st node d name = some (none, st) := by
  unfold dmm_hook_find
  cases d <;>
    simp only [dmm_node.hooks] at hf <;>
    simp [hn, hf]

/-- The function `dmm_hook_get` on a hook that exists and is valid. -/
theorem dmm_hook_get_found {env : Env} {st : State} {node : Ptr} {n : dmm_node}
    {d : DMM_HOOK_DIRECTION} {name : List Char} {p : Ptr} {h : dmm_hook}
    (hn : st.node? node = some n)
    (hf : find_hook_named st name (n.hooks d) = some (some (p, h)))
    (hv : DMM_HOOK_ISVALID h = true) (hr : h.hk_refs < DMM_REFNUM_MAX) :
    dmm_hook_get env st node d name =
      some ((0, some p), st.setHook p { h with hk_refs := h.hk_refs + 1 }) := by
  have hv2 : DMM_HOOK_ISVALID { h with hk_refs := h.hk_refs + 1 } = true := hv
  unfold dmm_hook_get
  simp [dmm_hook_find_found hn hf hv hr, hv2]

/-- The function `dmm_hook_addpeer` on a peer that is already in the list. -/
theorem dmm_hook_addpeer_dup {env : Env} {st : State} {hook peer : Ptr} {h : dmm_hook}
    (hh : st.hook? hook = some h) (hp : peer ∈ h.hk_peers) :
    dmm_hook_addpeer env st hook peer = some (EEXIST, st) := by
  simp [dmm_hook_addpeer, hh, hp]

/-! ## Peers and the last reference of a hook -/

theorem find_hook_named_none_live {st : State} {name : List Char} {l : List Ptr}
    (hf : find_hook_named st name l = some none) :
    ∀ p ∈ l, ∃ h, st.hook? p = some h ∧ strncmp_eq h.hk_name name DMM_HOOKNAMESIZE = false := by
  induction l with
  | nil => simp
  | cons q l ih =>
    unfold find_hook_named at hf
    cases hq : st.hook? q with
    | none => simp [hq] at hf
    | some x =>
      simp only [hq] at hf
      by_cases hn : strncmp_eq x.hk_name name DMM_HOOKNAMESIZE = true
      · simp [hn] at hf
      · simp only [hn, if_false] at hf
        intro p hp
        rcases List.mem_cons.1 hp with rfl | hp
        · exact ⟨x, hq, by simpa using hn⟩
        · exact ih hf p hp

theorem find_hook_named_setHook_notin (st : State) {q : Ptr} (x : dmm_hook) (name : List Char)
    {l : List Ptr} (hq : q ∉ l) :
    find_hook_named (st.setHook q x) name l = find_hook_named st name l := by
  induction l with
  | nil => rfl
  | cons p l ih =>
    have hp : p ≠ q := fun h => hq (h ▸ List.mem_cons_self _ _)
    have hl : q ∉ l := fun h => hq (List.mem_cons_of_mem _ h)
    unfold find_hook_named
    rw [hook?_setHook_ne st x hp, ih hl]

theorem find_hook_named_congr {st st' : State} (name : List Char) {l : List Ptr}
    (h : ∀ p ∈ l, st'.hook? p = st.hook? p) :
    find_hook_named st' name l = find_hook_named st name l := by
  induction l with
  | nil => rfl
  | cons p l ih =>
    unfold find_hook_named
    rw [h p (List.mem_cons_self _ _), ih (fun q hq => h q (List.mem_cons_of_mem _ hq))]

/-- The function `dmm_hook_get` when the node has no hook of that name. -/
theorem dmm_hook_get_new {env : Env} {st : State} {node : Ptr} {n : dmm_node}
    {d : DMM_HOOK_DIRECTION} {name : List Char} (hn : st.node? node = some n)
    (hf : find_hook_named st name (n.hooks d) = some none) :
    dmm_hook_get env st node d name = dmm_hook_create env st node d name := by
  unfold dmm_hook_get
  simp [dmm_hook_find_none hn hf]

/-- The function `dmm_hook_addpeer` on a new peer. -/
theorem dmm_hook_addpeer_new {env : Env} {st : State} {hook peer : Ptr} {h x : dmm_hook}
    (hh : st.hook? hook = some h) (hp : peer ∉ h.hk_peers)
    (hmem : env.malloc_ok st.nalloc = true)
    (hx : (st.bump.setHook hook { h with hk_peers := peer :: h.hk_peers }).hook? peer = some x)
    (hr : x.hk_refs < DMM_REFNUM_MAX) :
    dmm_hook_addpeer env st hook peer =
      some (0, (st.bump.setHook hook { h with hk_peers := peer :: h.hk_peers }).setHook peer
        { x with hk_refs := x.hk_refs + 1 }) := by
  unfold dmm_hook_addpeer
  simp only [hh, hp, DMM_MALLOC, hmem, Option.bind_eq_bind, Option.some_bind, if_false, if_true]
  rw [dmm_hook_ref_eq hx hr]
  rfl

/-- The function `dmm_hook_rmpeer` when the peer keeps other references. -/
theorem dmm_hook_rmpeer_keep {env : Env} {st : State} {hook peer : Ptr} {h x : dmm_hook}
    (hh : st.hook? hook = some h) (hp : peer ∈ h.hk_peers)
    (hx : (st.setHook hook { h with hk_peers := h.hk_peers.erase peer }).hook? peer = some x)
    (hr : 2 ≤ x.hk_refs) :
    dmm_hook_rmpeer env st hook peer =
      some (0, (st.setHook hook { h with hk_peers := h.hk_peers.erase peer }).setHook peer
        { x with hk_refs := x.hk_refs - 1 }) := by
  unfold dmm_hook_rmpeer
  simp only [hh, hp, Option.bind_eq_bind, Option.some_bind, not_true_eq_false, if_false]
  rw [dmm_hook_unref_eq hx hr]
  rfl

/-- The last release of a hook without peers: the `rmhook` callback runs, the
hook leaves its owner and is freed, and the owner loses one reference. -/
theorem dmm_hook_unref_last {env : Env} (hp : env.Passive) {st : State} {p : Ptr} {h : dmm_hook}
    {w : dmm_node} (hh : st.hook? p = some h) (hr : h.hk_refs = 1) (hpe : h.hk_peers = [])
    (ho : st.node? h.hk_node = some w) (hor : 2 ≤ w.nd_refs) :
    dmm_hook_unref env st p =
      some (((((st.logIf w.nd_type.rmhook (Ev.rmhook p)).log (Ev.hook_free p)).delHook
        p).setNode h.hk_node (node_without_hook w p))) := by
  unfold dmm_hook_unref
  simp only [hh, hr, hpe, dmm_refrelease, Option.bind_eq_bind, Option.some_bind, gt_iff_lt,
    Nat.lt_one_iff, Nat.sub_self, beq_self_eq_true, if_true, ne_eq, not_true_eq_false, if_false,
    node?_setHook, ho, call_rmhook_passive hp, hook?_logIf, hook?_setHook_same,
    zero_lt_one, unlink_nodehook, node?_logIf]
  rw [dmm_node_unref_eq (n := { w with nd_inhooks := w.nd_inhooks.erase p, nd_outhooks := w.nd_outhooks.erase p }) (by simp) hor]
  simp only [setNode_setNode, setHook_logIf, dmm_hook_free_eq, setNode_log, setHook_log,
    setNode_delHook, delHook_setHook, setHook_setHook]
  rfl

/-! ## The objects that hook creation leaves -/

@[simp] theorem created_hook_refs (node : Ptr) (d : DMM_HOOK_DIRECTION) (name : List Char) :
    (created_hook node d name).hk_refs = 1 := rfl
@[simp] theorem created_hook_peers (node : Ptr) (d : DMM_HOOK_DIRECTION) (name : List Char) :
    (created_hook node d name).hk_peers = [] := rfl
@[simp] theorem created_hook_node (node : Ptr) (d : DMM_HOOK_DIRECTION) (name : List Char) :
    (created_hook node d name).hk_node = node := rfl
@[simp] theorem created_hook_name (node : Ptr) (d : DMM_HOOK_DIRECTION) (name : List Char) :
    (created_hook node d name).hk_name = strncpy name (DMM_HOOKNAMESIZE - 1) := rfl
@[simp] theorem created_hook_valid (node : Ptr) (d : DMM_HOOK_DIRECTION) (name : List Char) :
    DMM_HOOK_ISVALID (created_hook node d name) = true := by
  cases d <;>
    simp only [DMM_HOOK_ISVALID, created_hook, fresh_hook, DMM_HOOK_INVALID_BIT,
      DMM_HOOK_DIRECTION.val, NOT_BIT0] <;> decide

@[simp] theorem node_with_hook_type (n : dmm_node) (d : DMM_HOOK_DIRECTION) (p : Ptr) :
    (node_with_hook n d p).nd_type = n.nd_type := by cases d <;> rfl
@[simp] theorem node_with_hook_refs (n : dmm_node) (d : DMM_HOOK_DIRECTION) (p : Ptr) :
    (node_with_hook n d p).nd_refs = n.nd_refs + 1 := by cases d <;> rfl
@[simp] theorem node_with_hook_valid (n : dmm_node) (d : DMM_HOOK_DIRECTION) (p : Ptr) :
    DMM_NODE_ISVALID (node_with_hook n d p) = DMM_NODE_ISVALID n := by cases d <;> rfl
@[simp] theorem node_with_hook_hooks (n : dmm_node) (d : DMM_HOOK_DIRECTION) (p : Ptr) :
    (node_with_hook n d p).hooks d = p :: n.hooks d := by cases d <;> rfl
@[simp] theorem node_with_hook_out (n : dmm_node) (p : Ptr) :
    (node_with_hook n .DMM_HOOK_OUT p).nd_outhooks = p :: n.nd_outhooks := rfl
@[simp] theorem node_with_hook_out_in (n : dmm_node) (p : Ptr) :
    (node_with_hook n .DMM_HOOK_OUT p).nd_inhooks = n.nd_inhooks := rfl
@[simp] theorem node_with_hook_in (n : dmm_node) (p : Ptr) :
    (node_with_hook n .DMM_HOOK_IN p).nd_inhooks = p :: n.nd_inhooks := rfl
@[simp] theorem node_with_hook_in_out (n : dmm_node) (p : Ptr) :
    (node_with_hook n .DMM_HOOK_IN p).nd_outhooks = n.nd_outhooks := rfl

/-! ## More of the heap: events and data frames -/

@[simp] theorem setNode_setEvent (st : State) (p q : Ptr) (a : dmm_event) (b : dmm_node) :
    (st.setNode q b).setEvent p a = (st.setEvent p a).setNode q b := rfl
@[simp] theorem setNode_delEvent (st : State) (p q : Ptr) (b : dmm_node) :
    (st.setNode q b).delEvent p = (st.delEvent p).setNode q b := rfl
@[simp] theorem setHook_setEvent (st : State) (p q : Ptr) (a : dmm_event) (b : dmm_hook) :
    (st.setHook q b).setEvent p a = (st.setEvent p a).setHook q b := rfl

@[simp] theorem data?_setData_same (st : State) (p : Ptr) (d : dmm_data) :
    (st.setData p d).data? p = some d := by
  simp [State.data?, State.setData]
theorem data?_setData_ne (st : State) {p q : Ptr} (d : dmm_data) (h : q ≠ p) :
    (st.setData p d).data? q = st.data? q := by
  simp [State.data?, State.setData, Function.update_noteq h]
@[simp] theorem data?_setNode (st : State) (p q : Ptr) (n : dmm_node) :
    (st.setNode p n).data? q = st.data? q := rfl
@[simp] theorem data?_setHook (st : State) (p q : Ptr) (h : dmm_hook) :
    (st.setHook p h).data? q = st.data? q := rfl
@[simp] theorem data?_setEvent (st : State) (p q : Ptr) (e : dmm_event) :
    (st.setEvent p e).data? q = st.data? q := rfl
@[simp] theorem data?_log (st : State) (e : Ev) (q : Ptr) : (st.log e).data? q = st.data? q := rfl
@[simp] theorem data?_bump (st : State) (q : Ptr) : st.bump.data? q = st.data? q := rfl
@[simp] theorem hook?_setData (st : State) (p q : Ptr) (d : dmm_data) :
    (st.setData p d).hook? q = st.hook? q := rfl
@[simp] theorem node?_setData (st : State) (p q : Ptr) (d : dmm_data) :
    (st.setData p d).node? q = st.node? q := rfl
@[simp] theorem event?_setData (st : State) (p q : Ptr) (d : dmm_data) :
    (st.setData p d).event? q = st.event? q := rfl
@[simp] theorem setData_setData (st : State) (p : Ptr) (a b : dmm_data) :
    (st.setData p a).setData p b = st.setData p b := by
  simp [State.setData]
@[simp] theorem setData_log (st : State) (p : Ptr) (a : dmm_data) (e : Ev) :
    (st.log e).setData p a = (st.setData p a).log e := rfl
@[simp] theorem setHook_setData (st : State) (p q : Ptr) (a : dmm_data) (b : dmm_hook) :
    (st.setData p a).setHook q b = (st.setHook q b).setData p a := rfl
@[simp] theorem trace_setData (st : State) (p : Ptr) (a : dmm_data) :
    (st.setData p a).trace = st.trace := rfl
@[simp] theorem trace_setHook (st : State) (p : Ptr) (a : dmm_hook) :
    (st.setHook p a).trace = st.trace := rfl
@[simp] theorem trace_setNode (st : State) (p : Ptr) (a : dmm_node) :
    (st.setNode p a).trace = st.trace := rfl
@[simp] theorem trace_setEvent (st : State) (p : Ptr) (a : dmm_event) :
    (st.setEvent p a).trace = st.trace := rfl
@[simp] theorem trace_log (st : State) (e : Ev) : (st.log e).trace = e :: st.trace := rfl
@[simp] theorem trace_bump (st : State) : st.bump.trace = st.trace := rfl

theorem dmm_data_ref_eq {st : State} {p : Ptr} {d : dmm_data} (h : st.data? p = some d)
    (hr : d.da_refs < DMM_REFNUM_MAX) :
    dmm_data_ref st p =
      some ((st.setData p { d with da_refs := d.da_refs + 1 }).log (Ev.data_ref p)) := by
  simp [dmm_data_ref, h, dmm_refacquire, hr]

/-! ## Broadcasts with passive callbacks -/

theorem generic_switch_passed {env : Env} (hp : env.Passive) {st : State} {node : Ptr}
    {n : dmm_node} {msg : dmm_msg} (hn : st.node? node = some n) (hm : passed_to_node msg) :
    generic_switch env st node msg =
      if n.nd_type.rcvmsg then
        some ⟨none, (call_rcvmsg env st n.nd_type node msg).1, true,
          st.log (Ev.rcvmsg node msg)⟩
      else some ⟨none, EINVAL, false, st⟩ := by
  have hpass : PASS_MSG_TO_NODE env st node msg =
      if n.nd_type.rcvmsg then
        some ⟨none, (call_rcvmsg env st n.nd_type node msg).1, true,
          st.log (Ev.rcvmsg node msg)⟩
      else some ⟨none, EINVAL, false, st⟩ := by
    unfold PASS_MSG_TO_NODE
    simp only [hn, Option.bind_eq_bind, Option.some_bind]
    split
    · rw [call_rcvmsg_passive hp]
    · rfl
  obtain ⟨_, _, h | h⟩ := hm
  · unfold generic_switch
    simp [h.1, h.2, hpass, DMM_MSG_WAVEFINISH, DMM_MSG_NODECREATE, DMM_MSG_NODERM,
      DMM_MSG_NODECONNECT, DMM_MSG_NODEDISCONNECT, DMM_MSG_STARTUP, DMM_MSG_TIMERCREATE,
      DMM_MSG_TIMERSET, DMM_MSG_TIMERSUBSCRIBE, DMM_MSG_TIMERUNSUBSCRIBE, DMM_MSG_TIMERTRIGGER,
      DMM_MSG_TIMERRM, DMM_MSG_SOCKEVENTSUBSCRIBE, DMM_MSG_SOCKEVENTUNSUBSCRIBE,
      DMM_MSG_SOCKEVENTTRIGGER, DMM_MSG_WAVEFINISHSUBSCRIBE]
  · unfold generic_switch
    simp [h.1, h.2, hpass, DMM_MSG_WAVEFINISH, DMM_MSG_NODECREATE, DMM_MSG_NODERM,
      DMM_MSG_NODECONNECT, DMM_MSG_NODEDISCONNECT, DMM_MSG_STARTUP, DMM_MSG_TIMERCREATE,
      DMM_MSG_TIMERSET, DMM_MSG_TIMERSUBSCRIBE, DMM_MSG_TIMERUNSUBSCRIBE, DMM_MSG_TIMERTRIGGER,
      DMM_MSG_TIMERRM, DMM_MSG_SOCKEVENTSUBSCRIBE, DMM_MSG_SOCKEVENTUNSUBSCRIBE,
      DMM_MSG_SOCKEVENTTRIGGER, DMM_MSG_WAVEFINISHSUBSCRIBE]

/-- The function `dmm_msg_apply` on a valid node, for a message that the
dispatch hands to the node, with passive callbacks: the callback is called, or
the message is freed when the type has none, and the reference that came with
the call is released. -/
theorem dmm_msg_apply_passed {env : Env} (hp : env.Passive) (fuel : Nat) (st : State)
    (node : Ptr) (n : dmm_node) (msg : dmm_msg) (hn : st.node? node = some n)
    (hv : DMM_NODE_ISVALID n = true) (hr : 2 ≤ n.nd_refs) (hm : passed_to_node msg) :
    ∃ err, dmm_msg_apply env (fuel + 1) st node msg =
      some (err, (st.log (if n.nd_type.rcvmsg then Ev.rcvmsg node msg
        else Ev.msg_free msg)).setNode node { n with nd_refs := n.nd_refs - 1 }) := by
  unfold dmm_msg_apply
  simp only [hn, Option.bind_eq_bind, Option.some_bind, hv, Bool.not_true, Bool.false_eq_true,
    if_false, hm.1, hm.2.1, and_self, if_true]
  unfold dmm_msg_process_generic
  simp only [hm.1, ne_eq, not_true_eq_false, if_false, generic_switch_passed hp hn hm,
    Option.bind_eq_bind]
  by_cases hc : n.nd_type.rcvmsg = true
  · simp only [hc, if_true, Option.some_bind, Bool.not_true, Bool.false_eq_true, if_false]
    rw [dmm_node_unref_eq (n := n) (by simpa using hn) hr]
    exact ⟨_, rfl⟩
  · simp only [hc, Bool.false_eq_true, if_false, Option.some_bind, Bool.not_false, if_true,
      dmm_msg_free]
    rw [dmm_node_unref_eq (n := n) (by simpa using hn) hr]
    exact ⟨_, rfl⟩

theorem sendsubscribed_step_eq {env : Env} (hp : env.Passive) (fuel : Nat) {msg : dmm_msg}
    (hm : passed_to_node msg) (s : State) (q : Ptr) {n : dmm_node} (hn : s.node? q = some n)
    (hr : 0 < n.nd_refs ∧ n.nd_refs < DMM_REFNUM_MAX) :
    sendsubscribed_step env (fuel + 1) msg s q = some (delivery_step env msg s q) := by
  have hm' : ∀ p : Ptr, passed_to_node { msg with ptr := p } := fun _ => hm
  unfold sendsubscribed_step delivery_step
  simp only [hn, Option.bind_eq_bind, Option.some_bind]
  by_cases hv : DMM_NODE_ISVALID n = true
  · simp only [hv, Bool.not_true, Bool.false_eq_true, if_false, dmm_msg_copy, DMM_MALLOC]
    by_cases hmal : env.malloc_ok s.nalloc = true
    · simp only [hmal, if_true, Bool.not_true, Bool.false_eq_true, if_false]
      rw [dmm_node_ref_eq (n := n) (by simpa using hn) hr.2]
      simp only [Option.some_bind, dmm_msg_send_ref]
      obtain ⟨err, happ⟩ := dmm_msg_apply_passed hp fuel
        (s.bump.setNode q { n with nd_refs := n.nd_refs + 1 }) q
        { n with nd_refs := n.nd_refs + 1 } { msg with ptr := s.nalloc + 1 }
        (by simp) hv (by simp; omega) (hm' _)
      rw [happ]
      simp only [Option.some_bind, Nat.add_sub_cancel, setNode_log, setNode_setNode]
      have hst : (s.bump.setNode q n) = s.bump := setNode_stored (by simpa using hn)
      by_cases hc : n.nd_type.rcvmsg = true
      · simp only [hc, if_true]
        show some ((s.bump.setNode q n).log _) = _
        rw [hst]
      · simp only [hc, Bool.false_eq_true, if_false]
        show some ((s.bump.setNode q n).log _) = _
        rw [hst]
    · simp [hmal]
  · simp [hv]

/-- A delivery step changes the allocation counter and the log only. -/
theorem delivery_step_frame (env : Env) (msg : dmm_msg) (s : State) (q : Ptr) :
    ∃ a t, delivery_step env msg s q = s.relog a (t ++ s.trace) := by
  unfold delivery_step
  cases s.node? q with
  | none => exact ⟨s.nalloc, [], rfl⟩
  | some n =>
    simp only []
    split
    · exact ⟨s.nalloc, [], rfl⟩
    · split
      · exact ⟨s.nalloc + 1, [], rfl⟩
      · split
        · exact ⟨s.nalloc + 1, [_], rfl⟩
        · exact ⟨s.nalloc + 1, [_], rfl⟩

theorem foldl_delivery_frame (env : Env) (msg : dmm_msg) (l : List Ptr) :
    ∀ s : State, ∃ a t, l.foldl (delivery_step env msg) s = s.relog a (t ++ s.trace) := by
  induction l with
  | nil => intro s; exact ⟨s.nalloc, [], rfl⟩
  | cons q l ih =>
    intro s
    obtain ⟨a, t, h⟩ := delivery_step_frame env msg s q
    obtain ⟨a', t', h'⟩ := ih (delivery_step env msg s q)
    refine ⟨a', t' ++ t, ?_⟩
    rw [List.foldl_cons, h', h]
    simp [State.relog]

/-- The records still to be visited are linked when they are the tail of the
subscriber list of the event. -/
theorem subscribers_linked_of_tail {s : State} {p : Ptr} {e : dmm_event} {pre rest : List Ptr}
    (he : s.event? p = some e) (hl : pre ++ rest = e.ev_nodes) :
    subscribers_linked s p rest = true := by
  unfold subscribers_linked
  rw [he]
  simp only [← hl, List.length_append, Nat.add_sub_cancel, List.drop_left, beq_self_eq_true]

/-- The loop of `dmm_event_sendsubscribed` when the bodies keep the subscriber
list: one body after the other. -/
theorem sendsubscribed_walk_eq_fold {env : Env} {fuel : Nat} {msg : dmm_msg} {p : Ptr}
    {e : dmm_event}
    (hkeep : ∀ s q s', s.event? p = some e → sendsubscribed_step env fuel msg s q = some s' →
      s'.event? p = some e) :
    ∀ (l pre : List Ptr) (s : State), pre ++ l = e.ev_nodes → s.event? p = some e →
      sendsubscribed_walk env fuel msg p l s = l.foldlM (sendsubscribed_step env fuel msg) s := by
  intro l
  induction l with
  | nil => intro pre s _ _; rfl
  | cons q l ih =>
    intro pre s hl he
    rw [List.foldlM_cons]
    unfold sendsubscribed_walk
    cases hs : sendsubscribed_step env fuel msg s q with
    | none => rfl
    | some s' =>
      have he' := hkeep s q s' he hs
      simp only [Option.bind_eq_bind, Option.some_bind]
      by_cases hnil : l = []
      · subst hnil
        simp [List.foldlM]
      · have hl' : (pre ++ [q]) ++ l = e.ev_nodes := by simpa using hl
        simp only [hnil, if_false, subscribers_linked_of_tail he' hl', if_true]
        exact ih (pre ++ [q]) s' hl' he'

/-- The function `dmm_event_sendsubscribed` with passive callbacks: one
delivery step per subscriber, then the message is freed. -/
theorem dmm_event_sendsubscribed_eq {env : Env} (hp : env.Passive) (fuel : Nat) {msg : dmm_msg}
    (hm : passed_to_node msg) (st : State) (p : Ptr) (e : dmm_event)
    (he : st.event? p = some e)
    (hnodes : ∀ q ∈ e.ev_nodes, ∃ n, st.node? q = some n ∧
      (0 < n.nd_refs ∧ n.nd_refs < DMM_REFNUM_MAX)) :
    dmm_event_sendsubscribed env (fuel + 1) st p msg =
      some (dmm_msg_free (e.ev_nodes.foldl (delivery_step env msg) st) msg) := by
  have hwalk : ∀ (l pre : List Ptr) (s : State), pre ++ l = e.ev_nodes →
      (∀ x, s.node? x = st.node? x) → s.event? p = some e →
      (∀ q ∈ l, ∃ n, st.node? q = some n ∧ (0 < n.nd_refs ∧ n.nd_refs < DMM_REFNUM_MAX)) →
      sendsubscribed_walk env (fuel + 1) msg p l s =
        some (l.foldl (delivery_step env msg) s) := by
    intro l
    induction l with
    | nil => intro pre s _ _ _ _; rfl
    | cons q l ih =>
      intro pre s hpre hs hev hl
      obtain ⟨n, hn, hr⟩ := hl q (List.mem_cons_self _ _)
      obtain ⟨a, t, h⟩ := delivery_step_frame env msg s q
      have hev' : (delivery_step env msg s q).event? p = some e := by
        rw [h]; exact hev
      have hs' : ∀ x, (delivery_step env msg s q).node? x = st.node? x := by
        intro x
        rw [h]; exact hs x
      have hpre' : (pre ++ [q]) ++ l = e.ev_nodes := by simpa using hpre
      unfold sendsubscribed_walk
      rw [sendsubscribed_step_eq hp fuel hm s q (by rw [hs]; exact hn) hr]
      simp only [Option.bind_eq_bind, Option.some_bind, List.foldl_cons]
      by_cases hnil : l = []
      · subst hnil
        simp
      · simp only [hnil, if_false, subscribers_linked_of_tail hev' hpre', if_true]
        exact ih (pre ++ [q]) _ hpre' hs' hev' (fun x hx => hl x (List.mem_cons_of_mem _ hx))
  unfold dmm_event_sendsubscribed
  simp only [he, Option.bind_eq_bind, Option.some_bind,
    hwalk _ [] st rfl (fun _ => rfl) he hnodes]

/-- Every valid subscriber whose type has a `rcvmsg` callback receives a copy
of the message in a broadcast, when the copies can be allocated. -/
theorem foldl_delivery_mem (env : Env) (msg : dmm_msg) (hmal : ∀ k, env.malloc_ok k = true)
    (st : State) (q : Ptr) (n : dmm_node) (hn : st.node? q = some n)
    (hv : DMM_NODE_ISVALID n = true) (hc : n.nd_type.rcvmsg = true) :
    ∀ (l : List Ptr) (s : State), (∀ x, s.node? x = st.node? x) → q ∈ l →
      ∃ a, Ev.rcvmsg q { msg with ptr := a } ∈ (l.foldl (delivery_step env msg) s).trace := by
  intro l
  induction l with
  | nil => intro s _ h; cases h
  | cons x l ih =>
    intro s hs hq
    have hs' : ∀ y, (delivery_step env msg s x).node? y = st.node? y := by
      intro y
      obtain ⟨a, t, h⟩ := delivery_step_frame env msg s x
      rw [h]; exact hs y
    rw [List.foldl_cons]
    by_cases hx : q = x
    · subst hx
      obtain ⟨a, t, h⟩ := foldl_delivery_frame env msg l (delivery_step env msg s q)
      refine ⟨s.nalloc + 1, ?_⟩
      rw [h]
      apply List.mem_append_right
      unfold delivery_step
      simp [hs q, hn, hv, hmal, hc, State.log, State.bump]
    · exact ih _ hs' (by
        rcases List.mem_cons.1 hq with h | h
        · exact absurd h hx
        · exact h)

/-! ## Unsubscribing every subscriber of an event -/

theorem dmm_event_unsubscribe_eq (env : Env) {s : State} {p q : Ptr} {e : dmm_event}
    {n : dmm_node} (he : s.event? p = some e) (hq : q ∈ e.ev_nodes)
    (hn : s.node? q = some n) (hp : p ∈ n.nd_events) (hre : 2 ≤ e.ev_refs)
    (hrn : 2 ≤ n.nd_refs) :
    dmm_event_unsubscribe env s p q =
      some (0, (s.setEvent p { e with ev_nodes := e.ev_nodes.erase q,
                                      ev_refs := e.ev_refs - 1 }).setNode q
        { n with nd_events := n.nd_events.erase p, nd_refs := n.nd_refs - 1 }) := by
  unfold dmm_event_unsubscribe
  simp only [he, Option.bind_eq_bind, Option.some_bind, hq, not_true_eq_false, if_false, hn, hp]
  rw [dmm_event_unref_eq (x := { e with ev_nodes := e.ev_nodes.erase q }) (by simp) hre]
  simp only [Option.some_bind, setNode_setEvent, setEvent_setEvent]
  rw [dmm_node_unref_eq (n := { n with nd_events := n.nd_events.erase p }) (by simp) hrn]
  simp only [Option.some_bind, setNode_setNode]

theorem dmm_event_unsubscribeall_def (env : Env) (st : State) (p : Ptr) :
    dmm_event_unsubscribeall env st p =
      (st.event? p).bind (fun e => e.ev_nodes.foldlM (unsubscribe_step env p) st) := rfl

/-- The loop of `dmm_event_unsubscribeall` over a subscriber list without
repetition, when no reference count reaches zero: the event ends without
subscribers and with one reference less per subscriber, each subscriber loses
the event from its subscription list and one reference, and nothing else
changes. -/
theorem unsubscribeall_fold (env : Env) (p : Ptr) :
    ∀ (L : List Ptr) (s : State) (e : dmm_event),
      s.event? p = some e → e.ev_nodes = L → L.Nodup → L.length + 1 ≤ e.ev_refs →
      (∀ q ∈ L, ∃ n, s.node? q = some n ∧ p ∈ n.nd_events ∧ 2 ≤ n.nd_refs) →
      ∃ N : Ptr → Option dmm_node,
        L.foldlM (unsubscribe_step env p) s =
          some ((s.setEvent p
            { e with ev_nodes := [], ev_refs := e.ev_refs - L.length }).withNodes N) ∧
        (∀ q, N q = if q ∈ L then (s.node? q).map (fun n =>
          { n with nd_events := n.nd_events.erase p, nd_refs := n.nd_refs - 1 })
          else s.node? q) := by
  intro L
  induction L with
  | nil =>
    intro s e he hl _ _ _
    refine ⟨s.nodes, ?_, fun q => by simp [State.node?]⟩
    have : s.setEvent p { e with ev_nodes := [], ev_refs := e.ev_refs - 0 } = s := by
      rw [show ({ e with ev_nodes := [], ev_refs := e.ev_refs - 0 } : dmm_event) = e from by
        cases e; simp at hl; simp [hl]]
      exact setEvent_stored he
    simp only [List.length_nil, this]
    rfl
  | cons q L ih =>
    intro s e he hl hnd hrefs hnodes
    simp only [List.length_cons] at hrefs
    obtain ⟨n, hn, hpn, hrn⟩ := hnodes q (List.mem_cons_self _ _)
    have hqL : q ∉ L := (List.nodup_cons.1 hnd).1
    have hstep := dmm_event_unsubscribe_eq env he (by rw [hl]; exact List.mem_cons_self _ _)
      hn hpn (by omega) hrn
    have herase : e.ev_nodes.erase q = L := by rw [hl]; simp
    rw [herase] at hstep
    obtain ⟨N, hf, hN⟩ := ih
      ((s.setEvent p { e with ev_nodes := L, ev_refs := e.ev_refs - 1 }).setNode q
        { n with nd_events := n.nd_events.erase p, nd_refs := n.nd_refs - 1 })
      { e with ev_nodes := L, ev_refs := e.ev_refs - 1 }
      (by simp) rfl (List.nodup_cons.1 hnd).2 (by simp; omega)
      (fun x hx => by
        have hxq : x ≠ q := fun h => hqL (h ▸ hx)
        obtain ⟨m, hm, hpm, hrm⟩ := hnodes x (List.mem_cons_of_mem _ hx)
        exact ⟨m, by simp [node?_setNode_ne _ _ hxq, hm], hpm, hrm⟩)
    refine ⟨N, ?_, fun x => ?_⟩
    · rw [List.foldlM_cons]
      have h1 : unsubscribe_step env p s q = some
          ((s.setEvent p { e with ev_nodes := L, ev_refs := e.ev_refs - 1 }).setNode q
            { n with nd_events := n.nd_events.erase p, nd_refs := n.nd_refs - 1 }) := by
        unfold unsubscribe_step
        rw [hstep]; rfl
      rw [h1]
      simp only [Option.bind_eq_bind, Option.some_bind]
      rw [hf]
      simp only [setNode_setEvent, setEvent_setEvent, List.length_cons]
      have : e.ev_refs - 1 - L.length = e.ev_refs - (L.length + 1) := by omega
      rw [this]
      rfl
    · rw [hN x]
      by_cases hxq : x = q
      · subst hxq
        simp [hqL, hn]
      · by_cases hxL : x ∈ L
        · simp [hxL, hxq, node?_setNode_ne _ _ hxq]
        · simp [hxL, hxq, node?_setNode_ne _ _ hxq]

/-! ## Timers: flags, the order of `timespec`, reading the heap -/

theorem registered_testBit (t : dmm_timer) :
    DMM_TIMER_ISREGISTERED t = t.tm_flags.testBit 1 := by
  have h := Nat.and_two_pow t.tm_flags 1
  simp only [pow_one] at h
  unfold DMM_TIMER_ISREGISTERED DMM_TIMER_REGISTERED
  rw [h]
  cases t.tm_flags.testBit 1 <;> simp

theorem valid_testBit (t : dmm_timer) :
    DMM_TIMER_ISVALID t = !t.tm_flags.testBit 0 := by
  have h := Nat.and_two_pow t.tm_flags 0
  simp only [pow_zero] at h
  unfold DMM_TIMER_ISVALID DMM_TIMER_INVALID
  rw [h]
  cases t.tm_flags.testBit 0 <;> simp

theorem registered_set (t : dmm_timer) :
    DMM_TIMER_ISREGISTERED { t with tm_flags := t.tm_flags ||| DMM_TIMER_REGISTERED } = true := by
  rw [registered_testBit]
  simp only [Nat.testBit_or, DMM_TIMER_REGISTERED]
  have : (2 : Nat).testBit 1 = true := by decide
  simp [this]

theorem valid_set_registered (t : dmm_timer) :
    DMM_TIMER_ISVALID { t with tm_flags := t.tm_flags ||| DMM_TIMER_REGISTERED } =
      DMM_TIMER_ISVALID t := by
  rw [valid_testBit, valid_testBit]
  simp only [Nat.testBit_or, DMM_TIMER_REGISTERED]
  have : (2 : Nat).testBit 0 = false := by decide
  simp [this]

theorem registered_clear (t : dmm_timer) :
    DMM_TIMER_ISREGISTERED { t with tm_flags := t.tm_flags &&& NOT_BIT1 } = false := by
  rw [registered_testBit]
  simp only [Nat.testBit_and, NOT_BIT1]
  have : (4294967293 : Nat).testBit 1 = false := by decide
  simp [this]

theorem registered_set_invalid (t : dmm_timer) :
    DMM_TIMER_ISREGISTERED { t with tm_flags := t.tm_flags ||| DMM_TIMER_INVALID } =
      DMM_TIMER_ISREGISTERED t := by
  rw [registered_testBit, registered_testBit]
  simp only [Nat.testBit_or, DMM_TIMER_INVALID]
  have : (1 : Nat).testBit 1 = false := by decide
  simp [this]

/-- The order of the trigger queue is transitive: what is earlier than an
entry that `q` does not precede is not later than `q`. -/
theorem TIMESPEC_GT_trans {h x q : timespec} (h1 : TIMESPEC_GT h x = true)
    (h2 : TIMESPEC_GT h q = false) : TIMESPEC_GT x q = false := by
  unfold TIMESPEC_GT at *
  simp only [Bool.or_eq_true, decide_eq_true_eq, Bool.and_eq_true, beq_iff_eq, Bool.or_eq_false_iff,
    decide_eq_false_iff_not, Bool.and_eq_false_imp, not_lt] at *
  constructor
  · rcases h1 with h1 | ⟨h1, h1'⟩ <;> omega
  · intro hxq
    rcases h1 with h1 | ⟨h1, h1'⟩
    · omega
    · have := h2.2 (by omega)
      omega

theorem TIMESPEC_GT_irrefl (x : timespec) : TIMESPEC_GT x x = false := by
  unfold TIMESPEC_GT
  simp

/-- Not later than an entry that is not later than `q`. -/
theorem TIMESPEC_LE_trans {a b c : timespec} (h1 : TIMESPEC_GT a b = false)
    (h2 : TIMESPEC_GT b c = false) : TIMESPEC_GT a c = false := by
  unfold TIMESPEC_GT at *
  simp only [Bool.or_eq_false_iff, decide_eq_false_iff_not, Bool.and_eq_false_imp, beq_iff_eq,
    not_lt] at *
  constructor
  · omega
  · intro hac
    have hab : a.tv_sec = b.tv_sec := by omega
    have hbc : b.tv_sec = c.tv_sec := by omega
    have := h1.2 hab
    have := h2.2 hbc
    omega

theorem timer?_eq_some {st : State} {p : Ptr} {e : dmm_event} {t : dmm_timer} :
    st.timer? p = some (e, t) ↔ st.event? p = some e ∧ e.ext = .timer t := by
  unfold State.timer?
  cases h : st.event? p with
  | none => simp
  | some x =>
    cases hx : x.ext <;> simp [hx]
    · rintro rfl
      rw [hx]
      simp
    · rintro rfl; rw [hx]; simp
    · rintro rfl; rw [hx]; simp

theorem timer?_of_event_eq {s s' : State} {p : Ptr} (h : s'.event? p = s.event? p) :
    s'.timer? p = s.timer? p := by
  unfold State.timer?
  rw [h]

theorem timer?_setTimer_same (st : State) (p : Ptr) (e : dmm_event) (t : dmm_timer) :
    (st.setTimer p e t).timer? p = some ({ e with ext := .timer t }, t) := by
  unfold State.setTimer State.timer?
  simp

theorem next_of_congr {s s' : State} {p : Ptr} (h : s'.timer? p = s.timer? p) :
    next_of s' p = next_of s p := by
  unfold next_of
  rw [h]

theorem next_of_of_timer {s : State} {p : Ptr} {e : dmm_event} {t : dmm_timer}
    (h : s.timer? p = some (e, t)) : next_of s p = t.tm_next := by
  unfold next_of
  rw [h]

/-! ## The invariant of the trigger queue under changes of one timer -/

theorem armed_congr {s s' : State} {p : Ptr} (h : s'.timer? p = s.timer? p) :
    armed s' p ↔ armed s p := by
  unfold armed
  rw [h]

/-- The timer `T` has left the queue (or was not in it) and is not registered
any more (or is gone); nothing else changed. -/
theorem inv_update {s s' : State} (T : Ptr) (hI : timer_inv s)
    (hoff : ∀ p, p ≠ T → s'.event? p = s.event? p)
    (hq : s'.timer_trigger_list = s.timer_trigger_list.erase T)
    (hT : ∀ e t, s'.timer? T = some (e, t) →
      DMM_TIMER_ISREGISTERED t = false ∧ e.ev_nodes.length ≤ e.ev_refs)
    (hna : s.nalloc ≤ s'.nalloc) (hfr : s'.event? T = none ∨ T ≤ s'.nalloc) :
    timer_inv s' := by
  obtain ⟨⟨hs, hr, hqd⟩, ⟨hnd, hrf, hfresh⟩⟩ := hI
  have hmem : ∀ p, p ∈ s'.timer_trigger_list ↔ p ≠ T ∧ p ∈ s.timer_trigger_list := by
    intro p; rw [hq]; exact hnd.mem_erase_iff
  have htm : ∀ p, p ≠ T → s'.timer? p = s.timer? p := fun p hp => timer?_of_event_eq (hoff p hp)
  refine ⟨⟨?_, ?_, ?_⟩, ⟨?_, ?_, ?_⟩⟩
  · rw [hq]
    refine List.Pairwise.imp_of_mem ?_ (hs.sublist (List.erase_sublist _ _))
    intro a b ha hb hab
    have ha' := (hnd.mem_erase_iff.1 ha).1
    have hb' := (hnd.mem_erase_iff.1 hb).1
    rw [next_of_congr (htm a ha'), next_of_congr (htm b hb')]
    exact hab
  · intro p
    by_cases hp : p = T
    · subst hp
      constructor
      · rintro ⟨e, t, h1, h2⟩
        rw [(hT e t h1).1] at h2
        cases h2
      · intro h
        exact absurd rfl ((hmem p).1 h).1
    · rw [armed_congr (htm p hp), hr p, hmem p]
      exact ⟨fun h => ⟨hp, h⟩, fun h => h.2⟩
  · intro p hp
    obtain ⟨hpT, hps⟩ := (hmem p).1 hp
    rw [htm p hpT]
    exact hqd p hps
  · rw [hq]; exact hnd.sublist (List.erase_sublist _ _)
  · intro p e t hp
    by_cases hpT : p = T
    · subst hpT
      obtain ⟨h1, h2⟩ := hT e t hp
      simp only [h1, Bool.false_eq_true, if_false, Nat.add_zero]
      exact h2
    · rw [htm p hpT] at hp
      exact hrf p e t hp
  · intro p hp
    by_cases hpT : p = T
    · subst hpT
      rcases hfr with h | h
      · exact h
      · exact absurd h (Nat.not_le.2 hp)
    · rw [hoff p hpT]
      exact hfresh p (by omega)

/-- The timer `T` keeps its timer members and its place; only the members of
its event base changed, and its reference count still covers its subscriber
records and its place in the queue. -/
theorem inv_base {s s' : State} (T : Ptr) (hI : timer_inv s)
    (hoff : ∀ p, p ≠ T → s'.event? p = s.event? p)
    (hq : s'.timer_trigger_list = s.timer_trigger_list)
    (hT : (s'.timer? T).map Prod.snd = (s.timer? T).map Prod.snd)
    (hrefs : ∀ e t, s'.timer? T = some (e, t) →
      e.ev_nodes.length + (if DMM_TIMER_ISREGISTERED t then 1 else 0) ≤ e.ev_refs)
    (hna : s.nalloc ≤ s'.nalloc) (hfr : s'.event? T = none ∨ T ≤ s'.nalloc) :
    timer_inv s' := by
  obtain ⟨⟨hs, hr, hqd⟩, ⟨hnd, hrf, hfresh⟩⟩ := hI
  have htm : ∀ p, p ≠ T → s'.timer? p = s.timer? p := fun p hp => timer?_of_event_eq (hoff p hp)
  have hnext : ∀ p, next_of s' p = next_of s p := by
    intro p
    by_cases hp : p = T
    · subst hp
      unfold next_of
      cases h1 : s'.timer? p with
      | none =>
        rw [h1] at hT
        cases h2 : s.timer? p with
        | none => rfl
        | some x => rw [h2] at hT; cases hT
      | some x =>
        rw [h1] at hT
        cases h2 : s.timer? p with
        | none => rw [h2] at hT; cases hT
        | some y =>
          rw [h2] at hT
          simp only [Option.map_some', Option.some.injEq] at hT
          simp only [hT]
    · exact next_of_congr (htm p hp)
  have harm : ∀ p, armed s' p ↔ armed s p := by
    intro p
    by_cases hp : p = T
    · subst hp
      unfold armed
      constructor
      · rintro ⟨e, t, h1, h2⟩
        rw [h1] at hT
        cases h3 : s.timer? p with
        | none => rw [h3] at hT; cases hT
        | some y =>
          rw [h3] at hT
          simp only [Option.map_some', Option.some.injEq] at hT
          exact ⟨y.1, y.2, rfl, hT ▸ h2⟩
      · rintro ⟨e, t, h1, h2⟩
        rw [h1] at hT
        cases h3 : s'.timer? p with
        | none => rw [h3] at hT; cases hT
        | some y =>
          rw [h3] at hT
          simp only [Option.map_some', Option.some.injEq] at hT
          exact ⟨y.1, y.2, rfl, hT ▸ h2⟩
    · exact armed_congr (htm p hp)
  refine ⟨⟨?_, ?_, ?_⟩, ⟨?_, ?_, ?_⟩⟩
  · rw [hq]
    refine hs.imp ?_
    intro a b hab
    rw [hnext a, hnext b]
    exact hab
  · intro p
    rw [harm p, hr p, hq]
  · intro p hp
    rw [hq] at hp
    obtain ⟨e, t, h1, h2, h3⟩ := hqd p hp
    by_cases hpT : p = T
    · subst hpT
      rw [h1] at hT
      cases h4 : s'.timer? p with
      | none => rw [h4] at hT; cases hT
      | some y =>
        rw [h4] at hT
        simp only [Option.map_some', Option.some.injEq] at hT
        exact ⟨y.1, y.2, rfl, hT ▸ h2, hT ▸ h3⟩
    · rw [htm p hpT]
      exact ⟨e, t, h1, h2, h3⟩
  · rw [hq]; exact hnd
  · intro p e t hp
    by_cases hpT : p = T
    · subst hpT
      exact hrefs e t hp
    · rw [htm p hpT] at hp
      exact hrf p e t hp
  · intro p hp
    by_cases hpT : p = T
    · subst hpT
      rcases hfr with h | h
      · exact h
      · exact absurd h (Nat.not_le.2 hp)
    · rw [hoff p hpT]
      exact hfresh p (by omega)

/-- Nothing changed in the event heap and in the trigger queue. -/
theorem inv_frame {s s' : State} (hI : timer_inv s) (he : s'.events = s.events)
    (hq : s'.timer_trigger_list = s.timer_trigger_list) (hna : s.nalloc ≤ s'.nalloc) :
    timer_inv s' := by
  have hev : ∀ p, s'.event? p = s.event? p := fun p => by
    unfold State.event?; rw [he]
  refine inv_base 0 hI (fun p _ => hev p) hq (by rw [timer?_of_event_eq (hev 0)])
    (fun e t h => ?_) hna (Or.inr (Nat.zero_le _))
  rw [timer?_of_event_eq (hev 0)] at h
  exact hI.2.refs 0 e t h

/-- The function `trigger_insert` puts the timer after the entries that are
not later than `X` and before the first later one. -/
theorem trigger_insert_spec (st : State) (T : Ptr) (X : timespec) :
    ∀ l : List Ptr, (∀ p ∈ l, ∃ e t, st.timer? p = some (e, t)) →
      ∃ l1 l2, l = l1 ++ l2 ∧ trigger_insert st T X l = some (l1 ++ T :: l2) ∧
        (∀ p ∈ l1, TIMESPEC_GT (next_of st p) X = false) ∧
        (∀ q, l2.head? = some q → TIMESPEC_GT (next_of st q) X = true) := by
  intro l
  induction l with
  | nil =>
    intro _
    exact ⟨[], [], rfl, rfl, fun _ h => (by cases h), fun _ h => (by cases h)⟩
  | cons a l ih =>
    intro h
    obtain ⟨e, t, ha⟩ := h a (List.mem_cons_self _ _)
    unfold trigger_insert
    simp only [ha, Option.bind_eq_bind, Option.some_bind]
    by_cases hgt : TIMESPEC_GT t.tm_next X = true
    · refine ⟨[], a :: l, rfl, by simp [hgt], fun _ h => (by cases h), ?_⟩
      intro q hq
      simp only [List.head?_cons, Option.some.injEq] at hq
      subst hq
      rw [next_of_of_timer ha]
      exact hgt
    · obtain ⟨l1, l2, h1, h2, h3, h4⟩ := ih (fun p hp => h p (List.mem_cons_of_mem _ hp))
      refine ⟨a :: l1, l2, by rw [h1]; rfl, by simp [hgt, h2], ?_, h4⟩
      intro p hp
      rcases List.mem_cons.1 hp with rfl | hp
      · rw [next_of_of_timer ha]
        simpa using hgt
      · exact h3 p hp

/-- The timer `T`, which was not in the queue, has been registered: it is
valid with a non-zero `tm_next`, flagged, and linked where `trigger_insert`
puts it; nothing else changed. -/
theorem inv_register {s s' : State} (T : Ptr) (hI : timer_inv s)
    (hoff : ∀ p, p ≠ T → s'.event? p = s.event? p)
    (hTq : T ∉ s.timer_trigger_list)
    (e : dmm_event) (t : dmm_timer) (hT : s'.timer? T = some (e, t))
    (hreg : DMM_TIMER_ISREGISTERED t = true) (hv : DMM_TIMER_ISVALID t = true)
    (hz : TIMESPEC_ISZERO t.tm_next = false) (hrefs : e.ev_nodes.length + 1 ≤ e.ev_refs)
    (hins : trigger_insert s T t.tm_next s.timer_trigger_list = some s'.timer_trigger_list)
    (hna : s.nalloc ≤ s'.nalloc) (hfr : T ≤ s'.nalloc) :
    timer_inv s' := by
  obtain ⟨⟨hs, hr, hqd⟩, ⟨hnd, hrf, hfresh⟩⟩ := hI
  have htm : ∀ p, p ≠ T → s'.timer? p = s.timer? p := fun p hp => timer?_of_event_eq (hoff p hp)
  obtain ⟨l1, l2, hl, hins', hl1, hl2⟩ := trigger_insert_spec s T t.tm_next s.timer_trigger_list
    (fun p hp => by obtain ⟨e, t, h, _⟩ := hqd p hp; exact ⟨e, t, h⟩)
  rw [hins] at hins'
  have hq : s'.timer_trigger_list = l1 ++ T :: l2 := Option.some.inj hins'
  have hT1 : T ∉ l1 := fun h => hTq (by rw [hl]; exact List.mem_append_left _ h)
  have hT2 : T ∉ l2 := fun h => hTq (by rw [hl]; exact List.mem_append_right _ h)
  have hmem : ∀ p, p ∈ s'.timer_trigger_list ↔ p = T ∨ p ∈ s.timer_trigger_list := by
    intro p
    rw [hq, hl]
    simp only [List.mem_append, List.mem_cons]
    tauto
  have hne1 : ∀ p ∈ l1, p ≠ T := fun p hp h => hT1 (h ▸ hp)
  have hne2 : ∀ p ∈ l2, p ≠ T := fun p hp h => hT2 (h ▸ hp)
  have hnx : ∀ p, p ≠ T → next_of s' p = next_of s p := fun p hp => next_of_congr (htm p hp)
  have hnT : next_of s' T = t.tm_next := next_of_of_timer hT
  rw [hl] at hs
  obtain ⟨hs1, hs2, hs12⟩ := List.pairwise_append.1 hs
  refine ⟨⟨?_, ?_, ?_⟩, ⟨?_, ?_, ?_⟩⟩
  · rw [hq]
    refine List.pairwise_append.2 ⟨?_, ?_, ?_⟩
    · refine List.Pairwise.imp_of_mem ?_ hs1
      intro a b ha hb hab
      rw [hnx a (hne1 a ha), hnx b (hne1 b hb)]
      exact hab
    · refine List.pairwise_cons.2 ⟨?_, ?_⟩
      · intro q hq2
        rw [hnT, hnx q (hne2 q hq2)]
        cases l2 with
        | nil => cases hq2
        | cons h l2' =>
          have hh := hl2 h rfl
          rcases List.mem_cons.1 hq2 with rfl | hq3
          · exact TIMESPEC_GT_trans hh (TIMESPEC_GT_irrefl _)
          · exact TIMESPEC_GT_trans hh ((List.pairwise_cons.1 hs2).1 q hq3)
      · refine List.Pairwise.imp_of_mem ?_ hs2
        intro a b ha hb hab
        rw [hnx a (hne2 a ha), hnx b (hne2 b hb)]
        exact hab
    · intro a ha b hb
      rcases List.mem_cons.1 hb with rfl | hb
      · rw [hnT, hnx a (hne1 a ha)]
        exact hl1 a ha
      · rw [hnx a (hne1 a ha), hnx b (hne2 b hb)]
        exact hs12 a ha b hb
  · intro p
    by_cases hp : p = T
    · subst hp
      exact ⟨fun _ => (hmem p).2 (Or.inl rfl), fun _ => ⟨e, t, hT, hreg⟩⟩
    · rw [armed_congr (htm p hp), hr p, hmem p]
      exact ⟨fun h => Or.inr h, fun h => h.resolve_left hp⟩
  · intro p hp
    by_cases hpT : p = T
    · subst hpT
      exact ⟨e, t, hT, hv, hz⟩
    · rw [htm p hpT]
      exact hqd p (((hmem p).1 hp).resolve_left hpT)
  · rw [hq]
    refine List.nodup_middle.2 (List.nodup_cons.2 ⟨?_, ?_⟩)
    · intro h
      rcases List.mem_append.1 h with h | h
      · exact hT1 h
      · exact hT2 h
    · rw [← hl]; exact hnd
  · intro p e' t' hp
    by_cases hpT : p = T
    · subst hpT
      rw [hT] at hp
      cases hp
      simp only [hreg, if_true]
      exact hrefs
    · rw [htm p hpT] at hp
      exact hrf p e' t' hp
  · intro p hp
    by_cases hpT : p = T
    · subst hpT
      exact absurd hfr (Nat.not_le.2 hp)
    · rw [hoff p hpT]
      exact hfresh p (by omega)

/-! ## What leaves the event heap and the trigger queue alone -/

theorem tframe_refl (s : State) : tframe s s := ⟨rfl, rfl, Nat.le_refl _⟩

theorem tframe_bump (s : State) : tframe s s.bump := ⟨rfl, rfl, Nat.le_succ _⟩

theorem tframe_trans {a b c : State} (h1 : tframe a b) (h2 : tframe b c) : tframe a c :=
  ⟨h2.1.trans h1.1, h2.2.1.trans h1.2.1, Nat.le_trans h1.2.2 h2.2.2⟩

theorem tframe_event {s s' : State} (h : tframe s s') (p : Ptr) : s'.event? p = s.event? p := by
  unfold State.event?; rw [h.1]

theorem tframe_timer {s s' : State} (h : tframe s s') (p : Ptr) : s'.timer? p = s.timer? p :=
  timer?_of_event_eq (tframe_event h p)

theorem inv_tframe {s s' : State} (hI : timer_inv s) (h : tframe s s') : timer_inv s' :=
  inv_frame hI h.1 h.2.1 h.2.2

theorem dmm_node_ref_tframe {s s' : State} {p : Ptr} (h : dmm_node_ref s p = some s') :
    tframe s s' := by
  unfold dmm_node_ref at h
  cases hn : s.node? p with
  | none => simp [hn] at h
  | some n =>
    simp only [hn, Option.bind_eq_bind, Option.some_bind] at h
    cases hr : dmm_refacquire n.nd_refs with
    | none => simp [hr] at h
    | some r =>
      simp only [hr, Option.some_bind, Option.some.injEq] at h
      subst h
      exact ⟨rfl, rfl, Nat.le_refl _⟩

theorem call_dtor_tframe {env : Env} (hp : env.Passive) (s : State) (t : dmm_type) (p : Ptr) :
    tframe s (call_dtor env s t p) := by
  unfold call_dtor
  split
  · rw [hp.dtor]; exact ⟨rfl, rfl, Nat.le_refl _⟩
  · exact tframe_refl s

theorem dmm_node_unref_tframe {env : Env} (hp : env.Passive) {s s' : State} {p : Ptr}
    (h : dmm_node_unref env s p = some s') : tframe s s' := by
  unfold dmm_node_unref at h
  cases hn : s.node? p with
  | none => simp [hn] at h
  | some n =>
    simp only [hn, Option.bind_eq_bind, Option.some_bind] at h
    cases hr : dmm_refrelease n.nd_refs with
    | none => simp [hr] at h
    | some r =>
      obtain ⟨last, r⟩ := r
      simp only [hr, Option.some_bind] at h
      split at h
      · split at h
        · cases h
        · split at h
          · cases h
          · simp only [Option.some.injEq] at h
            subst h
            have := call_dtor_tframe hp
              ((s.setNode p { n with nd_refs := r }).setNode p
                { n with nd_refs := r, nd_flags := n.nd_flags ||| DMM_NODE_INVALID }) n.nd_type p
            exact ⟨this.1, this.2.1, this.2.2⟩
      · simp only [Option.some.injEq] at h
        subst h
        exact ⟨rfl, rfl, Nat.le_refl _⟩

theorem process_generic_passed_tframe {env : Env} (hp : env.Passive)
    (send_id : State → Nat → dmm_msg → Option (Int × State)) {s s' : State} {node : Ptr}
    {n : dmm_node} {msg : dmm_msg} {r : Int} (hn : s.node? node = some n)
    (hm : passed_to_node msg)
    (h : dmm_msg_process_generic env send_id s node msg = some (r, s')) : tframe s s' := by
  unfold dmm_msg_process_generic at h
  simp only [hm.1, ne_eq, not_true_eq_false, if_false, generic_switch_passed hp hn hm,
    Option.bind_eq_bind] at h
  by_cases hc : n.nd_type.rcvmsg = true
  · simp only [hc, if_true, Option.some_bind, Bool.not_true, Bool.false_eq_true, if_false,
      Option.some.injEq, Prod.mk.injEq] at h
    rw [← h.2]
    exact ⟨rfl, rfl, Nat.le_refl _⟩
  · have hc' : n.nd_type.rcvmsg = false := by simpa using hc
    simp only [hc', Bool.false_eq_true, if_false, Option.some_bind, Bool.not_false, if_true,
      Option.some.injEq, Prod.mk.injEq] at h
    rw [← h.2]
    exact ⟨rfl, rfl, Nat.le_refl _⟩

theorem dmm_msg_apply_passed_tframe {env : Env} (hp : env.Passive) {fuel : Nat} {s s' : State}
    {node : Ptr} {m : dmm_msg} {r : Int} (hm : passed_to_node m)
    (h : dmm_msg_apply env fuel s node m = some (r, s')) : tframe s s' := by
  cases fuel with
  | zero => simp [dmm_msg_apply] at h
  | succ fuel =>
    unfold dmm_msg_apply at h
    cases hn : s.node? node with
    | none => simp [hn] at h
    | some n =>
      simp only [hn, Option.bind_eq_bind, Option.some_bind] at h
      by_cases hv : DMM_NODE_ISVALID n = true
      · simp only [hv, Bool.not_true, Bool.false_eq_true, if_false, hm.1, hm.2.1, and_self,
          if_true] at h
        obtain ⟨⟨r1, s1⟩, h1, h2⟩ := Option.bind_eq_some.1 h
        have f1 := process_generic_passed_tframe hp _ hn hm h1
        obtain ⟨s2, h3, h4⟩ := Option.bind_eq_some.1 h2
        have f2 := dmm_node_unref_tframe hp h3
        simp only [Option.some.injEq, Prod.mk.injEq] at h4
        rw [← h4.2]
        exact tframe_trans f1 f2
      · simp only [hv, Bool.not_false, if_true] at h
        obtain ⟨s2, h3, h4⟩ := Option.bind_eq_some.1 h
        have f2 := dmm_node_unref_tframe hp h3
        simp only [Option.some.injEq, Prod.mk.injEq] at h4
        rw [← h4.2]
        exact tframe_trans ⟨rfl, rfl, Nat.le_refl _⟩ f2

theorem sendsubscribed_step_tframe {env : Env} (hp : env.Passive) {fuel : Nat} {msg : dmm_msg}
    (hm : passed_to_node msg) {s s' : State} {q : Ptr}
    (h : sendsubscribed_step env fuel msg s q = some s') : tframe s s' := by
  unfold sendsubscribed_step at h
  cases hn : s.node? q with
  | none => simp [hn] at h
  | some n =>
    simp only [hn, Option.bind_eq_bind, Option.some_bind] at h
    split at h
    · simp only [Option.some.injEq] at h
      subst h
      exact tframe_refl _
    · unfold dmm_msg_copy DMM_MALLOC at h
      by_cases hmal : env.malloc_ok s.nalloc = true
      · simp only [hmal, if_true] at h
        obtain ⟨s1, h1, h2⟩ := Option.bind_eq_some.1 h
        obtain ⟨⟨r, s2⟩, h3, h4⟩ := Option.bind_eq_some.1 h2
        simp only [Option.some.injEq] at h4
        subst h4
        have f1 := dmm_node_ref_tframe h1
        have f2 := dmm_msg_apply_passed_tframe hp (m := { msg with ptr := s.nalloc + 1 }) hm h3
        exact tframe_trans (tframe_trans (tframe_bump s) f1) f2
      · simp only [hmal, Bool.false_eq_true, if_false, Option.some.injEq] at h
        subst h
        exact ⟨rfl, rfl, Nat.le_succ _⟩

theorem foldlM_tframe {α : Type} {f : State → α → Option State}
    (hf : ∀ s a s', f s a = some s' → tframe s s') :
    ∀ (l : List α) (s s' : State), l.foldlM f s = some s' → tframe s s' := by
  intro l
  induction l with
  | nil =>
    intro s s' h
    simp only [List.foldlM, pure, Option.some.injEq] at h
    subst h
    exact tframe_refl _
  | cons a l ih =>
    intro s s' h
    simp only [List.foldlM, bind, Option.bind_eq_some] at h
    obtain ⟨s1, h1, h2⟩ := h
    exact tframe_trans (hf s a s1 h1) (ih s1 s' h2)

theorem sendsubscribed_walk_tframe {env : Env} {fuel : Nat} {msg : dmm_msg} {p : Ptr}
    (hf : ∀ s a s', sendsubscribed_step env fuel msg s a = some s' → tframe s s') :
    ∀ (l : List Ptr) (s s' : State), sendsubscribed_walk env fuel msg p l s = some s' →
      tframe s s' := by
  intro l
  induction l with
  | nil =>
    intro s s' h
    simp only [sendsubscribed_walk, Option.some.injEq] at h
    subst h
    exact tframe_refl _
  | cons a l ih =>
    intro s s' h
    unfold sendsubscribed_walk at h
    obtain ⟨s1, h1, h2⟩ := Option.bind_eq_some.1 h
    split at h2
    · simp only [Option.some.injEq] at h2
      subst h2
      exact hf s a s1 h1
    · split at h2
      · exact tframe_trans (hf s a s1 h1) (ih s1 s' h2)
      · cases h2

theorem dmm_event_sendsubscribed_tframe {env : Env} (hp : env.Passive) {fuel : Nat}
    {msg : dmm_msg} (hm : passed_to_node msg) {s s' : State} {p : Ptr}
    (h : dmm_event_sendsubscribed env fuel s p msg = some s') : tframe s s' := by
  unfold dmm_event_sendsubscribed at h
  obtain ⟨e, _, h1⟩ := Option.bind_eq_some.1 h
  obtain ⟨s1, h2, h3⟩ := Option.bind_eq_some.1 h1
  simp only [Option.some.injEq] at h3
  subst h3
  have f := sendsubscribed_walk_tframe (fun s a s' h => sendsubscribed_step_tframe hp hm h) _ _ _ h2
  exact tframe_trans f ⟨rfl, rfl, Nat.le_refl _⟩

/-- The function `dmm_timer_trigger` on a valid timer, with passive callbacks,
changes no event and not the queue. -/
theorem dmm_timer_trigger_tframe {env : Env} (hp : env.Passive) {fuel : Nat} {s s' : State}
    {T : Ptr} {e : dmm_event} {t : dmm_timer} {r : Int} (hT : s.timer? T = some (e, t))
    (hv : DMM_TIMER_ISVALID t = true)
    (h : dmm_timer_trigger env fuel s T = some (r, s')) : tframe s s' := by
  unfold dmm_timer_trigger at h
  simp only [hT, Option.bind_eq_bind, Option.some_bind, hv, Bool.not_true, Bool.false_eq_true,
    if_false] at h
  unfold dmm_msg_create DMM_MALLOC at h
  by_cases hmal : env.malloc_ok s.nalloc = true
  · simp only [hmal, if_true] at h
    obtain ⟨s1, h1, h2⟩ := Option.bind_eq_some.1 h
    simp only [Option.some.injEq, Prod.mk.injEq] at h2
    rw [← h2.2]
    have hm : passed_to_node
        { ptr := s.nalloc + 1, cm_src := 0, cm_cmd := DMM_MSG_TIMERTRIGGER,
          cm_type := DMM_MSGTYPE_GENERIC, cm_token := 0, cm_flags := 0,
          cm_len := sizeof_timertrigger, cm_data := .timertrigger e.ev_id } :=
      ⟨rfl, by show (0 : Nat) &&& DMM_MSG_RESP = 0; decide, Or.inr ⟨rfl, rfl⟩⟩
    exact tframe_trans (tframe_bump s) (dmm_event_sendsubscribed_tframe hp hm h1)
  · simp only [hmal, Bool.false_eq_true, if_false, Option.some.injEq, Prod.mk.injEq] at h
    rw [← h.2]
    exact ⟨rfl, rfl, Nat.le_succ _⟩

/-! ## References to events, read backwards from the result -/

theorem dmm_event_ref_some {s s' : State} {T : Ptr} (h : dmm_event_ref s T = some s') :
    ∃ e, s.event? T = some e ∧ s' = s.setEvent T { e with ev_refs := e.ev_refs + 1 } := by
  unfold dmm_event_ref at h
  cases he : s.event? T with
  | none => simp [he] at h
  | some e =>
    simp only [he, Option.bind_eq_bind, Option.some_bind] at h
    unfold dmm_refacquire at h
    split at h
    · simp only [Option.some_bind, Option.some.injEq] at h
      exact ⟨e, rfl, h.symm⟩
    · simp at h

theorem dmm_event_unref_cases {s s' : State} {T : Ptr} (h : dmm_event_unref s T = some s') :
    ∃ e, s.event? T = some e ∧ 0 < e.ev_refs ∧
      ((1 < e.ev_refs ∧ s' = s.setEvent T { e with ev_refs := e.ev_refs - 1 }) ∨
       (e.ev_refs = 1 ∧ e.ev_nodes = [] ∧ s'.event? T = none ∧
        (∀ p, p ≠ T → s'.event? p = s.event? p) ∧
        s'.timer_trigger_list = s.timer_trigger_list ∧ s'.nalloc = s.nalloc ∧
        s'.nodes = s.nodes ∧ s'.hooks = s.hooks)) := by
  unfold dmm_event_unref at h
  cases he : s.event? T with
  | none => simp [he] at h
  | some e =>
    simp only [he, Option.bind_eq_bind, Option.some_bind] at h
    unfold dmm_refrelease at h
    by_cases hr : e.ev_refs > 0
    · simp only [hr, if_true, Option.some_bind, beq_iff_eq] at h
      refine ⟨e, rfl, hr, ?_⟩
      by_cases h1 : e.ev_refs - 1 = 0
      · right
        simp only [h1, if_true] at h
        by_cases hn : e.ev_nodes = []
        · simp only [hn, ne_eq, not_true_eq_false, if_false] at h
          refine ⟨by omega, hn, ?_⟩
          cases hd : e.ev_destructor with
          | none => simp [hd] at h
          | some d =>
            cases d with
            | timer_destructor =>
              simp only [hd, timer_destructor, Option.some.injEq] at h
              subst h
              refine ⟨by simp [State.event?, State.delEvent, State.log], fun p hp => ?_,
                rfl, rfl, rfl, rfl⟩
              simp [State.event?, State.delEvent, State.log, State.setEvent,
                Function.update_noteq hp]
            | sockevent_destructor =>
              simp only [hd, sockevent_destructor, event?_setEvent_same, Option.bind_eq_bind,
                Option.some_bind] at h
              cases hx : e.ext with
              | sockevent x =>
                simp only [hx] at h
                split at h
                · cases h
                · simp only [Option.some.injEq] at h
                  subst h
                  unfold epoll_ctl_del
                  split
                  · refine ⟨by simp [State.event?, State.delEvent, State.log], fun p hp => ?_,
                      rfl, rfl, rfl, rfl⟩
                    simp [State.event?, State.delEvent, State.log, State.setEvent,
                      Function.update_noteq hp]
                  · refine ⟨by simp [State.event?, State.delEvent, State.log], fun p hp => ?_,
                      rfl, rfl, rfl, rfl⟩
                    simp [State.event?, State.delEvent, State.log, State.setEvent,
                      Function.update_noteq hp]
              | timer x => simp [hx] at h
              | wavefinish x => simp [hx] at h
            | wavefinish_destructor =>
              simp only [hd, wavefinish_destructor, Option.some.injEq] at h
              subst h
              refine ⟨by simp [State.event?, State.delEvent, State.log], fun p hp => ?_,
                rfl, rfl, rfl, rfl⟩
              simp [State.event?, State.delEvent, State.log, State.setEvent,
                Function.update_noteq hp]
        · simp [hn] at h
      · left
        simp only [h1, if_false, Option.some.injEq, Bool.false_eq_true] at h
        exact ⟨by omega, h.symm⟩
    · simp [hr] at h

theorem timer?_setEvent_ne (s : State) {T p : Ptr} (e : dmm_event) (hp : p ≠ T) :
    (s.setEvent T e).timer? p = s.timer? p :=
  timer?_of_event_eq (event?_setEvent_ne _ _ hp)

theorem timer?_setEvent_timer (s : State) (T : Ptr) {e : dmm_event} {t : dmm_timer}
    (h : e.ext = .timer t) : (s.setEvent T e).timer? T = some (e, t) :=
  timer?_eq_some.2 ⟨by simp, h⟩

theorem timer?_map_setEvent {s : State} {T : Ptr} {e e' : dmm_event}
    (he : s.event? T = some e) (hx : e'.ext = e.ext) :
    ((s.setEvent T e').timer? T).map Prod.snd = (s.timer? T).map Prod.snd := by
  unfold State.timer?
  simp only [event?_setEvent_same, he, Option.bind_eq_bind, Option.some_bind, hx]
  cases e.ext <;> rfl

theorem le_nalloc_of_event {s : State} (hI : timer_inv s) {T : Ptr} {e : dmm_event}
    (he : s.event? T = some e) : T ≤ s.nalloc := by
  by_contra h
  have := hI.2.fresh T (Nat.lt_of_not_le h)
  rw [he] at this
  cases this

theorem not_mem_queue_of_not_armed {s : State} (hI : timer_inv s) {T : Ptr}
    (h : ∀ e t, s.timer? T = some (e, t) → DMM_TIMER_ISREGISTERED t = false) :
    T ∉ s.timer_trigger_list := by
  intro hm
  obtain ⟨e, t, h1, h2⟩ := (hI.1.registered T).2 hm
  rw [h e t h1] at h2
  cases h2

/-- The event at `T` is replaced by one with the same enclosing struct and a
reference count that covers its subscriber records and its place in the
queue. -/
theorem inv_setEvent {s : State} (hI : timer_inv s) {T : Ptr} {e e' : dmm_event}
    (he : s.event? T = some e) (hx : e'.ext = e.ext)
    (hr : ∀ t, e.ext = .timer t →
      e'.ev_nodes.length + (if DMM_TIMER_ISREGISTERED t then 1 else 0) ≤ e'.ev_refs) :
    timer_inv (s.setEvent T e') := by
  refine inv_base T hI (fun p hp => event?_setEvent_ne _ _ hp) rfl
    (timer?_map_setEvent he hx) ?_ (Nat.le_refl _) (Or.inr (le_nalloc_of_event hI he))
  intro e1 t1 h1
  obtain ⟨h2, h3⟩ := timer?_eq_some.1 h1
  simp only [event?_setEvent_same, Option.some.injEq] at h2
  subst h2
  exact hr t1 (hx ▸ h3)

theorem ref_inv {s s' : State} {T : Ptr} (hI : timer_inv s) (h : dmm_event_ref s T = some s') :
    timer_inv s' := by
  obtain ⟨e, he, rfl⟩ := dmm_event_ref_some h
  refine inv_setEvent hI he rfl (fun t ht => ?_)
  have := hI.2.refs T e t (timer?_eq_some.2 ⟨he, ht⟩)
  simp only []
  omega

/-- Releasing a reference of `T` that is neither the one of its place in the
queue nor one of a subscriber record keeps the invariant. -/
theorem unref_inv {s s' : State} {T : Ptr} (hI : timer_inv s)
    (hr : ∀ e t, s.timer? T = some (e, t) →
      e.ev_nodes.length + (if DMM_TIMER_ISREGISTERED t then 1 else 0) + 1 ≤ e.ev_refs)
    (h : dmm_event_unref s T = some s') : timer_inv s' := by
  obtain ⟨e, he, hpos, h1 | h1⟩ := dmm_event_unref_cases h
  · obtain ⟨_, rfl⟩ := h1
    refine inv_setEvent hI he rfl (fun t ht => ?_)
    have := hr e t (timer?_eq_some.2 ⟨he, ht⟩)
    simp only []
    omega
  · obtain ⟨h1, _, h3, h4, h5, h6, _, _⟩ := h1
    have hna : T ∉ s.timer_trigger_list := by
      refine not_mem_queue_of_not_armed hI (fun e1 t1 ht => ?_)
      have := hr e1 t1 ht
      obtain ⟨h7, _⟩ := timer?_eq_some.1 ht
      rw [he] at h7
      cases h7
      by_contra hc
      simp only [Bool.not_eq_false] at hc
      simp only [hc, if_true] at this
      omega
    refine inv_update T hI h4 (by rw [h5, List.erase_of_not_mem hna]) ?_ (by omega) (Or.inl h3)
    intro e1 t1 ht
    obtain ⟨h7, _⟩ := timer?_eq_some.1 ht
    rw [h3] at h7
    cases h7

/-! ## Registering and deregistering a timer -/

/-- What `dmm_timer_deregister` does with a registered timer: it leaves the
queue, loses the flag and one reference, and is freed when that was the last
one. -/
theorem deregister_effect {s s1 : State} {T : Ptr} {e : dmm_event} {t : dmm_timer}
    (hT : s.timer? T = some (e, t)) (hreg : DMM_TIMER_ISREGISTERED t = true)
    (h : dmm_timer_deregister s T = some s1) :
    (∀ p, p ≠ T → s1.event? p = s.event? p) ∧
    s1.timer_trigger_list = s.timer_trigger_list.erase T ∧ s1.nalloc = s.nalloc ∧
    0 < e.ev_refs ∧
    ((s1.event? T = none ∧ e.ev_refs = 1) ∨
     (1 < e.ev_refs ∧ s1.event? T = some
        { e with ext := .timer { t with tm_flags := t.tm_flags &&& NOT_BIT1 },
                 ev_refs := e.ev_refs - 1 })) := by
  unfold dmm_timer_deregister at h
  simp only [hT, Option.bind_eq_bind, Option.some_bind, hreg, Bool.not_true, Bool.false_eq_true,
    if_false] at h
  obtain ⟨e1, he1, hpos, h1 | h1⟩ := dmm_event_unref_cases h
  · obtain ⟨h2, rfl⟩ := h1
    simp only [State.setTimer, event?_setEvent_same, Option.some.injEq] at he1
    subst he1
    refine ⟨fun p hp => ?_, rfl, rfl, hpos, Or.inr ⟨h2, by simp⟩⟩
    simp [State.event?, State.setEvent, State.setTimer, Function.update_noteq hp]
  · obtain ⟨h2, _, h3, h4, h5, h6, _, _⟩ := h1
    simp only [State.setTimer, event?_setEvent_same, Option.some.injEq] at he1
    subst he1
    refine ⟨fun p hp => ?_, h5, h6, hpos, Or.inl ⟨h3, h2⟩⟩
    rw [h4 p hp]
    simp [State.event?, State.setEvent, State.setTimer, Function.update_noteq hp]

theorem register_effect {s s' : State} {T : Ptr} {e : dmm_event} {t : dmm_timer}
    (hT : s.timer? T = some (e, t)) (h : dmm_timer_register s T = some s') :
    (DMM_TIMER_ISVALID t = false ∧ s' = s) ∨
    (DMM_TIMER_ISVALID t = true ∧ TIMESPEC_ISZERO t.tm_next = false ∧
      DMM_TIMER_ISREGISTERED t = false ∧
      trigger_insert s T t.tm_next s.timer_trigger_list = some s'.timer_trigger_list ∧
      (∀ p, p ≠ T → s'.event? p = s.event? p) ∧ s'.nalloc = s.nalloc ∧
      s'.event? T = some
        { e with ext := .timer { t with tm_flags := t.tm_flags ||| DMM_TIMER_REGISTERED },
                 ev_refs := e.ev_refs + 1 }) := by
  unfold dmm_timer_register at h
  simp only [hT, Option.bind_eq_bind, Option.some_bind] at h
  by_cases hv : DMM_TIMER_ISVALID t = true
  · right
    simp only [hv, Bool.not_true, Bool.false_eq_true, if_false] at h
    by_cases hz : TIMESPEC_ISZERO t.tm_next = true
    · simp [hz] at h
    · simp only [hz, if_false] at h
      by_cases hr : DMM_TIMER_ISREGISTERED t = true
      · simp [hr] at h
      · simp only [hr, if_false] at h
        obtain ⟨l, hl, h1⟩ := Option.bind_eq_some.1 h
        obtain ⟨e1, he1, rfl⟩ := dmm_event_ref_some h1
        simp only [State.setTimer, event?_setEvent_same, Option.some.injEq] at he1
        subst he1
        refine ⟨hv, by simpa using hz, by simpa using hr, hl, fun p hp => ?_, rfl, by simp⟩
        simp [State.event?, State.setEvent, State.setTimer, Function.update_noteq hp]
  · left
    have hv' : DMM_TIMER_ISVALID t = false := by simpa using hv
    simp only [hv', Bool.not_false, if_true, Option.some.injEq] at h
    exact ⟨hv', h.symm⟩

/-- Registering a timer that is not registered keeps the invariant. -/
theorem register_inv {s s' : State} {T : Ptr} {e : dmm_event} {t : dmm_timer}
    (hI : timer_inv s) (hT : s.timer? T = some (e, t))
    (hnr : DMM_TIMER_ISREGISTERED t = false) (h : dmm_timer_register s T = some s') :
    timer_inv s' := by
  rcases register_effect hT h with ⟨_, rfl⟩ | ⟨hv, hz, _, hins, hoff, hna, he'⟩
  · exact hI
  · have hTq : T ∉ s.timer_trigger_list :=
      not_mem_queue_of_not_armed hI (fun e1 t1 h1 => by rw [hT] at h1; cases h1; exact hnr)
    have hrf := hI.2.refs T e t hT
    simp only [hnr, Bool.false_eq_true, if_false, Nat.add_zero] at hrf
    refine inv_register T hI hoff hTq _ _ (timer?_eq_some.2 ⟨he', rfl⟩) (registered_set t)
      ((valid_set_registered t).trans hv) hz (by simp only []; omega) hins (by omega) ?_
    rw [hna]
    exact le_nalloc_of_event hI (timer?_eq_some.1 hT).1

/-- The timer `T` of a state with the invariant has had its timer members
other than the registered flag rewritten (leaving a state `a`), and is then
taken out of the queue when it is registered: the invariant holds again. -/
theorem deregister_upd {s a s1 : State} {T : Ptr} {e ea : dmm_event} {t ta : dmm_timer}
    (hI : timer_inv s) (hT : s.timer? T = some (e, t))
    (hoff : ∀ p, p ≠ T → a.event? p = s.event? p)
    (hq : a.timer_trigger_list = s.timer_trigger_list) (hna : a.nalloc = s.nalloc)
    (hTa : a.timer? T = some (ea, ta))
    (hfl : DMM_TIMER_ISREGISTERED ta = DMM_TIMER_ISREGISTERED t)
    (hrefs : ea.ev_nodes.length + (if DMM_TIMER_ISREGISTERED t then 1 else 0) ≤ ea.ev_refs)
    (h : (if DMM_TIMER_ISREGISTERED ta then dmm_timer_deregister a T else some a) = some s1) :
    timer_inv s1 ∧ (∀ p, p ≠ T → s1.event? p = s.event? p) ∧ s1.nalloc = s.nalloc ∧
    (s1.event? T = none ∨
      ∃ f, s1.event? T = some
          { ea with ext := .timer { ta with tm_flags := f },
                    ev_refs := ea.ev_refs - (if DMM_TIMER_ISREGISTERED t then 1 else 0) } ∧
        DMM_TIMER_ISREGISTERED { ta with tm_flags := f } = false ∧
        DMM_TIMER_ISVALID { ta with tm_flags := f } = DMM_TIMER_ISVALID ta) := by
  by_cases hreg : DMM_TIMER_ISREGISTERED ta = true
  · simp only [hreg, if_true] at h
    obtain ⟨h1, h2, h3, h4, h5⟩ := deregister_effect hTa hreg h
    have hreg' : DMM_TIMER_ISREGISTERED t = true := hfl ▸ hreg
    simp only [hreg', if_true] at hrefs ⊢
    have hoff' : ∀ p, p ≠ T → s1.event? p = s.event? p := fun p hp => by
      rw [h1 p hp, hoff p hp]
    have hvalid : DMM_TIMER_ISVALID { ta with tm_flags := ta.tm_flags &&& NOT_BIT1 } =
        DMM_TIMER_ISVALID ta := by
      rw [valid_testBit, valid_testBit]
      simp only [Nat.testBit_and, NOT_BIT1]
      have : (4294967293 : Nat).testBit 0 = true := by decide
      simp [this]
    refine ⟨?_, hoff', by rw [h3, hna], ?_⟩
    · refine inv_update T hI hoff' (by rw [h2, hq]) ?_ (by rw [h3, hna]) ?_
      · intro e1 t1 ht1
        obtain ⟨h6, h7⟩ := timer?_eq_some.1 ht1
        rcases h5 with ⟨h5, _⟩ | ⟨h5, h5'⟩
        · rw [h5] at h6; cases h6
        · rw [h5'] at h6
          cases h6
          simp only [event_ext.timer.injEq] at h7
          subst h7
          exact ⟨registered_clear ta, by simp only []; omega⟩
      · right
        rw [h3, hna]
        exact le_nalloc_of_event hI (timer?_eq_some.1 hT).1
    · rcases h5 with ⟨h5, _⟩ | ⟨_, h5'⟩
      · exact Or.inl h5
      · exact Or.inr ⟨_, h5', registered_clear ta, hvalid⟩
  · have hreg0 : DMM_TIMER_ISREGISTERED ta = false := by simpa using hreg
    have hreg' : DMM_TIMER_ISREGISTERED t = false := hfl ▸ hreg0
    simp only [hreg0, Bool.false_eq_true, if_false, Option.some.injEq] at h
    subst h
    simp only [hreg', Bool.false_eq_true, if_false, Nat.add_zero, Nat.sub_zero] at hrefs ⊢
    have hTq : T ∉ s.timer_trigger_list :=
      not_mem_queue_of_not_armed hI (fun e1 t1 h1 => by rw [hT] at h1; cases h1; exact hreg')
    refine ⟨?_, hoff, hna, Or.inr ⟨ta.tm_flags, ?_, hreg0, rfl⟩⟩
    · refine inv_update T hI hoff (by rw [hq, List.erase_of_not_mem hTq]) ?_ (by rw [hna]) ?_
      · intro e1 t1 ht1
        rw [hTa] at ht1
        cases ht1
        exact ⟨hreg0, hrefs⟩
      · right
        rw [hna]
        exact le_nalloc_of_event hI (timer?_eq_some.1 hT).1
    · obtain ⟨h6, h7⟩ := timer?_eq_some.1 hTa
      rw [h6]
      congr 1
      cases ea
      simp only [] at h7 ⊢
      rw [h7]

/-! ## The calls of the timer interface keep the invariant -/

theorem timer_refs_of_inv {s : State} (hI : timer_inv s) {T : Ptr} {e : dmm_event}
    {t : dmm_timer} (hT : s.timer? T = some (e, t)) :
    e.ev_nodes.length + (if DMM_TIMER_ISREGISTERED t then 1 else 0) ≤ e.ev_refs :=
  hI.2.refs T e t hT

theorem unset_inv {s s' : State} {T : Ptr} (hI : timer_inv s)
    (h : dmm_timer_unset s T = some s') : timer_inv s' := by
  unfold dmm_timer_unset at h
  cases hT : s.timer? T with
  | none => simp [hT] at h
  | some x =>
    obtain ⟨e, t⟩ := x
    simp only [hT, Option.bind_eq_bind, Option.some_bind] at h
    exact (deregister_upd hI hT (fun _ _ => rfl) rfl rfl hT rfl (timer_refs_of_inv hI hT) h).1

/-- The first part of `dmm_timer_set` (up to the re-registration), with a
working clock: it fails and changes nothing, or it rewrites `tm_next` and
`tm_interval` of the timer. -/
theorem timer_set_members {s : State} {T : Ptr} {next interval : timespec} {flags : Nat}
    (hc : s.clock_errno = 0) {r : Option Int} {sa : State}
    (h : (if TIMESPEC_ISZERO next then
      if TIMESPEC_ISZERO interval then some (some EINVAL, s)
      else do
        let r : Option (Option Int × State) :=
          if flags &&& DMM_TIMERSET_CHANGEINTERVALONLY = 0 then
            match clock_gettime s with
            | .error e => some (some e, s)
            | .ok now => do
              let (e, t) ← s.timer? T
              some (none, s.setTimer T e { t with tm_next := TIMESPEC_INC now interval })
          else some (none, s)
        match (← r) with
        | (some err, st) => some (some err, st)
        | (none, st) =>
          let (e, t) ← st.timer? T
          some (none, st.setTimer T e { t with tm_interval := interval })
    else do
      let (e, t) ← s.timer? T
      let st := s.setTimer T e { t with tm_next := next }
      let r : Option (Option Int × State) :=
        if flags &&& DMM_TIMERSET_ABS = 0 then
          match clock_gettime st with
          | .error e => some (some e, st)
          | .ok now => do
            let (e, t) ← st.timer? T
            some (none, st.setTimer T e { t with tm_next := TIMESPEC_INC t.tm_next now })
        else some (none, st)
      match (← r) with
      | (some err, st) => some (some err, st)
      | (none, st) =>
        let (e, t) ← st.timer? T
        some (none, st.setTimer T e { t with tm_interval := interval })) = some (r, sa)) :
    (r ≠ none ∧ sa = s) ∨
    (r = none ∧ ∃ e t ta, s.timer? T = some (e, t) ∧ ta.tm_flags = t.tm_flags ∧
      sa = s.setTimer T e ta) := by
  have hclk : ∀ st : State, st.clock_errno = 0 → clock_gettime st = .ok st.realtime := by
    intro st h0
    unfold clock_gettime
    simp [h0]
  by_cases hz : TIMESPEC_ISZERO next = true
  · simp only [hz, if_true] at h
    by_cases hi : TIMESPEC_ISZERO interval = true
    · simp only [hi, if_true, Option.some.injEq, Prod.mk.injEq] at h
      exact Or.inl ⟨by rw [← h.1]; simp, h.2.symm⟩
    · simp only [hi, Bool.false_eq_true, if_false] at h
      cases hT : s.timer? T with
      | none =>
        by_cases hf : flags &&& DMM_TIMERSET_CHANGEINTERVALONLY = 0
        · simp [hf, hclk s hc, hT] at h
        · simp [hf, hT] at h
      | some x =>
        obtain ⟨e, t⟩ := x
        right
        by_cases hf : flags &&& DMM_TIMERSET_CHANGEINTERVALONLY = 0
        · simp only [hf, if_true, hclk s hc, hT, Option.bind_eq_bind, Option.some_bind,
            timer?_setTimer_same, Option.some.injEq, Prod.mk.injEq] at h
          refine ⟨h.1.symm, e, t, ⟨t.tm_flags, TIMESPEC_INC s.realtime interval, interval⟩, rfl, rfl, ?_⟩
          rw [← h.2]
          simp only [State.setTimer, setEvent_setEvent]
        · simp only [hf, if_false, hT, Option.bind_eq_bind, Option.some_bind,
            Option.some.injEq, Prod.mk.injEq] at h
          exact ⟨h.1.symm, e, t, { t with tm_interval := interval }, rfl, rfl, h.2.symm⟩
  · simp only [hz, Bool.false_eq_true, if_false] at h
    cases hT : s.timer? T with
    | none => simp [hT] at h
    | some x =>
      obtain ⟨e, t⟩ := x
      right
      have hc' : (s.setTimer T e { t with tm_next := next }).clock_errno = 0 := hc
      by_cases hf : flags &&& DMM_TIMERSET_ABS = 0
      · simp only [hf, if_true, hclk _ hc', hT, Option.bind_eq_bind, Option.some_bind,
          timer?_setTimer_same, Option.some.injEq, Prod.mk.injEq] at h
        refine ⟨h.1.symm, e, t, ⟨t.tm_flags, TIMESPEC_INC next s.realtime, interval⟩, rfl, rfl, ?_⟩
        rw [← h.2]
        simp only [State.setTimer, setEvent_setEvent]
        rfl
      · simp only [hf, if_false, hT, Option.bind_eq_bind, Option.some_bind,
          timer?_setTimer_same, Option.some.injEq, Prod.mk.injEq] at h
        refine ⟨h.1.symm, e, t, ⟨t.tm_flags, next, interval⟩, rfl, rfl, ?_⟩
        rw [← h.2]
        simp only [State.setTimer, setEvent_setEvent]

theorem set_inv {s s' : State} {T : Ptr} {next interval : timespec} {flags : Nat} {err : Int}
    (hI : timer_inv s) (hc : s.clock_errno = 0)
    (h : dmm_timer_set s T next interval flags = some (err, s')) : timer_inv s' := by
  unfold dmm_timer_set at h
  obtain ⟨⟨r, sa⟩, h1, h2⟩ := Option.bind_eq_some.1 h
  rcases timer_set_members hc h1 with ⟨hr, rfl⟩ | ⟨rfl, e, t, ta, hT, hfl, rfl⟩
  · cases r with
    | none => exact absurd rfl hr
    | some x =>
      simp only [Option.some.injEq, Prod.mk.injEq] at h2
      rw [← h2.2]
      exact hI
  · simp only [timer?_setTimer_same, Option.bind_eq_bind, Option.some_bind] at h2
    have hex : ∃ s1, (if DMM_TIMER_ISREGISTERED ta then dmm_timer_deregister (s.setTimer T e ta) T
        else some (s.setTimer T e ta)) = some s1 ∧ dmm_timer_register s1 T = some s' := by
      by_cases hr : DMM_TIMER_ISREGISTERED ta = true
      · simp only [hr, if_true] at h2 ⊢
        obtain ⟨s1, h3, h4⟩ := Option.bind_eq_some.1 h2
        obtain ⟨s2, h5, h6⟩ := Option.bind_eq_some.1 h4
        simp only [Option.some.injEq, Prod.mk.injEq] at h6
        exact ⟨s1, h3, h6.2 ▸ h5⟩
      · simp only [hr, Bool.false_eq_true, if_false] at h2 ⊢
        obtain ⟨s2, h5, h6⟩ := Option.bind_eq_some.1 h2
        simp only [Option.some.injEq, Prod.mk.injEq] at h6
        exact ⟨_, rfl, h6.2 ▸ h5⟩
    obtain ⟨s1, h3, h5⟩ := hex
    have hreg : DMM_TIMER_ISREGISTERED ta = DMM_TIMER_ISREGISTERED t := by
      unfold DMM_TIMER_ISREGISTERED
      rw [hfl]
    obtain ⟨hI1, _, _, hT1⟩ := deregister_upd (a := s.setTimer T e ta) hI hT
      (fun p hp => by simp [State.setTimer, event?_setEvent_ne _ _ hp]) rfl rfl
      (timer?_setTimer_same s T e ta) hreg
      (by have := timer_refs_of_inv hI hT; exact this) h3
    rcases hT1 with hT1 | ⟨f, hT1, hnr, _⟩
    · unfold dmm_timer_register at h5
      simp [State.timer?, hT1] at h5
    · exact register_inv hI1 (timer?_eq_some.2 ⟨hT1, rfl⟩) hnr h5

/-! ## Creating a timer, subscribing and unsubscribing -/

theorem create_inv {env : Env} {s s' : State} {r : Int × Option Ptr} (hI : timer_inv s)
    (h : dmm_timer_create env s = some (r, s')) : timer_inv s' := by
  unfold dmm_timer_create DMM_MALLOC at h
  by_cases hmal : env.malloc_ok s.nalloc = true
  · simp only [hmal, if_true] at h
    simp [dmm_event_init, dmm_event_ref, dmm_refacquire, dmm_refinit, State.event?,
      State.setEvent, State.bump, DMM_REFNUM_MAX] at h
    have hp : s.nalloc + 1 ∉ s.timer_trigger_list := by
      intro hm
      obtain ⟨e, t, h1, _⟩ := hI.1.queued _ hm
      have := hI.2.fresh (s.nalloc + 1) (Nat.lt_succ_self _)
      rw [(timer?_eq_some.1 h1).1] at this
      cases this
    rw [← h.2]
    refine inv_update (s.nalloc + 1) hI (fun p hp => ?_) ?_ ?_ ?_ (Or.inr ?_)
    · simp [State.event?, State.setEvent, State.bump, Function.update_noteq hp]
    · show s.timer_trigger_list = _
      rw [List.erase_of_not_mem hp]
    · intro e t ht
      obtain ⟨h1, h2⟩ := timer?_eq_some.1 ht
      simp only [State.event?, State.setEvent, State.bump, Function.update_same,
        Option.some.injEq] at h1
      subst h1
      simp only [event_ext.timer.injEq] at h2
      subst h2
      exact ⟨by decide, Nat.zero_le _⟩
    · exact Nat.le_succ _
    · exact Nat.le_refl _
  · simp only [hmal, Bool.false_eq_true, if_false, Option.some.injEq, Prod.mk.injEq] at h
    rw [← h.2]
    exact inv_tframe hI (tframe_bump s)

theorem dmm_node_ref_events {s s' : State} {p : Ptr} (h : dmm_node_ref s p = some s') :
    ∀ q, s'.event? q = s.event? q := fun q => tframe_event (dmm_node_ref_tframe h) q

/-- What `dmm_event_subscribe` does to the event heap: nothing when an
allocation fails, else the event gets one more subscriber record and one more
reference. -/
theorem subscribe_effect {env : Env} {s s' : State} {T node : Ptr} {err : Int}
    (h : dmm_event_subscribe env s T node = some (err, s')) :
    tframe s s' ∨
    (∃ e, s.event? T = some e ∧ (∀ p, p ≠ T → s'.event? p = s.event? p) ∧
      s'.event? T = some { e with ev_nodes := e.ev_nodes ++ [node], ev_refs := e.ev_refs + 1 } ∧
      s'.timer_trigger_list = s.timer_trigger_list ∧ s.nalloc ≤ s'.nalloc) := by
  unfold dmm_event_subscribe DMM_MALLOC at h
  by_cases hm1 : env.malloc_ok s.nalloc = true
  · simp only [hm1, if_true] at h
    by_cases hm2 : env.malloc_ok s.bump.nalloc = true
    · simp only [hm2, if_true] at h
      right
      obtain ⟨e, he, h1⟩ := Option.bind_eq_some.1 h
      obtain ⟨s2, h2, h3⟩ := Option.bind_eq_some.1 h1
      obtain ⟨n, hn, h4⟩ := Option.bind_eq_some.1 h3
      obtain ⟨s4, h5, h6⟩ := Option.bind_eq_some.1 h4
      simp only [Option.some.injEq, Prod.mk.injEq] at h6
      obtain ⟨e3, he3, rfl⟩ := dmm_event_ref_some h5
      have f2 := dmm_node_ref_tframe h2
      have hev : ∀ q, (s2.setNode node { n with nd_events := T :: n.nd_events }).event? q =
          (s.bump.bump.setEvent T { e with ev_nodes := e.ev_nodes ++ [node] }).event? q :=
        fun q => by rw [event?_setNode]; exact tframe_event f2 q
      rw [hev T, event?_setEvent_same] at he3
      cases he3
      rw [← h6.2]
      refine ⟨e, he, fun p hp => ?_, by simp, ?_, ?_⟩
      · rw [event?_setEvent_ne _ _ hp, hev p, event?_setEvent_ne _ _ hp]
        rfl
      · show s2.timer_trigger_list = _
        rw [f2.2.1]
        rfl
      · show s.nalloc ≤ s2.nalloc
        have := f2.2.2
        simp only [nalloc_setEvent, nalloc_bump] at this
        omega
    · simp only [hm2, Bool.false_eq_true, if_false, Option.some.injEq, Prod.mk.injEq] at h
      rw [← h.2]
      exact Or.inl (tframe_trans (tframe_bump s) (tframe_bump _))
  · simp only [hm1, Bool.false_eq_true, if_false, Option.some.injEq, Prod.mk.injEq] at h
    rw [← h.2]
    exact Or.inl (tframe_bump s)

theorem event_subscribe_inv {env : Env} {s s' : State} {T node : Ptr} {err : Int}
    (hI : timer_inv s) (h : dmm_event_subscribe env s T node = some (err, s')) :
    timer_inv s' := by
  rcases subscribe_effect h with hf | ⟨e, he, hoff, hT, hq, hna⟩
  · exact inv_tframe hI hf
  · refine inv_base T hI hoff hq ?_ ?_ hna (Or.inr ?_)
    · unfold State.timer?
      rw [hT, he]
      simp only [Option.bind_eq_bind, Option.some_bind]
      cases e.ext <;> rfl
    · intro e1 t1 h1
      obtain ⟨h2, h3⟩ := timer?_eq_some.1 h1
      rw [hT] at h2
      cases h2
      have := hI.2.refs T e t1 (timer?_eq_some.2 ⟨he, h3⟩)
      simp only [List.length_append, List.length_singleton]
      omega
    · exact Nat.le_trans (le_nalloc_of_event hI he) hna

theorem subscribe_inv {env : Env} {s s' : State} {T node : Ptr} {err : Int}
    (hI : timer_inv s) (h : dmm_timer_subscribe env s T node = some (err, s')) :
    timer_inv s' := by
  unfold dmm_timer_subscribe at h
  obtain ⟨n, hn, h1⟩ := Option.bind_eq_some.1 h
  split at h1
  · simp only [Option.some.injEq, Prod.mk.injEq] at h1
    rw [← h1.2]; exact hI
  · obtain ⟨⟨e0, t0⟩, hx, h2⟩ := Option.bind_eq_some.1 h1
    by_cases hv : DMM_TIMER_ISVALID t0 = true
    · simp only [hv, Bool.not_true, Bool.false_eq_true, if_false] at h2
      unfold dmm_event_checkedsubscribe at h2
      obtain ⟨b, hb, h3⟩ := Option.bind_eq_some.1 h2
      cases b with
      | true =>
        simp only [if_true, Option.some.injEq, Prod.mk.injEq] at h3
        rw [← h3.2]; exact hI
      | false =>
        simp only [Bool.false_eq_true, if_false] at h3
        exact event_subscribe_inv hI h3
    · simp only [hv, Bool.not_false, if_true, Option.some.injEq, Prod.mk.injEq] at h2
      rw [← h2.2]; exact hI

/-- What `dmm_event_unsubscribe` does to the event heap, with passive
callbacks. -/
theorem unsubscribe_effect {env : Env} (hp : env.Passive) {s s' : State} {T node : Ptr}
    {err : Int} (h : dmm_event_unsubscribe env s T node = some (err, s')) :
    ∃ e, s.event? T = some e ∧
      ((node ∉ e.ev_nodes ∧ s' = s) ∨
       (node ∈ e.ev_nodes ∧ (∀ p, p ≠ T → s'.event? p = s.event? p) ∧
        s'.timer_trigger_list = s.timer_trigger_list ∧ s.nalloc ≤ s'.nalloc ∧ 0 < e.ev_refs ∧
        ((e.ev_refs = 1 ∧ s'.event? T = none) ∨
         (1 < e.ev_refs ∧ s'.event? T = some
            { e with ev_nodes := e.ev_nodes.erase node, ev_refs := e.ev_refs - 1 })))) := by
  unfold dmm_event_unsubscribe at h
  obtain ⟨e, he, h1⟩ := Option.bind_eq_some.1 h
  refine ⟨e, he, ?_⟩
  by_cases hmem : node ∈ e.ev_nodes
  · right
    simp only [hmem, not_true_eq_false, if_false] at h1
    obtain ⟨n, hn, h2⟩ := Option.bind_eq_some.1 h1
    split at h2
    · cases h2
    · obtain ⟨s2, h3, h4⟩ := Option.bind_eq_some.1 h2
      obtain ⟨s3, h5, h6⟩ := Option.bind_eq_some.1 h4
      simp only [Option.some.injEq, Prod.mk.injEq] at h6
      rw [← h6.2]
      have f3 := dmm_node_unref_tframe hp h5
      obtain ⟨e1, he1, hpos, hc | hc⟩ := dmm_event_unref_cases h3
      · obtain ⟨hc1, rfl⟩ := hc
        simp only [event?_setNode, event?_setEvent_same, Option.some.injEq] at he1
        subst he1
        refine ⟨hmem, fun p hp => ?_, ?_, ?_, hpos, Or.inr ⟨hc1, ?_⟩⟩
        · rw [tframe_event f3, event?_setEvent_ne _ _ hp, event?_setNode,
            event?_setEvent_ne _ _ hp]
        · rw [f3.2.1]; rfl
        · exact f3.2.2
        · rw [tframe_event f3, event?_setEvent_same]
      · obtain ⟨hc1, _, hc3, hc4, hc5, hc6, _, _⟩ := hc
        simp only [event?_setNode, event?_setEvent_same, Option.some.injEq] at he1
        subst he1
        refine ⟨hmem, fun p hp => ?_, ?_, ?_, hpos, Or.inl ⟨hc1, ?_⟩⟩
        · rw [tframe_event f3, hc4 p hp, event?_setNode, event?_setEvent_ne _ _ hp]
        · rw [f3.2.1, hc5]; rfl
        · have := f3.2.2
          rw [hc6] at this
          exact this
        · rw [tframe_event f3, hc3]
  · left
    simp only [hmem, not_false_eq_true, if_true, Option.some.injEq, Prod.mk.injEq] at h1
    exact ⟨hmem, h1.2.symm⟩

theorem unsubscribe_inv {env : Env} (hp : env.Passive) {s s' : State} {T node : Ptr}
    {err : Int} (hI : timer_inv s)
    (h : dmm_event_unsubscribe env s T node = some (err, s')) : timer_inv s' := by
  obtain ⟨e, he, ⟨_, rfl⟩ | ⟨hmem, hoff, hq, hna, hpos, hc⟩⟩ := unsubscribe_effect hp h
  · exact hI
  · have hlen : (e.ev_nodes.erase node).length + 1 = e.ev_nodes.length := by
      rw [List.length_erase_of_mem hmem]
      have : 0 < e.ev_nodes.length := List.length_pos_of_mem hmem
      omega
    rcases hc with ⟨h1, hT⟩ | ⟨h1, hT⟩
    · have hnq : T ∉ s.timer_trigger_list := by
        refine not_mem_queue_of_not_armed hI (fun e1 t1 ht => ?_)
        have := hI.2.refs T e1 t1 ht
        obtain ⟨h7, _⟩ := timer?_eq_some.1 ht
        rw [he] at h7
        cases h7
        by_contra hc
        simp only [Bool.not_eq_false] at hc
        simp only [hc, if_true] at this
        omega
      refine inv_update T hI hoff (by rw [hq, List.erase_of_not_mem hnq]) ?_ hna (Or.inl hT)
      intro e1 t1 ht
      obtain ⟨h7, _⟩ := timer?_eq_some.1 ht
      rw [hT] at h7
      cases h7
    · refine inv_base T hI hoff hq ?_ ?_ hna (Or.inr ?_)
      · unfold State.timer?
        rw [hT, he]
        simp only [Option.bind_eq_bind, Option.some_bind]
        cases e.ext <;> rfl
      · intro e1 t1 ht
        obtain ⟨h2, h3⟩ := timer?_eq_some.1 ht
        rw [hT] at h2
        cases h2
        have := hI.2.refs T e t1 (timer?_eq_some.2 ⟨he, h3⟩)
        simp only []
        omega
      · exact Nat.le_trans (le_nalloc_of_event hI he) hna

/-! ## Removing a timer, and the trigger pass -/

theorem not_armed_of_not_mem {s : State} (hI : timer_inv s) {T : Ptr}
    (h : T ∉ s.timer_trigger_list) {e : dmm_event} {t : dmm_timer}
    (hT : s.timer? T = some (e, t)) : DMM_TIMER_ISREGISTERED t = false := by
  by_contra hc
  simp only [Bool.not_eq_false] at hc
  exact h ((hI.1.registered T).1 ⟨e, t, hT, hc⟩)

/-- The loop of `dmm_event_unsubscribeall` on a timer that is not in the
queue: the invariant is kept, and the timer is gone or has no subscriber
record left. -/
theorem unsubscribeall_fold_inv {env : Env} (hp : env.Passive) (T : Ptr) :
    ∀ (L : List Ptr) (s s' : State), timer_inv s → T ∉ s.timer_trigger_list →
      (s.event? T = none ∨ ∃ e, s.event? T = some e ∧ e.ev_nodes = L) →
      L.foldlM (unsubscribe_step env T) s = some s' →
      timer_inv s' ∧ T ∉ s'.timer_trigger_list ∧
        (s'.event? T = none ∨ ∃ e, s'.event? T = some e ∧ e.ev_nodes = []) := by
  intro L
  induction L with
  | nil =>
    intro s s' hI hq hT h
    simp only [List.foldlM, pure, Option.some.injEq] at h
    subst h
    exact ⟨hI, hq, hT⟩
  | cons nd L ih =>
    intro s s' hI hq hT h
    simp only [List.foldlM, bind, Option.bind_eq_some] at h
    obtain ⟨s1, h1, h2⟩ := h
    unfold unsubscribe_step at h1
    obtain ⟨⟨err, s1'⟩, h3, h4⟩ := Option.bind_eq_some.1 h1
    simp only [Option.some.injEq] at h4
    subst h4
    have hI1 := unsubscribe_inv hp hI h3
    obtain ⟨e, he, ⟨hnm, _⟩ | ⟨hmem, hoff, hq1, hna, hpos, hc⟩⟩ := unsubscribe_effect hp h3
    · rcases hT with hT | ⟨e0, he0, hL⟩
      · rw [hT] at he; cases he
      · rw [he0] at he
        cases he
        rw [hL] at hnm
        exact absurd (List.mem_cons_self _ _) hnm
    · have hq1' : T ∉ s1'.timer_trigger_list := by rw [hq1]; exact hq
      refine ih s1' s' hI1 hq1' ?_ h2
      rcases hc with ⟨_, hT1⟩ | ⟨_, hT1⟩
      · exact Or.inl hT1
      · right
        refine ⟨_, hT1, ?_⟩
        rcases hT with hT | ⟨e0, he0, hL⟩
        · rw [hT] at he; cases he
        · rw [he0] at he
          cases he
          simp only [hL, List.erase_cons_head]

theorem rm_inv {env : Env} (hp : env.Passive) {s s' : State} {T : Ptr} (hI : timer_inv s)
    (h : dmm_timer_rm env s T = some s') : timer_inv s' := by
  unfold dmm_timer_rm at h
  obtain ⟨⟨e, t⟩, hT, h1⟩ := Option.bind_eq_some.1 h
  simp only [] at h1
  have hex : ∃ s1 s2,
      (if DMM_TIMER_ISREGISTERED { t with tm_flags := t.tm_flags ||| DMM_TIMER_INVALID } then
        dmm_timer_deregister
          (s.setTimer T e { t with tm_flags := t.tm_flags ||| DMM_TIMER_INVALID }) T
        else some (s.setTimer T e { t with tm_flags := t.tm_flags ||| DMM_TIMER_INVALID })) =
        some s1 ∧
      dmm_event_unsubscribeall env s1 T = some s2 ∧
      dmm_event_unref { s2 with timerlist := s2.timerlist.erase T } T = some s' := by
    by_cases hr : DMM_TIMER_ISREGISTERED
        { t with tm_flags := t.tm_flags ||| DMM_TIMER_INVALID } = true
    · simp only [hr, if_true] at h1 ⊢
      obtain ⟨s1, h2, h3⟩ := Option.bind_eq_some.1 h1
      obtain ⟨s2, h4, h5⟩ := Option.bind_eq_some.1 h3
      exact ⟨s1, s2, h2, h4, h5⟩
    · simp only [hr, Bool.false_eq_true, if_false] at h1 ⊢
      obtain ⟨s1, h2, h3⟩ := Option.bind_eq_some.1 h1
      obtain ⟨s2, h4, h5⟩ := Option.bind_eq_some.1 h3
      exact ⟨s1, s2, h2, h4, h5⟩
  obtain ⟨s1, s2, h2, h4, h5⟩ := hex
  obtain ⟨hI1, _, _, hT1⟩ := deregister_upd
    (a := s.setTimer T e { t with tm_flags := t.tm_flags ||| DMM_TIMER_INVALID }) hI hT
    (fun p hp => by simp [State.setTimer, event?_setEvent_ne _ _ hp]) rfl rfl
    (timer?_setTimer_same s T e _) (registered_set_invalid t)
    (by have := timer_refs_of_inv hI hT; exact this) h2
  have hq1 : T ∉ s1.timer_trigger_list := by
    refine not_mem_queue_of_not_armed hI1 (fun e1 t1 ht => ?_)
    rcases hT1 with hT1 | ⟨f, hT1, hnr, _⟩
    · rw [(timer?_eq_some.1 ht).1] at hT1; cases hT1
    · obtain ⟨h6, h7⟩ := timer?_eq_some.1 ht
      rw [hT1] at h6
      cases h6
      simp only [event_ext.timer.injEq] at h7
      subst h7
      exact hnr
  rw [dmm_event_unsubscribeall_def] at h4
  obtain ⟨e1, he1, h6⟩ := Option.bind_eq_some.1 h4
  obtain ⟨hI2, hq2, hT2⟩ := unsubscribeall_fold_inv hp T e1.ev_nodes s1 s2 hI1 hq1
    (Or.inr ⟨e1, he1, rfl⟩) h6
  have hI3 : timer_inv { s2 with timerlist := s2.timerlist.erase T } :=
    inv_tframe hI2 ⟨rfl, rfl, Nat.le_refl _⟩
  refine unref_inv hI3 ?_ h5
  intro e3 t3 ht3
  obtain ⟨e4, he4, hpos, _⟩ := dmm_event_unref_cases h5
  have hev : ({ s2 with timerlist := s2.timerlist.erase T } : State).event? T = s2.event? T := rfl
  obtain ⟨h7, h8⟩ := timer?_eq_some.1 ht3
  rw [he4] at h7
  cases h7
  have hnr : DMM_TIMER_ISREGISTERED t3 = false :=
    not_armed_of_not_mem hI2 hq2 (timer?_eq_some.2 ⟨hev ▸ he4, h8⟩)
  rcases hT2 with hT2 | ⟨e5, he5, hn5⟩
  · rw [hev, hT2] at he4; cases he4
  · rw [hev, he5] at he4
    cases he4
    simp only [hn5, List.length_nil, hnr, Bool.false_eq_true, if_false]
    omega

theorem list_next_mem {l : List Ptr} {p : Ptr} {x : Option Ptr} (h : list_next l p = some x) :
    p ∈ l := by
  induction l with
  | nil => cases h
  | cons a rest ih =>
    unfold list_next at h
    by_cases ha : a = p
    · subst ha; exact List.mem_cons_self _ _
    · simp only [ha, if_false] at h
      exact List.mem_cons_of_mem _ (ih h)

/-- The body of the loop of `dmm_timers_trigger`, for a timer of the queue,
with passive callbacks, keeps the invariant. -/
theorem trigger_body_inv {env : Env} (hp : env.Passive) {fuel : Nat} {s s' : State} {T : Ptr}
    (hI : timer_inv s) (hq : T ∈ s.timer_trigger_list)
    (h : timers_trigger_body env fuel s T = some s') : timer_inv s' := by
  obtain ⟨e, t, hT, hv, _⟩ := hI.1.queued T hq
  obtain ⟨e', t', hT', hreg⟩ := (hI.1.registered T).2 hq
  rw [hT] at hT'
  cases hT'
  have hrefs := timer_refs_of_inv hI hT
  simp only [hreg, if_true] at hrefs
  unfold timers_trigger_body at h
  obtain ⟨s1, h1, h2⟩ := Option.bind_eq_some.1 h
  obtain ⟨⟨r, s2⟩, h3, h4⟩ := Option.bind_eq_some.1 h2
  obtain ⟨⟨e2, t2⟩, hT2, h5⟩ := Option.bind_eq_some.1 h4
  simp only [] at h5
  -- the reference of the loop
  obtain ⟨e0, he0, rfl⟩ := dmm_event_ref_some h1
  rw [(timer?_eq_some.1 hT).1] at he0
  cases he0
  have hI1 := ref_inv hI h1
  have hT1 : (s.setEvent T { e with ev_refs := e.ev_refs + 1 }).timer? T =
      some ({ e with ev_refs := e.ev_refs + 1 }, t) :=
    timer?_setEvent_timer s T (timer?_eq_some.1 hT).2
  -- the broadcast
  have f2 := dmm_timer_trigger_tframe hp hT1 hv h3
  have hI2 := inv_tframe hI1 f2
  rw [tframe_timer f2, hT1] at hT2
  cases hT2
  have hT2 : s2.timer? T = some ({ e with ev_refs := e.ev_refs + 1 }, t) := by
    rw [tframe_timer f2]; exact hT1
  simp only [hv, if_true] at h5
  obtain ⟨s3, h8, h9⟩ := Option.bind_eq_some.1 h5
  obtain ⟨⟨e3, t3⟩, hT3, h10⟩ := Option.bind_eq_some.1 h9
  simp only [] at h10
  -- the timer leaves the queue
  have h8' : (if DMM_TIMER_ISREGISTERED t then dmm_timer_deregister s2 T else some s2) =
      some s3 := by
    simp only [hreg, if_true]; exact h8
  obtain ⟨hI3, _, hna3, hE3⟩ := deregister_upd (a := s2) hI2 hT2 (fun _ _ => rfl) rfl rfl hT2 rfl
    (by simp only [hreg, if_true]; omega) h8'
  rcases hE3 with hE3 | ⟨f, hE3, hnr3, hv3⟩
  · rw [(timer?_eq_some.1 hT3).1] at hE3; cases hE3
  · obtain ⟨h11, h12⟩ := timer?_eq_some.1 hT3
    rw [hE3] at h11
    cases h11
    simp only [event_ext.timer.injEq] at h12
    subst h12
    simp only [hreg, if_true, Nat.add_sub_cancel] at hE3 hT3 h10
    have hq3 : T ∉ s3.timer_trigger_list :=
      not_mem_queue_of_not_armed hI3 (fun e1 t1 ht => by
        rw [hT3] at ht; cases ht; exact hnr3)
    by_cases hz : TIMESPEC_ISZERO t.tm_interval = true
    · -- one-shot: the timer stays out of the queue
      simp only [hz, Bool.not_true, Bool.false_eq_true, if_false, Option.some_bind,
        Option.bind_eq_bind] at h10
      have h7 := h10
      refine unref_inv hI3 (fun e1 t1 ht => ?_) h7
      rw [hT3] at ht
      cases ht
      simp only [hnr3, Bool.false_eq_true, if_false]
      omega
    · -- periodic: `tm_next` advances and the timer is registered again
      simp only [hz, Bool.not_false, if_true] at h10
      obtain ⟨s5, h10, h7⟩ := Option.bind_eq_some.1 h10
      have hI4 : timer_inv (s3.setTimer T
          { e with ext := .timer { t with tm_flags := f }, ev_refs := e.ev_refs }
          ⟨f, TIMESPEC_INC t.tm_next t.tm_interval, t.tm_interval⟩) := by
        refine inv_update T hI3 (fun p hp => by simp [State.setTimer, event?_setEvent_ne _ _ hp])
          (by show s3.timer_trigger_list = _; rw [List.erase_of_not_mem hq3]) ?_ (Nat.le_refl _)
          (Or.inr (le_nalloc_of_event hI3 hE3))
        intro e1 t1 ht
        rw [timer?_setTimer_same] at ht
        cases ht
        exact ⟨hnr3, by simp only []; omega⟩
      rcases register_effect (timer?_setTimer_same _ _ _ _) h10 with
        ⟨_, rfl⟩ | ⟨_, _, _, _, _, _, hE5⟩
      · refine unref_inv hI4 (fun e1 t1 ht => ?_) h7
        rw [timer?_setTimer_same] at ht
        cases ht
        have : DMM_TIMER_ISREGISTERED
            ⟨f, TIMESPEC_INC t.tm_next t.tm_interval, t.tm_interval⟩ = false := hnr3
        simp only [this, Bool.false_eq_true, if_false]
        omega
      · have hI5 := register_inv hI4 (timer?_setTimer_same _ _ _ _) hnr3 h10
        refine unref_inv hI5 (fun e1 t1 ht => ?_) h7
        obtain ⟨h13, h14⟩ := timer?_eq_some.1 ht
        rw [hE5] at h13
        cases h13
        simp only []
        split <;> omega

theorem trigger_loop_inv {env : Env} (hp : env.Passive) (fuel : Nat) (now : timespec) :
    ∀ (k : Nat) (force_trigger : Bool) (s s' : State) (cur : Option Ptr), timer_inv s →
      timers_trigger_loop env fuel now k force_trigger s cur = some s' → timer_inv s' := by
  intro k
  induction k with
  | zero =>
    intro force_trigger s s' cur hI h
    cases cur with
    | none =>
      simp only [timers_trigger_loop, Option.some.injEq] at h
      subst h; exact hI
    | some tm => simp [timers_trigger_loop] at h
  | succ k ih =>
    intro force_trigger s s' cur hI h
    cases cur with
    | none =>
      simp only [timers_trigger_loop, Option.some.injEq] at h
      subst h; exact hI
    | some tm =>
      unfold timers_trigger_loop at h
      obtain ⟨tmptm, h1, h2⟩ := Option.bind_eq_some.1 h
      obtain ⟨⟨e, t⟩, hT, h3⟩ := Option.bind_eq_some.1 h2
      simp only [] at h3
      split at h3
      · simp only [Option.some.injEq] at h3
        subst h3; exact hI
      · obtain ⟨s1, h4, h5⟩ := Option.bind_eq_some.1 h3
        exact ih false s1 s' tmptm (trigger_body_inv hp hI (list_next_mem h1) h4) h5

theorem timers_trigger_inv {env : Env} (hp : env.Passive) {fuel k : Nat} {s s' : State}
    {force_trigger : Bool} {err : Int} (hI : timer_inv s)
    (h : dmm_timers_trigger env fuel k s force_trigger = some (err, s')) : timer_inv s' := by
  unfold dmm_timers_trigger at h
  split at h
  · simp only [Option.some.injEq, Prod.mk.injEq] at h
    rw [← h.2]; exact hI
  · obtain ⟨s1, h1, h2⟩ := Option.bind_eq_some.1 h
    simp only [Option.some.injEq, Prod.mk.injEq] at h2
    rw [← h2.2]
    exact trigger_loop_inv hp fuel _ k force_trigger s s1 _ hI h1

/-- Every call of the timer interface keeps the invariant. -/
theorem timer_step_inv {env : Env} (hp : env.Passive) {s s' : State} (hI : timer_inv s)
    (h : timer_step env s s') : timer_inv s' := by
  cases h with
  | create _ _ h => exact create_inv hI h
  | set _ _ _ _ _ _ hc h => exact set_inv hI hc h
  | unset _ _ h => exact unset_inv hI h
  | rm _ _ h => exact rm_inv hp hI h
  | subscribe _ _ _ _ h => exact subscribe_inv hI h
  | unsubscribe _ _ _ _ h => exact unsubscribe_inv hp hI h
  | trigger _ _ _ _ _ h => exact timers_trigger_inv hp hI h
  | clock now errno => exact inv_tframe hI ⟨rfl, rfl, Nat.le_refl _⟩

theorem timer_init_inv {s0 : State} (h0 : timer_init s0) : timer_inv s0 := by
  obtain ⟨hq, hev⟩ := h0
  have hno : ∀ p e t, s0.timer? p = some (e, t) → False := by
    intro p e t h
    have := (timer?_eq_some.1 h).1
    rw [hev p] at this
    cases this
  refine ⟨⟨?_, ?_, ?_⟩, ⟨?_, ?_, ?_⟩⟩
  · rw [hq]; exact List.Pairwise.nil
  · intro p
    rw [hq]
    constructor
    · rintro ⟨e, t, h, _⟩; exact (hno p e t h).elim
    · intro h; cases h
  · intro p hp; rw [hq] at hp; cases hp
  · rw [hq]; exact List.nodup_nil
  · intro p e t h; exact (hno p e t h).elim
  · intro p _; exact hev p

theorem timer_reachable_inv {env : Env} (hp : env.Passive) {s0 s : State}
    (h0 : timer_init s0) (h : timer_reachable env s0 s) : timer_inv s := by
  induction h with
  | init => exact timer_init_inv h0
  | step s s' _ hs ih => exact timer_step_inv hp ih hs

/-- With the invariant, `dmm_timers_next` answers the earliest `tm_next` of
the armed timers. -/
theorem timers_next_min_of_ok {s : State} (h : timer_queue_ok s) : timers_next_min s := by
  unfold timers_next_min
  cases hl : s.timer_trigger_list with
  | nil =>
    left
    refine ⟨fun p hp => ?_, ?_⟩
    · have := (h.registered p).1 hp
      rw [hl] at this
      cases this
    · unfold dmm_timers_next
      rw [hl]
      rfl
  | cons p rest =>
    right
    have hp : p ∈ s.timer_trigger_list := by rw [hl]; exact List.mem_cons_self _ _
    obtain ⟨e, t, hT, hreg⟩ := (h.registered p).2 hp
    refine ⟨p, ⟨e, t, hT, hreg⟩, ?_, ?_⟩
    · unfold dmm_timers_next
      rw [hl]
      simp only [hT, Option.bind_eq_bind, Option.some_bind, next_of_of_timer hT]
    · intro q hq
      have hq' := (h.registered q).1 hq
      rw [hl] at hq'
      have hs := h.sorted
      rw [hl] at hs
      rcases List.mem_cons.1 hq' with rfl | hq'
      · exact TIMESPEC_GT_irrefl _
      · exact (List.pairwise_cons.1 hs).1 q hq'

/-! ## The invariant of the connection graph under changes of one peer list -/

theorem lists_shrink_refl (ns : Ptr → Option (List Ptr × List Ptr)) : lists_shrink ns ns :=
  fun _ li lo _ h => ⟨fun hp => ⟨li, lo, h, hp⟩, fun hp => ⟨li, lo, h, hp⟩⟩

theorem lists_shrink_trans {a b c : Ptr → Option (List Ptr × List Ptr)}
    (h1 : lists_shrink a b) (h2 : lists_shrink b c) : lists_shrink a c := by
  intro q li lo p h
  constructor
  · intro hp
    obtain ⟨li1, lo1, h3, h4⟩ := (h2 q li lo p h).1 hp
    exact (h1 q li1 lo1 p h3).1 h4
  · intro hp
    obtain ⟨li1, lo1, h3, h4⟩ := (h2 q li lo p h).2 hp
    exact (h1 q li1 lo1 p h3).2 h4

/-- The peer lists stay, the hook lists shrink, the allocator moves on. -/
theorem graph_ok_mono {x : Option (Ptr × Ptr)} {sh : Ptr → Option (List Ptr × Bool)}
    {ns ns' : Ptr → Option (List Ptr × List Ptr)} {k k' : Nat} (h : graph_ok x sh ns k)
    (hn : lists_shrink ns ns') (hk : k ≤ k') : graph_ok x sh ns' k' := by
  refine ⟨h.back, h.nodup, ?_, ?_, ?_, ?_⟩
  · intro a li lo p l d h1 h2 h3
    obtain ⟨li0, lo0, h4, h5⟩ := (hn a li lo p h1).1 h2
    exact h.listed_in a li0 lo0 p l d h4 h5 h3
  · intro a li lo p l d h1 h2 h3
    obtain ⟨li0, lo0, h4, h5⟩ := (hn a li lo p h1).2 h2
    exact h.listed_out a li0 lo0 p l d h4 h5 h3
  · intro p hp
    exact h.fresh_hooks p (by omega)
  · intro a li lo p h1 h2
    rcases h2 with h2 | h2
    · obtain ⟨li0, lo0, h4, h5⟩ := (hn a li lo p h1).1 h2
      exact Nat.le_trans (h.fresh_lists a li0 lo0 p h4 (Or.inl h5)) hk
    · obtain ⟨li0, lo0, h4, h5⟩ := (hn a li lo p h1).2 h2
      exact Nat.le_trans (h.fresh_lists a li0 lo0 p h4 (Or.inr h5)) hk

/-- A record needs no exception when it has its counterpart. -/
theorem graph_ok_weaken {x : Option (Ptr × Ptr)} {sh : Ptr → Option (List Ptr × Bool)}
    {ns : Ptr → Option (List Ptr × List Ptr)} {k : Nat} (h : graph_ok none sh ns k) :
    graph_ok x sh ns k := by
  refine ⟨?_, h.nodup, h.listed_in, h.listed_out, h.fresh_hooks, h.fresh_lists⟩
  intro H l d P h1 h2
  obtain ⟨l', h3, h4⟩ := h.back H l d P h1 h2
  rcases h4 with h4 | h4
  · exact ⟨l', h3, Or.inl h4⟩
  · cases h4

theorem graph_ok_ne {x : Option (Ptr × Ptr)} {sh : Ptr → Option (List Ptr × Bool)}
    {ns : Ptr → Option (List Ptr × List Ptr)} {k : Nat} (h : graph_ok x sh ns k)
    {H P : Ptr} {l : List Ptr} {d : Bool} (h1 : sh H = some (l, d)) (h2 : P ∈ l) : P ≠ H := by
  intro hc
  subst hc
  obtain ⟨l', h3, _⟩ := h.back P l d P h1 h2
  rw [h1] at h3
  simp only [Option.some.injEq, Prod.mk.injEq] at h3
  cases d <;> simp at h3

/-- The hook `H`, which has no peer record and is not the target of the
exceptional record, is deleted. -/
theorem graph_ok_delete {x : Option (Ptr × Ptr)} {sh : Ptr → Option (List Ptr × Bool)}
    {ns : Ptr → Option (List Ptr × List Ptr)} {k : Nat} (h : graph_ok x sh ns k)
    {H : Ptr} {d : Bool} (hH : sh H = some ([], d)) (hx : ∀ A, x ≠ some (A, H)) :
    graph_ok x (Function.update sh H none) ns k := by
  have hne : ∀ q v, Function.update sh H none q = some v → q ≠ H ∧ sh q = some v := by
    intro q v hq
    by_cases hqH : q = H
    · subst hqH; simp at hq
    · rw [Function.update_noteq hqH] at hq; exact ⟨hqH, hq⟩
  refine ⟨?_, ?_, ?_, ?_, ?_, h.fresh_lists⟩
  · intro H' l d' P h1 h2
    obtain ⟨hH', h1'⟩ := hne H' _ h1
    obtain ⟨l', h3, h4⟩ := h.back H' l d' P h1' h2
    have hP : P ≠ H := by
      intro hc
      subst hc
      rw [hH] at h3
      simp only [Option.some.injEq, Prod.mk.injEq] at h3
      rcases h4 with h4 | h4
      · rw [← h3.1] at h4; cases h4
      · exact hx H' h4
    exact ⟨l', by rw [Function.update_noteq hP]; exact h3, h4⟩
  · intro H' l d' h1
    exact h.nodup H' l d' (hne H' _ h1).2
  · intro a li lo p l d' h1 h2 h3
    exact h.listed_in a li lo p l d' h1 h2 (hne p _ h3).2
  · intro a li lo p l d' h1 h2 h3
    exact h.listed_out a li lo p l d' h1 h2 (hne p _ h3).2
  · intro p hp
    by_cases hpH : p = H
    · subst hpH; simp
    · rw [Function.update_noteq hpH]; exact h.fresh_hooks p hp

/-- The peer list of `A` changes to `la'` while `A` keeps its direction; the
records of the other hooks stay.  What remains to show is the clause on the
counterparts. -/
theorem graph_ok_update {x x' : Option (Ptr × Ptr)} {sh : Ptr → Option (List Ptr × Bool)}
    {ns : Ptr → Option (List Ptr × List Ptr)} {k : Nat} (h : graph_ok x sh ns k)
    {A : Ptr} {la la' : List Ptr} {da : Bool} (hA : sh A = some (la, da)) (hnd : la'.Nodup)
    (hback : ∀ H l d P, Function.update sh A (some (la', da)) H = some (l, d) → P ∈ l →
      ∃ l', Function.update sh A (some (la', da)) P = some (l', !d) ∧
        (H ∈ l' ∨ x' = some (H, P))) :
    graph_ok x' (Function.update sh A (some (la', da))) ns k := by
  have hsh : ∀ q l d, Function.update sh A (some (la', da)) q = some (l, d) →
      ∃ l0, sh q = some (l0, d) ∧ (q ≠ A → l0 = l) ∧ (q = A → l = la') := by
    intro q l d hq
    by_cases hqA : q = A
    · subst hqA
      simp only [Function.update_same, Option.some.injEq, Prod.mk.injEq] at hq
      exact ⟨la, by rw [hA, ← hq.2], fun hc => absurd rfl hc, fun _ => hq.1.symm⟩
    · rw [Function.update_noteq hqA] at hq
      exact ⟨l, hq, fun _ => rfl, fun hc => absurd hc hqA⟩
  refine ⟨hback, ?_, ?_, ?_, ?_, h.fresh_lists⟩
  · intro H l d h1
    obtain ⟨l0, h2, h3, h4⟩ := hsh H l d h1
    by_cases hHA : H = A
    · rw [h4 hHA]; exact hnd
    · rw [← h3 hHA]; exact h.nodup H l0 d h2
  · intro a li lo p l d h1 h2 h3
    obtain ⟨l0, h4, _, _⟩ := hsh p l d h3
    exact h.listed_in a li lo p l0 d h1 h2 h4
  · intro a li lo p l d h1 h2 h3
    obtain ⟨l0, h4, _, _⟩ := hsh p l d h3
    exact h.listed_out a li lo p l0 d h1 h2 h4
  · intro p hp
    have hpA : p ≠ A := by
      intro hc
      subst hc
      rw [h.fresh_hooks p hp] at hA
      cases hA
    rw [Function.update_noteq hpA]
    exact h.fresh_hooks p hp

/-- A first record `A → B` is added: it is the exceptional record. -/
theorem graph_ok_add {sh : Ptr → Option (List Ptr × Bool)}
    {ns : Ptr → Option (List Ptr × List Ptr)} {k : Nat} (h : graph_ok none sh ns k)
    {A B : Ptr} {la lb : List Ptr} {da : Bool} (hA : sh A = some (la, da))
    (hB : sh B = some (lb, !da)) (hn : B ∉ la) :
    graph_ok (some (A, B)) (Function.update sh A (some (B :: la, da))) ns k := by
  have hAB : B ≠ A := by
    intro hc
    subst hc
    rw [hA] at hB
    simp only [Option.some.injEq, Prod.mk.injEq] at hB
    cases da <;> simp at hB
  refine graph_ok_update h hA (List.nodup_cons.2 ⟨hn, h.nodup A la da hA⟩) ?_
  intro H l d P h1 h2
  by_cases hHA : H = A
  · subst hHA
    simp only [Function.update_same, Option.some.injEq, Prod.mk.injEq] at h1
    obtain ⟨rfl, rfl⟩ := h1
    rcases List.mem_cons.1 h2 with rfl | h2
    · exact ⟨lb, by rw [Function.update_noteq hAB]; exact hB, Or.inr rfl⟩
    · obtain ⟨l', h3, h4⟩ := h.back H la da P hA h2
      have hP : P ≠ H := graph_ok_ne h hA h2
      rcases h4 with h4 | h4
      · exact ⟨l', by rw [Function.update_noteq hP]; exact h3, Or.inl h4⟩
      · cases h4
  · rw [Function.update_noteq hHA] at h1
    obtain ⟨l', h3, h4⟩ := h.back H l d P h1 h2
    rcases h4 with h4 | h4
    · by_cases hPA : P = A
      · subst hPA
        rw [hA] at h3
        simp only [Option.some.injEq, Prod.mk.injEq] at h3
        refine ⟨B :: la, by simp [h3.2], Or.inl ?_⟩
        rw [← h3.1] at h4
        exact List.mem_cons_of_mem _ h4
      · exact ⟨l', by rw [Function.update_noteq hPA]; exact h3, Or.inl h4⟩
    · cases h4

/-- The counterpart `B → A` of the exceptional record `A → B` is added: every
record has its counterpart. -/
theorem graph_ok_complete {sh : Ptr → Option (List Ptr × Bool)}
    {ns : Ptr → Option (List Ptr × List Ptr)} {k : Nat} {A B : Ptr}
    (h : graph_ok (some (A, B)) sh ns k)
    {la lb : List Ptr} {db : Bool} (hB : sh B = some (lb, db)) (hA : sh A = some (la, !db))
    (hBA : B ∈ la) (hn : A ∉ lb) :
    graph_ok none (Function.update sh B (some (A :: lb, db))) ns k := by
  have hAB : A ≠ B := by
    intro hc
    subst hc
    rw [hA] at hB
    simp only [Option.some.injEq, Prod.mk.injEq] at hB
    cases db <;> simp at hB
  refine graph_ok_update h hB (List.nodup_cons.2 ⟨hn, h.nodup B lb db hB⟩) ?_
  intro H l d P h1 h2
  by_cases hHB : H = B
  · subst hHB
    simp only [Function.update_same, Option.some.injEq, Prod.mk.injEq] at h1
    obtain ⟨rfl, rfl⟩ := h1
    rcases List.mem_cons.1 h2 with rfl | h2
    · exact ⟨la, by rw [Function.update_noteq hAB]; exact hA, Or.inl hBA⟩
    · obtain ⟨l', h3, h4⟩ := h.back H lb db P hB h2
      have hP : P ≠ H := graph_ok_ne h hB h2
      rcases h4 with h4 | h4
      · exact ⟨l', by rw [Function.update_noteq hP]; exact h3, Or.inl h4⟩
      · simp only [Option.some.injEq, Prod.mk.injEq] at h4
        exact absurd h4.1 hAB
  · rw [Function.update_noteq hHB] at h1
    obtain ⟨l', h3, h4⟩ := h.back H l d P h1 h2
    by_cases hPB : P = B
    · subst hPB
      rw [hB] at h3
      simp only [Option.some.injEq, Prod.mk.injEq] at h3
      refine ⟨A :: lb, by simp [h3.2], Or.inl ?_⟩
      rcases h4 with h4 | h4
      · rw [← h3.1] at h4
        exact List.mem_cons_of_mem _ h4
      · simp only [Option.some.injEq, Prod.mk.injEq] at h4
        rw [← h4.1]
        exact List.mem_cons_self _ _
    · refine ⟨l', by rw [Function.update_noteq hPB]; exact h3, ?_⟩
      rcases h4 with h4 | h4
      · exact Or.inl h4
      · simp only [Option.some.injEq, Prod.mk.injEq] at h4
        exact absurd h4.2.symm hPB

/-- The record `A → B` is erased: its counterpart `B → A` becomes the
exceptional record. -/
theorem graph_ok_erase {sh : Ptr → Option (List Ptr × Bool)}
    {ns : Ptr → Option (List Ptr × List Ptr)} {k : Nat} (h : graph_ok none sh ns k)
    {A : Ptr} (B : Ptr) {la : List Ptr} {da : Bool} (hA : sh A = some (la, da)) :
    graph_ok (some (B, A)) (Function.update sh A (some (la.erase B, da))) ns k := by
  refine graph_ok_update h hA ((h.nodup A la da hA).sublist (List.erase_sublist _ _)) ?_
  intro H l d P h1 h2
  by_cases hHA : H = A
  · subst hHA
    simp only [Function.update_same, Option.some.injEq, Prod.mk.injEq] at h1
    obtain ⟨rfl, rfl⟩ := h1
    have h2' : P ∈ la := List.mem_of_mem_erase h2
    obtain ⟨l', h3, h4⟩ := h.back H la da P hA h2'
    have hP : P ≠ H := graph_ok_ne h hA h2'
    rcases h4 with h4 | h4
    · exact ⟨l', by rw [Function.update_noteq hP]; exact h3, Or.inl h4⟩
    · cases h4
  · rw [Function.update_noteq hHA] at h1
    obtain ⟨l', h3, h4⟩ := h.back H l d P h1 h2
    rcases h4 with h4 | h4
    · by_cases hPA : P = A
      · subst hPA
        rw [hA] at h3
        simp only [Option.some.injEq, Prod.mk.injEq] at h3
        refine ⟨la.erase B, by simp [h3.2], ?_⟩
        rw [← h3.1] at h4
        by_cases hHB : H = B
        · subst hHB; exact Or.inr rfl
        · exact Or.inl ((List.mem_erase_of_ne hHB).2 h4)
      · exact ⟨l', by rw [Function.update_noteq hPA]; exact h3, Or.inl h4⟩
    · cases h4

/-- The exceptional record `A → B`, which has no counterpart, is erased: every
record has its counterpart. -/
theorem graph_ok_erase_exc {sh : Ptr → Option (List Ptr × Bool)}
    {ns : Ptr → Option (List Ptr × List Ptr)} {k : Nat} {A B : Ptr}
    (h : graph_ok (some (A, B)) sh ns k) {la : List Ptr} {da : Bool}
    (hA : sh A = some (la, da)) (hno : ∀ lb db, sh B = some (lb, db) → A ∉ lb) :
    graph_ok none (Function.update sh A (some (la.erase B, da))) ns k := by
  have hnd := h.nodup A la da hA
  refine graph_ok_update h hA (hnd.sublist (List.erase_sublist _ _)) ?_
  intro H l d P h1 h2
  by_cases hHA : H = A
  · subst hHA
    simp only [Function.update_same, Option.some.injEq, Prod.mk.injEq] at h1
    obtain ⟨rfl, rfl⟩ := h1
    obtain ⟨hPB, h2'⟩ := hnd.mem_erase_iff.1 h2
    obtain ⟨l', h3, h4⟩ := h.back H la da P hA h2'
    have hP : P ≠ H := graph_ok_ne h hA h2'
    rcases h4 with h4 | h4
    · exact ⟨l', by rw [Function.update_noteq hP]; exact h3, Or.inl h4⟩
    · simp only [Option.some.injEq, Prod.mk.injEq] at h4
      exact absurd h4.2.symm hPB
  · rw [Function.update_noteq hHA] at h1
    obtain ⟨l', h3, h4⟩ := h.back H l d P h1 h2
    rcases h4 with h4 | h4
    · by_cases hPA : P = A
      · subst hPA
        rw [hA] at h3
        simp only [Option.some.injEq, Prod.mk.injEq] at h3
        refine ⟨la.erase B, by simp [h3.2], Or.inl ?_⟩
        rw [← h3.1] at h4
        have hHB : H ≠ B := by
          intro hc
          subst hc
          exact hno l d h1 h2
        exact (List.mem_erase_of_ne hHB).2 h4
      · exact ⟨l', by rw [Function.update_noteq hPA]; exact h3, Or.inl h4⟩
    · simp only [Option.some.injEq, Prod.mk.injEq] at h4
      exact absurd h4.1.symm hHA

/-- A new hook without peer records appears at the next address and heads the
hook list of its direction in the node `a`. -/
theorem graph_ok_new {x : Option (Ptr × Ptr)} {sh : Ptr → Option (List Ptr × Bool)}
    {ns : Ptr → Option (List Ptr × List Ptr)} {k : Nat} (h : graph_ok x sh ns k)
    {a : Ptr} {li lo : List Ptr} (ha : ns a = some (li, lo)) (d : Bool) :
    graph_ok x (Function.update sh (k + 1) (some ([], d)))
      (Function.update ns a (some (if d then (k + 1) :: li else li,
        if d then lo else (k + 1) :: lo))) (k + 1) := by
  have hfresh : sh (k + 1) = none := h.fresh_hooks (k + 1) (Nat.lt_succ_self k)
  have hne : ∀ q v, sh q = some v → q ≠ k + 1 := by
    intro q v hq hc
    subst hc
    rw [hfresh] at hq
    cases hq
  have hold : ∀ q l d', Function.update sh (k + 1) (some ([], d)) q = some (l, d') →
      q ≠ k + 1 → sh q = some (l, d') := by
    intro q l d' hq hqk
    rw [Function.update_noteq hqk] at hq
    exact hq
  refine ⟨?_, ?_, ?_, ?_, ?_, ?_⟩
  · intro H l d' P h1 h2
    by_cases hH : H = k + 1
    · subst hH
      simp only [Function.update_same, Option.some.injEq, Prod.mk.injEq] at h1
      rw [← h1.1] at h2
      cases h2
    · obtain ⟨l', h3, h4⟩ := h.back H l d' P (hold H l d' h1 hH) h2
      exact ⟨l', by rw [Function.update_noteq (hne P _ h3)]; exact h3, h4⟩
  · intro H l d' h1
    by_cases hH : H = k + 1
    · subst hH
      simp only [Function.update_same, Option.some.injEq, Prod.mk.injEq] at h1
      rw [← h1.1]
      exact List.nodup_nil
    · exact h.nodup H l d' (hold H l d' h1 hH)
  · intro a' li' lo' p l d' h1 h2 h3
    by_cases hp : p = k + 1
    · subst hp
      simp only [Function.update_same, Option.some.injEq, Prod.mk.injEq] at h3
      by_cases haa : a' = a
      · subst haa
        simp only [Function.update_same, Option.some.injEq, Prod.mk.injEq] at h1
        cases d with
        | true => exact h3.2.symm
        | false =>
          simp only [Bool.false_eq_true, if_false] at h1
          rw [← h1.1] at h2
          exact absurd (h.fresh_lists a' li lo (k + 1) ha (Or.inl h2)) (Nat.not_succ_le_self k)
      · rw [Function.update_noteq haa] at h1
        exact absurd (h.fresh_lists a' li' lo' (k + 1) h1 (Or.inl h2)) (Nat.not_succ_le_self k)
    · have h3' := hold p l d' h3 hp
      by_cases haa : a' = a
      · subst haa
        simp only [Function.update_same, Option.some.injEq, Prod.mk.injEq] at h1
        have h2' : p ∈ li := by
          rw [← h1.1] at h2
          cases d with
          | true =>
            simp only [if_true] at h2
            exact (List.mem_cons.1 h2).resolve_left hp
          | false => simpa using h2
        exact h.listed_in a' li lo p l d' ha h2' h3'
      · rw [Function.update_noteq haa] at h1
        exact h.listed_in a' li' lo' p l d' h1 h2 h3'
  · intro a' li' lo' p l d' h1 h2 h3
    by_cases hp : p = k + 1
    · subst hp
      simp only [Function.update_same, Option.some.injEq, Prod.mk.injEq] at h3
      by_cases haa : a' = a
      · subst haa
        simp only [Function.update_same, Option.some.injEq, Prod.mk.injEq] at h1
        cases d with
        | false => exact h3.2.symm
        | true =>
          simp only [if_true] at h1
          rw [← h1.2] at h2
          exact absurd (h.fresh_lists a' li lo (k + 1) ha (Or.inr h2)) (Nat.not_succ_le_self k)
      · rw [Function.update_noteq haa] at h1
        exact absurd (h.fresh_lists a' li' lo' (k + 1) h1 (Or.inr h2)) (Nat.not_succ_le_self k)
    · have h3' := hold p l d' h3 hp
      by_cases haa : a' = a
      · subst haa
        simp only [Function.update_same, Option.some.injEq, Prod.mk.injEq] at h1
        have h2' : p ∈ lo := by
          rw [← h1.2] at h2
          cases d with
          | false =>
            simp only [Bool.false_eq_true, if_false] at h2
            exact (List.mem_cons.1 h2).resolve_left hp
          | true => simpa using h2
        exact h.listed_out a' li lo p l d' ha h2' h3'
      · rw [Function.update_noteq haa] at h1
        exact h.listed_out a' li' lo' p l d' h1 h2 h3'
  · intro p hp
    have hpk : p ≠ k + 1 := by omega
    rw [Function.update_noteq hpk]
    exact h.fresh_hooks p (by omega)
  · intro a' li' lo' p h1 h2
    by_cases haa : a' = a
    · subst haa
      simp only [Function.update_same, Option.some.injEq, Prod.mk.injEq] at h1
      rw [← h1.1, ← h1.2] at h2
      cases d with
      | true =>
        simp only [if_true] at h2
        rcases h2 with h2 | h2
        · rcases List.mem_cons.1 h2 with rfl | h2
          · exact Nat.le_refl _
          · exact Nat.le_succ_of_le (h.fresh_lists a' li lo p ha (Or.inl h2))
        · exact Nat.le_succ_of_le (h.fresh_lists a' li lo p ha (Or.inr h2))
      | false =>
        simp only [Bool.false_eq_true, if_false] at h2
        rcases h2 with h2 | h2
        · exact Nat.le_succ_of_le (h.fresh_lists a' li lo p ha (Or.inl h2))
        · rcases List.mem_cons.1 h2 with rfl | h2
          · exact Nat.le_refl _
          · exact Nat.le_succ_of_le (h.fresh_lists a' li lo p ha (Or.inr h2))
    · rw [Function.update_noteq haa] at h1
      exact Nat.le_succ_of_le (h.fresh_lists a' li' lo' p h1 h2)

/-! ## References to nodes and hooks, read backwards from the result -/

theorem dmm_node_ref_some {s s' : State} {a : Ptr} (h : dmm_node_ref s a = some s') :
    ∃ n, s.node? a = some n ∧ s' = s.setNode a { n with nd_refs := n.nd_refs + 1 } := by
  unfold dmm_node_ref at h
  cases hn : s.node? a with
  | none => simp [hn] at h
  | some n =>
    simp only [hn, Option.bind_eq_bind, Option.some_bind] at h
    unfold dmm_refacquire at h
    split at h
    · simp only [Option.some_bind, Option.some.injEq] at h
      exact ⟨n, rfl, h.symm⟩
    · simp at h

theorem dmm_hook_ref_some {s s' : State} {H : Ptr} (h : dmm_hook_ref s H = some s') :
    ∃ x, s.hook? H = some x ∧ s' = s.setHook H { x with hk_refs := x.hk_refs + 1 } := by
  unfold dmm_hook_ref at h
  cases hn : s.hook? H with
  | none => simp [hn] at h
  | some n =>
    simp only [hn, Option.bind_eq_bind, Option.some_bind] at h
    unfold dmm_refacquire at h
    split at h
    · simp only [Option.some_bind, Option.some.injEq] at h
      exact ⟨n, rfl, h.symm⟩
    · simp at h

/-- The two outcomes of `dmm_node_unref` with passive callbacks: the count
goes down, or the node, whose hook lists are empty, is destroyed. -/
theorem dmm_node_unref_cases {env : Env} (hp : env.Passive) {s s' : State} {a : Ptr}
    (h : dmm_node_unref env s a = some s') :
    ∃ n, s.node? a = some n ∧ 0 < n.nd_refs ∧
      ((1 < n.nd_refs ∧ s' = s.setNode a { n with nd_refs := n.nd_refs - 1 }) ∨
       (n.nd_refs = 1 ∧ n.nd_inhooks = [] ∧ n.nd_outhooks = [] ∧
        s' = s.node_destroyed a n.nd_type)) := by
  unfold dmm_node_unref at h
  cases hn : s.node? a with
  | none => simp [hn] at h
  | some n =>
    simp only [hn, Option.bind_eq_bind, Option.some_bind] at h
    unfold dmm_refrelease at h
    by_cases hr : n.nd_refs > 0
    · simp only [hr, if_true, Option.some_bind, beq_iff_eq] at h
      refine ⟨n, rfl, hr, ?_⟩
      by_cases h1 : n.nd_refs - 1 = 0
      · right
        simp only [h1, if_true] at h
        by_cases hi : n.nd_inhooks = []
        · by_cases ho : n.nd_outhooks = []
          · simp only [hi, ho, ne_eq, not_true_eq_false, if_false, Option.some.injEq,
              call_dtor_passive hp] at h
            refine ⟨by omega, hi, ho, ?_⟩
            rw [← h]
            unfold State.node_destroyed dmm_node_free
            cases hd : n.nd_type.dtor <;>
              simp [State.logIf, State.log, State.unlinkNode, State.delNode, State.setNode, hd]
          · simp [hi, ho] at h
        · simp [hi] at h
      · left
        simp only [h1, if_false, Option.some.injEq, Bool.false_eq_true] at h
        exact ⟨by omega, h.symm⟩
    · simp [hr] at h

/-- The outcomes of `dmm_hook_unref` with passive callbacks: the count goes
down, or the hook, which has no peer record, is destroyed and its reference to
its owner is released. -/
theorem dmm_hook_unref_cases {env : Env} (hp : env.Passive) {s s' : State} {H : Ptr}
    (h : dmm_hook_unref env s H = some s') :
    ∃ x, s.hook? H = some x ∧ 0 < x.hk_refs ∧
      ((1 < x.hk_refs ∧ s' = s.setHook H { x with hk_refs := x.hk_refs - 1 }) ∨
       (x.hk_refs = 1 ∧ x.hk_peers = [] ∧ ∃ n, s.node? x.hk_node = some n ∧
        dmm_node_unref env (s.hook_destroyed H x.hk_node n) x.hk_node = some s')) := by
  unfold dmm_hook_unref at h
  cases hn : s.hook? H with
  | none => simp [hn] at h
  | some x =>
    simp only [hn, Option.bind_eq_bind, Option.some_bind] at h
    unfold dmm_refrelease at h
    by_cases hr : x.hk_refs > 0
    · simp only [hr, if_true, Option.some_bind, beq_iff_eq] at h
      refine ⟨x, rfl, hr, ?_⟩
      by_cases h1 : x.hk_refs - 1 = 0
      · right
        simp only [h1, if_true] at h
        by_cases hpe : x.hk_peers = []
        · simp only [hpe, ne_eq, not_true_eq_false, if_false, node?_setHook,
            call_rmhook_passive hp, hook?_logIf, hook?_setHook_same, Option.some_bind,
            node?_logIf] at h
          cases ho : s.node? x.hk_node with
          | none => simp [ho] at h
          | some n =>
            simp only [ho, Option.some_bind] at h
            refine ⟨by omega, hpe, n, rfl, ?_⟩
            rw [← h]
            congr 1
            unfold State.hook_destroyed dmm_hook_free unlink_nodehook
            cases hd : n.nd_type.rmhook <;>
              simp [State.logIf, State.log, State.delHook, State.setNode, State.setHook, hd]
        · simp [hpe] at h
      · left
        simp only [h1, if_false, Option.some.injEq, Bool.false_eq_true] at h
        exact ⟨by omega, h.symm⟩
    · simp [hr] at h

/-! ## The views of the states the primitives leave -/

theorem hshape_setHook (s : State) (H : Ptr) (h : dmm_hook) :
    hshape (s.setHook H h) = Function.update (hshape s) H (some (h.hk_peers, DMM_HOOK_ISIN h)) := by
  funext q
  unfold hshape
  by_cases hq : q = H
  · subst hq; simp
  · simp [Function.update_noteq hq, hook?_setHook_ne s h hq]

theorem hshape_delHook (s : State) (H : Ptr) :
    hshape (s.delHook H) = Function.update (hshape s) H none := by
  funext q
  unfold hshape
  by_cases hq : q = H
  · subst hq; simp
  · simp [State.hook?, State.delHook, Function.update_noteq hq]

@[simp] theorem hshape_setNode (s : State) (a : Ptr) (n : dmm_node) :
    hshape (s.setNode a n) = hshape s := rfl
@[simp] theorem hshape_delNode (s : State) (a : Ptr) : hshape (s.delNode a) = hshape s := rfl
@[simp] theorem hshape_log (s : State) (e : Ev) : hshape (s.log e) = hshape s := rfl
@[simp] theorem hshape_logIf (s : State) (b : Bool) (e : Ev) : hshape (s.logIf b e) = hshape s := by
  cases b <;> rfl
@[simp] theorem hshape_bump (s : State) : hshape s.bump = hshape s := rfl
@[simp] theorem hshape_unlinkNode (s : State) (a : Ptr) : hshape (s.unlinkNode a) = hshape s := rfl
@[simp] theorem hshape_linkNode (s : State) (a : Ptr) : hshape (s.linkNode a) = hshape s := rfl
@[simp] theorem hshape_setLastnodeid (s : State) (a : Nat) :
    hshape (s.setLastnodeid a) = hshape s := rfl
@[simp] theorem hshape_setEvent (s : State) (a : Ptr) (e : dmm_event) :
    hshape (s.setEvent a e) = hshape s := rfl

theorem nshape_setNode (s : State) (a : Ptr) (n : dmm_node) :
    nshape (s.setNode a n) = Function.update (nshape s) a (some (n.nd_inhooks, n.nd_outhooks)) := by
  funext q
  unfold nshape
  by_cases hq : q = a
  · subst hq; simp
  · simp [Function.update_noteq hq, node?_setNode_ne s n hq]

theorem nshape_delNode (s : State) (a : Ptr) :
    nshape (s.delNode a) = Function.update (nshape s) a none := by
  funext q
  unfold nshape
  by_cases hq : q = a
  · subst hq; simp
  · simp [State.node?, State.delNode, Function.update_noteq hq]

@[simp] theorem nshape_setHook (s : State) (a : Ptr) (n : dmm_hook) :
    nshape (s.setHook a n) = nshape s := rfl
@[simp] theorem nshape_delHook (s : State) (a : Ptr) : nshape (s.delHook a) = nshape s := rfl
@[simp] theorem nshape_log (s : State) (e : Ev) : nshape (s.log e) = nshape s := rfl
@[simp] theorem nshape_logIf (s : State) (b : Bool) (e : Ev) : nshape (s.logIf b e) = nshape s := by
  cases b <;> rfl
@[simp] theorem nshape_bump (s : State) : nshape s.bump = nshape s := rfl
@[simp] theorem nshape_unlinkNode (s : State) (a : Ptr) : nshape (s.unlinkNode a) = nshape s := rfl
@[simp] theorem nshape_linkNode (s : State) (a : Ptr) : nshape (s.linkNode a) = nshape s := rfl
@[simp] theorem nshape_setLastnodeid (s : State) (a : Nat) :
    nshape (s.setLastnodeid a) = nshape s := rfl
@[simp] theorem nshape_setEvent (s : State) (a : Ptr) (e : dmm_event) :
    nshape (s.setEvent a e) = nshape s := rfl

theorem hshape_of_hook {s : State} {H : Ptr} {h : dmm_hook} (hH : s.hook? H = some h) :
    hshape s H = some (h.hk_peers, DMM_HOOK_ISIN h) := by
  unfold hshape; rw [hH]; rfl

theorem nshape_of_node {s : State} {a : Ptr} {n : dmm_node} (hn : s.node? a = some n) :
    nshape s a = some (n.nd_inhooks, n.nd_outhooks) := by
  unfold nshape; rw [hn]; rfl

theorem hshape_some {s : State} {H : Ptr} {l : List Ptr} {d : Bool}
    (h : hshape s H = some (l, d)) :
    ∃ x, s.hook? H = some x ∧ x.hk_peers = l ∧ DMM_HOOK_ISIN x = d := by
  unfold hshape at h
  cases hx : s.hook? H with
  | none => rw [hx] at h; cases h
  | some x =>
    rw [hx] at h
    simp only [Option.map_some', Option.some.injEq, Prod.mk.injEq] at h
    exact ⟨x, rfl, h.1, h.2⟩

/-- A change of a hook that keeps its peer list and its direction. -/
theorem hshape_setHook_same {s : State} {H : Ptr} {h m : dmm_hook} (hH : s.hook? H = some h)
    (hpe : m.hk_peers = h.hk_peers) (hd : DMM_HOOK_ISIN m = DMM_HOOK_ISIN h) :
    hshape (s.setHook H m) = hshape s := by
  rw [hshape_setHook, hpe, hd, ← hshape_of_hook hH, Function.update_eq_self]

theorem lists_shrink_update {ns : Ptr → Option (List Ptr × List Ptr)} {a : Ptr}
    {li lo li' lo' : List Ptr} (ha : ns a = some (li, lo)) (hi : ∀ p ∈ li', p ∈ li)
    (ho : ∀ p ∈ lo', p ∈ lo) : lists_shrink ns (Function.update ns a (some (li', lo'))) := by
  intro q li1 lo1 p h
  by_cases hq : q = a
  · subst hq
    simp only [Function.update_same, Option.some.injEq, Prod.mk.injEq] at h
    rw [← h.1, ← h.2]
    exact ⟨fun hp => ⟨li, lo, ha, hi p hp⟩, fun hp => ⟨li, lo, ha, ho p hp⟩⟩
  · rw [Function.update_noteq hq] at h
    exact ⟨fun hp => ⟨li1, lo1, h, hp⟩, fun hp => ⟨li1, lo1, h, hp⟩⟩

theorem lists_shrink_delete (ns : Ptr → Option (List Ptr × List Ptr)) (a : Ptr) :
    lists_shrink ns (Function.update ns a none) := by
  intro q li1 lo1 p h
  by_cases hq : q = a
  · subst hq; simp at h
  · rw [Function.update_noteq hq] at h
    exact ⟨fun hp => ⟨li1, lo1, h, hp⟩, fun hp => ⟨li1, lo1, h, hp⟩⟩

/-- A new node without hooks, or a node that keeps its lists. -/
theorem lists_shrink_new (ns : Ptr → Option (List Ptr × List Ptr)) (a : Ptr) :
    lists_shrink ns (Function.update ns a (some ([], []))) := by
  intro q li1 lo1 p h
  by_cases hq : q = a
  · subst hq
    simp only [Function.update_same, Option.some.injEq, Prod.mk.injEq] at h
    rw [← h.1, ← h.2]
    exact ⟨fun hp => (by cases hp), fun hp => (by cases hp)⟩
  · rw [Function.update_noteq hq] at h
    exact ⟨fun hp => ⟨li1, lo1, h, hp⟩, fun hp => ⟨li1, lo1, h, hp⟩⟩

/-- A change of a node that keeps its hook lists. -/
theorem nshape_setNode_same {s : State} {a : Ptr} {n m : dmm_node} (hn : s.node? a = some n)
    (hi : m.nd_inhooks = n.nd_inhooks) (ho : m.nd_outhooks = n.nd_outhooks) :
    nshape (s.setNode a m) = nshape s := by
  rw [nshape_setNode, hi, ho, ← nshape_of_node hn, Function.update_eq_self]

theorem hshape_setHook_refs {s : State} {H : Ptr} {h : dmm_hook} (hH : s.hook? H = some h)
    (r : Nat) : hshape (s.setHook H { h with hk_refs := r }) = hshape s :=
  hshape_setHook_same hH rfl rfl

theorem hshape_setHook_peers (s : State) (H : Ptr) (h : dmm_hook) (l : List Ptr) :
    hshape (s.setHook H { h with hk_peers := l }) =
      Function.update (hshape s) H (some (l, DMM_HOOK_ISIN h)) := by
  rw [hshape_setHook]; rfl

theorem nshape_setNode_refs {s : State} {a : Ptr} {n : dmm_node} (hn : s.node? a = some n)
    (r : Nat) : nshape (s.setNode a { n with nd_refs := r }) = nshape s :=
  nshape_setNode_same hn rfl rfl

/-! ## The invariant under references -/

/-- The invariant of a state from the invariant of its peer lists over the
hook lists and the allocation counter of an earlier state. -/
theorem peer_ok_of_view {x : Option (Ptr × Ptr)} {s s' : State}
    (h : graph_ok x (hshape s') (nshape s) s.nalloc)
    (hn : lists_shrink (nshape s) (nshape s')) (hk : s.nalloc ≤ s'.nalloc) : peer_ok x s' :=
  graph_ok_mono h hn hk

theorem peer_ok_frame {x : Option (Ptr × Ptr)} {s s' : State} (h : peer_ok x s)
    (hh : hshape s' = hshape s) (hn : lists_shrink (nshape s) (nshape s'))
    (hk : s.nalloc ≤ s'.nalloc) : peer_ok x s' := by
  unfold peer_ok at *
  rw [hh]
  exact graph_ok_mono h hn hk

theorem node_ref_peer_ok {x : Option (Ptr × Ptr)} {s s' : State} {a : Ptr} (h : peer_ok x s)
    (hr : dmm_node_ref s a = some s') : peer_ok x s' := by
  obtain ⟨n, hn, rfl⟩ := dmm_node_ref_some hr
  refine peer_ok_frame h rfl ?_ (Nat.le_refl _)
  rw [nshape_setNode_same (m := { n with nd_refs := n.nd_refs + 1 }) hn rfl rfl]
  exact lists_shrink_refl _

theorem hook_ref_peer_ok {x : Option (Ptr × Ptr)} {s s' : State} {H : Ptr} (h : peer_ok x s)
    (hr : dmm_hook_ref s H = some s') : peer_ok x s' := by
  obtain ⟨n, hn, rfl⟩ := dmm_hook_ref_some hr
  exact peer_ok_frame h (hshape_setHook_same hn rfl rfl) (lists_shrink_refl _) (Nat.le_refl _)

theorem node_unref_peer_ok {env : Env} (hp : env.Passive) {x : Option (Ptr × Ptr)}
    {s s' : State} {a : Ptr} (h : peer_ok x s) (hr : dmm_node_unref env s a = some s') :
    peer_ok x s' := by
  obtain ⟨n, hn, _, ⟨_, rfl⟩ | ⟨_, _, _, rfl⟩⟩ := dmm_node_unref_cases hp hr
  · refine peer_ok_frame h rfl ?_ (Nat.le_refl _)
    rw [nshape_setNode_same (m := { n with nd_refs := n.nd_refs - 1 }) hn rfl rfl]
    exact lists_shrink_refl _
  · refine peer_ok_frame h ?_ ?_ ?_
    · simp [State.node_destroyed]
    · simp only [State.node_destroyed, nshape_delNode, nshape_log, nshape_unlinkNode,
        nshape_logIf]
      exact lists_shrink_delete _ _
    · simp [State.node_destroyed, State.delNode, State.log, State.unlinkNode, State.logIf]
      split <;> exact Nat.le_refl _

/-- Releasing a reference of a hook that is not the target of the exceptional
record keeps the invariant. -/
theorem hook_unref_peer_ok {env : Env} (hp : env.Passive) {x : Option (Ptr × Ptr)}
    {s s' : State} {H : Ptr} (h : peer_ok x s) (hx : ∀ A, x ≠ some (A, H))
    (hr : dmm_hook_unref env s H = some s') : peer_ok x s' := by
  obtain ⟨y, hy, _, ⟨_, rfl⟩ | ⟨_, hpe, n, hn, hu⟩⟩ := dmm_hook_unref_cases hp hr
  · exact peer_ok_frame h (hshape_setHook_same hy rfl rfl) (lists_shrink_refl _) (Nat.le_refl _)
  · refine node_unref_peer_ok hp ?_ hu
    unfold peer_ok at h ⊢
    have h1 : hshape (s.hook_destroyed H y.hk_node n) = Function.update (hshape s) H none := by
      simp [State.hook_destroyed, hshape_delHook]
    have h2 : nshape (s.hook_destroyed H y.hk_node n) =
        Function.update (nshape s) y.hk_node
          (some (n.nd_inhooks.erase H, n.nd_outhooks.erase H)) := by
      simp [State.hook_destroyed, nshape_setNode]
    have h3 : (s.hook_destroyed H y.hk_node n).nalloc = s.nalloc := by
      simp [State.hook_destroyed, State.delHook, State.log, State.setNode, State.logIf]
      split <;> rfl
    rw [h1, h2, h3]
    refine graph_ok_mono (graph_ok_delete h (d := DMM_HOOK_ISIN y) ?_ hx)
      (lists_shrink_update (nshape_of_node hn) (fun p hp => List.mem_of_mem_erase hp)
        (fun p hp => List.mem_of_mem_erase hp)) (Nat.le_refl _)
    rw [hshape_of_hook hy, hpe]

/-! ## Peer records -/

theorem peer_ok_drop_exc {s : State} {A B : Ptr} (h : peer_ok (some (A, B)) s)
    (hno : ∀ l d, hshape s A = some (l, d) → B ∉ l) : peer_ok none s := by
  unfold peer_ok at *
  refine ⟨?_, h.nodup, h.listed_in, h.listed_out, h.fresh_hooks, h.fresh_lists⟩
  intro H l d P h1 h2
  obtain ⟨l', h3, h4⟩ := h.back H l d P h1 h2
  rcases h4 with h4 | h4
  · exact ⟨l', h3, Or.inl h4⟩
  · simp only [Option.some.injEq, Prod.mk.injEq] at h4
    obtain ⟨rfl, rfl⟩ := h4
    exact absurd h2 (hno l d h1)

/-- What `dmm_hook_unref` leaves of the peer lists: those of the other hooks,
and that of the hook itself unless it was destroyed. -/
theorem hook_unref_hshape {env : Env} (hp : env.Passive) {s s' : State} {H : Ptr}
    (hr : dmm_hook_unref env s H = some s') (q : Ptr) :
    hshape s' q = hshape s q ∨ (q = H ∧ hshape s' q = none ∧ ∃ d, hshape s q = some ([], d)) := by
  obtain ⟨y, hy, _, ⟨_, rfl⟩ | ⟨_, hpe, n, hn, hu⟩⟩ := dmm_hook_unref_cases hp hr
  · left
    rw [hshape_setHook_refs hy]
  · have h1 : hshape s' = Function.update (hshape s) H none := by
      obtain ⟨m, hm, _, ⟨_, rfl⟩ | ⟨_, _, _, rfl⟩⟩ := dmm_node_unref_cases hp hu
      · simp [State.hook_destroyed, hshape_delHook]
      · simp [State.node_destroyed, State.hook_destroyed, hshape_delHook]
    rw [h1]
    by_cases hq : q = H
    · subst hq
      right
      exact ⟨rfl, by simp, DMM_HOOK_ISIN y, by rw [hshape_of_hook hy, hpe]⟩
    · left
      rw [Function.update_noteq hq]

theorem dmm_hook_addpeer_cases {env : Env} {s s' : State} {A B : Ptr} {r : Int}
    (h : dmm_hook_addpeer env s A B = some (r, s')) :
    ∃ a, s.hook? A = some a ∧
      ((B ∈ a.hk_peers ∧ r ≠ 0 ∧ s' = s) ∨ (B ∉ a.hk_peers ∧ r ≠ 0 ∧ s' = s.bump) ∨
       (B ∉ a.hk_peers ∧ r = 0 ∧
        dmm_hook_ref (s.bump.setHook A { a with hk_peers := B :: a.hk_peers }) B = some s')) := by
  unfold dmm_hook_addpeer at h
  obtain ⟨a, ha, h1⟩ := Option.bind_eq_some.1 h
  refine ⟨a, ha, ?_⟩
  by_cases hm : B ∈ a.hk_peers
  · left
    simp only [hm, if_true, Option.some.injEq, Prod.mk.injEq] at h1
    exact ⟨hm, by rw [← h1.1]; decide, h1.2.symm⟩
  · right
    simp only [hm, if_false] at h1
    unfold DMM_MALLOC at h1
    by_cases hmal : env.malloc_ok s.nalloc = true
    · right
      simp only [hmal, if_true] at h1
      obtain ⟨s1, h2, h3⟩ := Option.bind_eq_some.1 h1
      simp only [Option.some.injEq, Prod.mk.injEq] at h3
      exact ⟨hm, h3.1.symm, h3.2 ▸ h2⟩
    · left
      simp only [hmal, Bool.false_eq_true, if_false, Option.some.injEq, Prod.mk.injEq] at h1
      exact ⟨hm, by rw [← h1.1]; decide, h1.2.symm⟩

theorem dmm_hook_rmpeer_cases {env : Env} {s s' : State} {A B : Ptr} {r : Int}
    (h : dmm_hook_rmpeer env s A B = some (r, s')) :
    ∃ a, s.hook? A = some a ∧
      ((B ∉ a.hk_peers ∧ s' = s) ∨
       (B ∈ a.hk_peers ∧ r = 0 ∧
        dmm_hook_unref env (s.setHook A { a with hk_peers := a.hk_peers.erase B }) B =
          some s')) := by
  unfold dmm_hook_rmpeer at h
  obtain ⟨a, ha, h1⟩ := Option.bind_eq_some.1 h
  refine ⟨a, ha, ?_⟩
  by_cases hm : B ∈ a.hk_peers
  · right
    simp only [hm, not_true_eq_false, if_false] at h1
    obtain ⟨s1, h2, h3⟩ := Option.bind_eq_some.1 h1
    simp only [Option.some.injEq, Prod.mk.injEq] at h3
    exact ⟨hm, h3.1.symm, h3.2 ▸ h2⟩
  · left
    simp only [hm, not_false_eq_true, if_true, Option.some.injEq, Prod.mk.injEq] at h1
    exact ⟨hm, h1.2.symm⟩

/-- The first half of a connect: the record `A → B` is added, or nothing
changes. -/
theorem addpeer_first_peer_ok {env : Env} {s s' : State} {A B : Ptr} {r : Int}
    {la lb : List Ptr} {da : Bool} (h : peer_ok none s) (hA : hshape s A = some (la, da))
    (hB : hshape s B = some (lb, !da))
    (hr : dmm_hook_addpeer env s A B = some (r, s')) :
    (r ≠ 0 ∧ peer_ok none s' ∧ hshape s' = hshape s) ∨
    (r = 0 ∧ peer_ok (some (A, B)) s' ∧ B ∉ la ∧
      hshape s' = Function.update (hshape s) A (some (B :: la, da))) := by
  obtain ⟨a, ha, hc⟩ := dmm_hook_addpeer_cases hr
  have hla : a.hk_peers = la ∧ DMM_HOOK_ISIN a = da := by
    rw [hshape_of_hook ha] at hA
    simpa using hA
  have hAB : B ≠ A := by
    intro hc
    subst hc
    rw [hA] at hB
    simp only [Option.some.injEq, Prod.mk.injEq] at hB
    cases da <;> simp at hB
  rcases hc with ⟨_, h1, rfl⟩ | ⟨_, h1, rfl⟩ | ⟨h0, h1, h2⟩
  · exact Or.inl ⟨h1, h, rfl⟩
  · exact Or.inl ⟨h1, peer_ok_frame h rfl (lists_shrink_refl _) (Nat.le_succ _), rfl⟩
  · right
    obtain ⟨b, hb, rfl⟩ := dmm_hook_ref_some h2
    have hsh : hshape ((s.bump.setHook A { a with hk_peers := B :: a.hk_peers }).setHook B
        { b with hk_refs := b.hk_refs + 1 }) =
        Function.update (hshape s) A (some (B :: la, da)) := by
      rw [hshape_setHook_refs hb, hshape_setHook_peers, hshape_bump, hla.1, hla.2]
    refine ⟨h1, ?_, hla.1 ▸ h0, hsh⟩
    refine peer_ok_of_view (s := s) ?_ (lists_shrink_refl _) (Nat.le_succ _)
    rw [hsh]
    exact graph_ok_add h hA hB (hla.1 ▸ h0)

/-- The second half of a connect: the counterpart of the exceptional record is
added, or nothing changes. -/
theorem addpeer_second_peer_ok {env : Env} {s s' : State} {A B : Ptr} {r : Int}
    {la lb : List Ptr} {db : Bool} (h : peer_ok (some (A, B)) s)
    (hB : hshape s B = some (lb, db)) (hA : hshape s A = some (la, !db)) (hBA : B ∈ la)
    (hr : dmm_hook_addpeer env s B A = some (r, s')) :
    (r ≠ 0 ∧ peer_ok (some (A, B)) s' ∧ hshape s' = hshape s) ∨ (r = 0 ∧ peer_ok none s') := by
  obtain ⟨b, hb, hc⟩ := dmm_hook_addpeer_cases hr
  have hlb : b.hk_peers = lb ∧ DMM_HOOK_ISIN b = db := by
    rw [hshape_of_hook hb] at hB
    simpa using hB
  rcases hc with ⟨_, h1, rfl⟩ | ⟨_, h1, rfl⟩ | ⟨h0, h1, h2⟩
  · exact Or.inl ⟨h1, h, rfl⟩
  · exact Or.inl ⟨h1, peer_ok_frame h rfl (lists_shrink_refl _) (Nat.le_succ _), rfl⟩
  · right
    obtain ⟨a, ha, rfl⟩ := dmm_hook_ref_some h2
    refine ⟨h1, ?_⟩
    refine peer_ok_of_view (s := s) ?_ (lists_shrink_refl _) (Nat.le_succ _)
    rw [hshape_setHook_refs ha, hshape_setHook_peers, hshape_bump, hlb.1, hlb.2]
    exact graph_ok_complete h hB hA hBA (hlb.1 ▸ h0)

/-- Taking back the exceptional record `A → B`, which has no counterpart. -/
theorem rmpeer_exc_peer_ok {env : Env} (hp : env.Passive) {s s' : State} {A B : Ptr} {r : Int}
    (h : peer_ok (some (A, B)) s) (hno : ∀ lb db, hshape s B = some (lb, db) → A ∉ lb)
    (hr : dmm_hook_rmpeer env s A B = some (r, s')) : peer_ok none s' := by
  obtain ⟨a, ha, ⟨h1, rfl⟩ | ⟨h1, _, h2⟩⟩ := dmm_hook_rmpeer_cases hr
  · refine peer_ok_drop_exc h (fun l d hl => ?_)
    rw [hshape_of_hook ha] at hl
    simp only [Option.some.injEq, Prod.mk.injEq] at hl
    rw [← hl.1]
    exact h1
  · refine hook_unref_peer_ok hp ?_ (fun _ hc => by cases hc) h2
    refine peer_ok_of_view (s := s) ?_ (lists_shrink_refl _) (Nat.le_refl _)
    rw [hshape_setHook_peers]
    exact graph_ok_erase_exc h (hshape_of_hook ha) hno

/-- The two halves of a disconnect, in the order of the code: the record
`A → B` goes, then its counterpart `B → A`. -/
theorem rmpeer_pair_peer_ok {env : Env} (hp : env.Passive) {s s1 s2 : State} {A B : Ptr}
    {r1 r2 : Int} (h : peer_ok none s) (h1 : dmm_hook_rmpeer env s A B = some (r1, s1))
    (h2 : dmm_hook_rmpeer env s1 B A = some (r2, s2)) : peer_ok none s2 := by
  obtain ⟨a, ha, ⟨h3, rfl⟩ | ⟨h3, _, h4⟩⟩ := dmm_hook_rmpeer_cases h1
  · -- not connected: the counterpart is not there either
    obtain ⟨b, hb, ⟨_, rfl⟩ | ⟨h5, _, _⟩⟩ := dmm_hook_rmpeer_cases h2
    · exact h
    · obtain ⟨l', h6, h7⟩ := h.back B b.hk_peers _ A (hshape_of_hook hb) h5
      rw [hshape_of_hook ha] at h6
      simp only [Option.some.injEq, Prod.mk.injEq] at h6
      rcases h7 with h7 | h7
      · rw [← h6.1] at h7
        exact absurd h7 h3
      · cases h7
  · have hAB : B ≠ A := graph_ok_ne h (hshape_of_hook ha) h3
    have hnd : a.hk_peers.Nodup := h.nodup A _ _ (hshape_of_hook ha)
    have hsa : peer_ok (some (B, A))
        (s.setHook A { a with hk_peers := a.hk_peers.erase B }) := by
      refine peer_ok_of_view (s := s) ?_ (lists_shrink_refl _) (Nat.le_refl _)
      rw [hshape_setHook_peers]
      exact graph_ok_erase h B (hshape_of_hook ha)
    have hs1 : peer_ok (some (B, A)) s1 :=
      hook_unref_peer_ok hp hsa (fun C hc => by
        simp only [Option.some.injEq, Prod.mk.injEq] at hc
        exact hAB hc.2.symm) h4
    have hA1 : ∀ l d, hshape s1 A = some (l, d) → B ∉ l := by
      intro l d hl
      rcases hook_unref_hshape hp h4 A with h5 | ⟨h5, _, _⟩
      · rw [h5, hshape_setHook_peers] at hl
        simp only [Function.update_same, Option.some.injEq, Prod.mk.injEq] at hl
        rw [← hl.1]
        exact fun hc => (hnd.mem_erase_iff.1 hc).1 rfl
      · exact absurd h5.symm hAB
    exact rmpeer_exc_peer_ok hp hs1 hA1 h2

/-! ## Finding and creating hooks -/

theorem ISIN_testBit (h : dmm_hook) : DMM_HOOK_ISIN h = h.hk_flags.testBit 1 := by
  have h1 := Nat.and_two_pow h.hk_flags 1
  simp only [pow_one] at h1
  unfold DMM_HOOK_ISIN DMM_HOOK_DIRECTION.val
  simp only
  rw [h1]
  cases h.hk_flags.testBit 1 <;> simp

theorem ISIN_set_invalid (h : dmm_hook) :
    DMM_HOOK_ISIN { h with hk_flags := h.hk_flags ||| DMM_HOOK_INVALID_BIT } = DMM_HOOK_ISIN h := by
  rw [ISIN_testBit, ISIN_testBit]
  simp only [Nat.testBit_or, DMM_HOOK_INVALID_BIT]
  have : (1 : Nat).testBit 1 = false := by decide
  simp [this]

theorem ISIN_clear_invalid (h : dmm_hook) :
    DMM_HOOK_ISIN { h with hk_flags := h.hk_flags &&& NOT_BIT0 } = DMM_HOOK_ISIN h := by
  rw [ISIN_testBit, ISIN_testBit]
  simp only [Nat.testBit_and, NOT_BIT0]
  have : (4294967294 : Nat).testBit 1 = true := by decide
  simp [this]

theorem ISIN_fresh (node : Ptr) (dir : DMM_HOOK_DIRECTION) (name : List Char) :
    DMM_HOOK_ISIN (fresh_hook node dir name) = decide (dir = .DMM_HOOK_IN) := by
  rw [ISIN_testBit]
  cases dir <;> simp [fresh_hook, DMM_HOOK_DIRECTION.val, DMM_HOOK_INVALID_BIT] <;> decide

theorem peer_ok_hook_le {x : Option (Ptr × Ptr)} {s : State} (h : peer_ok x s) {p : Ptr}
    {l : List Ptr} {d : Bool} (hp : hshape s p = some (l, d)) : p ≤ s.nalloc := by
  by_contra hc
  rw [h.fresh_hooks p (Nat.lt_of_not_le hc)] at hp
  cases hp

/-- The outcomes of `dmm_hook_find`: nothing found and nothing changed, or a
hook of the list of that direction, with one more reference. -/
theorem dmm_hook_find_cases {s s' : State} {node : Ptr} {dir : DMM_HOOK_DIRECTION}
    {name : List Char} {r : Option Ptr} (h : dmm_hook_find s node dir name = some (r, s')) :
    (r = none ∧ s' = s) ∨
    ∃ p n, r = some p ∧ s.node? node = some n ∧ p ∈ n.hooks dir ∧ dmm_hook_ref s p = some s' := by
  unfold dmm_hook_find at h
  obtain ⟨n, hn, h1⟩ := Option.bind_eq_some.1 h
  have key : ∀ found : Option (Ptr × dmm_hook),
      find_hook_named s name (n.hooks dir) = some found →
      (match found with
        | none => some (none, s)
        | some (p, h) =>
          if (!DMM_HOOK_ISVALID h) = true then some (none, s)
          else do
            let st ← dmm_hook_ref s p
            some (some p, st)) = some (r, s') →
      (r = none ∧ s' = s) ∨
      ∃ p n, r = some p ∧ s.node? node = some n ∧ p ∈ n.hooks dir ∧
        dmm_hook_ref s p = some s' := by
    intro found hf h2
    cases found with
    | none =>
      simp only [Option.some.injEq, Prod.mk.injEq] at h2
      exact Or.inl ⟨h2.1.symm, h2.2.symm⟩
    | some ph =>
      obtain ⟨p, y⟩ := ph
      simp only at h2
      by_cases hv : DMM_HOOK_ISVALID y = true
      · simp only [hv, Bool.not_true, Bool.false_eq_true, if_false] at h2
        obtain ⟨s1, h3, h4⟩ := Option.bind_eq_some.1 h2
        simp only [Option.some.injEq, Prod.mk.injEq] at h4
        right
        exact ⟨p, n, h4.1.symm, hn, (find_hook_named_some hf).2.1, h4.2 ▸ h3⟩
      · simp only [hv, Bool.not_false, if_true, Option.some.injEq, Prod.mk.injEq,
          Bool.false_eq_true] at h2
        exact Or.inl ⟨h2.1.symm, h2.2.symm⟩
  cases dir
  · dsimp only at h1
    obtain ⟨found, hf, h2⟩ := Option.bind_eq_some.1 h1
    exact key found hf h2
  · dsimp only at h1
    obtain ⟨found, hf, h2⟩ := Option.bind_eq_some.1 h1
    exact key found hf h2

theorem hook_find_peer_ok {x : Option (Ptr × Ptr)} {s s' : State} {node : Ptr}
    {dir : DMM_HOOK_DIRECTION} {name : List Char} {r : Option Ptr} (h : peer_ok x s)
    (hr : dmm_hook_find s node dir name = some (r, s')) :
    peer_ok x s' ∧ hshape s' = hshape s ∧
      ∀ p, r = some p → ∃ l, hshape s' p = some (l, decide (dir = .DMM_HOOK_IN)) := by
  rcases dmm_hook_find_cases hr with ⟨rfl, rfl⟩ | ⟨p, n, rfl, hn, hm, h1⟩
  · exact ⟨h, rfl, fun p hp => by cases hp⟩
  · obtain ⟨y, hy, rfl⟩ := dmm_hook_ref_some h1
    have hs : hshape (s.setHook p { y with hk_refs := y.hk_refs + 1 }) = hshape s :=
      hshape_setHook_refs hy _
    refine ⟨hook_ref_peer_ok h h1, hs, ?_⟩
    intro q hq
    simp only [Option.some.injEq] at hq
    subst hq
    rw [hs, hshape_of_hook hy]
    refine ⟨y.hk_peers, ?_⟩
    cases dir
    · rw [h.listed_in node _ _ p _ _ (nshape_of_node hn) hm (hshape_of_hook hy)]
      rfl
    · rw [h.listed_out node _ _ p _ _ (nshape_of_node hn) hm (hshape_of_hook hy)]
      rfl

/-- What `hook_link` leaves, read backwards from its result. -/
theorem hook_link_some {s s' : State} {node p : Ptr} {dir : DMM_HOOK_DIRECTION}
    (h : hook_link s node dir p = some s') :
    ∃ y n, s.hook? p = some y ∧ s.node? node = some n ∧ s'.nalloc = s.nalloc ∧
      hshape s' = hshape s ∧
      nshape s' = Function.update (nshape s) node
        (some ((insert_nodehook n dir p).nd_inhooks, (insert_nodehook n dir p).nd_outhooks)) := by
  unfold hook_link at h
  obtain ⟨y, hy, h1⟩ := Option.bind_eq_some.1 h
  split at h1
  · cases h1
  · obtain ⟨n, hn, h2⟩ := Option.bind_eq_some.1 h1
    obtain ⟨s1, h3, h4⟩ := Option.bind_eq_some.1 h2
    obtain ⟨m, hm, rfl⟩ := dmm_node_ref_some h3
    obtain ⟨z, hz, rfl⟩ := dmm_hook_ref_some h4
    rw [node?_setHook] at hn
    refine ⟨y, n, hy, hn, rfl, ?_, ?_⟩
    · rw [hshape_setHook_refs hz, hshape_setNode, hshape_setNode,
        hshape_setHook_same (m := { y with hk_flags := y.hk_flags &&& NOT_BIT0 }) hy rfl
          (ISIN_clear_invalid y)]
    · rw [nshape_setHook, nshape_setNode_refs hm, nshape_setNode, nshape_setHook]

/-- The invariant under `dmm_hook_create`: the hooks that were there keep
their peer lists; a hook that was created has no peer and the direction asked
for. -/
theorem hook_create_peer_ok {env : Env} (hp : env.Passive) {x : Option (Ptr × Ptr)}
    {s s' : State} {node : Ptr} {dir : DMM_HOOK_DIRECTION} {name : List Char} {err : Int}
    {r : Option Ptr} (h : peer_ok x s)
    (hr : dmm_hook_create env s node dir name = some ((err, r), s')) :
    peer_ok x s' ∧ (∀ q l d, hshape s q = some (l, d) → hshape s' q = some (l, d)) ∧
      (err = 0 → ∃ p, r = some p ∧ hshape s' p = some ([], decide (dir = .DMM_HOOK_IN))) := by
  unfold dmm_hook_create at hr
  obtain ⟨n, hn, h1⟩ := Option.bind_eq_some.1 hr
  have hstay : ∀ {e : Int} {q : Option Ptr} {t : State}, e ≠ 0 →
      some ((e, q), t) = some ((err, r), s') → hshape t = hshape s →
      lists_shrink (nshape s) (nshape t) → s.nalloc ≤ t.nalloc →
      peer_ok x s' ∧ (∀ q l d, hshape s q = some (l, d) → hshape s' q = some (l, d)) ∧
      (err = 0 → ∃ p, r = some p ∧ hshape s' p = some ([], decide (dir = .DMM_HOOK_IN))) := by
    intro e q t he heq hh hl hk
    simp only [Option.some.injEq, Prod.mk.injEq] at heq
    obtain ⟨⟨rfl, rfl⟩, rfl⟩ := heq
    exact ⟨peer_ok_frame h hh hl hk, fun q l d hq => by rw [hh]; exact hq,
      fun h0 => absurd h0 he⟩
  by_cases hv : DMM_NODE_ISVALID n = true
  swap
  · simp only [hv, Bool.not_false, if_true, Bool.false_eq_true] at h1
    exact hstay (by decide) h1 rfl (lists_shrink_refl _) (Nat.le_refl _)
  simp only [hv, Bool.not_true, Bool.false_eq_true, if_false] at h1
  by_cases h0 : cstr_at name 0 = NUL
  · simp only [h0, if_true] at h1
    cases h1
  simp only [h0, if_false] at h1
  by_cases hsc : cstr_at name (name_scan name (DMM_HOOKNAMESIZE - 1) 0) = NUL
  swap
  · simp only [hsc, ne_eq, not_false_eq_true, if_true] at h1
    cases h1
  simp only [hsc, ne_eq, not_true_eq_false, if_false] at h1
  unfold DMM_MALLOC at h1
  by_cases hmal : env.malloc_ok s.nalloc = true
  · simp only [hmal, if_true] at h1
    rw [call_newhook_passive hp] at h1
    simp only at h1
    have hfr : hshape s (s.nalloc + 1) = none := h.fresh_hooks _ (Nat.lt_succ_self _)
    split at h1
    · rename_i he
      refine hstay he h1 ?_ ?_ ?_
      · simp only [dmm_hook_free, hshape_delHook, hshape_log, hshape_logIf, hshape_setHook,
          hshape_bump, Function.update_idem]
        rw [← hfr, Function.update_eq_self]
      · simp only [dmm_hook_free, nshape_delHook, nshape_log, nshape_logIf, nshape_setHook,
          nshape_bump]
        exact lists_shrink_refl _
      · simp [dmm_hook_free]
    · rename_i he
      obtain ⟨s1, h2, h3⟩ := Option.bind_eq_some.1 h1
      simp only [Option.some.injEq, Prod.mk.injEq] at h3
      obtain ⟨⟨rfl, rfl⟩, rfl⟩ := h3
      obtain ⟨y, m, hy, hm, hk, hh, hns⟩ := hook_link_some h2
      simp only [hook?_logIf, hook?_setHook_same, Option.some.injEq] at hy
      have hm' : s.node? node = some m := by
        simpa only [node?_logIf, node?_setHook, node?_bump] using hm
      have hsh : hshape s1 = Function.update (hshape s) (s.nalloc + 1)
          (some ([], decide (dir = .DMM_HOOK_IN))) := by
        rw [hh, hshape_logIf, hshape_setHook, hshape_bump, ISIN_fresh]
        rfl
      have hnsh : nshape s1 = Function.update (nshape s) node
          (some (if decide (dir = .DMM_HOOK_IN) then (s.nalloc + 1) :: m.nd_inhooks
                  else m.nd_inhooks,
                 if decide (dir = .DMM_HOOK_IN) then m.nd_outhooks
                  else (s.nalloc + 1) :: m.nd_outhooks)) := by
        rw [hns, nshape_logIf, nshape_setHook, nshape_bump]
        cases dir <;> rfl
      have hka : s1.nalloc = s.nalloc + 1 := by
        rw [hk]
        simp
      refine ⟨?_, ?_, fun _ => ⟨s.nalloc + 1, rfl, by rw [hsh, Function.update_same]⟩⟩
      · unfold peer_ok at h ⊢
        rw [hsh, hnsh, hka]
        exact graph_ok_new h (nshape_of_node hm') _
      · intro q l d hq
        have hne : q ≠ s.nalloc + 1 := by
          intro hc
          rw [hc, hfr] at hq
          cases hq
        rw [hsh, Function.update_noteq hne]
        exact hq
  · simp only [hmal, Bool.false_eq_true, if_false] at h1
    exact hstay (by decide) h1 rfl (lists_shrink_refl _) (Nat.le_succ _)

/-- The invariant under `dmm_hook_get`. -/
theorem hook_get_peer_ok {env : Env} (hp : env.Passive) {x : Option (Ptr × Ptr)}
    {s s' : State} {node : Ptr} {dir : DMM_HOOK_DIRECTION} {name : List Char} {err : Int}
    {r : Option Ptr} (h : peer_ok x s)
    (hr : dmm_hook_get env s node dir name = some ((err, r), s')) :
    peer_ok x s' ∧ (∀ q l d, hshape s q = some (l, d) → hshape s' q = some (l, d)) ∧
      (err = 0 → ∃ p l, r = some p ∧ hshape s' p = some (l, decide (dir = .DMM_HOOK_IN))) := by
  unfold dmm_hook_get at hr
  obtain ⟨⟨found, s1⟩, hf, h1⟩ := Option.bind_eq_some.1 hr
  obtain ⟨h2, h3, h4⟩ := hook_find_peer_ok h hf
  simp only at h1
  cases found with
  | none =>
    simp only at h1
    obtain ⟨h5, h6, h7⟩ := hook_create_peer_ok hp h2 h1
    refine ⟨h5, fun q l d hq => h6 q l d (by rw [h3]; exact hq), fun h0 => ?_⟩
    obtain ⟨p, hp1, hp2⟩ := h7 h0
    exact ⟨p, [], hp1, hp2⟩
  | some p =>
    simp only at h1
    obtain ⟨y, hy, h5⟩ := Option.bind_eq_some.1 h1
    obtain ⟨l, hl⟩ := h4 p rfl
    split at h5
    · simp only [Option.some.injEq, Prod.mk.injEq] at h5
      obtain ⟨⟨rfl, rfl⟩, rfl⟩ := h5
      exact ⟨h2, fun q l d hq => by rw [h3]; exact hq, fun h0 => absurd h0 (by decide)⟩
    · simp only [Option.some.injEq, Prod.mk.injEq] at h5
      obtain ⟨⟨rfl, rfl⟩, rfl⟩ := h5
      exact ⟨h2, fun q l d hq => by rw [h3]; exact hq, fun _ => ⟨p, l, rfl, hl⟩⟩

/-! ## Connecting and disconnecting -/

/-- The end of a connect or a disconnect: the two temporary references are
released. -/
theorem unref_pair_peer_ok {env : Env} (hp : env.Passive) {t s' : State} {A B : Ptr}
    {e err : Int} (h : peer_ok none t)
    (hr : (dmm_hook_unref env t B).bind (fun st =>
      (dmm_hook_unref env st A).bind (fun st => some (e, st))) = some (err, s')) :
    peer_ok none s' := by
  obtain ⟨s1, h1, h2⟩ := Option.bind_eq_some.1 hr
  obtain ⟨s2, h3, h4⟩ := Option.bind_eq_some.1 h2
  simp only [Option.some.injEq, Prod.mk.injEq] at h4
  rw [← h4.2]
  exact hook_unref_peer_ok hp (hook_unref_peer_ok hp h (fun _ hc => by cases hc) h1)
    (fun _ hc => by cases hc) h3

/-- The invariant under `dmm_node_connect`. -/
theorem connect_peer_ok {env : Env} (hp : env.Passive) {s s' : State} {src dst : Ptr}
    {srchook dsthook : List Char} {err : Int} (h : peer_ok none s)
    (hr : dmm_node_connect env s src srchook dst dsthook = some (err, s')) : peer_ok none s' := by
  unfold dmm_node_connect at hr
  obtain ⟨⟨⟨e1, r1⟩, s1⟩, hg1, h1⟩ := Option.bind_eq_some.1 hr
  obtain ⟨k1, _, k3⟩ := hook_get_peer_ok hp h hg1
  dsimp only at h1
  by_cases he1 : e1 = 0
  swap
  · simp only [he1, ne_eq, not_false_eq_true, if_true, Option.some.injEq, Prod.mk.injEq] at h1
    rw [← h1.2]
    exact k1
  simp only [he1, ne_eq, not_true_eq_false, if_false] at h1
  obtain ⟨A, hA, h2⟩ := Option.bind_eq_some.1 h1
  obtain ⟨A', la, hA', hla⟩ := k3 he1
  rw [hA] at hA'
  simp only [Option.some.injEq] at hA'
  subst hA'
  obtain ⟨⟨⟨e2, r2⟩, s2⟩, hg2, h3⟩ := Option.bind_eq_some.1 h2
  obtain ⟨k4, k5, k6⟩ := hook_get_peer_ok hp k1 hg2
  dsimp only at h3
  by_cases he2 : e2 = 0
  swap
  · simp only [he2, not_false_eq_true, if_true] at h3
    obtain ⟨s3, h4, h5⟩ := Option.bind_eq_some.1 h3
    simp only [Option.some.injEq, Prod.mk.injEq] at h5
    rw [← h5.2]
    exact hook_unref_peer_ok hp k4 (fun _ hc => by cases hc) h4
  simp only [he2, not_true_eq_false, if_false] at h3
  obtain ⟨B, hB, h4⟩ := Option.bind_eq_some.1 h3
  obtain ⟨B', lb, hB', hlb⟩ := k6 he2
  rw [hB] at hB'
  simp only [Option.some.injEq] at hB'
  subst hB'
  have hla2 := k5 A la _ hla
  simp only [decide_True, decide_False] at hla2 hlb
  obtain ⟨⟨e3, s3⟩, ha1, h5⟩ := Option.bind_eq_some.1 h4
  dsimp only at h5
  rcases addpeer_first_peer_ok k4 hla2 hlb ha1 with
    ⟨hne, k7, _⟩ | ⟨he3, k7, hBla, hs3⟩
  · simp only [hne, if_false] at h5
    exact unref_pair_peer_ok hp k7 h5
  · simp only [he3, if_true] at h5
    obtain ⟨⟨e4, s4⟩, ha2, h6⟩ := Option.bind_eq_some.1 h5
    dsimp only at h6
    have hBA : B ≠ A := by
      intro hc
      rw [hc, hla2] at hlb
      simp at hlb
    have hB3 : hshape s3 B = some (lb, true) := by
      rw [hs3, Function.update_noteq hBA]
      exact hlb
    have hA3 : hshape s3 A = some (B :: la, !true) := by
      rw [hs3, Function.update_same]
      rfl
    rcases addpeer_second_peer_ok k7 hB3 hA3 (List.mem_cons_self _ _) ha2 with
      ⟨hne, k8, hs4⟩ | ⟨he4, k8⟩
    · simp only [hne, not_false_eq_true, if_true] at h6
      obtain ⟨⟨e5, s5⟩, hrm, h7⟩ := Option.bind_eq_some.1 h6
      refine unref_pair_peer_ok hp (rmpeer_exc_peer_ok hp k8 ?_ hrm) h7
      intro l d hl hc
      rw [hs4, hB3] at hl
      simp only [Option.some.injEq, Prod.mk.injEq] at hl
      rw [← hl.1] at hc
      obtain ⟨l', h8, h9⟩ := k4.back B lb true A hlb hc
      rw [hla2] at h8
      simp only [Option.some.injEq, Prod.mk.injEq] at h8
      rcases h9 with h9 | h9
      · rw [← h8.1] at h9
        exact hBla h9
      · cases h9
    · simp only [he4, not_true_eq_false, if_false] at h6
      exact unref_pair_peer_ok hp k8 h6

/-- The invariant under `dmm_node_disconnect`. -/
theorem disconnect_peer_ok {env : Env} (hp : env.Passive) {s s' : State} {src dst : Ptr}
    {srchook dsthook : List Char} {err : Int} (h : peer_ok none s)
    (hr : dmm_node_disconnect env s src srchook dst dsthook = some (err, s')) :
    peer_ok none s' := by
  unfold dmm_node_disconnect at hr
  obtain ⟨sn, _, h1⟩ := Option.bind_eq_some.1 hr
  obtain ⟨dn, _, h2⟩ := Option.bind_eq_some.1 h1
  split at h2
  · simp only [Option.some.injEq, Prod.mk.injEq] at h2
    rw [← h2.2]
    exact h
  obtain ⟨⟨r1, s1⟩, hf1, h3⟩ := Option.bind_eq_some.1 h2
  obtain ⟨k1, _, _⟩ := hook_find_peer_ok h hf1
  dsimp only at h3
  cases r1 with
  | none =>
    simp only [Option.some.injEq, Prod.mk.injEq] at h3
    rw [← h3.2]
    exact k1
  | some A =>
    dsimp only at h3
    obtain ⟨⟨r2, s2⟩, hf2, h4⟩ := Option.bind_eq_some.1 h3
    obtain ⟨k2, _, _⟩ := hook_find_peer_ok k1 hf2
    dsimp only at h4
    cases r2 with
    | none =>
      dsimp only at h4
      obtain ⟨s3, h5, h6⟩ := Option.bind_eq_some.1 h4
      simp only [Option.some.injEq, Prod.mk.injEq] at h6
      rw [← h6.2]
      exact hook_unref_peer_ok hp k2 (fun _ hc => by cases hc) h5
    | some B =>
      dsimp only at h4
      obtain ⟨⟨e3, s3⟩, hr1, h5⟩ := Option.bind_eq_some.1 h4
      obtain ⟨⟨e4, s4⟩, hr2, h6⟩ := Option.bind_eq_some.1 h5
      exact unref_pair_peer_ok hp (rmpeer_pair_peer_ok hp k2 hr1 hr2) h6

/-! ## Removing hooks and nodes, creating nodes -/

theorem foldlM_inv {α : Type} {P : State → Prop} {f : State → α → Option State}
    (hf : ∀ s a s', P s → f s a = some s' → P s') :
    ∀ (l : List α) (s s' : State), P s → l.foldlM f s = some s' → P s' := by
  intro l
  induction l with
  | nil =>
    intro s s' hs h
    simp only [List.foldlM, pure, Option.some.injEq] at h
    subst h
    exact hs
  | cons a l ih =>
    intro s s' hs h
    simp only [List.foldlM, bind, Option.bind_eq_some] at h
    obtain ⟨s1, h1, h2⟩ := h
    exact ih s1 s' (hf s a s1 hs h1) h2

theorem hook_rm_step_peer_ok {env : Env} (hp : env.Passive) {s s' : State} {H P : Ptr}
    (h : peer_ok none s) (hr : dmm_hook_rm_step env H s P = some s') : peer_ok none s' := by
  unfold dmm_hook_rm_step at hr
  obtain ⟨⟨e1, s1⟩, h1, h2⟩ := Option.bind_eq_some.1 hr
  obtain ⟨⟨e2, s2⟩, h3, h4⟩ := Option.bind_eq_some.1 h2
  simp only [Option.some.injEq] at h4
  subst h4
  exact rmpeer_pair_peer_ok hp h h1 h3

/-- The invariant under `dmm_hook_rm`. -/
theorem hook_rm_peer_ok {env : Env} (hp : env.Passive) {s s' : State} {H : Ptr}
    (h : peer_ok none s) (hr : dmm_hook_rm env s H = some s') : peer_ok none s' := by
  unfold dmm_hook_rm at hr
  obtain ⟨s1, h1, h2⟩ := Option.bind_eq_some.1 hr
  obtain ⟨y, hy, h3⟩ := Option.bind_eq_some.1 h2
  obtain ⟨s2, h4, h5⟩ := Option.bind_eq_some.1 h3
  have k1 : peer_ok none s1 := hook_ref_peer_ok h h1
  have k2 : peer_ok none
      (s1.setHook H { y with hk_flags := y.hk_flags ||| DMM_HOOK_INVALID_BIT }) :=
    peer_ok_frame k1 (hshape_setHook_same hy rfl (ISIN_set_invalid y)) (lists_shrink_refl _)
      (Nat.le_refl _)
  have k3 : peer_ok none s2 :=
    foldlM_inv (fun _ _ _ hs hf => hook_rm_step_peer_ok hp hs hf) _ _ _ k2 h4
  exact hook_unref_peer_ok hp k3 (fun _ hc => by cases hc) h5

theorem peer_ok_eq {x : Option (Ptr × Ptr)} {s s' : State} (h : peer_ok x s)
    (hh : s'.hooks = s.hooks) (hn : s'.nodes = s.nodes) (hk : s.nalloc ≤ s'.nalloc) :
    peer_ok x s' := by
  refine peer_ok_frame h ?_ ?_ hk
  · funext q
    unfold hshape State.hook?
    rw [hh]
  · have : nshape s' = nshape s := by
      funext q
      unfold nshape State.node?
      rw [hn]
    rw [this]
    exact lists_shrink_refl _

theorem event_unref_peer_ok {x : Option (Ptr × Ptr)} {s s' : State} {T : Ptr}
    (h : peer_ok x s) (hr : dmm_event_unref s T = some s') : peer_ok x s' := by
  obtain ⟨e, _, _, ⟨_, rfl⟩ | ⟨_, _, _, _, _, hk, hn, hh⟩⟩ := dmm_event_unref_cases hr
  · exact peer_ok_eq h rfl rfl (Nat.le_refl _)
  · exact peer_ok_eq h hh hn (Nat.le_of_eq hk.symm)

theorem event_unsubscribe_peer_ok {env : Env} (hp : env.Passive) {x : Option (Ptr × Ptr)}
    {s s' : State} {T a : Ptr} {err : Int} (h : peer_ok x s)
    (hr : dmm_event_unsubscribe env s T a = some (err, s')) : peer_ok x s' := by
  unfold dmm_event_unsubscribe at hr
  obtain ⟨e, he, h1⟩ := Option.bind_eq_some.1 hr
  split at h1
  · simp only [Option.some.injEq, Prod.mk.injEq] at h1
    rw [← h1.2]
    exact h
  obtain ⟨n, hn, h2⟩ := Option.bind_eq_some.1 h1
  split at h2
  · cases h2
  obtain ⟨s1, h3, h4⟩ := Option.bind_eq_some.1 h2
  obtain ⟨s2, h5, h6⟩ := Option.bind_eq_some.1 h4
  simp only [Option.some.injEq, Prod.mk.injEq] at h6
  rw [← h6.2]
  refine node_unref_peer_ok hp (event_unref_peer_ok ?_ h3) h5
  refine peer_ok_frame h rfl ?_ (Nat.le_refl _)
  rw [nshape_setNode_same (n := n) (m := { n with nd_events := n.nd_events.erase T })
    (by simpa using hn) rfl rfl]
  exact lists_shrink_refl _

theorem unsubscribeallevents_peer_ok {env : Env} (hp : env.Passive) {x : Option (Ptr × Ptr)}
    {s s' : State} {a : Ptr} (h : peer_ok x s)
    (hr : dmm_node_unsubscribeallevents env s a = some s') : peer_ok x s' := by
  unfold dmm_node_unsubscribeallevents at hr
  obtain ⟨n, _, h1⟩ := Option.bind_eq_some.1 hr
  refine foldlM_inv (P := peer_ok x) ?_ _ _ _ h h1
  intro t ev t' ht hf
  obtain ⟨⟨e, t1⟩, h2, h3⟩ := Option.bind_eq_some.1 hf
  simp only [Option.some.injEq] at h3
  subst h3
  exact event_unsubscribe_peer_ok hp ht h2

/-- The invariant under `dmm_node_rm`. -/
theorem node_rm_peer_ok {env : Env} (hp : env.Passive) {s s' : State} {a : Ptr}
    (h : peer_ok none s) (hr : dmm_node_rm env s a = some s') : peer_ok none s' := by
  unfold dmm_node_rm at hr
  obtain ⟨n, hn, h1⟩ := Option.bind_eq_some.1 hr
  obtain ⟨s1, h2, h3⟩ := Option.bind_eq_some.1 h1
  obtain ⟨m, _, h4⟩ := Option.bind_eq_some.1 h3
  obtain ⟨s2, h5, h6⟩ := Option.bind_eq_some.1 h4
  obtain ⟨s3, h7, h8⟩ := Option.bind_eq_some.1 h6
  have k0 : peer_ok none (s.setNode a { n with nd_flags := n.nd_flags ||| DMM_NODE_INVALID }) := by
    refine peer_ok_frame h rfl ?_ (Nat.le_refl _)
    rw [nshape_setNode_same (m := { n with nd_flags := n.nd_flags ||| DMM_NODE_INVALID })
      hn rfl rfl]
    exact lists_shrink_refl _
  have k1 : peer_ok none s1 :=
    foldlM_inv (fun _ _ _ hs hf => hook_rm_peer_ok hp hs hf) _ _ _ k0 h2
  have k2 : peer_ok none s2 :=
    foldlM_inv (fun _ _ _ hs hf => hook_rm_peer_ok hp hs hf) _ _ _ k1 h5
  exact node_unref_peer_ok hp (unsubscribeallevents_peer_ok hp k2 h7) h8

/-- The invariant under `dmm_node_create`. -/
theorem node_create_peer_ok {env : Env} (hp : env.Passive) {x : Option (Ptr × Ptr)}
    {s s' : State} {type : List Char} {r : Int × Option Ptr} (h : peer_ok x s)
    (hr : dmm_node_create env s type = some (r, s')) : peer_ok x s' := by
  unfold dmm_node_create at hr
  cases ht : dmm_type_find s type with
  | none =>
    simp only [ht, Option.some.injEq, Prod.mk.injEq] at hr
    rw [← hr.2]
    exact h
  | some t =>
    simp only [ht] at hr
    unfold DMM_MALLOC at hr
    by_cases hmal : env.malloc_ok s.nalloc = true
    · simp only [hmal, if_true] at hr
      rw [call_ctor_passive hp] at hr
      simp only at hr
      split at hr
      · simp only [Option.some.injEq, Prod.mk.injEq] at hr
        rw [← hr.2]
        refine peer_ok_frame h ?_ ?_ ?_
        · simp [dmm_node_free]
        · simp only [dmm_node_free, nshape_delNode, nshape_log, nshape_logIf, nshape_setNode,
            nshape_setLastnodeid, nshape_bump, Function.update_idem]
          exact lists_shrink_delete _ _
        · simp [dmm_node_free, State.setLastnodeid]
      · obtain ⟨s1, h1, h2⟩ := Option.bind_eq_some.1 hr
        obtain ⟨m, hm, h3⟩ := Option.bind_eq_some.1 h2
        simp only [Option.some.injEq, Prod.mk.injEq] at h3
        rw [← h3.2]
        obtain ⟨m0, hm0, rfl⟩ := dmm_node_ref_some h1
        simp only [node?_logIf, node?_setNode_same, Option.some.injEq] at hm0
        subst hm0
        simp only [node?_setNode_same, Option.some.injEq] at hm
        subst hm
        refine peer_ok_frame h ?_ ?_ ?_
        · simp
        · simp only [nshape_linkNode, nshape_setNode, nshape_logIf, nshape_setLastnodeid,
            nshape_bump, Function.update_idem]
          exact lists_shrink_new _ _
        · simp [State.linkNode, State.setLastnodeid]
    · simp only [hmal, Bool.false_eq_true, if_false, Option.some.injEq, Prod.mk.injEq] at hr
      rw [← hr.2]
      exact peer_ok_frame h rfl (lists_shrink_refl _) (Nat.le_succ _)

/-! ## The reachable states -/

theorem graph_step_inv {env : Env} (hp : env.Passive) {s s' : State} (h : peer_ok none s)
    (hs : graph_step env s s') : peer_ok none s' := by
  cases hs with
  | node_create _ _ hr => exact node_create_peer_ok hp h hr
  | connect _ _ _ _ _ hr => exact connect_peer_ok hp h hr
  | disconnect _ _ _ _ _ hr => exact disconnect_peer_ok hp h hr
  | hook_rm _ hr => exact hook_rm_peer_ok hp h hr
  | node_rm _ hr => exact node_rm_peer_ok hp h hr

theorem graph_init_inv {s0 : State} (h : graph_init s0) : peer_ok none s0 := by
  have hh : ∀ p, hshape s0 p = none := fun p => by unfold hshape; rw [h.1 p]; rfl
  refine ⟨?_, ?_, ?_, ?_, fun p _ => hh p, ?_⟩
  · intro H l d P h1
    rw [hh] at h1
    cases h1
  · intro H l d h1
    rw [hh] at h1
    cases h1
  · intro a li lo p l d _ _ h1
    rw [hh] at h1
    cases h1
  · intro a li lo p l d _ _ h1
    rw [hh] at h1
    cases h1
  · intro a li lo p h1 h2
    unfold nshape at h1
    cases hn : s0.node? a with
    | none => rw [hn] at h1; cases h1
    | some n =>
      rw [hn] at h1
      simp only [Option.map_some', Option.some.injEq, Prod.mk.injEq] at h1
      rw [← h1.1, ← h1.2, (h.2 a n hn).1, (h.2 a n hn).2] at h2
      rcases h2 with h2 | h2 <;> cases h2

theorem graph_reachable_inv {env : Env} (hp : env.Passive) {s0 s : State} (h0 : graph_init s0)
    (h : graph_reachable env s0 s) : peer_ok none s := by
  induction h with
  | init => exact graph_init_inv h0
  | step _ _ _ hs ih => exact graph_step_inv hp ih hs

theorem peers_symmetric_of_ok {s : State} (h : peer_ok none s) : peers_symmetric s := by
  intro H y P hy hP
  obtain ⟨l', h1, h2⟩ := h.back H _ _ P (hshape_of_hook hy) hP
  obtain ⟨p, hp1, hp2, hp3⟩ := hshape_some h1
  have hm : H ∈ p.hk_peers := by
    rcases h2 with h2 | h2
    · rw [hp2]; exact h2
    · cases h2
  refine ⟨p, hp1, List.count_eq_one_of_mem (h.nodup P _ _ (hshape_of_hook hp1)) hm, ?_⟩
  unfold DMM_HOOK_ISOUT
  rw [hp3]

/-! ## Steps that keep the events and their ids -/

theorem ekeep_refl (s : State) : ekeep s s := ⟨rfl, rfl, rfl, rfl, fun _ => rfl⟩

theorem ekeep_trans {a b c : State} (h1 : ekeep a b) (h2 : ekeep b c) : ekeep a c :=
  ⟨h2.last.trans h1.last, h2.tl.trans h1.tl, h2.sl.trans h1.sl, h2.wl.trans h1.wl,
    fun q => (h2.ids q).trans (h1.ids q)⟩

theorem ekeep_of_events {s s1 : State} (he : s1.events = s.events)
    (h1 : s1.lasteventid = s.lasteventid) (h2 : s1.timerlist = s.timerlist)
    (h3 : s1.sockeventlist = s.sockeventlist) (h4 : s1.wavefinishlist = s.wavefinishlist) :
    ekeep s s1 :=
  ⟨h1, h2, h3, h4, fun q => by unfold State.event?; rw [he]⟩

theorem ekeep_setEvent {s : State} {p : Ptr} {e e1 : dmm_event} (he : s.event? p = some e)
    (hid : e1.ev_id = e.ev_id) (hd : e1.ev_destructor = e.ev_destructor) :
    ekeep s (s.setEvent p e1) :=
  ⟨rfl, rfl, rfl, rfl, fun q => by
    by_cases hq : q = p
    · subst hq; simp [he, hid, hd]
    · rw [event?_setEvent_ne _ _ hq]⟩

theorem edrop_refl (s : State) : edrop s s := ⟨rfl, le_refl _, le_refl _, le_refl _⟩

theorem edrop_trans {a b c : State} (h1 : edrop a b) (h2 : edrop b c) : edrop a c :=
  ⟨h2.last.trans h1.last, h2.tl.trans h1.tl, h2.sl.trans h1.sl, h2.wl.trans h1.wl⟩

theorem ekeep.to_edrop {s s1 : State} (h : ekeep s s1) : edrop s s1 :=
  ⟨h.last, by rw [h.tl], by rw [h.sl], by rw [h.wl]⟩

theorem dmm_node_ref_ekeep {s s1 : State} {p : Ptr} (h : dmm_node_ref s p = some s1) :
    ekeep s s1 := by
  unfold dmm_node_ref at h
  cases hn : s.node? p with
  | none => simp [hn] at h
  | some n =>
    simp only [hn, Option.bind_eq_bind, Option.some_bind] at h
    cases hr : dmm_refacquire n.nd_refs with
    | none => simp [hr] at h
    | some r =>
      simp only [hr, Option.some_bind, Option.some.injEq] at h
      subst h
      exact ekeep_of_events rfl rfl rfl rfl rfl

theorem dmm_event_ref_ekeep {s s1 : State} {p : Ptr} (h : dmm_event_ref s p = some s1) :
    ekeep s s1 := by
  unfold dmm_event_ref at h
  cases he : s.event? p with
  | none => simp [he] at h
  | some e =>
    simp only [he, Option.bind_eq_bind, Option.some_bind] at h
    cases hr : dmm_refacquire e.ev_refs with
    | none => simp [hr] at h
    | some r =>
      simp only [hr, Option.some_bind, Option.some.injEq] at h
      subst h
      exact ekeep_setEvent he rfl rfl

theorem ekeep_bump (s : State) : ekeep s s.bump := ekeep_of_events rfl rfl rfl rfl rfl

theorem dmm_event_subscribe_ekeep {env : Env} {s s1 : State} {ev nd : Ptr} {err : Int}
    (h : dmm_event_subscribe env s ev nd = some (err, s1)) : ekeep s s1 := by
  unfold dmm_event_subscribe DMM_MALLOC at h
  by_cases h1 : env.malloc_ok s.nalloc = true
  · simp only [h1, if_true] at h
    by_cases h2 : env.malloc_ok s.bump.nalloc = true
    · simp only [h2, if_true] at h
      obtain ⟨e, he, h⟩ := Option.bind_eq_some.1 h
      obtain ⟨s2, hs2, h⟩ := Option.bind_eq_some.1 h
      obtain ⟨n, hn, h⟩ := Option.bind_eq_some.1 h
      obtain ⟨s3, hs3, h⟩ := Option.bind_eq_some.1 h
      simp only [Option.some.injEq, Prod.mk.injEq] at h
      obtain ⟨_, rfl⟩ := h
      have k1 : ekeep s (s.bump.bump.setEvent ev { e with ev_nodes := e.ev_nodes ++ [nd] }) :=
        ekeep_trans (ekeep_trans (ekeep_bump s) (ekeep_bump _)) (ekeep_setEvent he rfl rfl)
      have k2 := dmm_node_ref_ekeep hs2
      have k3 : ekeep s2 (s2.setNode nd { n with nd_events := ev :: n.nd_events }) :=
        ekeep_of_events rfl rfl rfl rfl rfl
      exact ekeep_trans (ekeep_trans (ekeep_trans k1 k2) k3) (dmm_event_ref_ekeep hs3)
    · simp only [h2, if_false, Option.some.injEq, Prod.mk.injEq, Bool.false_eq_true] at h
      obtain ⟨_, rfl⟩ := h
      exact ekeep_trans (ekeep_bump s) (ekeep_bump _)
  · simp only [h1, if_false, Option.some.injEq, Prod.mk.injEq, Bool.false_eq_true] at h
    obtain ⟨_, rfl⟩ := h
    exact ekeep_bump s

theorem dmm_event_checkedsubscribe_ekeep {env : Env} {s s1 : State} {ev nd : Ptr} {err : Int}
    (h : dmm_event_checkedsubscribe env s ev nd = some (err, s1)) : ekeep s s1 := by
  unfold dmm_event_checkedsubscribe at h
  obtain ⟨b, _, h⟩ := Option.bind_eq_some.1 h
  cases b with
  | true =>
    simp only [if_true, Option.some.injEq, Prod.mk.injEq] at h
    obtain ⟨_, rfl⟩ := h
    exact ekeep_refl _
  | false =>
    simp only [Bool.false_eq_true, if_false] at h
    exact dmm_event_subscribe_ekeep h

/-- The function `dmm_event_unref`, read backwards: the event stays, or it is
freed and its destructor has taken it off its list. -/
theorem dmm_event_unref_ids {s s1 : State} {T : Ptr} (h : dmm_event_unref s T = some s1) :
    ekeep s s1 ∨
    (∃ e, s.event? T = some e ∧ s1.lasteventid = s.lasteventid ∧
      s1.timerlist = s.timerlist ∧
      s1.sockeventlist = (if e.ev_destructor = some .sockevent_destructor
        then s.sockeventlist.erase T else s.sockeventlist) ∧
      s1.wavefinishlist = (if e.ev_destructor = some .wavefinish_destructor
        then s.wavefinishlist.erase T else s.wavefinishlist)) := by
  unfold dmm_event_unref at h
  cases he : s.event? T with
  | none => simp [he] at h
  | some e =>
    simp only [he, Option.bind_eq_bind, Option.some_bind] at h
    unfold dmm_refrelease at h
    by_cases hr : e.ev_refs > 0
    · simp only [hr, if_true, Option.some_bind, beq_iff_eq] at h
      by_cases h1 : e.ev_refs - 1 = 0
      · right
        refine ⟨e, rfl, ?_⟩
        simp only [h1, if_true] at h
        by_cases hn : e.ev_nodes = []
        · simp only [hn, ne_eq, not_true_eq_false, if_false] at h
          cases hd : e.ev_destructor with
          | none => simp [hd] at h
          | some d =>
            cases d with
            | timer_destructor =>
              simp only [hd, timer_destructor, Option.some.injEq] at h
              subst h
              exact ⟨rfl, rfl, by simp; rfl, by simp; rfl⟩
            | sockevent_destructor =>
              simp only [hd, sockevent_destructor, event?_setEvent_same, Option.bind_eq_bind,
                Option.some_bind] at h
              cases hx : e.ext with
              | sockevent x =>
                simp only [hx] at h
                split at h
                · cases h
                · simp only [Option.some.injEq] at h
                  subst h
                  unfold epoll_ctl_del
                  split
                  · exact ⟨rfl, rfl, by simp; rfl, by simp; rfl⟩
                  · exact ⟨rfl, rfl, by simp; rfl, by simp; rfl⟩
              | timer x => simp [hx] at h
              | wavefinish x => simp [hx] at h
            | wavefinish_destructor =>
              simp only [hd, wavefinish_destructor, Option.some.injEq] at h
              subst h
              exact ⟨rfl, rfl, by simp; rfl, by simp; rfl⟩
        · simp [hn] at h
      · left
        simp only [h1, if_false, Option.some.injEq, Bool.false_eq_true] at h
        subst h
        exact ekeep_setEvent he rfl rfl
    · simp [hr] at h

theorem dmm_event_unref_edrop {s s1 : State} {T : Ptr} (h : dmm_event_unref s T = some s1) :
    edrop s s1 := by
  rcases dmm_event_unref_ids h with hk | ⟨e, _, h1, h2, h3, h4⟩
  · exact hk.to_edrop
  · refine ⟨h1, by rw [h2], ?_, ?_⟩
    · rw [h3]; split
      · exact List.length_erase_le _ _
      · exact le_refl _
    · rw [h4]; split
      · exact List.length_erase_le _ _
      · exact le_refl _

/-! ## The calls that create an event -/

/-- The state with the event id counter set. -/
theorem dmm_event_init_eq (s : State) (p : Ptr) (e0 : dmm_event) (he : s.event? p = some e0) :
    dmm_event_init s p =
      some (({ s with lasteventid := (s.lasteventid + 1) % UINT32_MOD } : State).setEvent p
        { ev_id := (s.lasteventid + 1) % UINT32_MOD, ev_nodes := [], ev_refs := 1,
          ev_destructor := none, ext := e0.ext }) := by
  unfold dmm_event_init
  simp only [he, Option.bind_eq_bind, Option.some_bind]
  rw [dmm_event_ref_eq (x := { e0 with ev_refs := dmm_refinit }) (by simp)
    (by simp [dmm_refinit, DMM_REFNUM_MAX])]
  simp [State.event?, State.setEvent, dmm_refinit]

theorem dmm_timer_create_total (env : Env) (s : State) :
    ∃ err r s1, dmm_timer_create env s = some ((err, r), s1) ∧ call_id_ok s s1 r ∧
      (env.malloc_ok s.nalloc = true → r.isSome = true) := by
  unfold dmm_timer_create DMM_MALLOC
  by_cases hm : env.malloc_ok s.nalloc = true
  · simp only [hm, if_true]
    rw [dmm_event_init_eq _ _ _ (event?_setEvent_same _ _ _)]
    simp only [Option.bind_eq_bind, Option.some_bind, event?_setEvent_same]
    refine ⟨_, _, _, rfl, ⟨Or.inr rfl, fun p hp => ?_⟩, fun _ => rfl⟩
    cases hp
    exact ⟨_, event?_setEvent_same _ _ _, rfl, rfl⟩
  · simp only [hm, if_false, Bool.false_eq_true]
    exact ⟨_, _, _, rfl, ⟨Or.inl rfl, fun p hp => by cases hp⟩, fun h => h.elim⟩

theorem call_id_ok_of_edrop_wl {s s1 : State} (h : edrop s s1) :
    call_id_ok s s1 (if s1.wavefinishlist.length = s.wavefinishlist.length + 1
      then s1.wavefinishlist.head? else none) := by
  have := h.wl
  rw [if_neg (by omega)]
  exact ⟨Or.inl h.last, fun p hp => by cases hp⟩

theorem call_id_ok_of_edrop_sl {s s1 : State} (h : edrop s s1) :
    call_id_ok s s1 (if s1.sockeventlist.length = s.sockeventlist.length + 1
      then s1.sockeventlist.head? else none) := by
  have := h.sl
  rw [if_neg (by omega)]
  exact ⟨Or.inl h.last, fun p hp => by cases hp⟩

theorem dmm_wavefinish_id2ref_ekeep {s s0 : State} {id : Nat} {wf : Option Ptr}
    (h : dmm_wavefinish_id2ref s id = some (wf, s0)) : ekeep s s0 := by
  unfold dmm_wavefinish_id2ref at h
  obtain ⟨r, _, h⟩ := Option.bind_eq_some.1 h
  cases r with
  | none =>
    simp only [Option.some.injEq, Prod.mk.injEq] at h
    rw [← h.2]; exact ekeep_refl _
  | some p =>
    simp only [] at h
    obtain ⟨s2, hs2, h⟩ := Option.bind_eq_some.1 h
    simp only [Option.some.injEq, Prod.mk.injEq] at h
    rw [← h.2]; exact dmm_event_ref_ekeep hs2

theorem dmm_wavefinish_id2ref_none {s s0 : State} {id : Nat}
    (h : dmm_wavefinish_id2ref s id = some (none, s0)) : s0 = s := by
  unfold dmm_wavefinish_id2ref at h
  obtain ⟨r, _, h⟩ := Option.bind_eq_some.1 h
  cases r with
  | none =>
    simp only [Option.some.injEq, Prod.mk.injEq] at h
    exact h.2.symm
  | some p =>
    simp only [] at h
    obtain ⟨s2, hs2, h⟩ := Option.bind_eq_some.1 h
    simp only [Option.some.injEq, Prod.mk.injEq] at h
    cases h.1

/-- The end of a creating call: the new event `p`, linked at the head of the
list of wave-finish events, is subscribed to and the reference of the creator
is released. -/
theorem created_wavefinish {env : Env} {s s5 s6 s7 : State} {p node : Ptr} {err : Int}
    {e : dmm_event} (h6 : dmm_event_subscribe env s5 p node = some (err, s6))
    (h7 : dmm_event_unref s6 p = some s7)
    (hl : s5.lasteventid = (s.lasteventid + 1) % UINT32_MOD)
    (he : s5.event? p = some e) (hid : e.ev_id = (s.lasteventid + 1) % UINT32_MOD)
    (hd : e.ev_destructor = some .wavefinish_destructor)
    (hw : s5.wavefinishlist = p :: s.wavefinishlist) :
    call_id_ok s s7 (if s7.wavefinishlist.length = s.wavefinishlist.length + 1
      then s7.wavefinishlist.head? else none) := by
  have k6 := dmm_event_subscribe_ekeep h6
  have hp6 : (s6.event? p).map (fun e => (e.ev_id, e.ev_destructor)) =
      some ((s.lasteventid + 1) % UINT32_MOD, some .wavefinish_destructor) := by
    rw [k6.ids, he]; simp [hid, hd]
  rcases dmm_event_unref_ids h7 with k7 | ⟨e6, he6, h1, _, _, h4⟩
  · have hw7 : s7.wavefinishlist = p :: s.wavefinishlist := by rw [k7.wl, k6.wl, hw]
    have hl7 : s7.lasteventid = (s.lasteventid + 1) % UINT32_MOD := by rw [k7.last, k6.last, hl]
    rw [hw7]
    simp only [List.length_cons, if_true, List.head?_cons]
    refine ⟨Or.inr hl7, fun q hq => ?_⟩
    cases hq
    have hp7 := (k7.ids p).trans hp6
    cases h7e : s7.event? p with
    | none => simp [h7e] at hp7
    | some e7 =>
      simp only [h7e, Option.map_some', Option.some.injEq, Prod.mk.injEq] at hp7
      exact ⟨e7, rfl, hp7.1, by rw [hl7, hp7.1]⟩
  · rw [he6] at hp6
    simp only [Option.map_some', Option.some.injEq, Prod.mk.injEq] at hp6
    rw [if_pos hp6.2, k6.wl, hw] at h4
    simp only [List.erase_cons_head] at h4
    rw [h4, if_neg (by omega)]
    exact ⟨Or.inr (by rw [h1, k6.last, hl]), fun q hq => by cases hq⟩

theorem dmm_wavefinish_subscribe_id {env : Env} {s s1 : State} {node : Ptr} {err : Int}
    (h : dmm_wavefinish_subscribe env s node = some (err, s1)) :
    call_id_ok s s1 (if s1.wavefinishlist.length = s.wavefinishlist.length + 1
      then s1.wavefinishlist.head? else none) := by
  unfold dmm_wavefinish_subscribe at h
  obtain ⟨⟨wf, s0⟩, h0, h⟩ := Option.bind_eq_some.1 h
  cases wf with
  | some p =>
    simp only [] at h
    obtain ⟨⟨e1, s2⟩, h2, h⟩ := Option.bind_eq_some.1 h
    obtain ⟨s3, h3, h⟩ := Option.bind_eq_some.1 h
    simp only [Option.some.injEq, Prod.mk.injEq] at h
    obtain ⟨_, rfl⟩ := h
    exact call_id_ok_of_edrop_wl (edrop_trans (edrop_trans (dmm_wavefinish_id2ref_ekeep h0).to_edrop
      (dmm_event_subscribe_ekeep h2).to_edrop) (dmm_event_unref_edrop h3))
  | none =>
    have hs0 := dmm_wavefinish_id2ref_none h0
    subst hs0
    simp only [DMM_MALLOC] at h
    by_cases hm : env.malloc_ok s0.nalloc = true
    · simp only [hm, if_true] at h
      rw [dmm_event_init_eq _ _ _ (event?_setEvent_same _ _ _)] at h
      simp only [Option.bind_eq_bind, Option.some_bind, event?_setEvent_same] at h
      obtain ⟨⟨e1, s6⟩, h6, h⟩ := Option.bind_eq_some.1 h
      obtain ⟨s7, h7, h⟩ := Option.bind_eq_some.1 h
      simp only [Option.some.injEq, Prod.mk.injEq] at h
      obtain ⟨_, rfl⟩ := h
      exact created_wavefinish h6 h7 rfl (event?_setEvent_same _ _ _) rfl rfl rfl
    · simp only [hm, if_false, Bool.false_eq_true, Option.some.injEq, Prod.mk.injEq] at h
      obtain ⟨_, rfl⟩ := h
      exact call_id_ok_of_edrop_wl (ekeep_bump _).to_edrop

theorem created_sockevent {env : Env} {s s5 s6 s7 : State} {p node : Ptr} {err : Int}
    {e : dmm_event} (h6 : dmm_event_subscribe env s5 p node = some (err, s6))
    (h7 : dmm_event_unref s6 p = some s7)
    (hl : s5.lasteventid = (s.lasteventid + 1) % UINT32_MOD)
    (he : s5.event? p = some e) (hid : e.ev_id = (s.lasteventid + 1) % UINT32_MOD)
    (hd : e.ev_destructor = some .sockevent_destructor)
    (hw : s5.sockeventlist = p :: s.sockeventlist) :
    call_id_ok s s7 (if s7.sockeventlist.length = s.sockeventlist.length + 1
      then s7.sockeventlist.head? else none) := by
  have k6 := dmm_event_subscribe_ekeep h6
  have hp6 : (s6.event? p).map (fun e => (e.ev_id, e.ev_destructor)) =
      some ((s.lasteventid + 1) % UINT32_MOD, some .sockevent_destructor) := by
    rw [k6.ids, he]; simp [hid, hd]
  rcases dmm_event_unref_ids h7 with k7 | ⟨e6, he6, h1, _, h3, _⟩
  · have hw7 : s7.sockeventlist = p :: s.sockeventlist := by rw [k7.sl, k6.sl, hw]
    have hl7 : s7.lasteventid = (s.lasteventid + 1) % UINT32_MOD := by rw [k7.last, k6.last, hl]
    rw [hw7]
    simp only [List.length_cons, if_true, List.head?_cons]
    refine ⟨Or.inr hl7, fun q hq => ?_⟩
    cases hq
    have hp7 := (k7.ids p).trans hp6
    cases h7e : s7.event? p with
    | none => simp [h7e] at hp7
    | some e7 =>
      simp only [h7e, Option.map_some', Option.some.injEq, Prod.mk.injEq] at hp7
      exact ⟨e7, rfl, hp7.1, by rw [hl7, hp7.1]⟩
  · rw [he6] at hp6
    simp only [Option.map_some', Option.some.injEq, Prod.mk.injEq] at hp6
    rw [if_pos hp6.2, k6.sl, hw] at h3
    simp only [List.erase_cons_head] at h3
    rw [h3, if_neg (by omega)]
    exact ⟨Or.inr (by rw [h1, k6.last, hl]), fun q hq => by cases hq⟩

theorem dmm_sockevent_fd2ref_ekeep {s s0 : State} {fd : Int} {se : Option Ptr}
    (h : dmm_sockevent_fd2ref s fd = some (se, s0)) : ekeep s s0 := by
  unfold dmm_sockevent_fd2ref at h
  obtain ⟨r, _, h⟩ := Option.bind_eq_some.1 h
  cases r with
  | none =>
    simp only [Option.some.injEq, Prod.mk.injEq] at h
    rw [← h.2]; exact ekeep_refl _
  | some p =>
    simp only [] at h
    obtain ⟨s2, hs2, h⟩ := Option.bind_eq_some.1 h
    simp only [Option.some.injEq, Prod.mk.injEq] at h
    rw [← h.2]; exact dmm_event_ref_ekeep hs2

theorem epoll_ctl_mod_ekeep (s : State) (fd : Int) (ev : Nat) :
    ekeep s (epoll_ctl_mod s fd ev).2 := by
  unfold epoll_ctl_mod
  split
  · exact ekeep_of_events rfl rfl rfl rfl rfl
  · exact ekeep_refl _

theorem sockevent?_event {st : State} {p : Ptr} {e : dmm_event} {w : dmm_sockevent}
    (h : st.sockevent? p = some (e, w)) : st.event? p = some e := by
  unfold State.sockevent? at h
  cases hx : st.event? p with
  | none => simp [hx] at h
  | some x =>
    simp only [hx, Option.bind_eq_bind, Option.some_bind] at h
    cases hxe : x.ext <;> simp [hxe] at h
    rw [← h.1]

theorem dmm_sockevent_subscribe_id {env : Env} {s s1 : State} {fd : Int} {events : Nat}
    {node : Ptr} {err : Int}
    (h : dmm_sockevent_subscribe env s fd events node = some (err, s1)) :
    call_id_ok s s1 (if s1.sockeventlist.length = s.sockeventlist.length + 1
      then s1.sockeventlist.head? else none) := by
  unfold dmm_sockevent_subscribe at h
  simp only [DMM_MALLOC] at h
  by_cases hm : env.malloc_ok s.nalloc = true
  · simp only [hm, if_true] at h
    unfold epoll_ctl_add at h
    by_cases hany : (s.bump.epoll.any (fun x => x.1 == fd)) = true
    · simp only [hany, if_true] at h
      split at h
      · rename_i heq
        have : (EEXIST : Int) = 0 := (Prod.mk.inj heq).1
        exact absurd this (by decide)
      rename_i err1 st1 _ heq
      obtain ⟨rfl, rfl⟩ := Prod.mk.inj heq
      have hne : ¬ (EEXIST : Int) ≠ EEXIST := fun hx => hx rfl
      simp only [hne, if_false] at h
      obtain ⟨⟨se, s2⟩, h2, h⟩ := Option.bind_eq_some.1 h
      obtain ⟨p, hp, h⟩ := Option.bind_eq_some.1 h
      simp only [] at hp
      subst hp
      obtain ⟨⟨e, w⟩, hew, h⟩ := Option.bind_eq_some.1 h
      obtain ⟨⟨r, s3⟩, h3, h⟩ := Option.bind_eq_some.1 h
      have k2 := dmm_sockevent_fd2ref_ekeep h2
      have he2 := sockevent?_event hew
      have k3 : edrop s2 s3 ∧ (r = none → ekeep s2 s3) := by
        by_cases hev : w.se_sockevents = events
        · simp only [hev, ne_eq, not_true_eq_false, if_false, Option.some.injEq,
            Prod.mk.injEq] at h3
          rw [← h3.2]
          exact ⟨edrop_refl _, fun _ => ekeep_refl _⟩
        · simp only [hev, ne_eq, not_false_eq_true, if_true] at h3
          have ka : ekeep s2 (s2.setEvent p
              { e with ext := .sockevent { w with se_sockevents := events } }) :=
            ekeep_setEvent he2 rfl rfl
          have kb := epoll_ctl_mod_ekeep (s2.setEvent p
              { e with ext := .sockevent { w with se_sockevents := events } }) fd
              (se_ev_2_epoll_ev events)
          split at h3
          · rename_i st4 heq
            simp only [Option.some.injEq, Prod.mk.injEq] at h3
            rw [← h3.2]
            rw [heq] at kb
            exact ⟨(ekeep_trans ka kb).to_edrop, fun _ => ekeep_trans ka kb⟩
          · rename_i e4 st4 _ heq
            obtain ⟨s5, h5, h3⟩ := Option.bind_eq_some.1 h3
            simp only [Option.some.injEq, Prod.mk.injEq] at h3
            rw [heq] at kb
            rw [← h3.2]
            exact ⟨edrop_trans (ekeep_trans ka kb).to_edrop (dmm_event_unref_edrop h5),
              fun hr => by rw [← h3.1] at hr; cases hr⟩
      cases r with
      | some e5 =>
        simp only [Option.some.injEq, Prod.mk.injEq] at h
        rw [← h.2]
        exact call_id_ok_of_edrop_sl (edrop_trans (edrop_trans (ekeep_bump s).to_edrop
          k2.to_edrop) k3.1)
      | none =>
        simp only [] at h
        obtain ⟨⟨e6, s6⟩, h6, h⟩ := Option.bind_eq_some.1 h
        obtain ⟨s7, h7, h⟩ := Option.bind_eq_some.1 h
        simp only [Option.some.injEq, Prod.mk.injEq] at h
        rw [← h.2]
        exact call_id_ok_of_edrop_sl (edrop_trans (edrop_trans (edrop_trans (edrop_trans
          (ekeep_bump s).to_edrop k2.to_edrop) k3.1)
          (dmm_event_checkedsubscribe_ekeep h6).to_edrop) (dmm_event_unref_edrop h7))
    · simp only [hany, if_false, Bool.false_eq_true] at h
      by_cases hfd : env.fd_ok fd = true
      · simp only [hfd, if_true] at h
        rw [dmm_event_init_eq _ _ _ (event?_setEvent_same _ _ _)] at h
        simp only [Option.bind_eq_bind, Option.some_bind, event?_setEvent_same] at h
        obtain ⟨⟨e1, s6⟩, h6, h⟩ := Option.bind_eq_some.1 h
        obtain ⟨s7, h7, h⟩ := Option.bind_eq_some.1 h
        simp only [Option.some.injEq, Prod.mk.injEq] at h
        obtain ⟨_, rfl⟩ := h
        exact created_sockevent h6 h7 rfl (event?_setEvent_same _ _ _) rfl rfl rfl
      · simp only [hfd, if_false, Bool.false_eq_true] at h
        split at h
        · rename_i heq
          have : (EBADF : Int) = 0 := (Prod.mk.inj heq).1
          exact absurd this (by decide)
        rename_i err1 st1 _ heq
        obtain ⟨rfl, rfl⟩ := Prod.mk.inj heq
        have hne : (EBADF : Int) ≠ EEXIST := by decide
        simp only [hne, ne_eq, not_false_eq_true, if_true, Option.some.injEq,
          Prod.mk.injEq] at h
        obtain ⟨_, rfl⟩ := h
        exact call_id_ok_of_edrop_sl (ekeep_bump _).to_edrop
  · simp only [hm, if_false, Bool.false_eq_true, Option.some.injEq, Prod.mk.injEq] at h
    obtain ⟨_, rfl⟩ := h
    exact call_id_ok_of_edrop_sl (ekeep_bump _).to_edrop

/-- One call that may create an event: the counter stays or is incremented
(modulo 2^32), and an event that is created has the new value of the counter
as its id. -/
theorem run_event_call_id {env : Env} {s s1 : State} {c : event_call} {r : Option Ptr}
    (h : run_event_call env s c = some (r, s1)) : call_id_ok s s1 r := by
  cases c with
  | timer_create =>
    obtain ⟨err, r0, s0, hc, hok, _⟩ := dmm_timer_create_total env s
    simp only [run_event_call, hc, Option.map_some', Option.some.injEq, Prod.mk.injEq] at h
    rw [← h.1, ← h.2]; exact hok
  | sockevent_subscribe fd events node =>
    simp only [run_event_call] at h
    cases hc : dmm_sockevent_subscribe env s fd events node with
    | none => simp [hc] at h
    | some x =>
      obtain ⟨err, s0⟩ := x
      simp only [hc, Option.map_some', Option.some.injEq, Prod.mk.injEq] at h
      rw [← h.1, ← h.2]; exact dmm_sockevent_subscribe_id hc
  | wavefinish_subscribe node =>
    simp only [run_event_call] at h
    cases hc : dmm_wavefinish_subscribe env s node with
    | none => simp [hc] at h
    | some x =>
      obtain ⟨err, s0⟩ := x
      simp only [hc, Option.map_some', Option.some.injEq, Prod.mk.injEq] at h
      rw [← h.1, ← h.2]; exact dmm_wavefinish_subscribe_id hc

theorem create_events_ids {env : Env} :
    ∀ (cs : List event_call) (st : State), st.lasteventid + cs.length < UINT32_MOD →
      ∀ ids st', create_events env st cs = some (ids, st') →
        st.lasteventid ≤ st'.lasteventid ∧ List.Pairwise (fun a b => a < b) ids ∧
        ∀ id ∈ ids, st.lasteventid < id ∧ id ≤ st'.lasteventid := by
  intro cs
  induction cs with
  | nil =>
    intro st _ ids st' h
    simp only [create_events, Option.some.injEq, Prod.mk.injEq] at h
    rw [← h.1, ← h.2]
    exact ⟨le_refl _, List.Pairwise.nil, fun id h => by cases h⟩
  | cons c cs ih =>
    intro st hlen ids st' h
    simp only [List.length_cons] at hlen
    unfold create_events at h
    obtain ⟨⟨r, st1⟩, hc, h⟩ := Option.bind_eq_some.1 h
    obtain ⟨⟨ids1, st2⟩, hrun, h⟩ := Option.bind_eq_some.1 h
    obtain ⟨hl, hr⟩ := run_event_call_id hc
    have hmod : (st.lasteventid + 1) % UINT32_MOD = st.lasteventid + 1 :=
      Nat.mod_eq_of_lt (by omega)
    rw [hmod] at hl hr
    have hl1 : st1.lasteventid + cs.length < UINT32_MOD := by
      rcases hl with h | h <;> omega
    obtain ⟨hle, hpw, hids⟩ := ih st1 hl1 ids1 st2 hrun
    cases r with
    | none =>
      simp only [Option.some.injEq, Prod.mk.injEq] at h
      rw [← h.1, ← h.2]
      refine ⟨by rcases hl with h | h <;> omega, hpw, fun id hid => ?_⟩
      have := hids id hid
      rcases hl with h | h <;> omega
    | some p =>
      obtain ⟨e, he, hid1, hid2⟩ := hr p rfl
      simp only [he, Option.bind_eq_bind, Option.some_bind, Option.some.injEq,
        Prod.mk.injEq] at h
      rw [← h.1, ← h.2]
      refine ⟨by omega, ?_, fun id hid => ?_⟩
      · exact List.Pairwise.cons (fun b hb => by have := hids b hb; omega) hpw
      · rcases List.mem_cons.1 hid with h | h
        · subst h; omega
        · have := hids id h; omega

/-- A run of calls of `dmm_timer_create` returns, and creates one timer per
call when every allocation succeeds. -/
theorem create_timers_total (env : Env) :
    ∀ (n : Nat) (st : State),
      ∃ ids st', create_events env st (List.replicate n .timer_create) = some (ids, st') ∧
        ((∀ k, env.malloc_ok k = true) → ids.length = n) := by
  intro n
  induction n with
  | zero => intro st; exact ⟨[], st, rfl, fun _ => rfl⟩
  | succ n ih =>
    intro st
    obtain ⟨err, r, st1, hc, hok, hsome⟩ := dmm_timer_create_total env st
    obtain ⟨ids, st', hrun, hlen⟩ := ih st1
    have hcall : run_event_call env st .timer_create = some (r, st1) := by
      simp [run_event_call, hc]
    cases r with
    | none =>
      refine ⟨ids, st', ?_, fun hm => ?_⟩
      · simp only [List.replicate_succ, create_events, hcall, hrun, Option.bind_eq_bind,
          Option.some_bind]
      · have := hsome (hm _)
        cases this
    | some p =>
      obtain ⟨e, he, _, _⟩ := hok.2 p rfl
      refine ⟨e.ev_id :: ids, st', ?_, fun hm => ?_⟩
      · simp only [List.replicate_succ, create_events, hcall, hrun, Option.bind_eq_bind,
          Option.some_bind, he]
      · simp [hlen hm]

/-! ## Broadcasts with callbacks that keep the events and the nodes -/

theorem wkeep_refl (s : State) : wkeep s s := ⟨rfl, rfl, rfl, rfl, [], rfl⟩

theorem wkeep_trans {a b c : State} (h1 : wkeep a b) (h2 : wkeep b c) : wkeep a c := by
  obtain ⟨t1, ht1⟩ := h1.trace
  obtain ⟨t2, ht2⟩ := h2.trace
  exact ⟨h2.events.trans h1.events, h2.nodes.trans h1.nodes, h2.wl.trans h1.wl,
    h2.wid.trans h1.wid, t2 ++ t1, by rw [ht2, ht1, List.append_assoc]⟩

theorem wkeep_bump (s : State) : wkeep s s.bump := ⟨rfl, rfl, rfl, rfl, [], rfl⟩

theorem wkeep_log (s : State) (e : Ev) : wkeep s (s.log e) := ⟨rfl, rfl, rfl, rfl, [e], rfl⟩

theorem wkeep.event {s s1 : State} (h : wkeep s s1) (p : Ptr) : s1.event? p = s.event? p := by
  unfold State.event?; rw [h.events]

theorem wkeep.node {s s1 : State} (h : wkeep s s1) (p : Ptr) : s1.node? p = s.node? p := by
  unfold State.node?; rw [h.nodes]

theorem wkeep.mem_trace {s s1 : State} (h : wkeep s s1) {e : Ev} (he : e ∈ s.trace) :
    e ∈ s1.trace := by
  obtain ⟨t, ht⟩ := h.trace
  rw [ht]; exact List.mem_append_right _ he

/-- The dispatch hands a `WAVEFINISH` or `TIMER_TRIGGER` message to the
node. -/
theorem generic_switch_pass (env : Env) (st : State) (node : Ptr) {msg : dmm_msg}
    (hm : passed_to_node msg) :
    generic_switch env st node msg = PASS_MSG_TO_NODE env st node msg := by
  obtain ⟨_, _, h | h⟩ := hm
  · unfold generic_switch
    simp [h.1, h.2, DMM_MSG_WAVEFINISH, DMM_MSG_NODECREATE, DMM_MSG_NODERM,
      DMM_MSG_NODECONNECT, DMM_MSG_NODEDISCONNECT, DMM_MSG_STARTUP, DMM_MSG_TIMERCREATE,
      DMM_MSG_TIMERSET, DMM_MSG_TIMERSUBSCRIBE, DMM_MSG_TIMERUNSUBSCRIBE, DMM_MSG_TIMERTRIGGER,
      DMM_MSG_TIMERRM, DMM_MSG_SOCKEVENTSUBSCRIBE, DMM_MSG_SOCKEVENTUNSUBSCRIBE,
      DMM_MSG_SOCKEVENTTRIGGER, DMM_MSG_WAVEFINISHSUBSCRIBE]
  · unfold generic_switch
    simp [h.1, h.2, DMM_MSG_WAVEFINISH, DMM_MSG_NODECREATE, DMM_MSG_NODERM,
      DMM_MSG_NODECONNECT, DMM_MSG_NODEDISCONNECT, DMM_MSG_STARTUP, DMM_MSG_TIMERCREATE,
      DMM_MSG_TIMERSET, DMM_MSG_TIMERSUBSCRIBE, DMM_MSG_TIMERUNSUBSCRIBE, DMM_MSG_TIMERTRIGGER,
      DMM_MSG_TIMERRM, DMM_MSG_SOCKEVENTSUBSCRIBE, DMM_MSG_SOCKEVENTUNSUBSCRIBE,
      DMM_MSG_SOCKEVENTTRIGGER, DMM_MSG_WAVEFINISHSUBSCRIBE]

/-- The function `dmm_msg_apply` on a valid node that holds the reference of
the caller, for a message that the dispatch hands to the node, with callbacks
that keep the events and the nodes: the call returns, the reference is
released, and the callback, when the type has one, has been called. -/
theorem dmm_msg_apply_keeps {env : Env} (hk : env.rcvmsg_keeps) (fuel : Nat) (st : State)
    (node : Ptr) (n : dmm_node) (msg : dmm_msg) (hn : st.node? node = some n)
    (hv : DMM_NODE_ISVALID n = true) (hr : 2 ≤ n.nd_refs) (hm : passed_to_node msg) :
    ∃ err s1 s2, dmm_msg_apply env (fuel + 1) st node msg =
        some (err, s2.setNode node { n with nd_refs := n.nd_refs - 1 }) ∧
      wkeep st s1 ∧ wkeep s1 s2 ∧
      (n.nd_type.rcvmsg = true → Ev.rcvmsg node msg ∈ s1.trace) := by
  unfold dmm_msg_apply
  simp only [hn, Option.bind_eq_bind, Option.some_bind, hv, Bool.not_true, Bool.false_eq_true,
    if_false, hm.1, hm.2.1, and_self, if_true]
  unfold dmm_msg_process_generic
  simp only [hm.1, ne_eq, not_true_eq_false, if_false, generic_switch_pass env st node hm,
    Option.bind_eq_bind]
  unfold PASS_MSG_TO_NODE
  simp only [hn, Option.bind_eq_bind, Option.some_bind]
  by_cases hc : n.nd_type.rcvmsg = true
  · simp only [hc, if_true, Option.some_bind, Bool.not_true, Bool.false_eq_true, if_false]
    have hkk : wkeep (st.log (Ev.rcvmsg node msg)) (call_rcvmsg env st n.nd_type node msg).2 :=
      hk _ _ _ _
    rw [dmm_node_unref_eq (n := n) (by rw [hkk.node]; simpa using hn) hr]
    exact ⟨_, st.log (Ev.rcvmsg node msg), _, rfl, wkeep_log _ _, hkk,
      fun _ => List.mem_cons_self _ _⟩
  · simp only [hc, Bool.false_eq_true, if_false, Option.some_bind, Bool.not_false, if_true,
      dmm_msg_free]
    rw [dmm_node_unref_eq (n := n) (by simpa using hn) hr]
    exact ⟨_, st, _, rfl, wkeep_refl _, wkeep_log _ _, fun h => h.elim⟩

/-- The body of the loop of `dmm_event_sendsubscribed` for a live subscriber,
with callbacks that keep the events and the nodes: it returns, events and
nodes are as before, and a valid subscriber whose type has a `rcvmsg` callback
has been handed the copy when the copy could be allocated. -/
theorem sendsubscribed_step_keeps {env : Env} (hk : env.rcvmsg_keeps) (fuel : Nat)
    {msg : dmm_msg} (hm : passed_to_node msg) (s : State) (q : Ptr) {n : dmm_node}
    (hn : s.node? q = some n) (hr : 0 < n.nd_refs ∧ n.nd_refs < DMM_REFNUM_MAX) :
    ∃ s1, sendsubscribed_step env (fuel + 1) msg s q = some s1 ∧ wkeep s s1 ∧
      (DMM_NODE_ISVALID n = true → n.nd_type.rcvmsg = true → env.malloc_ok s.nalloc = true →
        Ev.rcvmsg q { msg with ptr := s.nalloc + 1 } ∈ s1.trace) := by
  have hm1 : ∀ p : Ptr, passed_to_node { msg with ptr := p } := fun _ => hm
  unfold sendsubscribed_step
  simp only [hn, Option.bind_eq_bind, Option.some_bind]
  by_cases hv : DMM_NODE_ISVALID n = true
  · simp only [hv, Bool.not_true, Bool.false_eq_true, if_false, dmm_msg_copy, DMM_MALLOC]
    by_cases hmal : env.malloc_ok s.nalloc = true
    · simp only [hmal, if_true]
      rw [dmm_node_ref_eq (n := n) (by simpa using hn) hr.2]
      simp only [Option.some_bind, dmm_msg_send_ref]
      obtain ⟨err, s1, s2, happ, k1, k2, hev⟩ := dmm_msg_apply_keeps hk fuel
        (s.bump.setNode q { n with nd_refs := n.nd_refs + 1 }) q
        { n with nd_refs := n.nd_refs + 1 } { msg with ptr := s.nalloc + 1 }
        (by simp) hv (by simp; omega) (hm1 _)
      rw [happ]
      simp only [Option.some_bind, Nat.add_sub_cancel]
      have k12 := wkeep_trans k1 k2
      refine ⟨_, rfl, ?_, fun _ hc _ => ?_⟩
      · obtain ⟨t, ht⟩ := k12.trace
        refine ⟨k12.events, ?_, k12.wl, k12.wid, t, ht⟩
        show Function.update s2.nodes q (some n) = s.nodes
        rw [k12.nodes]
        show Function.update (Function.update s.nodes q _) q (some n) = s.nodes
        rw [Function.update_idem]
        exact Function.update_eq_self_iff.2 hn.symm
      · exact k2.mem_trace (hev hc)
    · simp only [hmal, if_false, Bool.false_eq_true]
      exact ⟨_, rfl, wkeep_bump _, fun _ _ h => h.elim⟩
  · simp only [hv, Bool.not_false, if_true]
    exact ⟨_, rfl, wkeep_refl _, fun h => Bool.noConfusion h⟩

/-- The loop of `dmm_event_sendsubscribed` over live subscribers, with
callbacks that keep the events and the nodes. -/
theorem sendsubscribed_walk_keeps {env : Env} (hk : env.rcvmsg_keeps) (fuel : Nat)
    {msg : dmm_msg} (hm : passed_to_node msg) (p : Ptr) (e : dmm_event) :
    ∀ (l pre : List Ptr) (s : State), pre ++ l = e.ev_nodes → s.event? p = some e →
      (∀ q ∈ l, ∃ n, s.node? q = some n ∧ (0 < n.nd_refs ∧ n.nd_refs < DMM_REFNUM_MAX)) →
      ∃ s1, sendsubscribed_walk env (fuel + 1) msg p l s = some s1 ∧ wkeep s s1 ∧
        ∀ q ∈ l, ∀ n, s.node? q = some n → DMM_NODE_ISVALID n = true →
          n.nd_type.rcvmsg = true → (∀ k, env.malloc_ok k = true) →
          ∃ a, Ev.rcvmsg q { msg with ptr := a } ∈ s1.trace := by
  intro l
  induction l with
  | nil =>
    intro pre s _ _ _
    exact ⟨s, rfl, wkeep_refl _, fun q hq => by cases hq⟩
  | cons x l ih =>
    intro pre s hpre hev hl
    obtain ⟨n, hn, hr⟩ := hl x (List.mem_cons_self _ _)
    obtain ⟨s1, hstep, k1, hd1⟩ := sendsubscribed_step_keeps hk fuel hm s x hn hr
    have hev1 : s1.event? p = some e := by rw [k1.event]; exact hev
    have hpre1 : (pre ++ [x]) ++ l = e.ev_nodes := by simpa using hpre
    obtain ⟨s2, hwalk, k2, hd2⟩ := ih (pre ++ [x]) s1 hpre1 hev1 (fun q hq => by
      obtain ⟨m, hm2, hr2⟩ := hl q (List.mem_cons_of_mem _ hq)
      exact ⟨m, by rw [k1.node]; exact hm2, hr2⟩)
    have hfirst : ∀ m, s.node? x = some m → DMM_NODE_ISVALID m = true →
        m.nd_type.rcvmsg = true → (∀ k, env.malloc_ok k = true) →
        ∃ a, Ev.rcvmsg x { msg with ptr := a } ∈ s1.trace := by
      intro m hm2 hv hc hmal
      rw [hn] at hm2
      cases hm2
      exact ⟨_, hd1 hv hc (hmal _)⟩
    unfold sendsubscribed_walk
    simp only [hstep, Option.bind_eq_bind, Option.some_bind]
    by_cases hnil : l = []
    · subst hnil
      simp only [if_true]
      refine ⟨s1, rfl, k1, fun q hq m hm2 hv hc hmal => ?_⟩
      have hqx : q = x := by simpa using hq
      subst hqx
      exact hfirst m hm2 hv hc hmal
    · simp only [hnil, if_false, subscribers_linked_of_tail hev1 hpre1, if_true]
      refine ⟨s2, hwalk, wkeep_trans k1 k2, fun q hq m hm2 hv hc hmal => ?_⟩
      by_cases hql : q ∈ l
      · exact hd2 q hql m (by rw [k1.node]; exact hm2) hv hc hmal
      · have hqx : q = x := by
          rcases List.mem_cons.1 hq with h | h
          · exact h
          · exact absurd h hql
        subst hqx
        obtain ⟨a, ha⟩ := hfirst m hm2 hv hc hmal
        exact ⟨a, k2.mem_trace ha⟩

/-- The function `dmm_event_sendsubscribed` with callbacks that keep the
events and the nodes. -/
theorem dmm_event_sendsubscribed_keeps {env : Env} (hk : env.rcvmsg_keeps) (fuel : Nat)
    {msg : dmm_msg} (hm : passed_to_node msg) (st : State) (p : Ptr) (e : dmm_event)
    (he : st.event? p = some e)
    (hnodes : ∀ q ∈ e.ev_nodes, ∃ n, st.node? q = some n ∧
      (0 < n.nd_refs ∧ n.nd_refs < DMM_REFNUM_MAX)) :
    ∃ s1, dmm_event_sendsubscribed env (fuel + 1) st p msg = some s1 ∧ wkeep st s1 ∧
      ∀ q ∈ e.ev_nodes, ∀ n, st.node? q = some n → DMM_NODE_ISVALID n = true →
        n.nd_type.rcvmsg = true → (∀ k, env.malloc_ok k = true) →
        ∃ a, Ev.rcvmsg q { msg with ptr := a } ∈ s1.trace := by
  obtain ⟨s1, hwalk, k1, hd⟩ := sendsubscribed_walk_keeps hk fuel hm p e e.ev_nodes [] st rfl he
    hnodes
  refine ⟨dmm_msg_free s1 msg, ?_, wkeep_trans k1 (wkeep_log _ _), fun q hq n hn hv hc hmal => ?_⟩
  · unfold dmm_event_sendsubscribed
    simp only [he, Option.bind_eq_bind, Option.some_bind, hwalk]
  · obtain ⟨a, ha⟩ := hd q hq n hn hv hc hmal
    exact ⟨a, List.mem_cons_of_mem _ ha⟩

/-! ## Unsubscribing every subscriber record, with repeated subscribers -/

/-- The loop of `dmm_event_unsubscribeall` over a subscriber list in which a
node may occur more than once, when each subscriber has at least as many
records of the event, and references, as the event has records of it: the
event ends without subscribers and with one reference less per record, each
node loses as many records of the event as the event had of it, and nothing
else changes. -/
theorem unsubscribeall_counts (env : Env) (p : Ptr) :
    ∀ (L : List Ptr) (s : State) (e : dmm_event),
      s.event? p = some e → e.ev_nodes = L → L.length + 1 ≤ e.ev_refs →
      (∀ q ∈ L, ∃ n, s.node? q = some n ∧ L.count q ≤ n.nd_events.count p ∧
        L.count q + 1 ≤ n.nd_refs) →
      ∃ N : Ptr → Option dmm_node,
        L.foldlM (unsubscribe_step env p) s =
          some ((s.setEvent p
            { e with ev_nodes := [], ev_refs := e.ev_refs - L.length }).withNodes N) ∧
        (∀ q n1, N q = some n1 → ∃ n, s.node? q = some n ∧
          n1.nd_events.count p = n.nd_events.count p - L.count q) := by
  intro L
  induction L with
  | nil =>
    intro s e he hl _ _
    refine ⟨s.nodes, ?_, fun q n1 h => ⟨n1, h, by simp⟩⟩
    have : s.setEvent p { e with ev_nodes := [], ev_refs := e.ev_refs - 0 } = s := by
      rw [show ({ e with ev_nodes := [], ev_refs := e.ev_refs - 0 } : dmm_event) = e from by
        cases e; simp at hl; simp [hl]]
      exact setEvent_stored he
    simp only [List.length_nil, this]
    rfl
  | cons q L ih =>
    intro s e he hl hrefs hnodes
    simp only [List.length_cons] at hrefs
    obtain ⟨n, hn, hcn, hrn⟩ := hnodes q (List.mem_cons_self _ _)
    simp only [List.count_cons_self] at hcn hrn
    have hpn : p ∈ n.nd_events := List.count_pos_iff.1 (by omega)
    have hstep := dmm_event_unsubscribe_eq env he (by rw [hl]; exact List.mem_cons_self _ _)
      hn hpn (by omega) (by omega)
    have herase : e.ev_nodes.erase q = L := by rw [hl]; simp
    rw [herase] at hstep
    obtain ⟨N, hf, hN⟩ := ih
      ((s.setEvent p { e with ev_nodes := L, ev_refs := e.ev_refs - 1 }).setNode q
        { n with nd_events := n.nd_events.erase p, nd_refs := n.nd_refs - 1 })
      { e with ev_nodes := L, ev_refs := e.ev_refs - 1 }
      (by simp) rfl (by simp; omega)
      (fun x hx => by
        by_cases hxq : x = q
        · subst hxq
          refine ⟨{ n with nd_events := n.nd_events.erase p, nd_refs := n.nd_refs - 1 },
            node?_setNode_same _ _ _, ?_, ?_⟩
          · show L.count x ≤ (n.nd_events.erase p).count p
            rw [List.count_erase_self]; omega
          · show L.count x + 1 ≤ n.nd_refs - 1; omega
        · obtain ⟨m, hm, hcm, hrm⟩ := hnodes x (List.mem_cons_of_mem _ hx)
          have hqx : ¬ (q = x) := fun h => hxq h.symm
          simp only [List.count_cons, beq_iff_eq, hqx, if_false, Nat.add_zero] at hcm hrm
          exact ⟨m, by simp [node?_setNode_ne _ _ hxq, hm], hcm, hrm⟩)
    refine ⟨N, ?_, fun x n1 hx => ?_⟩
    · rw [List.foldlM_cons]
      have h1 : unsubscribe_step env p s q = some
          ((s.setEvent p { e with ev_nodes := L, ev_refs := e.ev_refs - 1 }).setNode q
            { n with nd_events := n.nd_events.erase p, nd_refs := n.nd_refs - 1 }) := by
        unfold unsubscribe_step
        rw [hstep]; rfl
      rw [h1]
      simp only [Option.bind_eq_bind, Option.some_bind]
      rw [hf]
      simp only [setNode_setEvent, setEvent_setEvent, List.length_cons]
      have : e.ev_refs - 1 - L.length = e.ev_refs - (L.length + 1) := by omega
      rw [this]
      rfl
    · obtain ⟨m, hm, hcm⟩ := hN x n1 hx
      by_cases hxq : x = q
      · subst hxq
        simp only [node?_setNode_same, Option.some.injEq] at hm
        subst hm
        refine ⟨n, hn, ?_⟩
        rw [hcm]
        simp only [List.count_erase_self, List.count_cons_self]
        omega
      · rw [node?_setNode_ne _ _ hxq] at hm
        have hqx : ¬ (q = x) := fun h => hxq h.symm
        refine ⟨m, by simpa using hm, ?_⟩
        rw [hcm]
        simp [List.count_cons, hqx]

/-! ## The end of a wave -/

theorem find_wavefinish_id_mem {st : State} {id : Nat} {l : List Ptr} {p : Ptr}
    (h : find_wavefinish_id st id l = some (some p)) :
    p ∈ l ∧ ∃ e w, st.wavefinish? p = some (e, w) ∧ w.wf_waveid = id := by
  induction l with
  | nil => simp [find_wavefinish_id] at h
  | cons x l ih =>
    unfold find_wavefinish_id at h
    cases hx : st.wavefinish? x with
    | none => simp [hx] at h
    | some r =>
      obtain ⟨e, w⟩ := r
      simp only [hx] at h
      by_cases hw : w.wf_waveid = id
      · simp only [hw, if_true, Option.some.injEq] at h
        subst h
        exact ⟨List.mem_cons_self _ _, e, w, hx, hw⟩
      · simp only [hw, if_false] at h
        obtain ⟨h1, h2⟩ := ih h
        exact ⟨List.mem_cons_of_mem _ h1, h2⟩

theorem find_wavefinish_id_none {st : State} {id : Nat} {l : List Ptr}
    (h : ∀ x ∈ l, ∃ e w, st.wavefinish? x = some (e, w) ∧ w.wf_waveid ≠ id) :
    find_wavefinish_id st id l = some none := by
  induction l with
  | nil => rfl
  | cons x l ih =>
    obtain ⟨e, w, hx, hw⟩ := h x (List.mem_cons_self _ _)
    unfold find_wavefinish_id
    simp only [hx, hw, if_false]
    exact ih (fun y hy => h y (List.mem_cons_of_mem _ hy))

theorem wavefinish?_event {st : State} {p : Ptr} {e : dmm_event} {w : dmm_wavefinish}
    (h : st.wavefinish? p = some (e, w)) : st.event? p = some e ∧ e.ext = .wavefinish w := by
  unfold State.wavefinish? at h
  cases hx : st.event? p with
  | none => simp [hx] at h
  | some x =>
    simp only [hx, Option.bind_eq_bind, Option.some_bind] at h
    cases hxe : x.ext <;> simp [hxe] at h
    exact ⟨by rw [← h.1], by rw [← h.1, hxe, h.2]⟩

/-- The end of a wave when the wave-finish event of the current wave exists,
in a state with well-formed wave-finish events and with callbacks that keep
the events and the nodes. -/
theorem wave_finish_teardown_of_inv (env : Env) (hk : env.rcvmsg_keeps) (fuel : Nat)
    (st : State) (hI : wave_inv st) (p : Ptr) (e : dmm_event) (w : dmm_wavefinish)
    (hfind : find_wavefinish_id st st.dmm_wave_id st.wavefinishlist = some (some p))
    (hw : st.wavefinish? p = some (e, w))
    (hmax : e.ev_refs < DMM_REFNUM_MAX)
    (hnmax : ∀ q ∈ e.ev_nodes, ∀ n, st.node? q = some n → n.nd_refs < DMM_REFNUM_MAX)
    (hm0 : env.malloc_ok st.nalloc = true) :
    ∃ st', dmm_wave_finish env (fuel + 1) st = some (0, st') ∧
      st'.event? p = none ∧ p ∉ st'.wavefinishlist ∧
      find_wavefinish_id st' st'.dmm_wave_id st'.wavefinishlist = some none ∧
      (∀ q n1, st'.node? q = some n1 → p ∉ n1.nd_events) ∧
      (∀ q ∈ e.ev_nodes, ∀ n, st.node? q = some n → DMM_NODE_ISVALID n = true →
        n.nd_type.rcvmsg = true → (∀ k, env.malloc_ok k = true) →
        ∃ a, Ev.rcvmsg q (wavefinish_msg a) ∈ st'.trace) := by
  obtain ⟨he, hext⟩ := wavefinish?_event hw
  obtain ⟨hpl, e0, w0, hw0, hwid⟩ := find_wavefinish_id_mem hfind
  rw [hw] at hw0
  obtain ⟨rfl, rfl⟩ := Prod.mk.inj (Option.some.inj hw0)
  obtain ⟨e1, w1, hw1, hdes, hrefs, _, hlive, hmirror⟩ := hI.ev p hpl
  rw [hw] at hw1
  obtain ⟨rfl, rfl⟩ := Prod.mk.inj (Option.some.inj hw1)
  have hwl := hI.listed
  have huniq : ∀ x ∈ st.wavefinishlist, x ≠ p →
      ∃ ex wx, st.wavefinish? x = some (ex, wx) ∧ wx.wf_waveid ≠ st.dmm_wave_id := by
    intro x hx hxp
    obtain ⟨ex, wx, hwx, _⟩ := hI.ev x hx
    refine ⟨ex, wx, hwx, fun hid => hxp ?_⟩
    exact hI.ids p hpl x hx e w ex wx hw hwx (by rw [hwid, hid])
  -- the reference taken by the lookup
  have h1 : dmm_wavefinish_id2ref st (dmm_current_wave st) =
      some (some p, st.setEvent p { e with ev_refs := e.ev_refs + 1 }) := by
    unfold dmm_wavefinish_id2ref dmm_current_wave
    simp only [hfind, Option.bind_eq_bind, Option.some_bind, dmm_event_ref_eq he hmax]
  -- the message
  have hmsg : passed_to_node (wavefinish_msg (st.nalloc + 1)) :=
    ⟨rfl, by show (0 : Nat) &&& DMM_MSG_RESP = 0; decide, Or.inl ⟨rfl, rfl⟩⟩
  let st2 : State := (st.setEvent p { e with ev_refs := e.ev_refs + 1 }).bump
  have h2 : dmm_msg_create env (st.setEvent p { e with ev_refs := e.ev_refs + 1 }) 0
      DMM_MSG_WAVEFINISH DMM_MSGTYPE_GENERIC 0 0 0 =
      (some (wavefinish_msg (st.nalloc + 1)), st2) := by
    simp [dmm_msg_create, DMM_MALLOC, hm0, wavefinish_msg, st2]
  have hcount : ∀ q n, st.node? q = some n → e.ev_nodes.count q + 1 ≤ n.nd_refs := by
    intro q n hn
    have h1 := hmirror q n hn
    have h2 := hI.noderefs q n hn
    have h3 : n.nd_events.count p ≤ n.nd_events.length := List.count_le_length _ _
    omega
  -- the broadcast
  have hnodes2 : ∀ q ∈ e.ev_nodes, ∃ n, st2.node? q = some n ∧
      (0 < n.nd_refs ∧ n.nd_refs < DMM_REFNUM_MAX) := by
    intro q hq
    obtain ⟨n, hn⟩ := hlive q hq
    have := hcount q n hn
    exact ⟨n, by simpa [st2] using hn, by omega, hnmax q hq n hn⟩
  obtain ⟨s3, h3, k3, hdel⟩ := dmm_event_sendsubscribed_keeps hk fuel hmsg st2 p
    { e with ev_refs := e.ev_refs + 1 } (by simp [st2]) hnodes2
  have he3 : s3.event? p = some { e with ev_refs := e.ev_refs + 1 } := by
    rw [k3.event]; simp [st2]
  have hn3 : ∀ x, s3.node? x = st.node? x := by
    intro x; rw [k3.node]; rfl
  have hev3 : ∀ x, x ≠ p → s3.event? x = st.event? x := by
    intro x hx
    rw [k3.event]
    simp [st2, event?_setEvent_ne _ _ hx]
  -- every subscriber record is removed
  obtain ⟨N, h4, hN⟩ := unsubscribeall_counts env p e.ev_nodes s3
    { e with ev_refs := e.ev_refs + 1 } he3 rfl (by simp; omega)
    (fun q hq => by
      obtain ⟨n, hn⟩ := hlive q hq
      exact ⟨n, by rw [hn3]; exact hn, by rw [hmirror q n hn], hcount q n hn⟩)
  have hone : e.ev_refs + 1 - e.ev_nodes.length = 1 := by omega
  simp only [hone] at h4
  let st4 : State := (s3.setEvent p { e with ev_nodes := [], ev_refs := 1 }).withNodes N
  have he4 : st4.event? p = some { e with ev_nodes := [], ev_refs := 1 } := by
    simp [st4, State.event?, State.setEvent, State.withNodes]
  have h5 : dmm_event_unsubscribeall env s3 p = some st4 := by
    rw [dmm_event_unsubscribeall_def, he3]
    exact h4
  -- the event is removed
  let st5 : State :=
    dmm_event_free ((((st4.withWavefinishlist (st4.wavefinishlist.erase p)).setEvent p
      { e with ev_nodes := [], ev_refs := 0 })).withWavefinishlist
      ((st4.wavefinishlist.erase p).erase p)) p
  have h6 : dmm_wavefinish_rm env st4 p = some st5 := by
    unfold dmm_wavefinish_rm
    rw [dmm_event_unsubscribeall_def, he4]
    simp only [Option.some_bind, List.foldlM_nil, Option.bind_eq_bind, Option.pure_def]
    unfold dmm_event_unref
    simp [State.event?, st4, State.setEvent, dmm_refrelease, hdes, wavefinish_destructor, st5,
      State.withNodes, State.withWavefinishlist]
  have hl5 : st5.wavefinishlist = (st.wavefinishlist.erase p).erase p := by
    show (s3.wavefinishlist.erase p).erase p = _
    rw [k3.wl]; rfl
  have hid5 : st5.dmm_wave_id = st.dmm_wave_id := by
    show s3.dmm_wave_id = _
    rw [k3.wid]; rfl
  refine ⟨st5, ?_, ?_, ?_, ?_, ?_, ?_⟩
  · unfold dmm_wave_finish
    simp only [h1, Option.bind_eq_bind, Option.some_bind, h2, h3, h5, h6]
  · simp [st5, State.event?, State.delEvent, State.log, dmm_event_free]
  · rw [hl5]
    intro hmem
    exact (List.Nodup.not_mem_erase hwl) (List.mem_of_mem_erase hmem)
  · rw [hl5, hid5]
    apply find_wavefinish_id_none
    intro x hx
    have hx1 : x ∈ st.wavefinishlist := List.mem_of_mem_erase (List.mem_of_mem_erase hx)
    have hxp : x ≠ p := fun h => by
      subst h
      exact (List.Nodup.not_mem_erase hwl) (List.mem_of_mem_erase hx)
    obtain ⟨ex, wx, hwx, hne⟩ := huniq x hx1 hxp
    refine ⟨ex, wx, ?_, hne⟩
    have : st5.event? x = st.event? x := by
      rw [← hev3 x hxp]
      simp [st5, st4, State.event?, State.delEvent, State.setEvent, State.log, dmm_event_free,
        Function.update_noteq hxp, State.withNodes, State.withWavefinishlist]
    unfold State.wavefinish? at hwx ⊢
    rw [this]; exact hwx
  · intro q n1 hq
    have hNq : st5.node? q = N q := rfl
    rw [hNq] at hq
    obtain ⟨n, hn, hc⟩ := hN q n1 hq
    rw [hn3] at hn
    rw [hmirror q n hn, Nat.sub_self] at hc
    exact List.count_eq_zero.1 hc
  · intro q hq n hn hv hc hmal
    obtain ⟨a, ha⟩ := hdel q hq n (by simpa [st2] using hn) hv hc hmal
    refine ⟨a, ?_⟩
    have : st5.trace = Ev.event_free p :: s3.trace := rfl
    rw [this]
    exact List.mem_cons_of_mem _ ha

/-! ## Subscribing to the end of the wave keeps the wave-finish events well formed -/

theorem wavefinish?_congr {s s1 : State} {q : Ptr} (h : s1.event? q = s.event? q) :
    s1.wavefinish? q = s.wavefinish? q := by
  unfold State.wavefinish?; rw [h]

/-- The well-formedness of the wave-finish events depends on the list of
wave-finish events, the events, the nodes and the allocation counter. -/
theorem wave_inv_congr {st s1 : State} (hI : wave_inv st)
    (hl : s1.wavefinishlist = st.wavefinishlist) (he : ∀ q, s1.event? q = st.event? q)
    (hn : ∀ q, s1.node? q = st.node? q) (ha : st.nalloc ≤ s1.nalloc) : wave_inv s1 := by
  refine ⟨by rw [hl]; exact hI.listed, ?_, ?_, ?_, ?_⟩
  · intro p hp
    rw [hl] at hp
    obtain ⟨e, w, hw, h1, h2, h3, h4, h5⟩ := hI.ev p hp
    refine ⟨e, w, by rw [wavefinish?_congr (he p)]; exact hw, h1, h2, h3, ?_, ?_⟩
    · intro q hq
      rw [hn]; exact h4 q hq
    · intro q n hq
      rw [hn] at hq; exact h5 q n hq
  · intro p hp x hx e w ex wx hw hwx
    rw [hl] at hp hx
    rw [wavefinish?_congr (he p)] at hw
    rw [wavefinish?_congr (he x)] at hwx
    exact hI.ids p hp x hx e w ex wx hw hwx
  · intro q n hq
    rw [hn] at hq; exact hI.noderefs q n hq
  · intro p hp
    obtain ⟨h1, h2, h3⟩ := hI.fresh p (by omega)
    exact ⟨by rw [he]; exact h1, by rw [hl]; exact h2, fun q n hq => by
      rw [hn] at hq; exact h3 q n hq⟩

/-- One more subscriber record on an event of the list. -/
theorem wave_inv_add_existing {st s1 : State} (hI : wave_inv st) {p node : Ptr}
    {e : dmm_event} {w : dmm_wavefinish} {n : dmm_node}
    (hp : p ∈ st.wavefinishlist) (hw : st.wavefinish? p = some (e, w))
    (hn : st.node? node = some n)
    (hl : s1.wavefinishlist = st.wavefinishlist)
    (hep : s1.event? p =
      some { e with ev_nodes := e.ev_nodes ++ [node], ev_refs := e.ev_refs + 1 })
    (heo : ∀ q, q ≠ p → s1.event? q = st.event? q)
    (hnn : s1.node? node = some { n with nd_events := p :: n.nd_events, nd_refs := n.nd_refs + 1 })
    (hno : ∀ q, q ≠ node → s1.node? q = st.node? q)
    (ha : st.nalloc ≤ s1.nalloc) : wave_inv s1 := by
  obtain ⟨hev, hext⟩ := wavefinish?_event hw
  have hwp : s1.wavefinish? p =
      some ({ e with ev_nodes := e.ev_nodes ++ [node], ev_refs := e.ev_refs + 1 }, w) := by
    unfold State.wavefinish?
    simp [hep, hext]
  have hpa : p ≤ st.nalloc := by
    by_contra hlt
    exact (hI.fresh p (Nat.lt_of_not_le hlt)).2.1 hp
  obtain ⟨e0, w0, hw0, hdes, hrefs, _, hlive, hmirror⟩ := hI.ev p hp
  rw [hw] at hw0
  obtain ⟨rfl, rfl⟩ := Prod.mk.inj (Option.some.inj hw0)
  refine ⟨by rw [hl]; exact hI.listed, ?_, ?_, ?_, ?_⟩
  · intro x hx
    rw [hl] at hx
    by_cases hxp : x = p
    · subst hxp
      refine ⟨_, w, hwp, hdes, by simp [hrefs], by simp, ?_, ?_⟩
      · intro q hq
        by_cases hqn : q = node
        · subst hqn; exact ⟨_, hnn⟩
        · rw [hno q hqn]
          rcases List.mem_append.1 hq with h | h
          · exact hlive q h
          · exact absurd (by simpa using h) hqn
      · intro q m hq
        by_cases hqn : q = node
        · subst hqn
          rw [hnn] at hq
          cases hq
          simp [hmirror q n hn]
        · rw [hno q hqn] at hq
          have hnq : ¬ (node = q) := fun h => hqn h.symm
          simp [hmirror q m hq, List.count_cons, hnq]
    · obtain ⟨ex, wx, hwx, h1, h2, h3, h4, h5⟩ := hI.ev x hx
      refine ⟨ex, wx, by rw [wavefinish?_congr (heo x hxp)]; exact hwx, h1, h2, h3, ?_, ?_⟩
      · intro q hq
        by_cases hqn : q = node
        · subst hqn; exact ⟨_, hnn⟩
        · rw [hno q hqn]; exact h4 q hq
      · intro q m hq
        by_cases hqn : q = node
        · subst hqn
          rw [hnn] at hq
          cases hq
          have hpx : ¬ (p = x) := fun h => hxp h.symm
          simp [List.count_cons, hpx, h5 q n hn]
        · rw [hno q hqn] at hq
          exact h5 q m hq
  · intro a ha1 x hx ea wa ex wx hwa hwx hid
    rw [hl] at ha1 hx
    have key : ∀ y ∈ st.wavefinishlist, ∀ ey wy, s1.wavefinish? y = some (ey, wy) →
        ∃ ey0, st.wavefinish? y = some (ey0, wy) := by
      intro y _ ey wy hy
      by_cases hyp : y = p
      · subst hyp
        rw [hwp] at hy
        obtain ⟨_, rfl⟩ := Prod.mk.inj (Option.some.inj hy)
        exact ⟨e, hw⟩
      · rw [wavefinish?_congr (heo y hyp)] at hy
        exact ⟨ey, hy⟩
    obtain ⟨ea0, hwa0⟩ := key a ha1 ea wa hwa
    obtain ⟨ex0, hwx0⟩ := key x hx ex wx hwx
    exact hI.ids a ha1 x hx ea0 wa ex0 wx hwa0 hwx0 hid
  · intro q m hq
    by_cases hqn : q = node
    · subst hqn
      rw [hnn] at hq
      cases hq
      have := hI.noderefs q n hn
      simp only [List.length_cons]
      omega
    · rw [hno q hqn] at hq
      exact hI.noderefs q m hq
  · intro x hx
    obtain ⟨h1, h2, h3⟩ := hI.fresh x (by omega)
    have hxp : x ≠ p := fun h => by subst h; exact h2 hp
    refine ⟨by rw [heo x hxp]; exact h1, by rw [hl]; exact h2, fun q m hq => ?_⟩
    by_cases hqn : q = node
    · subst hqn
      rw [hnn] at hq
      cases hq
      intro hmem
      rcases List.mem_cons.1 hmem with h | h
      · exact hxp h
      · exact h3 q n hn h
    · rw [hno q hqn] at hq
      exact h3 q m hq

/-- A new event with one subscriber record at the head of the list. -/
theorem wave_inv_add_new {st s1 : State} (hI : wave_inv st) {p node : Ptr} {n : dmm_node}
    {i cur : Nat} (hfr : st.nalloc < p)
    (hcur : ∀ x ∈ st.wavefinishlist, ∀ e w, st.wavefinish? x = some (e, w) → w.wf_waveid ≠ cur)
    (hn : st.node? node = some n)
    (hl : s1.wavefinishlist = p :: st.wavefinishlist)
    (hep : s1.event? p =
      some ⟨i, [node], 1, some .wavefinish_destructor, .wavefinish ⟨cur⟩⟩)
    (heo : ∀ q, q ≠ p → s1.event? q = st.event? q)
    (hnn : s1.node? node = some { n with nd_events := p :: n.nd_events, nd_refs := n.nd_refs + 1 })
    (hno : ∀ q, q ≠ node → s1.node? q = st.node? q)
    (ha : p ≤ s1.nalloc) : wave_inv s1 := by
  obtain ⟨hfe, hfl, hfn⟩ := hI.fresh p hfr
  have hwp : s1.wavefinish? p =
      some (⟨i, [node], 1, some .wavefinish_destructor, .wavefinish ⟨cur⟩⟩, ⟨cur⟩) := by
    unfold State.wavefinish?
    simp [hep]
  have hne : ∀ x ∈ st.wavefinishlist, x ≠ p := fun x hx h => hfl (h ▸ hx)
  refine ⟨by rw [hl]; exact List.nodup_cons.2 ⟨hfl, hI.listed⟩, ?_, ?_, ?_, ?_⟩
  · intro x hx
    rw [hl] at hx
    rcases List.mem_cons.1 hx with hxp | hx
    · subst hxp
      refine ⟨_, _, hwp, rfl, rfl, by simp, ?_, ?_⟩
      · intro q hq
        have hqn : q = node := by simpa using hq
        subst hqn; exact ⟨_, hnn⟩
      · intro q m hq
        by_cases hqn : q = node
        · subst hqn
          rw [hnn] at hq
          cases hq
          simp [List.count_eq_zero.2 (hfn q n hn)]
        · rw [hno q hqn] at hq
          have hnq : ¬ (node = q) := fun h => hqn h.symm
          simp [List.count_eq_zero.2 (hfn q m hq), List.count_cons, hnq]
    · have hxp := hne x hx
      obtain ⟨ex, wx, hwx, h1, h2, h3, h4, h5⟩ := hI.ev x hx
      refine ⟨ex, wx, by rw [wavefinish?_congr (heo x hxp)]; exact hwx, h1, h2, h3, ?_, ?_⟩
      · intro q hq
        by_cases hqn : q = node
        · subst hqn; exact ⟨_, hnn⟩
        · rw [hno q hqn]; exact h4 q hq
      · intro q m hq
        by_cases hqn : q = node
        · subst hqn
          rw [hnn] at hq
          cases hq
          have hpx : ¬ (p = x) := fun h => hxp h.symm
          simp [List.count_cons, hpx, h5 q n hn]
        · rw [hno q hqn] at hq
          exact h5 q m hq
  · intro a ha1 x hx ea wa ex wx hwa hwx hid
    rw [hl] at ha1 hx
    rcases List.mem_cons.1 ha1 with hap | ha2 <;> rcases List.mem_cons.1 hx with hxp | hx2
    · rw [hap, hxp]
    · exfalso
      subst hap
      rw [hwp] at hwa
      obtain ⟨_, rfl⟩ := Prod.mk.inj (Option.some.inj hwa)
      rw [wavefinish?_congr (heo x (hne x hx2))] at hwx
      exact hcur x hx2 ex wx hwx hid.symm
    · exfalso
      subst hxp
      rw [hwp] at hwx
      obtain ⟨_, rfl⟩ := Prod.mk.inj (Option.some.inj hwx)
      rw [wavefinish?_congr (heo a (hne a ha2))] at hwa
      exact hcur a ha2 ea wa hwa hid
    · rw [wavefinish?_congr (heo a (hne a ha2))] at hwa
      rw [wavefinish?_congr (heo x (hne x hx2))] at hwx
      exact hI.ids a ha2 x hx2 ea wa ex wx hwa hwx hid
  · intro q m hq
    by_cases hqn : q = node
    · subst hqn
      rw [hnn] at hq
      cases hq
      have := hI.noderefs q n hn
      simp only [List.length_cons]
      omega
    · rw [hno q hqn] at hq
      exact hI.noderefs q m hq
  · intro x hx
    have hxp : x ≠ p := fun h => by subst h; exact absurd ha (Nat.not_le_of_lt hx)
    obtain ⟨h1, h2, h3⟩ := hI.fresh x (Nat.lt_trans hfr (Nat.lt_of_le_of_lt ha hx))
    refine ⟨by rw [heo x hxp]; exact h1, ?_, fun q m hq => ?_⟩
    · rw [hl]
      intro hmem
      rcases List.mem_cons.1 hmem with h | h
      · exact hxp h
      · exact h2 h
    · by_cases hqn : q = node
      · subst hqn
        rw [hnn] at hq
        cases hq
        intro hmem
        rcases List.mem_cons.1 hmem with h | h
        · exact hxp h
        · exact h3 q n hn h
      · rw [hno q hqn] at hq
        exact h3 q m hq

theorem find_wavefinish_id_none_ids {st : State} {id : Nat} {l : List Ptr}
    (h : find_wavefinish_id st id l = some none) :
    ∀ x ∈ l, ∀ e w, st.wavefinish? x = some (e, w) → w.wf_waveid ≠ id := by
  induction l with
  | nil => intro x hx; cases hx
  | cons y l ih =>
    unfold find_wavefinish_id at h
    cases hy : st.wavefinish? y with
    | none => simp [hy] at h
    | some r =>
      obtain ⟨ey, wy⟩ := r
      simp only [hy] at h
      by_cases hw : wy.wf_waveid = id
      · simp [hw] at h
      · simp only [hw, if_false] at h
        intro x hx e w hxw
        rcases List.mem_cons.1 hx with hxy | hx
        · subst hxy
          rw [hy] at hxw
          obtain ⟨_, rfl⟩ := Prod.mk.inj (Option.some.inj hxw)
          exact hw
        · exact ih h x hx e w hxw

/-- What `dmm_event_subscribe` leaves, read backwards. -/
theorem subscribe_shape {env : Env} {s s1 : State} {T node : Ptr} {err : Int}
    (h : dmm_event_subscribe env s T node = some (err, s1)) :
    s1.wavefinishlist = s.wavefinishlist ∧ s.nalloc ≤ s1.nalloc ∧
    (((∀ q, s1.event? q = s.event? q) ∧ (∀ q, s1.node? q = s.node? q)) ∨
     (∃ e n, s.event? T = some e ∧ s.node? node = some n ∧
       s1.event? T =
         some { e with ev_nodes := e.ev_nodes ++ [node], ev_refs := e.ev_refs + 1 } ∧
       (∀ q, q ≠ T → s1.event? q = s.event? q) ∧
       s1.node? node =
         some { n with nd_events := T :: n.nd_events, nd_refs := n.nd_refs + 1 } ∧
       (∀ q, q ≠ node → s1.node? q = s.node? q))) := by
  unfold dmm_event_subscribe DMM_MALLOC at h
  by_cases hm1 : env.malloc_ok s.nalloc = true
  · simp only [hm1, if_true] at h
    by_cases hm2 : env.malloc_ok s.bump.nalloc = true
    · simp only [hm2, if_true] at h
      obtain ⟨e, he, h1⟩ := Option.bind_eq_some.1 h
      obtain ⟨s2, h2, h3⟩ := Option.bind_eq_some.1 h1
      obtain ⟨n, hn, h4⟩ := Option.bind_eq_some.1 h3
      obtain ⟨s4, h5, h6⟩ := Option.bind_eq_some.1 h4
      simp only [Option.some.injEq, Prod.mk.injEq] at h6
      obtain ⟨_, rfl⟩ := h6
      unfold dmm_node_ref at h2
      obtain ⟨n0, hn0, h2⟩ := Option.bind_eq_some.1 h2
      obtain ⟨r, hr, h2⟩ := Option.bind_eq_some.1 h2
      simp only [Option.some.injEq] at h2
      subst h2
      have hr1 : r = n0.nd_refs + 1 := by
        unfold dmm_refacquire at hr
        split at hr
        · exact (Option.some.inj hr).symm
        · cases hr
      subst hr1
      simp only [node?_setNode_same, Option.some.injEq] at hn
      subst hn
      unfold dmm_event_ref at h5
      obtain ⟨e5, he5, h5⟩ := Option.bind_eq_some.1 h5
      obtain ⟨r5, hr5, h5⟩ := Option.bind_eq_some.1 h5
      simp only [Option.some.injEq] at h5
      subst h5
      have hr51 : r5 = e5.ev_refs + 1 := by
        unfold dmm_refacquire at hr5
        split at hr5
        · exact (Option.some.inj hr5).symm
        · cases hr5
      subst hr51
      simp only [event?_setNode, event?_setEvent_same, Option.some.injEq] at he5
      subst he5
      refine ⟨rfl, ?_, Or.inr ⟨e, n0, by simpa using he, by simpa using hn0, ?_, ?_, ?_, ?_⟩⟩
      · show s.nalloc ≤ s.nalloc + 1 + 1; omega
      · simp
      · intro q hq
        simp [event?_setEvent_ne _ _ hq]
      · simp
      · intro q hq
        simp [node?_setNode_ne _ _ hq]
    · simp only [hm2, Bool.false_eq_true, if_false, Option.some.injEq, Prod.mk.injEq] at h
      rw [← h.2]
      exact ⟨rfl, by show s.nalloc ≤ s.nalloc + 1 + 1; omega, Or.inl ⟨fun _ => rfl, fun _ => rfl⟩⟩
  · simp only [hm1, Bool.false_eq_true, if_false, Option.some.injEq, Prod.mk.injEq] at h
    rw [← h.2]
    exact ⟨rfl, Nat.le_succ _, Or.inl ⟨fun _ => rfl, fun _ => rfl⟩⟩

/-- What `dmm_event_unref` leaves, read backwards. -/
theorem unref_shape {s s1 : State} {T : Ptr} (h : dmm_event_unref s T = some s1) :
    ∃ e, s.event? T = some e ∧ 0 < e.ev_refs ∧ s1.nalloc = s.nalloc ∧
      (∀ q, s1.node? q = s.node? q) ∧ (∀ q, q ≠ T → s1.event? q = s.event? q) ∧
      ((1 < e.ev_refs ∧ s1.event? T = some { e with ev_refs := e.ev_refs - 1 } ∧
          s1.wavefinishlist = s.wavefinishlist) ∨
       (e.ev_refs = 1 ∧ e.ev_nodes = [] ∧ s1.event? T = none ∧
          s1.wavefinishlist = (if e.ev_destructor = some .wavefinish_destructor
            then s.wavefinishlist.erase T else s.wavefinishlist))) := by
  obtain ⟨e, he, hpos, hc⟩ := dmm_event_unref_cases h
  refine ⟨e, he, hpos, ?_⟩
  rcases hc with ⟨h1, rfl⟩ | ⟨h1, h2, h3, h4, _, h6, h7, _⟩
  · exact ⟨rfl, fun _ => rfl, fun q hq => event?_setEvent_ne _ _ hq,
      Or.inl ⟨h1, event?_setEvent_same _ _ _, rfl⟩⟩
  · refine ⟨h6, fun q => by unfold State.node?; rw [h7], h4, Or.inr ⟨h1, h2, h3, ?_⟩⟩
    rcases dmm_event_unref_ids h with hk | ⟨e1, he1, _, _, _, hwl⟩
    · have := hk.ids T
      rw [h3, he] at this
      simp at this
    · rw [he] at he1
      cases he1
      exact hwl

/-- The function `dmm_wavefinish_subscribe` when no wave-finish event is
keyed by the current wave id and the event can be allocated. -/
theorem dmm_wavefinish_subscribe_new {env : Env} {st : State} (node : Ptr)
    (hfind : find_wavefinish_id st st.dmm_wave_id st.wavefinishlist = some none)
    (hm : env.malloc_ok st.nalloc = true) :
    dmm_wavefinish_subscribe env st node =
      (dmm_event_subscribe env (wavefinish_created st) (st.nalloc + 1) node).bind (fun r =>
        (dmm_event_unref r.2 (st.nalloc + 1)).bind (fun s => some (r.1, s))) := by
  unfold dmm_wavefinish_subscribe dmm_wavefinish_id2ref dmm_current_wave
  simp only [hfind, Option.bind_eq_bind, Option.some_bind, DMM_MALLOC, hm, if_true]
  rw [dmm_event_init_eq _ _ _ (event?_setEvent_same _ _ _)]
  simp only [Option.some_bind, event?_setEvent_same]
  simp only [wavefinish_created, State.setEvent, State.bump, Function.update_idem]

theorem wavefinish_created_event (st : State) (q : Ptr) :
    (wavefinish_created st).event? q =
      if q = st.nalloc + 1 then
        some ⟨(st.lasteventid + 1) % UINT32_MOD, [], 1, some .wavefinish_destructor,
          .wavefinish ⟨st.dmm_wave_id⟩⟩
      else st.event? q := by
  by_cases hq : q = st.nalloc + 1
  · subst hq
    simp [wavefinish_created, State.event?, State.setEvent]
  · simp [wavefinish_created, State.event?, State.setEvent, Function.update_noteq hq, hq,
      State.bump]

/-- The function `dmm_wavefinish_subscribe` keeps the wave-finish events well
formed, whether it succeeds or not. -/
theorem wave_inv_subscribe {env : Env} {st s1 : State} {node : Ptr} {err : Int}
    (hI : wave_inv st) (h : dmm_wavefinish_subscribe env st node = some (err, s1)) :
    wave_inv s1 := by
  cases hfind : find_wavefinish_id st st.dmm_wave_id st.wavefinishlist with
  | none =>
    unfold dmm_wavefinish_subscribe dmm_wavefinish_id2ref dmm_current_wave at h
    simp [hfind] at h
  | some r =>
    cases r with
    | some p =>
      unfold dmm_wavefinish_subscribe at h
      obtain ⟨⟨wf, s0⟩, h0, h⟩ := Option.bind_eq_some.1 h
      unfold dmm_wavefinish_id2ref dmm_current_wave at h0
      simp only [hfind, Option.bind_eq_bind, Option.some_bind] at h0
      obtain ⟨s0a, href, h0⟩ := Option.bind_eq_some.1 h0
      simp only [Option.some.injEq, Prod.mk.injEq] at h0
      obtain ⟨rfl, rfl⟩ := h0
      simp only [] at h
      obtain ⟨⟨e1, s2⟩, h2, h⟩ := Option.bind_eq_some.1 h
      obtain ⟨s3, h3, h⟩ := Option.bind_eq_some.1 h
      simp only [Option.some.injEq, Prod.mk.injEq] at h
      obtain ⟨_, rfl⟩ := h
      obtain ⟨hpl, e, w, hw, _⟩ := find_wavefinish_id_mem hfind
      obtain ⟨he, hext⟩ := wavefinish?_event hw
      obtain ⟨e0, he0, rfl⟩ := dmm_event_ref_some href
      rw [he] at he0
      cases he0
      obtain ⟨_, w0, hw0, _, hrefs, hne, _, _⟩ := hI.ev p hpl
      rw [hw] at hw0
      obtain ⟨rfl, rfl⟩ := Prod.mk.inj (Option.some.inj hw0)
      have hlen : 1 ≤ e.ev_nodes.length := by
        cases hl : e.ev_nodes with
        | nil => exact absurd hl hne
        | cons a l => simp
      obtain ⟨hwl2, hna2, hsh⟩ := subscribe_shape h2
      obtain ⟨e3, he3, _, hna3, hn3, heo3, hc3⟩ := unref_shape h3
      rcases hsh with ⟨hes, hns⟩ | ⟨e2, n, he2, hn2, hep2, heo2, hnn2, hno2⟩
      · -- no record was added
        rw [hes, event?_setEvent_same] at he3
        cases he3
        rcases hc3 with ⟨_, hep3, hwl3⟩ | ⟨h1, _, _, _⟩
        · refine wave_inv_congr hI (by rw [hwl3, hwl2]; rfl) (fun q => ?_)
            (fun q => by rw [hn3, hns]; rfl) (by rw [hna3]; exact hna2)
          by_cases hq : q = p
          · subst hq
            rw [hep3, he]
            cases e; rfl
          · rw [heo3 q hq, hes, event?_setEvent_ne _ _ hq]
        · simp only [] at h1
          omega
      · -- a record was added
        rw [event?_setEvent_same] at he2
        cases he2
        rw [hep2] at he3
        cases he3
        rcases hc3 with ⟨_, hep3, hwl3⟩ | ⟨h1, _, _, _⟩
        · refine wave_inv_add_existing hI hpl hw (by simpa using hn2) (by rw [hwl3, hwl2]; rfl)
            (by rw [hep3]; rfl) (fun q hq => ?_) (by rw [hn3, hnn2]) (fun q hq => ?_)
            (by rw [hna3]; exact hna2)
          · rw [heo3 q hq, heo2 q hq, event?_setEvent_ne _ _ hq]
          · rw [hn3, hno2 q hq]; rfl
        · simp only [] at h1
          omega
    | none =>
      have hcur := find_wavefinish_id_none_ids hfind
      by_cases hm : env.malloc_ok st.nalloc = true
      · rw [dmm_wavefinish_subscribe_new node hfind hm] at h
        obtain ⟨⟨e1, s6⟩, h6, h⟩ := Option.bind_eq_some.1 h
        obtain ⟨s7, h7, h⟩ := Option.bind_eq_some.1 h
        simp only [Option.some.injEq, Prod.mk.injEq] at h
        obtain ⟨_, rfl⟩ := h
        simp only [] at h7
        obtain ⟨hfe, hfl, hfn⟩ := hI.fresh (st.nalloc + 1) (Nat.lt_succ_self _)
        obtain ⟨hwl6, hna6, hsh⟩ := subscribe_shape h6
        obtain ⟨e7, he7, _, hna7, hn7, heo7, hc7⟩ := unref_shape h7
        have hcn : ∀ q, (wavefinish_created st).node? q = st.node? q := fun _ => rfl
        have hca : (wavefinish_created st).nalloc = st.nalloc + 1 := rfl
        have hcl : (wavefinish_created st).wavefinishlist =
            (st.nalloc + 1) :: st.wavefinishlist := rfl
        rcases hsh with ⟨hes, hns⟩ | ⟨e2, n, he2, hn2, hep2, heo2, hnn2, hno2⟩
        · -- the subscription failed: the new event is freed
          rw [hes, wavefinish_created_event, if_pos rfl] at he7
          cases he7
          rcases hc7 with ⟨h1, _, _⟩ | ⟨_, _, hep7, hwl7⟩
          · simp only [] at h1
            omega
          · refine wave_inv_congr hI ?_ (fun q => ?_) (fun q => by rw [hn7, hns, hcn])
              (by rw [hna7]; exact Nat.le_trans (by rw [hca]; exact Nat.le_succ _) hna6)
            · rw [hwl7, hwl6, hcl]
              simp
            · by_cases hq : q = st.nalloc + 1
              · subst hq
                rw [hep7, hfe]
              · rw [heo7 q hq, hes, wavefinish_created_event, if_neg hq]
        · -- the subscription succeeded
          rw [wavefinish_created_event, if_pos rfl] at he2
          cases he2
          rw [hep2] at he7
          cases he7
          rcases hc7 with ⟨_, hep7, hwl7⟩ | ⟨h1, _, _, _⟩
          · refine wave_inv_add_new hI (Nat.lt_succ_self _) hcur (by rw [← hcn]; exact hn2)
              (by rw [hwl7, hwl6, hcl]) (by rw [hep7]; rfl) (fun q hq => ?_)
              (by rw [hn7, hnn2]) (fun q hq => ?_)
              (by rw [hna7]; exact Nat.le_trans (by rw [hca]) hna6)
            · rw [heo7 q hq, heo2 q hq, wavefinish_created_event, if_neg hq]
            · rw [hn7, hno2 q hq, hcn]
          · simp only [] at h1
            omega
      · unfold dmm_wavefinish_subscribe dmm_wavefinish_id2ref dmm_current_wave at h
        simp only [hfind, Option.bind_eq_bind, Option.some_bind, DMM_MALLOC, hm, if_false,
          Bool.false_eq_true, Option.some.injEq, Prod.mk.injEq] at h
        obtain ⟨_, rfl⟩ := h
        exact wave_inv_congr hI rfl (fun _ => rfl) (fun _ => rfl) (Nat.le_succ _)

/-- C5: when the out-hook `s` of node `A` already has the in-hook `d` of node
`B` among its peers, `dmm_node_connect(A, s, B, d)` returns `EEXIST` and the
state after the call is the state before it: hook lists, peer lists and the
reference counts of hooks and nodes included. -/
theorem connect_duplicate (env : Env) (st : State) (A B : Ptr) (s d : List Char)
    (a b : dmm_node) (ps pd : Ptr) (hs hd : dmm_hook)
    (ha : st.node? A = some a) (hb : st.node? B = some b)
    (hfs : find_hook_named st s a.nd_outhooks = some (some (ps, hs)))
    (hfd : find_hook_named st d b.nd_inhooks = some (some (pd, hd)))
    (hvs : DMM_HOOK_ISVALID hs = true) (hvd : DMM_HOOK_ISVALID hd = true)
    (hpeer : pd ∈ hs.hk_peers) (hne : ps ≠ pd)
    (hrs : 0 < hs.hk_refs ∧ hs.hk_refs < DMM_REFNUM_MAX)
    (hrd : 0 < hd.hk_refs ∧ hd.hk_refs < DMM_REFNUM_MAX) :
    dmm_node_connect env st A s B d = some (EEXIST, st) := by
  have hhs := (find_hook_named_some hfs).1
  have hhd := (find_hook_named_some hfd).1
  have hfd' : find_hook_named (st.setHook ps { hs with hk_refs := hs.hk_refs + 1 }) d
      (b.hooks .DMM_HOOK_IN) = some (some (pd, hd)) := by
    rw [find_hook_named_setHook (x := { hs with hk_refs := hs.hk_refs + 1 }) hhs rfl]
    simp [dmm_node.hooks, hfd, hne.symm]
  unfold dmm_node_connect
  rw [dmm_hook_get_found (d := .DMM_HOOK_OUT) ha hfs hvs hrs.2]
  simp only [Option.bind_eq_bind, Option.some_bind, ne_eq, not_true_eq_false, if_false]
  rw [dmm_hook_get_found (d := .DMM_HOOK_IN) (by simpa using hb) hfd' hvd hrd.2]
  simp only [Option.some_bind, ne_eq, not_true_eq_false, if_false]
  rw [dmm_hook_addpeer_dup (h := { hs with hk_refs := hs.hk_refs + 1 })
    (by simp [hook?_setHook_ne _ _ hne]) hpeer]
  have hE : EEXIST ≠ 0 := by decide
  simp only [Option.some_bind, hE, if_false]
  rw [dmm_hook_unref_eq (x := { hd with hk_refs := hd.hk_refs + 1 }) (by simp)
    (by simp; omega)]
  simp only [Option.some_bind, setHook_setHook]
  rw [dmm_hook_unref_eq (x := { hs with hk_refs := hs.hk_refs + 1 })
    (by simp [hook?_setHook_ne _ _ hne]) (by simp; omega)]
  simp only [Option.some_bind, Nat.add_sub_cancel]
  rw [setHook_comm _ _ _ hne, setHook_setHook, setHook_comm _ _ _ hne.symm,
    setHook_stored hhs, setHook_stored hhd]

theorem connect_duplicate_witness :
    st_conn.node? 1 = some node_A_conn ∧ 4 ∈ hook_o.hk_peers ∧
    dmm_node_connect env0 st_conn 1 ['o'] 2 ['i'] = some (EEXIST, st_conn) :=
  ⟨rfl, by decide,
    connect_duplicate env0 st_conn 1 2 ['o'] ['i'] node_A_conn node_B_conn 3 4 hook_o hook_i
      rfl rfl rfl rfl (by decide) (by decide) (by decide) (by decide) (by decide) (by decide)⟩

theorem dmm_node_connect_new (env : Env) (hp : env.Passive) (st : State) (A B : Ptr) (o i : List Char)
    (a b : dmm_node)
    (ha : st.node? A = some a) (hb : st.node? B = some b) (hAB : A ≠ B)
    (hva : DMM_NODE_ISVALID a = true) (hvb : DMM_NODE_ISVALID b = true)
    (hra : 0 < a.nd_refs ∧ a.nd_refs < DMM_REFNUM_MAX)
    (hrb : 0 < b.nd_refs ∧ b.nd_refs < DMM_REFNUM_MAX)
    (hta : accepts_hooks env a.nd_type) (htb : accepts_hooks env b.nd_type)
    (hm : ∀ k, k < 4 → env.malloc_ok (st.nalloc + k) = true)
    (ho : hook_name_ok o) (hi : hook_name_ok i) (hno : NUL ∉ o) (hni : NUL ∉ i)
    (hfo : find_hook_named st o a.nd_outhooks = some none)
    (hfi : find_hook_named st i b.nd_inhooks = some none)
    (hal : st.alloc_ok) :
    dmm_node_connect env st A o B i = some (0, st_connected st A B o i a b) := by
  have hco := (name_check_iff o hno 31).2 ho
  have hci := (name_check_iff i hni 31).2 hi
  have hm0 : env.malloc_ok st.nalloc = true := by simpa using hm 0 (by omega)
  unfold dmm_node_connect
  rw [dmm_hook_get_new (d := .DMM_HOOK_OUT) ha hfo,
    dmm_hook_create_ok hp .DMM_HOOK_OUT ha hva hra.2 hta hm0 hco.1 hco.2]
  simp only [Option.bind_eq_bind, Option.some_bind, ne_eq, not_true_eq_false, if_false]
  have hp1b : st.nalloc + 1 ∉ b.nd_inhooks := fun h => by
    exact Nat.not_succ_le_self _ (hal.lists_fresh B b hb _ (Or.inl h))
  have hfi1 : ∀ S : State, (∀ p ∈ b.nd_inhooks, S.hook? p = st.hook? p) →
      find_hook_named S i (b.hooks .DMM_HOOK_IN) = some none := fun S hS => by
    show find_hook_named S i b.nd_inhooks = some none
    rw [find_hook_named_congr i hS]; exact hfi
  rw [dmm_hook_get_new (d := .DMM_HOOK_IN) (n := b) (by simp [node?_setNode_ne _ _ hAB.symm, hb])
    (hfi1 _ (fun p hp => by
      have : p ≠ st.nalloc + 1 := fun h => hp1b (h ▸ hp)
      simp [hook?_setHook_ne _ _ this]))]
  rw [dmm_hook_create_ok hp .DMM_HOOK_IN (n := b) (by simp [node?_setNode_ne _ _ hAB.symm, hb])
    hvb hrb.2 htb (by simpa using hm 1 (by omega)) hci.1 hci.2]
  simp only [Option.bind_eq_bind, Option.some_bind, ne_eq, not_true_eq_false, if_false]
  simp only [nalloc_setNode, nalloc_setHook, nalloc_logIf, nalloc_bump, setNode_bump,
    setHook_bump, logIf_bump, setNode_logIf, setHook_logIf, setNode_setHook]
  have hm2 : env.malloc_ok (st.nalloc + 1 + 1) = true := by simpa using hm 2 (by omega)
  have hm3 : env.malloc_ok (st.nalloc + 1 + 1 + 1) = true := by simpa using hm 3 (by omega)
  simp [dmm_hook_addpeer, dmm_hook_rmpeer, dmm_hook_unref, dmm_hook_ref, dmm_refacquire,
    dmm_refrelease, DMM_MALLOC, hook?_setHook, hm2, hm3, DMM_REFNUM_MAX]
  have hne : st.nalloc + 2 ≠ st.nalloc + 1 := by omega
  unfold st_connected
  rw [setHook_comm _ _ _ hne]
  rfl

theorem strncmp_eq_strncpy (name : List Char) (h : name.length ≤ 31) :
    strncmp_eq (strncpy name (DMM_HOOKNAMESIZE - 1)) name DMM_HOOKNAMESIZE = true := by
  simp [strncmp_eq, strncpy, DMM_HOOKNAMESIZE, List.take_of_length_le h,
    List.take_of_length_le (show name.length ≤ 32 by omega)]

@[simp] theorem created_hook_flags (node : Ptr) (dir : DMM_HOOK_DIRECTION) (name : List Char) :
    (created_hook node dir name).hk_flags = dir.val := by
  cases dir <;>
    simp only [created_hook, fresh_hook, DMM_HOOK_INVALID_BIT, DMM_HOOK_DIRECTION.val, NOT_BIT0] <;>
    decide

@[simp] theorem hook_with_refs (node : Ptr) (dir : DMM_HOOK_DIRECTION) (name : List Char)
    (l : List Ptr) (r : Nat) : (hook_with node dir name l r).hk_refs = r := rfl
@[simp] theorem hook_with_peers (node : Ptr) (dir : DMM_HOOK_DIRECTION) (name : List Char)
    (l : List Ptr) (r : Nat) : (hook_with node dir name l r).hk_peers = l := rfl
@[simp] theorem hook_with_node (node : Ptr) (dir : DMM_HOOK_DIRECTION) (name : List Char)
    (l : List Ptr) (r : Nat) : (hook_with node dir name l r).hk_node = node := rfl
@[simp] theorem hook_with_name (node : Ptr) (dir : DMM_HOOK_DIRECTION) (name : List Char)
    (l : List Ptr) (r : Nat) :
    (hook_with node dir name l r).hk_name = strncpy name (DMM_HOOKNAMESIZE - 1) := rfl
@[simp] theorem hook_with_valid (node : Ptr) (dir : DMM_HOOK_DIRECTION) (name : List Char)
    (l : List Ptr) (r : Nat) : DMM_HOOK_ISVALID (hook_with node dir name l r) = true :=
  created_hook_valid node dir name

theorem node_without_with (n : dmm_node) (dir : DMM_HOOK_DIRECTION) (p : Ptr)
    (hin : p ∉ n.nd_inhooks) (hout : p ∉ n.nd_outhooks) :
    node_without_hook (node_with_hook n dir p) p = n := by
  cases dir <;>
    simp [node_without_hook, node_with_hook, insert_nodehook, List.erase_of_not_mem, hin, hout]

theorem dmm_node_disconnect_sole (env : Env) (hp : env.Passive) (st : State) (A B : Ptr) (o i : List Char)
    (a b : dmm_node)
    (ha : st.node? A = some a) (hb : st.node? B = some b) (hAB : A ≠ B)
    (hva : DMM_NODE_ISVALID a = true) (hvb : DMM_NODE_ISVALID b = true)
    (hra : 0 < a.nd_refs ∧ a.nd_refs < DMM_REFNUM_MAX)
    (hrb : 0 < b.nd_refs ∧ b.nd_refs < DMM_REFNUM_MAX)
    (ho : hook_name_ok o) (hi : hook_name_ok i)
    (hal : st.alloc_ok) :
    dmm_node_disconnect env (st_connected st A B o i a b) A o B i =
      some (0, st_disconnected st a b) := by
  have hno := strncmp_eq_strncpy o ho.2.2.2
  have hni := strncmp_eq_strncpy i hi.2.2.2
  have hne : st.nalloc + 2 ≠ st.nalloc + 1 := by omega
  have hnA : (st_connected st A B o i a b).node? A =
      some (node_with_hook a .DMM_HOOK_OUT (st.nalloc + 1)) := by
    simp [st_connected, node?_setNode, hAB]
  have hnB : (st_connected st A B o i a b).node? B =
      some (node_with_hook b .DMM_HOOK_IN (st.nalloc + 2)) := by
    simp [st_connected]
  have hh1 : (st_connected st A B o i a b).hook? (st.nalloc + 1) =
      some (hook_with A .DMM_HOOK_OUT o [st.nalloc + 2] 1) := by
    simp [st_connected, hook?_setHook]
  have hh2 : (st_connected st A B o i a b).hook? (st.nalloc + 2) =
      some (hook_with B .DMM_HOOK_IN i [st.nalloc + 1] 1) := by
    simp [st_connected]
  have hf1 : find_hook_named (st_connected st A B o i a b) o
      ((node_with_hook a .DMM_HOOK_OUT (st.nalloc + 1)).hooks .DMM_HOOK_OUT) =
      some (some (st.nalloc + 1, hook_with A .DMM_HOOK_OUT o [st.nalloc + 2] 1)) := by
    simp [find_hook_named, hh1, hno]
  unfold dmm_node_disconnect
  simp only [hnA, hnB, Option.bind_eq_bind, Option.some_bind, node_with_hook_valid, hva, hvb,
    Bool.not_true, Bool.or_self, Bool.false_eq_true, if_false]
  rw [dmm_hook_find_found hnA hf1 (by simp) (by simp [DMM_REFNUM_MAX])]
  simp only [Option.some_bind]
  rw [dmm_hook_find_found (d := .DMM_HOOK_IN) (p := st.nalloc + 2)
    (h := hook_with B .DMM_HOOK_IN i [st.nalloc + 1] 1)
    (by simpa using hnB)
    (by simp [find_hook_named, hook?_setHook, hh2, hni]) (by simp) (by simp [DMM_REFNUM_MAX])]
  simp only [Option.some_bind, hook_with_refs]
  rw [dmm_hook_rmpeer_keep (h := hook_with A .DMM_HOOK_OUT o [st.nalloc + 2] 2)
    (x := hook_with B .DMM_HOOK_IN i [st.nalloc + 1] 2)
    (by simp [hook?_setHook]; rfl) (by simp) (by simp [hook?_setHook]; rfl) (by simp)]
  simp only [Option.some_bind, hook_with_refs, hook_with_peers, List.erase_cons_head,
    setHook_setHook, setHook_setHook_setHook]
  rw [dmm_hook_rmpeer_keep (h := hook_with B .DMM_HOOK_IN i [st.nalloc + 1] 1)
    (x := hook_with A .DMM_HOOK_OUT o [] 2)
    (by simp [hook?_setHook]; rfl) (by simp) (by simp [hook?_setHook]; rfl) (by simp)]
  simp only [Option.some_bind, hook_with_refs, hook_with_peers, List.erase_cons_head,
    setHook_setHook, setHook_setHook_setHook]
  rw [dmm_hook_unref_last hp (h := hook_with B .DMM_HOOK_IN i [] 1)
    (w := node_with_hook b .DMM_HOOK_IN (st.nalloc + 2))
    (by simp [hook?_setHook]; rfl) (by simp) (by simp) (by simpa using hnB) (by simp; omega)]
  simp only [Option.some_bind, hook_with_node, node_with_hook_type]
  rw [dmm_hook_unref_last hp (h := hook_with A .DMM_HOOK_OUT o [] 1)
    (w := node_with_hook a .DMM_HOOK_OUT (st.nalloc + 1))
    (by simp [hook?_setHook, hook?_delHook_ne _ hne.symm]; rfl) (by simp) (by simp)
    (by simp [node?_setNode, hAB, hnA]) (by simp; omega)]
  simp only [Option.some_bind, hook_with_node, node_with_hook_type]
  have hfr : ∀ k : Nat, 0 < k → st.hook? (st.nalloc + k) = none := fun k hk =>
    hal.hooks_fresh (st.nalloc + k) (Nat.lt_add_of_pos_right hk)
  have hl : ∀ k : Nat, 0 < k → ∀ q n, st.node? q = some n →
      st.nalloc + k ∉ n.nd_inhooks ∧ st.nalloc + k ∉ n.nd_outhooks := fun k hk q n hq =>
    ⟨fun h => by have := hal.lists_fresh q n hq _ (Or.inl h); omega,
     fun h => by have := hal.lists_fresh q n hq _ (Or.inr h); omega⟩
  rw [node_without_with _ _ _ (hl 2 (by omega) B b hb).1 (hl 2 (by omega) B b hb).2,
    node_without_with _ _ _ (hl 1 (by omega) A a ha).1 (hl 1 (by omega) A a ha).2]
  unfold st_connected st_disconnected
  simp only [setHook_logIf, setHook_log, setNode_logIf, setNode_log, delHook_logIf, delHook_log,
    setNode_delHook, setNode_setHook, setHook_setHook_delHook, setHook_setHook,
    setHook_delHook_delHook, delHook_setHook, setNode_setNode_setNode, setNode_setNode]
  rw [setNode_stored (p := B) (by simp [hb]), setNode_stored (p := A) (by simp [ha]),
    delHook_fresh (p := st.nalloc + 1) (by simp [hook?_delHook_ne _ hne.symm, hfr 1]),
    delHook_fresh (p := st.nalloc + 2) (by simp [hfr 2])]

theorem dmm_node_connect_self (env : Env) (hp : env.Passive) (st : State) (A : Ptr)
    (o i : List Char) (a : dmm_node)
    (ha : st.node? A = some a)
    (hva : DMM_NODE_ISVALID a = true)
    (hra : 0 < a.nd_refs ∧ a.nd_refs + 1 < DMM_REFNUM_MAX)
    (hta : accepts_hooks env a.nd_type)
    (hm : ∀ k, k < 4 → env.malloc_ok (st.nalloc + k) = true)
    (ho : hook_name_ok o) (hi : hook_name_ok i) (hno : NUL ∉ o) (hni : NUL ∉ i)
    (hfo : find_hook_named st o a.nd_outhooks = some none)
    (hfi : find_hook_named st i a.nd_inhooks = some none)
    (hal : st.alloc_ok) :
    dmm_node_connect env st A o A i = some (0, st_connected_self st A o i a) := by
  have hco := (name_check_iff o hno 31).2 ho
  have hci := (name_check_iff i hni 31).2 hi
  have hm0 : env.malloc_ok st.nalloc = true := by simpa using hm 0 (by omega)
  unfold dmm_node_connect
  rw [dmm_hook_get_new (d := .DMM_HOOK_OUT) ha hfo,
    dmm_hook_create_ok hp .DMM_HOOK_OUT ha hva (by omega) hta hm0 hco.1 hco.2]
  simp only [Option.bind_eq_bind, Option.some_bind, ne_eq, not_true_eq_false, if_false]
  have hp1b : st.nalloc + 1 ∉ a.nd_inhooks := fun h => by
    exact Nat.not_succ_le_self _ (hal.lists_fresh A a ha _ (Or.inl h))
  have hfi1 : ∀ S : State, (∀ p ∈ a.nd_inhooks, S.hook? p = st.hook? p) →
      find_hook_named S i ((node_with_hook a .DMM_HOOK_OUT (st.nalloc + 1)).hooks .DMM_HOOK_IN) =
        some none := fun S hS => by
    show find_hook_named S i a.nd_inhooks = some none
    rw [find_hook_named_congr i hS]; exact hfi
  rw [dmm_hook_get_new (d := .DMM_HOOK_IN) (n := node_with_hook a .DMM_HOOK_OUT (st.nalloc + 1))
    (by simp)
    (hfi1 _ (fun p hp => by
      have : p ≠ st.nalloc + 1 := fun h => hp1b (h ▸ hp)
      simp [hook?_setHook_ne _ _ this]))]
  rw [dmm_hook_create_ok hp .DMM_HOOK_IN (n := node_with_hook a .DMM_HOOK_OUT (st.nalloc + 1))
    (by simp) (by simpa using hva) (by simpa using hra.2) (by simpa using hta)
    (by simpa using hm 1 (by omega)) hci.1 hci.2]
  simp only [Option.bind_eq_bind, Option.some_bind, ne_eq, not_true_eq_false, if_false]
  simp only [nalloc_setNode, nalloc_setHook, nalloc_logIf, nalloc_bump, setNode_bump,
    setHook_bump, logIf_bump, setNode_logIf, setHook_logIf, setNode_setHook, setNode_setNode,
    node_with_hook_type]
  have hm2 : env.malloc_ok (st.nalloc + 1 + 1) = true := by simpa using hm 2 (by omega)
  have hm3 : env.malloc_ok (st.nalloc + 1 + 1 + 1) = true := by simpa using hm 3 (by omega)
  simp [dmm_hook_addpeer, dmm_hook_rmpeer, dmm_hook_unref, dmm_hook_ref, dmm_refacquire,
    dmm_refrelease, DMM_MALLOC, hook?_setHook, hm2, hm3, DMM_REFNUM_MAX]
  have hne : st.nalloc + 2 ≠ st.nalloc + 1 := by omega
  unfold st_connected_self
  rw [setHook_comm _ _ _ hne]
  rfl

theorem node_without_with_with (n : dmm_node) (p q : Ptr) (hpq : q ≠ p)
    (hout : p ∉ n.nd_outhooks) :
    node_without_hook (node_with_hook (node_with_hook n .DMM_HOOK_OUT q) .DMM_HOOK_IN p) p =
      node_with_hook n .DMM_HOOK_OUT q := by
  simp [node_without_hook, node_with_hook, insert_nodehook, List.erase_of_not_mem, hout,
    List.erase_cons_tail, hpq]

theorem dmm_node_disconnect_self (env : Env) (hp : env.Passive) (st : State) (A : Ptr)
    (o i : List Char) (a : dmm_node)
    (ha : st.node? A = some a)
    (hva : DMM_NODE_ISVALID a = true)
    (hra : 0 < a.nd_refs ∧ a.nd_refs + 1 < DMM_REFNUM_MAX)
    (ho : hook_name_ok o) (hi : hook_name_ok i)
    (hal : st.alloc_ok) :
    dmm_node_disconnect env (st_connected_self st A o i a) A o A i =
      some (0, st_disconnected st a a) := by
  have hno := strncmp_eq_strncpy o ho.2.2.2
  have hni := strncmp_eq_strncpy i hi.2.2.2
  have hne : st.nalloc + 2 ≠ st.nalloc + 1 := by omega
  have hnA : (st_connected_self st A o i a).node? A =
      some (node_with_hook (node_with_hook a .DMM_HOOK_OUT (st.nalloc + 1)) .DMM_HOOK_IN
        (st.nalloc + 2)) := by
    simp [st_connected_self]
  have hh1 : (st_connected_self st A o i a).hook? (st.nalloc + 1) =
      some (hook_with A .DMM_HOOK_OUT o [st.nalloc + 2] 1) := by
    simp [st_connected_self, hook?_setHook]
  have hh2 : (st_connected_self st A o i a).hook? (st.nalloc + 2) =
      some (hook_with A .DMM_HOOK_IN i [st.nalloc + 1] 1) := by
    simp [st_connected_self]
  have hf1 : find_hook_named (st_connected_self st A o i a) o
      ((node_with_hook (node_with_hook a .DMM_HOOK_OUT (st.nalloc + 1)) .DMM_HOOK_IN
        (st.nalloc + 2)).hooks .DMM_HOOK_OUT) =
      some (some (st.nalloc + 1, hook_with A .DMM_HOOK_OUT o [st.nalloc + 2] 1)) := by
    show find_hook_named _ o ((st.nalloc + 1) :: a.nd_outhooks) = _
    simp [find_hook_named, hh1, hno]
  unfold dmm_node_disconnect
  simp only [hnA, Option.bind_eq_bind, Option.some_bind, node_with_hook_valid, hva,
    Bool.not_true, Bool.or_self, Bool.false_eq_true, if_false]
  rw [dmm_hook_find_found hnA hf1 (by simp) (by simp [DMM_REFNUM_MAX])]
  simp only [Option.some_bind]
  rw [dmm_hook_find_found (d := .DMM_HOOK_IN) (p := st.nalloc + 2)
    (h := hook_with A .DMM_HOOK_IN i [st.nalloc + 1] 1)
    (by simpa using hnA)
    (by simp [find_hook_named, hook?_setHook, hh2, hni]) (by simp) (by simp [DMM_REFNUM_MAX])]
  simp only [Option.some_bind, hook_with_refs]
  rw [dmm_hook_rmpeer_keep (h := hook_with A .DMM_HOOK_OUT o [st.nalloc + 2] 2)
    (x := hook_with A .DMM_HOOK_IN i [st.nalloc + 1] 2)
    (by simp [hook?_setHook]; rfl) (by simp) (by simp [hook?_setHook]; rfl) (by simp)]
  simp only [Option.some_bind, hook_with_refs, hook_with_peers, List.erase_cons_head,
    setHook_setHook, setHook_setHook_setHook]
  rw [dmm_hook_rmpeer_keep (h := hook_with A .DMM_HOOK_IN i [st.nalloc + 1] 1)
    (x := hook_with A .DMM_HOOK_OUT o [] 2)
    (by simp [hook?_setHook]; rfl) (by simp) (by simp [hook?_setHook]; rfl) (by simp)]
  simp only [Option.some_bind, hook_with_refs, hook_with_peers, List.erase_cons_head,
    setHook_setHook, setHook_setHook_setHook]
  have hfr : ∀ k : Nat, 0 < k → st.hook? (st.nalloc + k) = none := fun k hk =>
    hal.hooks_fresh (st.nalloc + k) (Nat.lt_add_of_pos_right hk)
  have hl : ∀ k : Nat, 0 < k → ∀ q n, st.node? q = some n →
      st.nalloc + k ∉ n.nd_inhooks ∧ st.nalloc + k ∉ n.nd_outhooks := fun k hk q n hq =>
    ⟨fun h => by have := hal.lists_fresh q n hq _ (Or.inl h); omega,
     fun h => by have := hal.lists_fresh q n hq _ (Or.inr h); omega⟩
  rw [dmm_hook_unref_last hp (h := hook_with A .DMM_HOOK_IN i [] 1)
    (w := node_with_hook (node_with_hook a .DMM_HOOK_OUT (st.nalloc + 1)) .DMM_HOOK_IN
      (st.nalloc + 2))
    (by simp [hook?_setHook]; rfl) (by simp) (by simp) (by simpa using hnA) (by simp)]
  simp only [Option.some_bind, hook_with_node, node_with_hook_type]
  rw [node_without_with_with _ _ _ hne.symm (hl 2 (by omega) A a ha).2]
  rw [dmm_hook_unref_last hp (h := hook_with A .DMM_HOOK_OUT o [] 1)
    (w := node_with_hook a .DMM_HOOK_OUT (st.nalloc + 1))
    (by simp [hook?_setHook, hook?_delHook_ne _ hne.symm]; rfl) (by simp) (by simp)
    (by simp) (by simp; omega)]
  simp only [Option.some_bind, hook_with_node, node_with_hook_type]
  rw [node_without_with _ _ _ (hl 1 (by omega) A a ha).1 (hl 1 (by omega) A a ha).2]
  unfold st_connected_self st_disconnected
  simp only [setHook_logIf, setHook_log, setNode_logIf, setNode_log, delHook_logIf, delHook_log,
    setNode_delHook, setNode_setHook, setHook_setHook_delHook, setHook_setHook,
    setHook_delHook_delHook, delHook_setHook, setNode_setNode_setNode, setNode_setNode]
  rw [setNode_stored (p := A) (by simp [ha]),
    delHook_fresh (p := st.nalloc + 1) (by simp [hook?_delHook_ne _ hne.symm, hfr 1]),
    delHook_fresh (p := st.nalloc + 2) (by simp [hfr 2])]

theorem env0_passive : env0.Passive :=
  ⟨fun _ _ _ => rfl, fun _ _ _ => rfl, fun _ _ _ _ => rfl, fun _ _ _ _ => rfl,
   fun _ _ _ => rfl, fun _ _ _ => rfl, fun _ _ _ _ => rfl⟩

theorem env0_accepts (t : dmm_type) : accepts_hooks env0 t := fun _ _ _ => rfl

/-- C7: on a valid node, a hook name that must be rejected with `EINVAL`
(empty, holding a bracket, or longer than 31 bytes; a name of 32 bytes is one)
does not get that answer.  `dmm_hook_create` reaches the call
`dmm_log(DMM_LOG_ERR, "Name \"%s\" is invalid for hook")`, which passes no
argument for its `%s`, so the call has no defined result, and neither has the
`dmm_node_connect` that has to create the hook.  A name that must be accepted
is accepted: with memory for the hook and a type that accepts it the call
returns `0` and the new hook. -/
theorem hook_create_bad_name_faults (env : Env) (hp : env.Passive) (st : State) (node : Ptr)
    (n : dmm_node) (dir : DMM_HOOK_DIRECTION) (name : List Char)
    (hn : st.node? node = some n) (hvalid : DMM_NODE_ISVALID n = true)
    (hname : NUL ∉ name) :
    (¬ hook_name_ok name → dmm_hook_create env st node dir name = none) ∧
    (name.length = 32 → dmm_hook_create env st node dir name = none) ∧
    (¬ hook_name_ok name → find_hook_named st name n.nd_outhooks = some none →
      ∀ dst dsthook, dmm_node_connect env st node name dst dsthook = none) ∧
    (hook_name_ok name → n.nd_refs < DMM_REFNUM_MAX → accepts_hooks env n.nd_type →
      env.malloc_ok st.nalloc = true →
      ∃ st', dmm_hook_create env st node dir name = some ((0, some (st.nalloc + 1)), st')) := by
  have hchk := name_check_iff name hname 31
  have hbad : ¬ hook_name_ok name → dmm_hook_create env st node dir name = none := fun hb =>
    dmm_hook_create_badname dir hn hvalid (fun hc => hb (hchk.1 hc))
  refine ⟨hbad, ?_, ?_, ?_⟩
  · intro hl
    exact hbad (fun hg => by have := hg.2.2.2; omega)
  · intro hb hf dst dsthook
    have hc : dmm_hook_create env st node .DMM_HOOK_OUT name = none :=
      dmm_hook_create_badname .DMM_HOOK_OUT hn hvalid (fun hc => hb (hchk.1 hc))
    unfold dmm_node_connect dmm_hook_get
    rw [dmm_hook_find_none hn hf]
    simp [hc]
  · intro hg hrefs hacc hmem
    exact ⟨_, dmm_hook_create_ok hp dir hn hvalid hrefs hacc hmem (hchk.2 hg).1 (hchk.2 hg).2⟩

theorem hook_create_bad_name_faults_witness :
    st_AB.node? 1 = some node_A ∧ DMM_NODE_ISVALID node_A = true ∧
    (List.replicate 32 'a').length = 32 ∧
    dmm_hook_create env0 st_AB 1 .DMM_HOOK_OUT (List.replicate 32 'a') = none ∧
    dmm_node_connect env0 st_AB 1 (List.replicate 32 'a') 2 ['i'] = none ∧
    ∃ st', dmm_hook_create env0 st_AB 1 .DMM_HOOK_OUT (List.replicate 31 'a') =
      some ((0, some (st_AB.nalloc + 1)), st') :=
  have h := hook_create_bad_name_faults env0 env0_passive st_AB 1 node_A .DMM_HOOK_OUT
    (List.replicate 32 'a') rfl (by decide) (by decide)
  ⟨rfl, by decide, rfl, h.2.1 rfl,
    h.2.2.1 (fun hg => absurd hg.2.2.2 (by decide)) rfl 2 ['i'],
    (hook_create_bad_name_faults env0 env0_passive st_AB 1 node_A .DMM_HOOK_OUT
      (List.replicate 31 'a') rfl (by decide) (by decide)).2.2.2
      ⟨by decide, by decide, by decide, by decide⟩ (by decide) (env0_accepts _) rfl⟩

/-! ## Connect, then disconnect -/

theorem st_AB_node (q : Ptr) :
    st_AB.node? q = if q = 2 then some node_B else if q = 1 then some node_A else none := by
  by_cases h2 : q = 2
  · subst h2; rfl
  by_cases h1 : q = 1
  · subst h1; rfl
  have : ∀ (f : Ptr → Option dmm_node) (a b c d e g : Option dmm_node),
      Function.update (Function.update (Function.update (Function.update (Function.update
        (Function.update f 1 a) 1 b) 1 c) 2 d) 2 e) 2 g q = f q := by
    intro f a b c d e g; simp [Function.update, h1, h2]
  simp only [h1, h2, if_false]
  exact this (fun _ => none) _ _ _ _ _ _

theorem st_AB_alloc_ok : st_AB.alloc_ok :=
  ⟨fun _ _ => rfl, fun q n hq p hp => by
    rw [st_AB_node] at hq
    split at hq
    · cases hq; simp [node_B] at hp
    · split at hq
      · cases hq; simp [node_A] at hp
      · cases hq⟩

/-- The state after the disconnect has the nodes and the hooks of the state
before the connect. -/
theorem st_disconnected_node (st : State) (a b : dmm_node) (q : Ptr) :
    (st_disconnected st a b).node? q = st.node? q := by
  simp [st_disconnected]

theorem st_disconnected_hook (st : State) (a b : dmm_node) (q : Ptr) :
    (st_disconnected st a b).hook? q = st.hook? q := by
  simp [st_disconnected]

theorem st_disconnected_facts (env : Env) (st : State) (A B : Ptr) (o i : List Char)
    (a b : dmm_node) (ha : st.node? A = some a) (hb : st.node? B = some b)
    (hva : DMM_NODE_ISVALID a = true) (hvb : DMM_NODE_ISVALID b = true)
    (hfo : find_hook_named st o a.nd_outhooks = some none) (hal : st.alloc_ok) :
    (st_disconnected st a b).hook? (st.nalloc + 1) = none ∧
    (st_disconnected st a b).hook? (st.nalloc + 2) = none ∧
    Ev.hook_free (st.nalloc + 1) ∈ (st_disconnected st a b).trace ∧
    Ev.hook_free (st.nalloc + 2) ∈ (st_disconnected st a b).trace ∧
    (st_disconnected st a b).node? A = some a ∧ (st_disconnected st a b).node? B = some b ∧
    (∀ q, (st_disconnected st a b).hook? q = st.hook? q) ∧
    (∀ q, (st_disconnected st a b).node? q = st.node? q) ∧
    dmm_node_disconnect env (st_disconnected st a b) A o B i =
      some (ENOENT, st_disconnected st a b) := by
  refine ⟨?_, ?_, ?_, ?_, ?_, ?_, st_disconnected_hook st a b, st_disconnected_node st a b, ?_⟩
  · rw [st_disconnected_hook]; exact hal.hooks_fresh _ (by omega)
  · rw [st_disconnected_hook]; exact hal.hooks_fresh _ (by omega)
  · simp [st_disconnected, State.log, State.logIf, State.bump]
  · simp [st_disconnected, State.log, State.logIf, State.bump]
    split <;> simp
  · rw [st_disconnected_node]; exact ha
  · rw [st_disconnected_node]; exact hb
  · have hf : find_hook_named (st_disconnected st a b) o (a.hooks .DMM_HOOK_OUT) = some none := by
      show find_hook_named (st_disconnected st a b) o a.nd_outhooks = some none
      rw [find_hook_named_congr o (fun p _ => st_disconnected_hook st a b p)]; exact hfo
    unfold dmm_node_disconnect
    rw [st_disconnected_node, st_disconnected_node, ha, hb]
    simp only [Option.bind_eq_bind, Option.some_bind, hva, hvb, Bool.not_true, Bool.or_self]
    rw [dmm_hook_find_none (by rw [st_disconnected_node]; exact ha) hf]
    rfl

/-- C6 (as the code has it): for valid nodes `A` and `B`, which may be one
and the same node, whose types accept the hooks, and names `o`, `i` that no
out-hook of `A` and no in-hook of `B` has yet, `connect(A:o, B:i)` and then
`disconnect(A:o, B:i)` both return `0`; the connect creates the two hooks as
each other's only peer, and the disconnect, which releases the last reference
of each, removes them: both hooks are freed and the nodes are stored as before
the connect, hook lists and reference counts included. A second
`disconnect(A:o, B:i)` returns `ENOENT` and changes nothing.  The four
allocations succeed and the reference counts have room for the references the
new hooks take (two on the same node when `A = B`). -/
theorem connect_disconnect (env : Env) (hp : env.Passive) (st : State) (A B : Ptr)
    (o i : List Char) (a b : dmm_node)
    (ha : st.node? A = some a) (hb : st.node? B = some b)
    (hva : DMM_NODE_ISVALID a = true) (hvb : DMM_NODE_ISVALID b = true)
    (hra : 0 < a.nd_refs ∧ a.nd_refs < DMM_REFNUM_MAX)
    (hrb : 0 < b.nd_refs ∧ b.nd_refs < DMM_REFNUM_MAX)
    (hself : A = B → a.nd_refs + 1 < DMM_REFNUM_MAX)
    (hta : accepts_hooks env a.nd_type) (htb : accepts_hooks env b.nd_type)
    (hm : ∀ k, k < 4 → env.malloc_ok (st.nalloc + k) = true)
    (ho : hook_name_ok o) (hi : hook_name_ok i) (hno : NUL ∉ o) (hni : NUL ∉ i)
    (hfo : find_hook_named st o a.nd_outhooks = some none)
    (hfi : find_hook_named st i b.nd_inhooks = some none)
    (hal : st.alloc_ok) :
    ∃ st1 st2 : State,
      dmm_node_connect env st A o B i = some (0, st1) ∧
      st1.hook? (st.nalloc + 1) = some (hook_with A .DMM_HOOK_OUT o [st.nalloc + 2] 1) ∧
      st1.hook? (st.nalloc + 2) = some (hook_with B .DMM_HOOK_IN i [st.nalloc + 1] 1) ∧
      dmm_node_disconnect env st1 A o B i = some (0, st2) ∧
      st2.hook? (st.nalloc + 1) = none ∧ st2.hook? (st.nalloc + 2) = none ∧
      Ev.hook_free (st.nalloc + 1) ∈ st2.trace ∧ Ev.hook_free (st.nalloc + 2) ∈ st2.trace ∧
      st2.node? A = some a ∧ st2.node? B = some b ∧
      (∀ q, st2.hook? q = st.hook? q) ∧ (∀ q, st2.node? q = st.node? q) ∧
      dmm_node_disconnect env st2 A o B i = some (ENOENT, st2) := by
  have hne : st.nalloc + 1 ≠ st.nalloc + 2 := by omega
  by_cases hAB : A = B
  · subst hAB
    obtain rfl : a = b := Option.some.inj (ha.symm.trans hb)
    exact ⟨st_connected_self st A o i a, st_disconnected st a a,
      dmm_node_connect_self env hp st A o i a ha hva ⟨hra.1, hself rfl⟩ hta hm ho hi hno hni
        hfo hfi hal,
      by simp [st_connected_self, hook?_setHook, hne],
      by simp [st_connected_self, hook?_setHook],
      dmm_node_disconnect_self env hp st A o i a ha hva ⟨hra.1, hself rfl⟩ ho hi hal,
      st_disconnected_facts env st A A o i a a ha ha hva hva hfo hal⟩
  · exact ⟨st_connected st A B o i a b, st_disconnected st a b,
      dmm_node_connect_new env hp st A B o i a b ha hb hAB hva hvb hra hrb hta htb hm ho hi hno
        hni hfo hfi hal,
      by simp [st_connected, hook?_setHook, hne],
      by simp [st_connected, hook?_setHook],
      dmm_node_disconnect_sole env hp st A B o i a b ha hb hAB hva hvb hra hrb ho hi hal,
      st_disconnected_facts env st A B o i a b ha hb hva hvb hfo hal⟩

theorem connect_disconnect_witness :
    (∃ st1 st2 : State,
      dmm_node_connect env0 st_AB 1 ['o'] 2 ['i'] = some (0, st1) ∧
      st1.hook? (st_AB.nalloc + 1) = some (hook_with 1 .DMM_HOOK_OUT ['o'] [st_AB.nalloc + 2] 1) ∧
      st1.hook? (st_AB.nalloc + 2) = some (hook_with 2 .DMM_HOOK_IN ['i'] [st_AB.nalloc + 1] 1) ∧
      dmm_node_disconnect env0 st1 1 ['o'] 2 ['i'] = some (0, st2) ∧
      st2.hook? (st_AB.nalloc + 1) = none ∧ st2.hook? (st_AB.nalloc + 2) = none ∧
      Ev.hook_free (st_AB.nalloc + 1) ∈ st2.trace ∧ Ev.hook_free (st_AB.nalloc + 2) ∈ st2.trace ∧
      st2.node? 1 = some node_A ∧ st2.node? 2 = some node_B ∧
      (∀ q, st2.hook? q = st_AB.hook? q) ∧ (∀ q, st2.node? q = st_AB.node? q) ∧
      dmm_node_disconnect env0 st2 1 ['o'] 2 ['i'] = some (ENOENT, st2)) ∧
    (∃ st1 st2 : State,
      dmm_node_connect env0 st_AB 1 ['o'] 1 ['i'] = some (0, st1) ∧
      st1.hook? (st_AB.nalloc + 1) = some (hook_with 1 .DMM_HOOK_OUT ['o'] [st_AB.nalloc + 2] 1) ∧
      st1.hook? (st_AB.nalloc + 2) = some (hook_with 1 .DMM_HOOK_IN ['i'] [st_AB.nalloc + 1] 1) ∧
      dmm_node_disconnect env0 st1 1 ['o'] 1 ['i'] = some (0, st2) ∧
      st2.hook? (st_AB.nalloc + 1) = none ∧ st2.hook? (st_AB.nalloc + 2) = none ∧
      Ev.hook_free (st_AB.nalloc + 1) ∈ st2.trace ∧ Ev.hook_free (st_AB.nalloc + 2) ∈ st2.trace ∧
      st2.node? 1 = some node_A ∧ st2.node? 1 = some node_A ∧
      (∀ q, st2.hook? q = st_AB.hook? q) ∧ (∀ q, st2.node? q = st_AB.node? q) ∧
      dmm_node_disconnect env0 st2 1 ['o'] 1 ['i'] = some (ENOENT, st2)) :=
  ⟨connect_disconnect env0 env0_passive st_AB 1 2 ['o'] ['i'] node_A node_B rfl rfl (by decide)
    (by decide) (by decide) (by decide) (fun h => absurd h (by decide)) (env0_accepts _)
    (env0_accepts _) (fun _ _ => rfl) ⟨by decide, by decide, by decide, by decide⟩
    ⟨by decide, by decide, by decide, by decide⟩ (by decide) (by decide) rfl rfl st_AB_alloc_ok,
   connect_disconnect env0 env0_passive st_AB 1 1 ['o'] ['i'] node_A node_A rfl rfl (by decide)
    (by decide) (by decide) (by decide) (fun _ => by decide) (env0_accepts _)
    (env0_accepts _) (fun _ _ => rfl) ⟨by decide, by decide, by decide, by decide⟩
    ⟨by decide, by decide, by decide, by decide⟩ (by decide) (by decide) rfl rfl st_AB_alloc_ok⟩

/-- C6, the claim as worded fails: on the two-node state, after
`connect(1:o, 2:i)` and `disconnect(1:o, 2:i)` have both returned `0`, the
out-hook list of node 1 and the in-hook list of node 2 are empty and the
addresses of the two hooks hold nothing: the hooks are not present. -/
theorem connect_disconnect_hooks_gone :
    ((dmm_node_connect env0 st_AB 1 ['o'] 2 ['i']).bind
      (fun r => (dmm_node_disconnect env0 r.2 1 ['o'] 2 ['i']).map
        (fun r2 => (r.1, r2.1, (r2.2.node? 1).map (fun n => n.nd_outhooks),
          (r2.2.node? 2).map (fun n => n.nd_inhooks),
          (r2.2.hook? 3).isSome, (r2.2.hook? 4).isSome)))) =
      some (0, 0, some [], some [], false, false) := by
  rfl

/-! ## Control messages -/

theorem generic_switch_unknown (env : Env) (st : State) (node : Ptr) (msg : dmm_msg)
    (hcmd : msg.cm_cmd ∉ generic_commands) :
    generic_switch env st node msg = some ⟨none, EINVAL, false, st⟩ := by
  simp only [generic_commands, List.mem_cons, List.mem_singleton, not_or, List.not_mem_nil,
    not_false_eq_true, and_true] at hcmd
  obtain ⟨h1, h2, h3, h4, h5, h6, h7, h8, h9, h10, h11, h12, h13, h14, h15, h16⟩ := hcmd
  unfold generic_switch
  simp only [h1, h2, h3, h4, h5, h6, h7, h8, h9, h10, h11, h12, h13, h14, h15, h16, if_false]

/-- C4: a non-response message of the generic type whose command has no
`case` in the dispatch, sent by id to a valid node, makes `dmm_msg_send_id`
return `EINVAL`; the message is freed and the state is otherwise the state
before the send (nodes, hooks, events, timers and the lists are untouched). -/
theorem unknown_generic_command (env : Env) (fuel : Nat) (st : State) (dst : Nat)
    (msg : dmm_msg) (p : Ptr) (n : dmm_node)
    (hfind : find_node_id st dst st.nodelist = some (some p))
    (hn : st.node? p = some n) (hv : DMM_NODE_ISVALID n = true)
    (hr : 0 < n.nd_refs ∧ n.nd_refs < DMM_REFNUM_MAX)
    (htype : msg.cm_type = DMM_MSGTYPE_GENERIC) (hflag : msg.cm_flags &&& DMM_MSG_RESP = 0)
    (hcmd : msg.cm_cmd ∉ generic_commands) :
    dmm_msg_send_id env (fuel + 1) st dst msg = some (EINVAL, st.log (Ev.msg_free msg)) := by
  have hv2 : DMM_NODE_ISVALID { n with nd_refs := n.nd_refs + 1 } = true := hv
  unfold dmm_msg_send_id send_id_via dmm_node_id2ref
  simp only [hfind, Option.bind_eq_bind, Option.some_bind, dmm_node_ref_eq hn hr.2]
  unfold dmm_msg_apply
  simp only [node?_setNode_same, Option.bind_eq_bind, Option.some_bind, hv2, Bool.not_true,
    htype, hflag, and_self, if_true, Bool.false_eq_true, if_false]
  unfold dmm_msg_process_generic
  simp only [htype, ne_eq, not_true_eq_false, if_false, generic_switch_unknown env _ p msg hcmd,
    Option.bind_eq_bind, Option.some_bind, Bool.not_false, if_true, dmm_msg_free]
  rw [dmm_node_unref_eq (n := { n with nd_refs := n.nd_refs + 1 }) (by simp) (by simp; omega)]
  simp only [Option.some_bind, Nat.add_sub_cancel, setNode_log, setNode_setNode]
  show some (EINVAL, (st.log (Ev.msg_free msg)).setNode p n) = _
  rw [setNode_stored (by simpa using hn)]

theorem unknown_generic_command_witness :
    DMM_MSG_NODESETNAME ∉ generic_commands ∧
    dmm_msg_send_id env0 (0 + 1) st_AB 1 (request 2 DMM_MSG_NODESETNAME 32 (.raw [])) =
      some (EINVAL, st_AB.log (Ev.msg_free (request 2 DMM_MSG_NODESETNAME 32 (.raw [])))) :=
  ⟨by decide, unknown_generic_command env0 0 st_AB 1 (request 2 DMM_MSG_NODESETNAME 32 (.raw [])) 1
    node_A rfl rfl (by decide) (by decide) rfl rfl (by decide)⟩

/-- C1: a `TIMER_SET`, `TIMER_SUBSCRIBE` or `TIMER_UNSUBSCRIBE` request that
names a timer id no timer has (here 99, with no timer at all), sent to the
valid node 1, aborts the runtime: `dmm_timer_id2ref` returns `NULL` and the
dispatch uses it without a check, so the send does not return and no response
is produced. The sibling `TIMER_REMOVE` checks for `NULL`: the same unknown id
gives a send that returns `0` and one response with the error flag, delivered
to the requester before the request is freed. -/
theorem timer_request_unknown_id :
    dmm_msg_send_id env0 2 st_AB 1 request_timerset = none ∧
    dmm_msg_send_id env0 2 st_AB 1 request_timersubscribe = none ∧
    dmm_msg_send_id env0 2 st_AB 1 request_timerunsubscribe = none ∧
    (dmm_msg_send_id env0 2 st_AB 1 request_timerrm).map (fun r => (r.1, r.2.trace)) =
      some (0, [Ev.msg_free request_timerrm, Ev.rcvmsg 1 response_timerrm, Ev.ctor 1]) :=
  ⟨rfl, rfl, rfl, rfl⟩

/-- C3: a message that is not of the generic type, or is a response, sent to
the valid node 2 whose type has no `rcvmsg` callback: the send returns
`EINVAL` and the log gains no entry, so the message was neither handed to a
callback nor freed. An unknown generic request to the same node is freed, and
the same module message sent to node 1, whose type has the callback, is
handed to it. -/
theorem send_without_rcvmsg_leaks :
    (dmm_msg_send_id env0 1 st_AB 2 msg_module).map (fun r => (r.1, r.2.trace)) =
      some (EINVAL, st_AB.trace) ∧
    (dmm_msg_send_id env0 1 st_AB 2 msg_response).map (fun r => (r.1, r.2.trace)) =
      some (EINVAL, st_AB.trace) ∧
    (dmm_msg_send_id env0 1 st_AB 2 (request 1 5 0 .empty)).map (fun r => (r.1, r.2.trace)) =
      some (EINVAL, Ev.msg_free (request 1 5 0 .empty) :: st_AB.trace) ∧
    (dmm_msg_send_id env0 1 st_AB 1 msg_module).map (fun r => (r.1, r.2.trace)) =
      some (0, Ev.rcvmsg 1 msg_module :: st_AB.trace) :=
  ⟨rfl, rfl, rfl, rfl⟩

/-- C2: a `PREPEND_SET` request from node 1 handled by `rcvmsg` of
`prepend.c` on node 2 while the allocation of the datanode fails and the
allocation of the response succeeds: the handler returns `ENOMEM` and node 1
receives a response with the type, command and token of the request whose
error flag is clear; the macro has set the error flag on the request, which is
freed right after. -/
theorem prepend_error_flag_on_request :
    (prepend_rcvmsg (env_fail 2) (dmm_msg_send_id (env_fail 2) 1) st_AB 2 ⟨none, none⟩
        request_prepend_set).map (fun r => (r.1.1, r.2.trace)) =
      some (ENOMEM,
        [Ev.msg_free { request_prepend_set with cm_flags := DMM_MSG_ERR },
         Ev.rcvmsg 1 response_prepend_set, Ev.ctor 1]) ∧
    response_prepend_set.cm_flags &&& DMM_MSG_ERR = 0 ∧
    (response_prepend_set.cm_type, response_prepend_set.cm_cmd, response_prepend_set.cm_token) =
      (request_prepend_set.cm_type, request_prepend_set.cm_cmd, request_prepend_set.cm_token) :=
  ⟨rfl, rfl, rfl⟩

/-! ## Identifiers and names -/

/-- One call of `dmm_node_create` with passive callbacks: it returns, the
counter stays or is incremented (modulo 2^32), and a node that is created has
the new value of the counter as its id. -/
theorem dmm_node_create_id {env : Env} (hp : env.Passive) (st : State) (t : List Char) :
    ∃ err r st', dmm_node_create env st t = some ((err, r), st') ∧
      (st'.lastnodeid = st.lastnodeid ∨ st'.lastnodeid = (st.lastnodeid + 1) % UINT32_MOD) ∧
      ∀ p, r = some p → ∃ n, st'.node? p = some n ∧
        n.nd_id = (st.lastnodeid + 1) % UINT32_MOD ∧ st'.lastnodeid = n.nd_id := by
  unfold dmm_node_create
  cases hty : dmm_type_find st t with
  | none => exact ⟨_, _, _, rfl, Or.inl rfl, fun p h => by cases h⟩
  | some ty =>
    simp only [DMM_MALLOC]
    by_cases hm : env.malloc_ok st.nalloc = true
    · simp only [hm, if_true]
      rw [call_ctor_passive hp]
      by_cases he : (call_ctor env ((st.bump.setLastnodeid ((st.bump.lastnodeid + 1) % UINT32_MOD)).setNode
          (st.nalloc + 1) (fresh_node ((st.bump.lastnodeid + 1) % UINT32_MOD) ty)) ty (st.nalloc + 1)).1 = 0
      · simp only [he, ne_eq, not_true_eq_false, if_false]
        rw [dmm_node_ref_eq (n := fresh_node ((st.bump.lastnodeid + 1) % UINT32_MOD) ty)
          (by simp) (by simp [fresh_node, dmm_refinit, DMM_REFNUM_MAX])]
        simp only [Option.bind_eq_bind, Option.some_bind, node?_setNode_same]
        refine ⟨_, _, _, rfl, Or.inr ?_, fun p h => ?_⟩
        · simp [State.linkNode, State.setNode, State.logIf, State.setLastnodeid, State.bump,
            State.log]
          split <;> rfl
        · cases h
          refine ⟨_, node?_setNode_same _ _ _, rfl, ?_⟩
          simp [State.linkNode, State.setNode, State.logIf, State.setLastnodeid, State.bump,
            State.log, fresh_node]
          split <;> rfl
      · simp only [he, ne_eq, not_false_eq_true, if_true]
        refine ⟨_, _, _, rfl, Or.inr ?_, fun p h => by cases h⟩
        simp [State.delNode, State.setNode, State.logIf, State.setLastnodeid, State.bump,
          State.log]
        split <;> rfl
    · simp only [hm, if_false]
      exact ⟨_, _, _, rfl, Or.inl rfl, fun p h => by cases h⟩

theorem create_nodes_ids {env : Env} (hp : env.Passive) :
    ∀ (ts : List (List Char)) (st : State), st.lastnodeid + ts.length < UINT32_MOD →
      ∃ ids st', create_nodes env st ts = some (ids, st') ∧
        st.lastnodeid ≤ st'.lastnodeid ∧ List.Pairwise (fun a b => a < b) ids ∧
        ∀ id ∈ ids, st.lastnodeid < id ∧ id ≤ st'.lastnodeid := by
  intro ts
  induction ts with
  | nil => intro st _; exact ⟨[], st, rfl, le_refl _, List.Pairwise.nil, fun id h => by cases h⟩
  | cons t ts ih =>
    intro st hlen
    simp only [List.length_cons] at hlen
    obtain ⟨err, r, st1, hc, hl, hr⟩ := dmm_node_create_id hp st t
    have hmod : (st.lastnodeid + 1) % UINT32_MOD = st.lastnodeid + 1 :=
      Nat.mod_eq_of_lt (by omega)
    rw [hmod] at hl hr
    have hl1 : st1.lastnodeid + ts.length < UINT32_MOD := by
      rcases hl with h | h <;> omega
    obtain ⟨ids, st', hrun, hle, hpw, hids⟩ := ih st1 hl1
    unfold create_nodes
    simp only [hc, hrun, Option.bind_eq_bind, Option.some_bind]
    cases r with
    | none =>
      refine ⟨ids, st', rfl, by rcases hl with h | h <;> omega, hpw, fun id hid => ?_⟩
      have := hids id hid
      rcases hl with h | h <;> omega
    | some p =>
      obtain ⟨n, hn, hid1, hid2⟩ := hr p rfl
      simp only [hn, Option.some_bind]
      refine ⟨n.nd_id :: ids, st', rfl, by omega, ?_, fun id hid => ?_⟩
      · exact List.Pairwise.cons (fun b hb => by have := hids b hb; omega) hpw
      · rcases List.mem_cons.1 hid with h | h
        · subst h; omega
        · have := hids id h; omega

/-- One call of `dmm_event_init` below the end of the counter: the event gets
the incremented counter as its id. -/
theorem dmm_event_init_id (st : State) (p : Ptr) (e : dmm_event) (he : st.event? p = some e)
    (hl : st.lasteventid + 1 < UINT32_MOD) :
    ∃ st' e', dmm_event_init st p = some st' ∧ st'.lasteventid = st.lasteventid + 1 ∧
      st'.event? p = some e' ∧ e'.ev_id = st.lasteventid + 1 := by
  unfold dmm_event_init
  simp only [he, Option.bind_eq_bind, Option.some_bind]
  rw [dmm_event_ref_eq (x := { e with ev_refs := dmm_refinit }) (by simp)
    (by simp [dmm_refinit, DMM_REFNUM_MAX])]
  have hmod : (st.lasteventid + 1) % UINT32_MOD = st.lasteventid + 1 := Nat.mod_eq_of_lt hl
  simp [State.event?, State.setEvent, hmod]

/-- C9: `dmm_node_setname` does not look at the names of the other nodes.
Naming node 1 `x` and then node 2 `x` succeeds both times and leaves two nodes
of the node list with the same non-empty name; the lookup of `x` returns the
node that heads the list. -/
theorem setname_duplicate :
    (dmm_node_setname st_AB 1 (some ['x'])).map (fun r => r.1) = some 0 ∧
    (dmm_node_setname st_named1 2 (some ['x'])).map (fun r => r.1) = some 0 ∧
    st_named2.nodelist = [2, 1] ∧
    (st_named2.node? 1).map (fun n => n.nd_name) = some ['x'] ∧
    (st_named2.node? 2).map (fun n => n.nd_name) = some ['x'] ∧
    (dmm_node_name2ref st_named2 ['x']).map (fun r => r.1) = some (some 2) :=
  ⟨rfl, rfl, rfl, rfl, rfl, rfl⟩

/-! ## Data frames: creation -/

/-- Within 32 bits the length is exact: when both allocations succeed and the sum
`(n + 1) * 8 + payload_bytes` is below 2^32, `dmm_data_create_raw(n,
payload_bytes)` returns a frame whose recorded length `da_len` is exactly that
sum, whose buffer was allocated with exactly that many bytes, and whose
reference count is 1. -/
theorem data_create_raw_len (env : Env) (st : State) (n payload : Nat)
    (hm0 : env.malloc_ok st.nalloc = true) (hm1 : env.malloc_ok (st.nalloc + 1) = true)
    (hfit : (n + 1) * sizeof_dmm_datanode + payload < UINT32_MOD) :
    ∃ st', dmm_data_create_raw env st n payload = (some (st.nalloc + 1), st') ∧
      st'.data? (st.nalloc + 1) =
        some { da_nodes := st.nalloc + 2, da_len := (n + 1) * 8 + payload, da_refs := 1 } ∧
      st'.trace = Ev.data_ref (st.nalloc + 1) ::
        Ev.malloc (st.nalloc + 2) ((n + 1) * 8 + payload) :: st.trace := by
  have h1 : ((n + 1) * sizeof_dmm_datanode + payload) % SIZE_MOD % UINT32_MOD =
      (n + 1) * 8 + payload := by
    have : (n + 1) * sizeof_dmm_datanode + payload < SIZE_MOD := by
      simp only [UINT32_MOD, SIZE_MOD] at *; omega
    rw [Nat.mod_eq_of_lt this, Nat.mod_eq_of_lt hfit]; rfl
  simp [dmm_data_create_raw, DMM_MALLOC_size, DMM_MALLOC, hm0, hm1, h1, dmm_data_ref,
    dmm_refacquire, dmm_refinit, DMM_REFNUM_MAX, State.data?, State.setData, State.log,
    State.bump]

theorem data_create_raw_len_witness :
    ∃ st', dmm_data_create_raw env0 st_AB 2 100 = (some (st_AB.nalloc + 1), st') ∧
      st'.data? (st_AB.nalloc + 1) =
        some { da_nodes := st_AB.nalloc + 2, da_len := (2 + 1) * 8 + 100, da_refs := 1 } ∧
      st'.trace = Ev.data_ref (st_AB.nalloc + 1) ::
        Ev.malloc (st_AB.nalloc + 2) ((2 + 1) * 8 + 100) :: st_AB.trace :=
  data_create_raw_len env0 st_AB 2 100 rfl rfl (by decide)

/-- C11: `dmm_data_create_raw` does not reserve the bytes it is asked for.
The sum is computed in `size_t` and stored in `da_len`, a 32-bit `dmm_size_t`,
and the buffer is allocated with the stored value: for no payload datanode and
2^32 payload bytes the sum is 2^32 + 8, and the frame, returned with one
reference, records a length of 8 and reserves 8 bytes. -/
theorem data_create_raw_truncates :
    ((dmm_data_create_raw env0 st_AB 0 4294967296).2.data? 3).map (fun d => d.da_len) = some 8 ∧
    (dmm_data_create_raw env0 st_AB 0 4294967296).2.trace.head? = some (Ev.data_ref 3) ∧
    Ev.malloc 4 8 ∈ (dmm_data_create_raw env0 st_AB 0 4294967296).2.trace ∧
    (0 + 1) * 8 + 4294967296 ≠ 8 := by
  refine ⟨rfl, rfl, ?_, by decide⟩
  decide

/-! ## The type registry -/

theorem strlen_eq_length {s : List Char} (h : NUL ∉ s) : strlen s = s.length := by
  unfold strlen
  have : s.takeWhile (fun c => c != NUL) = s := by
    rw [List.takeWhile_eq_self_iff]
    intro c hc
    have hne : c ≠ NUL := fun hcn => h (hcn ▸ hc)
    simpa using hne
  rw [this]

/-- Against a name that fits `tp_name`, `strncmp` over 32 bytes is equality. -/
theorem strncmp_eq_iff_eq (a b : List Char) (hb : b.length ≤ 31) :
    strncmp_eq a b DMM_TYPENAMESIZE = true ↔ a = b := by
  unfold strncmp_eq DMM_TYPENAMESIZE
  have hbt : b.take 32 = b := List.take_of_length_le (by omega)
  rw [hbt, beq_iff_eq]
  constructor
  · intro h
    by_cases hl : a.length ≤ 32
    · rwa [List.take_of_length_le hl] at h
    · have := congrArg List.length h
      rw [List.length_take] at this
      omega
  · intro h; rw [h, hbt]

/-- C13: a descriptor whose name is empty, or is a C string longer than 31
bytes, is rejected by `dmm_type_register` with `EINVAL`, and the state, the
registry included, stays as it was; an empty registry stays empty. -/
theorem type_register_bad_name (st : State) (t : dmm_type)
    (h : t.tp_name = [] ∨ (NUL ∉ t.tp_name ∧ 31 < t.tp_name.length)) :
    dmm_type_register st t = (EINVAL, st) ∧
    (st.typelist = [] → (dmm_type_register st t).2.typelist = []) := by
  have hr : dmm_type_register st t = (EINVAL, st) := by
    unfold dmm_type_register
    rcases h with h | ⟨h1, h2⟩
    · simp [h, strlen]
    · simp only [strlen_eq_length h1, DMM_TYPENAMESIZE]
      rw [if_pos (Or.inr (by omega))]
  exact ⟨hr, fun he => by rw [hr]; exact he⟩

theorem type_register_bad_name_witness :
    dmm_type_register st_empty (type_named 9 (List.replicate 32 'a')) = (EINVAL, st_empty) ∧
    (st_empty.typelist = [] →
      (dmm_type_register st_empty (type_named 9 (List.replicate 32 'a'))).2.typelist = []) :=
  type_register_bad_name st_empty (type_named 9 (List.replicate 32 'a'))
    (Or.inr ⟨by decide, by decide⟩)

/-- In a registry of well-named descriptors a name that is found equals the
name of the descriptor found, so it is well formed. -/
theorem dmm_type_find_name {st : State} (hreg : registry_ok st) {n : List Char} {t0 : dmm_type}
    (hf : dmm_type_find st n = some t0) : t0 ∈ st.typelist ∧ n = t0.tp_name := by
  unfold dmm_type_find at hf
  have hmem := List.mem_of_find?_eq_some hf
  have hp := List.find?_some hf
  exact ⟨hmem, (strncmp_eq_iff_eq n t0.tp_name (hreg t0 hmem).2.2).1 hp⟩

/-- C14: in a registry (of descriptors with well-formed names) that holds a
type named `n`, registering a descriptor named `n` returns `EEXIST` and leaves
the state as it was, so `dmm_type_find(n)` still returns the descriptor
registered first. -/
theorem type_register_twice (st : State) (hreg : registry_ok st) (t t0 : dmm_type)
    (hf : dmm_type_find st t.tp_name = some t0) :
    dmm_type_register st t = (EEXIST, st) ∧
    dmm_type_find (dmm_type_register st t).2 t.tp_name = some t0 := by
  obtain ⟨hmem, hname⟩ := dmm_type_find_name hreg hf
  have hok := hreg t0 hmem
  rw [← hname] at hok
  have hr : dmm_type_register st t = (EEXIST, st) := by
    unfold dmm_type_register
    simp only [strlen_eq_length hok.1, DMM_TYPENAMESIZE, hf, Option.isSome_some, if_true]
    rw [if_neg (by have := hok.2.1; have := hok.2.2; omega)]
  exact ⟨hr, by rw [hr]; exact hf⟩

theorem type_register_twice_witness :
    dmm_type_register st_boot (type_named 9 ['t']) = (EEXIST, st_boot) ∧
    dmm_type_find (dmm_type_register st_boot (type_named 9 ['t'])).2 (type_named 9 ['t']).tp_name =
      some type_full :=
  type_register_twice st_boot
    (fun t ht => by
      have h : t = type_bare ∨ t = type_full := by simpa [st_boot] using ht
      rcases h with h | h <;> subst h <;> exact ⟨by decide, by decide, by decide⟩)
    (type_named 9 ['t']) type_full rfl

/-- C15: when no type of the registry is named `n` and the descriptor `t` has
the well-formed name `n`, `dmm_type_find(n)` returns nothing before,
`dmm_type_register(t)` returns `0`, `dmm_type_find(n)` returns `t` afterwards,
and every other name finds what it found before. -/
theorem type_register_find (st : State) (t : dmm_type) (hname : type_name_ok t.tp_name)
    (hnone : dmm_type_find st t.tp_name = none) :
    dmm_type_find st t.tp_name = none ∧
    (dmm_type_register st t).1 = 0 ∧
    dmm_type_find (dmm_type_register st t).2 t.tp_name = some t ∧
    ∀ m : List Char, m ≠ t.tp_name →
      dmm_type_find (dmm_type_register st t).2 m = dmm_type_find st m := by
  have hr : dmm_type_register st t = (0, { st with typelist := t :: st.typelist }) := by
    unfold dmm_type_register
    simp only [strlen_eq_length hname.1, DMM_TYPENAMESIZE, hnone, Option.isSome_none]
    rw [if_neg (by have := hname.2.1; have := hname.2.2; omega)]
    simp
  refine ⟨hnone, by rw [hr], ?_, fun m hm => ?_⟩
  · rw [hr]
    unfold dmm_type_find
    simp [List.find?, (strncmp_eq_iff_eq t.tp_name t.tp_name hname.2.2).2 rfl]
  · rw [hr]
    unfold dmm_type_find
    have : strncmp_eq m t.tp_name DMM_TYPENAMESIZE = false := by
      rw [Bool.eq_false_iff]
      exact fun h => hm ((strncmp_eq_iff_eq m t.tp_name hname.2.2).1 h)
    simp [List.find?, this]

theorem type_register_find_witness :
    dmm_type_find st_boot (type_named 9 ['n']).tp_name = none ∧
    (dmm_type_register st_boot (type_named 9 ['n'])).1 = 0 ∧
    dmm_type_find (dmm_type_register st_boot (type_named 9 ['n'])).2 (type_named 9 ['n']).tp_name =
      some (type_named 9 ['n']) ∧
    ∀ m : List Char, m ≠ (type_named 9 ['n']).tp_name →
      dmm_type_find (dmm_type_register st_boot (type_named 9 ['n'])).2 m =
        dmm_type_find st_boot m :=
  type_register_find st_boot (type_named 9 ['n']) ⟨by decide, by decide, by decide⟩ rfl

/-! ## Subscriptions -/

/-- C16: for an event `e` and a node `n` not subscribed to it, with the two
allocations of the subscription succeeding, `subscribe(e, n)` and then
`unsubscribe(e, n)` both return `0`; in between `n` is the last subscriber of
`e`, and afterwards the event and the node are stored exactly as before
(subscriber list, subscription list and both reference counts): the state
differs from the initial one by the two allocations only. -/
theorem subscribe_unsubscribe (env : Env) (st : State) (ev nd : Ptr) (e : dmm_event)
    (n : dmm_node) (he : st.event? ev = some e) (hn : st.node? nd = some n)
    (hns : nd ∉ e.ev_nodes)
    (hre : 0 < e.ev_refs ∧ e.ev_refs < DMM_REFNUM_MAX)
    (hrn : 0 < n.nd_refs ∧ n.nd_refs < DMM_REFNUM_MAX)
    (hm0 : env.malloc_ok st.nalloc = true) (hm1 : env.malloc_ok (st.nalloc + 1) = true) :
    ∃ st1 : State, dmm_event_subscribe env st ev nd = some (0, st1) ∧
      (st1.event? ev).map (fun x => x.ev_nodes) = some (e.ev_nodes ++ [nd]) ∧
      (st1.node? nd).map (fun x => x.nd_events) = some (ev :: n.nd_events) ∧
      dmm_event_unsubscribe env st1 ev nd = some (0, st.bump.bump) ∧
      st.bump.bump.event? ev = some e ∧ st.bump.bump.node? nd = some n := by
  have hs : dmm_event_subscribe env st ev nd = some (0,
      ((st.bump.bump.setEvent ev
        { e with ev_nodes := e.ev_nodes ++ [nd], ev_refs := e.ev_refs + 1 }).setNode nd
        { n with nd_events := ev :: n.nd_events, nd_refs := n.nd_refs + 1 })) := by
    unfold dmm_event_subscribe
    simp only [DMM_MALLOC, hm0, if_true, nalloc_bump, hm1]
    simp only [event?_bump, he, Option.bind_eq_bind, Option.some_bind]
    rw [dmm_node_ref_eq (n := n) (by simpa using hn) hrn.2]
    simp only [Option.some_bind, node?_setNode_same]
    simp only [setNode_setEvent, setNode_setNode]
    rw [dmm_event_ref_eq (x := { e with ev_nodes := e.ev_nodes ++ [nd] }) (by simp) hre.2]
    simp only [Option.some_bind, setNode_setEvent, setEvent_setEvent]
  have h1 : (e.ev_nodes ++ [nd]).erase nd = e.ev_nodes := by
    rw [List.erase_append_right _ hns]; simp
  refine ⟨_, hs, by simp, by simp, ?_, by simpa using he, by simpa using hn⟩
  unfold dmm_event_unsubscribe
  simp only [event?_setNode, event?_setEvent_same, Option.bind_eq_bind, Option.some_bind,
    List.mem_append, List.mem_singleton, or_true, not_true_eq_false, if_false,
    node?_setNode_same, List.mem_cons, true_or, setNode_setEvent, setEvent_setEvent,
    setNode_setNode, h1, List.erase_cons_head]
  rw [dmm_event_unref_eq (x := { e with ev_refs := e.ev_refs + 1 }) (by simp) (by simp; omega)]
  simp only [Option.some_bind, setNode_setEvent, setEvent_setEvent, Nat.add_sub_cancel]
  rw [dmm_node_unref_eq (n := { n with nd_refs := n.nd_refs + 1 }) (by simp) (by simp; omega)]
  simp only [Option.some_bind, Nat.add_sub_cancel, setNode_setNode]
  show some ((0 : Int), (st.bump.bump.setEvent ev e).setNode nd n) = _
  rw [setNode_stored (by simpa using hn), setEvent_stored (by simpa using he)]

theorem subscribe_unsubscribe_witness :
    ∃ st1 : State, dmm_event_subscribe env0 st_T 3 1 = some (0, st1) ∧
      (st1.event? 3).map (fun x => x.ev_nodes) = some (event_T.ev_nodes ++ [1]) ∧
      (st1.node? 1).map (fun x => x.nd_events) = some (3 :: node_A.nd_events) ∧
      dmm_event_unsubscribe env0 st1 3 1 = some (0, st_T.bump.bump) ∧
      st_T.bump.bump.event? 3 = some event_T ∧ st_T.bump.bump.node? 1 = some node_A :=
  subscribe_unsubscribe env0 st_T 3 1 event_T node_A rfl rfl (by decide)
    (by decide) (by decide) rfl rfl

/-! ## Setting a timer -/

/-- C17: `dmm_timer_set` with `next = 0`, a non-zero interval and the flag
`CHANGEINTERVALONLY` stores the interval and then re-registers the timer like
every other call. On a timer that was never armed (`tm_next` is zero) the
assertion of `dmm_timer_register` on `tm_next` fails and the call does not
return. On a timer that had been unset (not in the queue, registered flag
clear) the call returns `0` and the timer is in the trigger queue again with
its registered flag set. Only for a timer that is armed do the fire time and
the registration stay as they were. -/
theorem changeintervalonly_reregisters :
    timer_view st_T100 3 = some (0, ⟨0, 0⟩, ⟨0, 0⟩) ∧
    dmm_timer_set st_T100 3 ⟨0, 0⟩ ⟨5, 0⟩ DMM_TIMERSET_CHANGEINTERVALONLY = none ∧
    (timer_view st_unset 3, st_unset.timer_trigger_list) =
      (some (0, ⟨110, 0⟩, ⟨10, 0⟩), []) ∧
    (dmm_timer_set st_unset 3 ⟨0, 0⟩ ⟨5, 0⟩ DMM_TIMERSET_CHANGEINTERVALONLY).map
        (fun r => (r.1, timer_view r.2 3, r.2.timer_trigger_list)) =
      some (0, some (DMM_TIMER_REGISTERED, ⟨110, 0⟩, ⟨5, 0⟩), [3]) ∧
    (timer_view st_armed 3, st_armed.timer_trigger_list) =
      (some (DMM_TIMER_REGISTERED, ⟨110, 0⟩, ⟨10, 0⟩), [3]) ∧
    (dmm_timer_set st_armed 3 ⟨0, 0⟩ ⟨5, 0⟩ DMM_TIMERSET_CHANGEINTERVALONLY).map
        (fun r => (r.1, timer_view r.2 3, r.2.timer_trigger_list)) =
      some (0, some (DMM_TIMER_REGISTERED, ⟨110, 0⟩, ⟨5, 0⟩), [3]) :=
  ⟨rfl, rfl, rfl, rfl, rfl, rfl⟩

/-- C18: at the time 100 s, `dmm_timer_set` with the flag `DMM_TIMERSET_ABS`
and `next` = 50 s, a time that has passed, returns `0`, stores 50 s as the
fire time and puts the timer in the trigger queue with its registered flag
set: the time is taken as absolute, and it is not compared with the clock. -/
theorem timer_set_abs_past :
    st_T100.realtime = ⟨100, 0⟩ ∧
    (dmm_timer_set st_T100 3 ⟨50, 0⟩ ⟨0, 0⟩ DMM_TIMERSET_ABS).map
        (fun r => (r.1, timer_view r.2 3, r.2.timer_trigger_list)) =
      some (0, some (DMM_TIMER_REGISTERED, ⟨50, 0⟩, ⟨0, 0⟩), [3]) :=
  ⟨rfl, rfl⟩

/-- C29: in a state whose only timer has id 1, the dispatch of a `TIMER_SET`,
`TIMER_SUBSCRIBE` or `TIMER_UNSUBSCRIBE` request for the id 99 faults inside
the `switch` (the `NULL` that `dmm_timer_id2ref` returns is used as a timer),
while the dispatch of `TIMER_REMOVE` for the same id ends with `ENOENT` and a
response, leaving the timers and the trigger queue as they were. -/
theorem timer_unknown_id_faults :
    (dmm_timer_id2ref st_T 99).map (fun r => r.1) = some 0 ∧
    (generic_switch env0 st_T 1 request_timerset).isNone = true ∧
    (generic_switch env0 st_T 1 request_timersubscribe).isNone = true ∧
    (generic_switch env0 st_T 1 request_timerunsubscribe).isNone = true ∧
    (generic_switch env0 st_T 1 request_timerrm).map
        (fun r => (r.err, r.resp.isSome, r.st.timerlist, r.st.timer_trigger_list,
          timer_view r.st 3)) =
      some (ENOENT, true, st_T.timerlist, st_T.timer_trigger_list, timer_view st_T 3) :=
  ⟨rfl, rfl, rfl, rfl, rfl⟩

/-! ## Data frames: fan-out -/

theorem rcvfunc_passive {env : Env} (hp : env.Passive) {x : dmm_hook} {t : dmm_type}
    {f : Ptr → Ptr → State → Int × State} (hf : rcvfunc env x t = some f) (a b : Ptr)
    (s : State) : f a b s = ((f a b s).1, s) := by
  unfold rcvfunc at hf
  split at hf
  · cases hf; exact Prod.ext rfl (hp.hook_rcvdata _ _ _ _)
  · split at hf
    · cases hf; exact Prod.ext rfl (hp.rcvdata _ _ _ _)
    · cases hf

/-- One round of the loop of `dmm_data_send` with passive receivers: the frame
gains a reference, then the receive function of the peer, if it is valid and
has one, is called; the hooks and nodes are left as they were. -/
theorem dmm_data_send_step_eq {env : Env} (hp : env.Passive) (s : State) (data peer : Ptr)
    {x : dmm_hook} {n : dmm_node} {d : dmm_data}
    (hx : s.hook? peer = some x) (hin : DMM_HOOK_ISIN x = true)
    (hrx : 0 < x.hk_refs ∧ x.hk_refs < DMM_REFNUM_MAX)
    (hn : s.node? x.hk_node = some n) (hd : s.data? data = some d)
    (hdr : d.da_refs < DMM_REFNUM_MAX) :
    dmm_data_send_step env data s peer =
      some (((s.setData data { d with da_refs := d.da_refs + 1 }).log (Ev.data_ref data)).logIf
        (delivered env s peer) (Ev.rcvdata peer data)) := by
  unfold dmm_data_send_step
  rw [dmm_data_ref_eq hd hdr]
  simp only [Option.bind_eq_bind, Option.some_bind]
  unfold dmm_data_passtohook
  simp only [hook?_log, hook?_setData, hx, Option.bind_eq_bind, Option.some_bind, hin,
    Bool.not_true, Bool.false_eq_true, if_false, node?_log, node?_setData, hn]
  unfold delivered
  simp only [hx, hn]
  by_cases hv : DMM_HOOK_ISVALID x = true
  · simp only [hv, Bool.not_true, Bool.false_eq_true, if_false, Bool.true_and]
    cases hf : rcvfunc env x n.nd_type with
    | none => simp [State.logIf]
    | some f =>
      simp only [Option.isSome_some]
      rw [dmm_hook_ref_eq (x := x) (by simpa using hx) hrx.2]
      simp only [Option.some_bind]
      rw [rcvfunc_passive hp hf]
      simp only []
      rw [dmm_hook_unref_eq (x := { x with hk_refs := x.hk_refs + 1 }) (by simp)
        (by simp; omega)]
      simp only [Option.some_bind, Nat.add_sub_cancel, State.logIf, if_true, setHook_log,
        setHook_setHook]
      show some ((((s.setData data { d with da_refs := d.da_refs + 1 }).setHook peer x).log
        (Ev.data_ref data)).log (Ev.rcvdata peer data)) = _
      rw [setHook_stored (by simpa using hx)]
  · simp [hv, State.logIf]

theorem delivered_congr (env : Env) {s st : State} (hh : ∀ q, s.hook? q = st.hook? q)
    (hn : ∀ q, s.node? q = st.node? q) (p : Ptr) : delivered env s p = delivered env st p := by
  unfold delivered
  rw [hh p]
  cases st.hook? p with
  | none => rfl
  | some x => simp only [hn x.hk_node]

theorem trace_logIf (st : State) (b : Bool) (e : Ev) :
    (st.logIf b e).trace = (if b then [e] else []) ++ st.trace := by
  cases b <;> rfl

@[simp] theorem data?_logIf (st : State) (b : Bool) (e : Ev) (q : Ptr) :
    (st.logIf b e).data? q = st.data? q := by
  cases b <;> rfl

/-- The loop of `dmm_data_send` with passive receivers. -/
theorem dmm_data_send_fold {env : Env} (hp : env.Passive) (st : State) (data : Ptr) :
    ∀ (peers : List Ptr) (s : State) (d : dmm_data),
      s.data? data = some d → d.da_refs + peers.length < DMM_REFNUM_MAX →
      (∀ q, s.hook? q = st.hook? q) → (∀ q, s.node? q = st.node? q) →
      (∀ p ∈ peers, ∃ x n, st.hook? p = some x ∧ DMM_HOOK_ISIN x = true ∧
        (0 < x.hk_refs ∧ x.hk_refs < DMM_REFNUM_MAX) ∧ st.node? x.hk_node = some n) →
      ∃ s', peers.foldlM (dmm_data_send_step env data) s = some s' ∧
        s'.data? data = some { d with da_refs := d.da_refs + peers.length } ∧
        s'.trace = delivery_log env st data peers ++ s.trace ∧
        (∀ q, s'.hook? q = st.hook? q) ∧ (∀ q, s'.node? q = st.node? q) := by
  intro peers
  induction peers with
  | nil =>
    intro s d hd _ hh hn _
    exact ⟨s, rfl, by simpa using hd, by simp [delivery_log], hh, hn⟩
  | cons p ps ih =>
    intro s d hd hlen hh hn hps
    simp only [List.length_cons] at hlen
    obtain ⟨x, n, hx, hin, hrx, hnx⟩ := hps p (List.mem_cons_self _ _)
    have hstep := dmm_data_send_step_eq hp s data p
      (by rw [hh]; exact hx) hin hrx (by rw [hn]; exact hnx) hd (by omega)
    obtain ⟨s', hf, hd', ht', hh', hn'⟩ := ih
      (((s.setData data { d with da_refs := d.da_refs + 1 }).log (Ev.data_ref data)).logIf
        (delivered env s p) (Ev.rcvdata p data))
      { d with da_refs := d.da_refs + 1 }
      (by simp) (by simp; omega) (fun q => by simp [hh q]) (fun q => by simp [hn q])
      (fun q hq => hps q (List.mem_cons_of_mem _ hq))
    refine ⟨s', ?_, ?_, ?_, hh', hn'⟩
    · rw [List.foldlM_cons, hstep]; exact hf
    · rw [hd']; simp only [List.length_cons]; congr 2; omega
    · rw [ht', trace_logIf, delivered_congr env hh hn]
      simp [delivery_log]

/-- The function `dmm_data_send` with passive receivers. -/
theorem dmm_data_send_passive (env : Env) (hp : env.Passive) (st : State) (data hook : Ptr)
    (h : dmm_hook) (d : dmm_data)
    (hh : st.hook? hook = some h) (hout : DMM_HOOK_ISOUT h = true)
    (hr : 0 < h.hk_refs ∧ h.hk_refs < DMM_REFNUM_MAX)
    (hd : st.data? data = some d) (hdr : d.da_refs + h.hk_peers.length < DMM_REFNUM_MAX)
    (hpeers : ∀ p ∈ h.hk_peers, ∃ x n, st.hook? p = some x ∧ DMM_HOOK_ISIN x = true ∧
      (0 < x.hk_refs ∧ x.hk_refs < DMM_REFNUM_MAX) ∧ st.node? x.hk_node = some n) :
    (DMM_HOOK_ISVALID h = false → dmm_data_send env st data hook = some st) ∧
    (DMM_HOOK_ISVALID h = true →
      ∃ st', dmm_data_send env st data hook = some st' ∧
        st'.data? data = some { d with da_refs := d.da_refs + h.hk_peers.length } ∧
        st'.trace = delivery_log env st data h.hk_peers ++ st.trace ∧
        (∀ q, st'.hook? q = st.hook? q) ∧ (∀ q, st'.node? q = st.node? q)) := by
  constructor
  · intro hv
    unfold dmm_data_send
    simp [hh, hout, hv]
  · intro hv
    have hne : ∀ p ∈ h.hk_peers, p ≠ hook := by
      intro p hp1 he
      obtain ⟨x, _, hx, hin, _, _⟩ := hpeers p hp1
      rw [he, hh] at hx
      cases hx
      simp [DMM_HOOK_ISOUT, hin] at hout
    let st1 := st.setHook hook { h with hk_refs := h.hk_refs + 1 }
    have hps1 : ∀ p ∈ h.hk_peers, ∃ x n, st1.hook? p = some x ∧ DMM_HOOK_ISIN x = true ∧
        (0 < x.hk_refs ∧ x.hk_refs < DMM_REFNUM_MAX) ∧ st1.node? x.hk_node = some n := by
      intro p hp1
      obtain ⟨x, n, hx, hin, hrx, hn⟩ := hpeers p hp1
      exact ⟨x, n, by simp [st1, hook?_setHook_ne _ _ (hne p hp1), hx], hin, hrx,
        by simpa [st1] using hn⟩
    obtain ⟨s', hf, hd', ht', hh', hn'⟩ := dmm_data_send_fold hp st1 data h.hk_peers st1 d
      (by simpa [st1] using hd) hdr (fun _ => rfl) (fun _ => rfl) hps1
    have hdl : delivery_log env st1 data h.hk_peers = delivery_log env st data h.hk_peers := by
      have : ∀ l : List Ptr, (∀ p ∈ l, p ≠ hook) →
          delivery_log env st1 data l = delivery_log env st data l := by
        intro l
        induction l with
        | nil => intro _; rfl
        | cons p ps ih =>
          intro hl
          have hp1 : p ≠ hook := hl p (List.mem_cons_self _ _)
          have hdel : delivered env st1 p = delivered env st p := by
            unfold delivered
            simp only [st1, hook?_setHook_ne _ _ hp1, node?_setHook]
          simp only [delivery_log, hdel, ih (fun q hq => hl q (List.mem_cons_of_mem _ hq))]
      exact this _ hne
    unfold dmm_data_send
    simp only [hh, Option.bind_eq_bind, Option.some_bind, hout, hv, Bool.not_true,
      Bool.false_eq_true, if_false]
    rw [dmm_hook_ref_eq hh hr.2]
    simp only [Option.some_bind]
    rw [show st.setHook hook { h with hk_refs := h.hk_refs + 1 } = st1 from rfl, hf]
    simp only [Option.some_bind]
    rw [dmm_hook_unref_eq (x := { h with hk_refs := h.hk_refs + 1 })
      (by rw [hh']; simp [st1]) (by simp; omega)]
    refine ⟨_, rfl, by simpa using hd', ?_, fun q => ?_, fun q => by simpa [st1] using hn' q⟩
    · rw [trace_setHook, ht', hdl]; rfl
    · by_cases hq : q = hook
      · subst hq; simp [hh]
      · rw [hook?_setHook_ne _ _ hq, hh', hook?_setHook_ne _ _ hq]

/-- The receive function that `dmm_data_passtohook` selects is the one the
claim names. -/
theorem rcvfunc_eq_receiver (env : Env) {st : State} {peer : Ptr} {x : dmm_hook} {n : dmm_node}
    (hx : st.hook? peer = some x) (hn : st.node? x.hk_node = some n)
    (hv : DMM_HOOK_ISVALID x = true) :
    rcvfunc env x n.nd_type =
      if has_receiver st peer then some (receiver_of env st peer) else none := by
  unfold rcvfunc has_receiver receiver_of
  simp only [hx, hn, hv, Bool.true_and]
  by_cases h1 : x.hk_rcvdata = 0
  · by_cases h2 : n.nd_type.rcvdata = true <;> simp [h1, h2]
  · simp [h1]

theorem has_receiver_invalid {st : State} {peer : Ptr} {x : dmm_hook}
    (hx : st.hook? peer = some x) (hv : ¬ DMM_HOOK_ISVALID x = true) :
    has_receiver st peer = false := by
  unfold has_receiver
  simp [hx, hv]

theorem receiver_of_keeps {env : Env} {data : Ptr} (hk : env.receivers_keep data) (st : State)
    (peer : Ptr) (h : Ptr) (s : State) (r : dmm_data) (hs : s.data? data = some r)
    (hr : 2 ≤ r.da_refs) : keeps_frame data s (receiver_of env st peer h data s).2 := by
  have hid : keeps_frame data s s := ⟨⟨s.datas, rfl⟩, fun r1 h1 => by
    rw [hs] at h1; cases h1; exact ⟨r, hs, by omega, le_refl _⟩⟩
  unfold receiver_of
  cases hx : st.hook? peer with
  | none => exact hid
  | some x =>
    simp only []
    by_cases h1 : (x.hk_rcvdata != 0) = true
    · rw [if_pos h1]; exact hk.2 _ _ _ _ hs hr
    · rw [if_neg h1]
      cases hn : st.node? x.hk_node with
      | none => exact hid
      | some n => exact hk.1 _ _ _ _ hs hr

/-- One round of the loop of `dmm_data_send` is one round of the fan-out of
the claim, for receivers that keep the frame. -/
theorem dmm_data_send_step_spec {env : Env} {data : Ptr} (hk : env.receivers_keep data)
    (st s : State) (peer : Ptr) {x : dmm_hook} {n : dmm_node} {d : dmm_data}
    (hx0 : st.hook? peer = some x) (hn0 : st.node? x.hk_node = some n)
    (hx : s.hook? peer = some x) (hin : DMM_HOOK_ISIN x = true)
    (hrx : 0 < x.hk_refs ∧ x.hk_refs < DMM_REFNUM_MAX)
    (hn : s.node? x.hk_node = some n) (hd : s.data? data = some d)
    (hd1 : 1 ≤ d.da_refs) (hdr : d.da_refs < DMM_REFNUM_MAX) :
    dmm_data_send_step env data s peer = some (fanout_round env st data s peer) ∧
    (∃ ds, fanout_round env st data s peer =
      { s with datas := ds, trace := fanout_log st data [peer] ++ s.trace }) ∧
    ∃ d', (fanout_round env st data s peer).data? data = some d' ∧ 1 ≤ d'.da_refs ∧
      d'.da_refs ≤ d.da_refs + 1 := by
  have hround : fanout_round env st data s peer =
      if has_receiver st peer then
        (receiver_of env st peer peer data
          ((((s.setData data { d with da_refs := d.da_refs + 1 }).log (Ev.data_ref data)).setHook
            peer { x with hk_refs := x.hk_refs + 1 }).log (Ev.rcvdata peer data))).2.setHook peer x
      else (s.setData data { d with da_refs := d.da_refs + 1 }).log (Ev.data_ref data) := by
    unfold fanout_round
    simp only [hd, hx0]
  by_cases hrcv : has_receiver st peer = true
  · have hv : DMM_HOOK_ISVALID x = true := by
      by_contra hv
      rw [has_receiver_invalid hx0 hv] at hrcv
      cases hrcv
    obtain ⟨⟨ds, hds⟩, hfr⟩ := receiver_of_keeps hk st peer peer
      ((((s.setData data { d with da_refs := d.da_refs + 1 }).log (Ev.data_ref data)).setHook
        peer { x with hk_refs := x.hk_refs + 1 }).log (Ev.rcvdata peer data))
      { d with da_refs := d.da_refs + 1 } (by simp) (by simp; omega)
    obtain ⟨d', hd', h1, h2⟩ := hfr { d with da_refs := d.da_refs + 1 } (by simp)
    rw [hround, if_pos hrcv]
    refine ⟨?_, ?_, ?_⟩
    · unfold dmm_data_send_step
      rw [dmm_data_ref_eq hd hdr]
      simp only [Option.bind_eq_bind, Option.some_bind]
      unfold dmm_data_passtohook
      simp only [hook?_log, hook?_setData, hx, Option.bind_eq_bind, Option.some_bind, hin,
        Bool.not_true, Bool.false_eq_true, if_false, node?_log, node?_setData, hn, hv,
        rcvfunc_eq_receiver env hx0 hn0 hv, hrcv, if_true]
      rw [dmm_hook_ref_eq (x := x) (by simpa using hx) hrx.2]
      simp only [Option.some_bind]
      rw [dmm_hook_unref_eq (x := { x with hk_refs := x.hk_refs + 1 })
        (by rw [hds]; simp [State.hook?, State.setHook, State.log]) (by simp; omega)]
      simp
    · refine ⟨ds, ?_⟩
      rw [hds]
      simp only [fanout_log, hrcv, if_true, List.nil_append, List.cons_append, List.singleton_append]
      have hst : s.setHook peer x = s := setHook_stored hx
      cases s
      simp only [State.setHook, State.log, State.setData, State.hook?] at hst ⊢
      simp only [State.mk.injEq] at hst
      simp [hst.2.2.1]
    · refine ⟨d', ?_, h1, by simpa using h2⟩
      simpa [State.data?, State.setHook] using hd'
  · have hrcv' : has_receiver st peer = false := by simpa using hrcv
    rw [hround, if_neg hrcv]
    refine ⟨?_, ?_, ?_⟩
    · unfold dmm_data_send_step
      rw [dmm_data_ref_eq hd hdr]
      simp only [Option.bind_eq_bind, Option.some_bind]
      unfold dmm_data_passtohook
      simp only [hook?_log, hook?_setData, hx, Option.bind_eq_bind, Option.some_bind, hin,
        Bool.not_true, Bool.false_eq_true, if_false, node?_log, node?_setData, hn]
      by_cases hv : DMM_HOOK_ISVALID x = true
      · simp [hv, rcvfunc_eq_receiver env hx0 hn0 hv, hrcv']
      · simp [hv]
    · refine ⟨Function.update s.datas data (some { d with da_refs := d.da_refs + 1 }), ?_⟩
      simp [fanout_log, hrcv', State.setData, State.log]
    · exact ⟨{ d with da_refs := d.da_refs + 1 }, by simp, by simp, by simp⟩

/-- The loop of `dmm_data_send` is the fan-out of the claim, for receivers
that keep the frame. -/
theorem dmm_data_send_fold_spec {env : Env} {data : Ptr} (hk : env.receivers_keep data)
    (st : State) :
    ∀ (peers : List Ptr) (s : State) (d : dmm_data),
      s.data? data = some d → 1 ≤ d.da_refs → d.da_refs + peers.length < DMM_REFNUM_MAX →
      (∀ q ∈ peers, s.hook? q = st.hook? q) → (∀ q, s.node? q = st.node? q) →
      (∀ p ∈ peers, ∃ x n, st.hook? p = some x ∧ DMM_HOOK_ISIN x = true ∧
        (0 < x.hk_refs ∧ x.hk_refs < DMM_REFNUM_MAX) ∧ st.node? x.hk_node = some n) →
      ∃ ds d', peers.foldlM (dmm_data_send_step env data) s =
          some (peers.foldl (fanout_round env st data) s) ∧
        peers.foldl (fanout_round env st data) s =
          { s with datas := ds, trace := fanout_log st data peers ++ s.trace } ∧
        ds data = some d' ∧ 1 ≤ d'.da_refs ∧ d'.da_refs ≤ d.da_refs + peers.length := by
  intro peers
  induction peers with
  | nil =>
    intro s d hd hd1 _ _ _ _
    exact ⟨s.datas, d, rfl, rfl, hd, hd1, by simp⟩
  | cons p ps ih =>
    intro s d hd hd1 hlen hH hN hps
    simp only [List.length_cons] at hlen
    obtain ⟨x, n, hx, hin, hrx, hnx⟩ := hps p (List.mem_cons_self _ _)
    obtain ⟨hstep, ⟨ds1, hs1⟩, d1, hd1', h11, h12⟩ := dmm_data_send_step_spec hk st s p hx hnx
      (by rw [hH p (List.mem_cons_self _ _)]; exact hx) hin hrx (by rw [hN]; exact hnx) hd hd1
      (by omega)
    obtain ⟨ds, d', hf, hs', hds, h1, h2⟩ := ih (fanout_round env st data s p) d1 hd1' h11
      (by omega)
      (fun q hq => by rw [hs1]; exact hH q (List.mem_cons_of_mem _ hq))
      (fun q => by rw [hs1]; exact hN q)
      (fun q hq => hps q (List.mem_cons_of_mem _ hq))
    refine ⟨ds, d', ?_, ?_, hds, h1, by simp only [List.length_cons]; omega⟩
    · rw [List.foldlM_cons, hstep]; exact hf
    · rw [List.foldl_cons, hs']
      rw [hs1]
      simp [fanout_log]

theorem fanout_log_count_rcvdata (st : State) (data p : Ptr) (peers : List Ptr) :
    (fanout_log st data peers).count (Ev.rcvdata p data) =
      if has_receiver st p then peers.count p else 0 := by
  induction peers with
  | nil => simp [fanout_log]
  | cons q qs ih =>
    simp only [fanout_log, List.count_append, ih, List.count_cons]
    by_cases hq : q = p
    · subst hq
      by_cases hr : has_receiver st q = true <;> simp [hr]
    · have hq' : ¬ p = q := fun h => hq h.symm
      by_cases hr : has_receiver st q = true <;> by_cases hr2 : has_receiver st p = true <;>
        simp [hr, hr2, hq, hq']

theorem fanout_log_count_ref (st : State) (data : Ptr) (peers : List Ptr) :
    (fanout_log st data peers).count (Ev.data_ref data) = peers.length := by
  induction peers with
  | nil => simp [fanout_log]
  | cons q qs ih =>
    simp only [fanout_log, List.count_append, ih, List.length_cons]
    by_cases hr : has_receiver st q = true <;> simp [hr]

theorem env_unref_keeps (data : Ptr) : env_unref.receivers_keep data := by
  refine ⟨fun t h s r hs hr => ?_, fun k h s r hs hr => ?_⟩
  · have h2 : ¬ (r.da_refs - 1 = 0) := by omega
    have h3 : r.da_refs > 0 := by omega
    have : (env_unref.rcvdata t h data s).2 = s.setData data { r with da_refs := r.da_refs - 1 } := by
      simp [env_unref, dmm_data_unref, hs, dmm_refrelease, h2, h3]
    rw [this]
    refine ⟨⟨_, rfl⟩, fun r1 h1 => ?_⟩
    rw [hs] at h1; cases h1
    exact ⟨{ r with da_refs := r.da_refs - 1 }, by simp, by show 1 ≤ r.da_refs - 1; omega,
      by show r.da_refs - 1 ≤ r.da_refs; omega⟩
  · exact ⟨⟨s.datas, rfl⟩, fun r1 h1 => by
      rw [hs] at h1; cases h1; exact ⟨r, hs, by omega, le_refl _⟩⟩

/-- C30: the out-hook of node A has one peer, the in-hook of node B, which is
valid but has no receive function (neither its own nor one of its type):
`dmm_data_send` takes the reference for the peer, `dmm_data_passtohook`
answers not-supported without calling anything, and nobody releases the
reference: the count of the frame is 2 after the call and was 1 before it.
With two peers whose receive function releases the reference it is handed the
count after the call is the count before it. -/
theorem data_send_leaks_reference :
    delivered env0 st_data 4 = false ∧
    (st_data.data? 7).map (fun d => d.da_refs) = some 1 ∧
    ((dmm_data_send env0 st_data 7 3).bind (fun s => s.data? 7)).map (fun d => d.da_refs) =
      some 2 ∧
    (dmm_data_send env0 st_data 7 3).map (fun s => s.trace) =
      some (Ev.data_ref 7 :: st_data.trace) ∧
    (st_data_BA.data? 10).map (fun d => d.da_refs) = some 1 ∧
    ((dmm_data_send env_unref st_data_BA 10 3).bind (fun s => s.data? 10)).map
      (fun d => d.da_refs) = some 1 :=
  ⟨rfl, rfl, rfl, rfl, rfl, rfl⟩

/-! ## The trigger pass -/

/-- C19: at 200 s a non-forced pass over a queue that holds one periodic
timer (fire time 110 s, interval 10 s, passive handlers) fires it once, re-arms
it for 120 s and returns: the head of the queue is still due. With a second
timer behind it in the queue (the first with interval 50 s, the second a
one-shot for 150 s) the re-armed first timer (160 s) is linked behind the
cursor of the loop and is fired a second time in the same pass, which leaves
it armed for 210 s: whether a re-armed timer that is still due fires again
depends on where it lands in the list. -/
theorem trigger_pass_leaves_due_timer :
    (timer_view st_periodic1 3, st_periodic1.timer_trigger_list, st_periodic1.realtime) =
      (some (DMM_TIMER_REGISTERED, ⟨110, 0⟩, ⟨10, 0⟩), [3], ⟨200, 0⟩) ∧
    (dmm_timers_trigger env0 2 5 st_periodic1 false).map
        (fun r => (r.1, timer_view r.2 3, r.2.timer_trigger_list, triggers_fired r.2 1)) =
      some (0, some (DMM_TIMER_REGISTERED, ⟨120, 0⟩, ⟨10, 0⟩), [3], 1) ∧
    TIMESPEC_GT ⟨120, 0⟩ (TIMESPEC_INC ⟨200, 0⟩ coalesce_interval) = false ∧
    (timer_view st_two_timers 3, timer_view st_two_timers 4, st_two_timers.timer_trigger_list) =
      (some (DMM_TIMER_REGISTERED, ⟨110, 0⟩, ⟨50, 0⟩),
       some (DMM_TIMER_REGISTERED, ⟨150, 0⟩, ⟨0, 0⟩), [3, 4]) ∧
    (dmm_timers_trigger env0 2 5 st_two_timers false).map
        (fun r => (r.1, timer_view r.2 3, r.2.timer_trigger_list, triggers_fired r.2 1,
          triggers_fired r.2 2)) =
      some (0, some (DMM_TIMER_REGISTERED, ⟨210, 0⟩, ⟨50, 0⟩), [3], 2, 1) :=
  ⟨rfl, rfl, rfl, rfl, rfl⟩

/-- C20: a one-shot timer (interval 0) armed for 110 s with the nodes 1 and 2
subscribed fires in the pass at 200 s; afterwards it is out of the trigger
queue with its registered flag clear, but it has not been removed: it is still
in the list of timers, both nodes are still on its subscriber list and it is
still on the subscription list of both nodes. -/
theorem oneshot_timer_not_removed :
    (timer_view st_oneshot 3, st_oneshot.timer_trigger_list) =
      (some (DMM_TIMER_REGISTERED, ⟨110, 0⟩, ⟨0, 0⟩), [3]) ∧
    (dmm_timers_trigger env0 2 5 st_oneshot false).map
        (fun r => (r.1, triggers_received r.2 1, timer_view r.2 3, r.2.timer_trigger_list,
          r.2.timerlist, subscribers r.2 3, subscriptions r.2 1, subscriptions r.2 2)) =
      some (0, [1], some (0, ⟨110, 0⟩, ⟨0, 0⟩), [], [3], some [1, 2], some [3], some [3]) :=
  ⟨rfl, rfl⟩

/-- C26: node 1 subscribes to the end of the current wave twice.  The second
`dmm_wavefinish_subscribe` finds the event of the wave and calls
`dmm_event_subscribe` without asking whether the node is subscribed: both
calls return `0`, the node is twice on the subscriber list of the event and
the event is twice on the subscription list of the node, and the end of the
wave delivers the `WAVEFINISH` message to the node twice. -/
theorem wavefinish_subscribe_twice :
    (dmm_wavefinish_subscribe env0 st_AB 1).map (fun r => r.1) = some 0 ∧
    (subscribers st_wave1 3, subscriptions st_wave1 1) = (some [1], some [3]) ∧
    (dmm_wavefinish_subscribe env0 st_wave1 1).map (fun r => r.1) = some 0 ∧
    (subscribers st_wave11 3, subscriptions st_wave11 1) = (some [1, 1], some [3, 3]) ∧
    (dmm_wave_finish env0 2 st_wave11).map (fun r => (r.1,
        (r.2.trace.filter (fun e => match e with
          | .rcvmsg n m => decide (n = 1 ∧ m.cm_cmd = DMM_MSG_WAVEFINISH)
          | _ => false)).length)) = some (0, 2) :=
  ⟨rfl, rfl, rfl, rfl, rfl⟩

/-! ## The timeout of the main loop -/

theorem tdiv_million (a : Int) :
    (0 ≤ a → Int.tdiv a 1000000 = a / 1000000) ∧
    (a < 0 → Int.tdiv a 1000000 = -((-a) / 1000000)) := by
  constructor
  · intro h; exact Int.tdiv_eq_ediv h (by decide)
  · intro h
    have h1 : Int.tdiv (-(-a)) 1000000 = -(Int.tdiv (-a) 1000000) := Int.neg_tdiv _ _
    rw [neg_neg] at h1
    rw [h1, Int.tdiv_eq_ediv (by omega) (by decide)]

/-- The long value is the floor or the ceiling of the time to the deadline in
milliseconds. -/
theorem timeout_long_bounds (now next : timespec) :
    (timeout_long now next - 1) * 1000000 < ns_until now next ∧
    ns_until now next < (timeout_long now next + 1) * 1000000 := by
  unfold timeout_long ns_until
  obtain ⟨h1, h2⟩ := tdiv_million (next.tv_nsec - now.tv_nsec)
  by_cases hs : 0 ≤ next.tv_nsec - now.tv_nsec
  · rw [h1 hs]; omega
  · rw [h2 (by omega)]; omega

theorem timeout_long_mono (now next next' : timespec) (hn : now.normalised)
    (hx : next.normalised) (hx' : next'.normalised)
    (h : ns_until now next ≤ ns_until now next') :
    timeout_long now next ≤ timeout_long now next' := by
  unfold timeout_long
  unfold ns_until at h
  unfold timespec.normalised at hn hx hx'
  obtain ⟨h1, h2⟩ := tdiv_million (next.tv_nsec - now.tv_nsec)
  obtain ⟨h1', h2'⟩ := tdiv_million (next'.tv_nsec - now.tv_nsec)
  by_cases hs : 0 ≤ next.tv_nsec - now.tv_nsec <;>
    by_cases hs' : 0 ≤ next'.tv_nsec - now.tv_nsec
  · rw [h1 hs, h1' hs']; omega
  · rw [h1 hs, h2' (by omega)]; omega
  · rw [h2 (by omega), h1' hs']; omega
  · rw [h2 (by omega), h2' (by omega)]; omega

theorem to_int32_of_range (x : Int) (h : -2147483648 ≤ x ∧ x < 2147483648) : to_int32 x = x := by
  unfold to_int32; omega

theorem timeout_ms_of_range (now next : timespec)
    (h : -2147483648 ≤ timeout_long now next ∧ timeout_long now next < 2147483648) :
    timeout_ms now next = max 0 (timeout_long now next) := by
  unfold timeout_ms
  simp only []
  rw [show (next.tv_sec - now.tv_sec) * 1000 + Int.tdiv (next.tv_nsec - now.tv_nsec) 1000000 =
    timeout_long now next from rfl, to_int32_of_range _ h]
  split <;> omega

theorem timeout_long_eq_rounded (now next : timespec) :
    timeout_long now next =
      if now.tv_nsec ≤ next.tv_nsec then ns_until now next / 1000000
      else -((-(ns_until now next)) / 1000000) := by
  unfold timeout_long ns_until
  obtain ⟨h1, h2⟩ := tdiv_million (next.tv_nsec - now.tv_nsec)
  by_cases hs : now.tv_nsec ≤ next.tv_nsec
  · rw [if_pos hs, h1 (by omega)]; omega
  · rw [if_neg hs, h2 (by omega)]; omega

theorem timeout_long_range (now next : timespec)
    (h : -2147483647000000 ≤ ns_until now next ∧ ns_until now next ≤ 2147483647000000) :
    -2147483648 ≤ timeout_long now next ∧ timeout_long now next < 2147483648 := by
  have := timeout_long_bounds now next
  omega

theorem timeout_ms_eq_spec (now next : timespec)
    (h : -2147483647000000 ≤ ns_until now next ∧ ns_until now next ≤ 2147483647000000) :
    timeout_ms now next = timeout_spec now next := by
  rw [timeout_ms_of_range _ _ (timeout_long_range now next h), timeout_long_eq_rounded]
  rfl

/-- Releasing the reference of the loop on a removed timer: the trigger queue
and the list of timers stay as they are, and the timer, where it survives, is
stored with the flags it had. -/
theorem dmm_event_unref_removed {s : State} {tm : Ptr} {e : dmm_event} {t : dmm_timer}
    (ht : s.timer? tm = some (e, t)) (hrefs : 0 < e.ev_refs)
    (hdes : e.ev_destructor = some .timer_destructor) (hlast : e.ev_refs = 1 → e.ev_nodes = []) :
    ∃ s', dmm_event_unref s tm = some s' ∧
      s'.timer_trigger_list = s.timer_trigger_list ∧ s'.timerlist = s.timerlist ∧
      (∀ e' t', s'.timer? tm = some (e', t') → t' = t) ∧
      (∀ q, q ≠ tm → s'.event? q = s.event? q) := by
  have he : s.event? tm = some e ∧ e.ext = .timer t := by
    unfold State.timer? at ht
    cases h : s.event? tm with
    | none => simp [h] at ht
    | some x =>
      simp only [h, Option.bind_eq_bind, Option.some_bind] at ht
      cases hx : x.ext <;> simp [hx] at ht
      exact ⟨by rw [← ht.1], by rw [← ht.1, hx, ht.2]⟩
  by_cases h1 : e.ev_refs = 1
  · refine ⟨dmm_event_free (s.setEvent tm { e with ev_refs := 0 }) tm, ?_, rfl, rfl, ?_, ?_⟩
    · unfold dmm_event_unref
      simp only [he.1, Option.bind_eq_bind, Option.some_bind, dmm_refrelease, hrefs, if_true,
        h1, hlast h1, hdes, timer_destructor]
      rfl
    · intro e' t' h'
      simp [State.timer?] at h'
    · intro q hq
      simp [event?_delEvent_ne _ hq, event?_setEvent_ne _ _ hq]
  · refine ⟨s.setEvent tm { e with ev_refs := e.ev_refs - 1 }, ?_, rfl, rfl, ?_, ?_⟩
    · exact dmm_event_unref_eq he.1 (by omega)
    · intro e' t' h'
      simp only [State.timer?, event?_setEvent_same, Option.bind_eq_bind, Option.some_bind,
        he.2, Option.some.injEq, Prod.mk.injEq] at h'
      exact h'.2.symm
    · intro q hq
      simp [event?_setEvent_ne _ _ hq]

/-- A timer fires in a trigger pass and, when the delivery of its
`TIMER_TRIGGER` message returns, it is as `dmm_timer_rm` leaves it (invalid,
registered flag clear, in neither the trigger queue nor the list of timers,
without subscribers unless someone else holds a reference). Then the pass does
not re-arm it, whatever its interval: the body of the loop only releases the
reference of the loop, and when the timer that followed it in the queue, if
any, is not yet due, the pass returns `0` with the timer in neither list and,
if it has not been freed, with its flags unchanged (not registered). -/
theorem removed_timer_not_rearmed (env : Env) (fuel k : Nat) (st s1 s2 : State) (tm : Ptr)
    (rest : List Ptr) (t0 : dmm_timer) (e0 e : dmm_event) (t : dmm_timer) (r : Int)
    (force_trigger : Bool)
    (hclock : st.clock_errno = 0)
    (hq : st.timer_trigger_list = tm :: rest) (ht0 : st.timer? tm = some (e0, t0))
    (hdue : (!force_trigger &&
      TIMESPEC_GT t0.tm_next (TIMESPEC_INC st.realtime coalesce_interval)) = false)
    (href : dmm_event_ref st tm = some s1)
    (htrig : dmm_timer_trigger env fuel s1 tm = some (r, s2))
    (ht : s2.timer? tm = some (e, t)) (hinv : DMM_TIMER_ISVALID t = false)
    (hreg : DMM_TIMER_ISREGISTERED t = false)
    (hnq : tm ∉ s2.timer_trigger_list) (hnl : tm ∉ s2.timerlist)
    (hrefs : 0 < e.ev_refs) (hdes : e.ev_destructor = some .timer_destructor)
    (hlast : e.ev_refs = 1 → e.ev_nodes = [])
    (hrest : ∀ q, rest.head? = some q → ∃ eq tq, s2.timer? q = some (eq, tq) ∧ q ≠ tm ∧
      (∃ o, list_next s2.timer_trigger_list q = some o) ∧
      TIMESPEC_GT tq.tm_next (TIMESPEC_INC st.realtime coalesce_interval) = true) :
    ∃ s3, dmm_timers_trigger env fuel (k + 2) st force_trigger = some (0, s3) ∧
      tm ∉ s3.timer_trigger_list ∧ tm ∉ s3.timerlist ∧
      (∀ e' t', s3.timer? tm = some (e', t') → DMM_TIMER_ISREGISTERED t' = false) := by
  obtain ⟨s3, hun, hl1, hl2, hfl, hoth⟩ := dmm_event_unref_removed ht hrefs hdes hlast
  have hbody : timers_trigger_body env fuel st tm = some s3 := by
    unfold timers_trigger_body
    simp only [href, htrig, ht, hinv, Option.bind_eq_bind, Option.some_bind,
      Bool.false_eq_true, if_false, hun]
  have hck : clock_gettime st = .ok st.realtime := by simp [clock_gettime, hclock]
  refine ⟨s3, ?_, by rw [hl1]; exact hnq, by rw [hl2]; exact hnl,
    fun e' t' h' => by rw [hfl e' t' h']; exact hreg⟩
  unfold dmm_timers_trigger
  simp only [hck, hq, List.head?_cons, Option.bind_eq_bind]
  unfold timers_trigger_loop
  simp only [hq, list_next, if_true, Option.bind_eq_bind, Option.some_bind, ht0, hdue,
    Bool.false_eq_true, if_false, hbody]
  cases hr : rest.head? with
  | none => simp [timers_trigger_loop]
  | some q =>
    obtain ⟨eq, tq, htq, hne, ⟨o, ho⟩, hgt⟩ := hrest q hr
    have htq3 : s3.timer? q = some (eq, tq) := by
      unfold State.timer? at htq ⊢
      rw [hoth q hne]; exact htq
    unfold timers_trigger_loop
    simp [hl1, ho, htq3, hgt]

theorem removed_timer_not_rearmed_witness :
    dmm_timer_trigger env_remove 2 st_periodic1_ref 3 = some (0, st_periodic1_removed) ∧
    ∃ s3, dmm_timers_trigger env_remove 2 (0 + 2) st_periodic1 false = some (0, s3) ∧
      3 ∉ s3.timer_trigger_list ∧ 3 ∉ s3.timerlist ∧
      (∀ e' t', s3.timer? 3 = some (e', t') → DMM_TIMER_ISREGISTERED t' = false) :=
  ⟨rfl, removed_timer_not_rearmed env_remove 2 0 st_periodic1 st_periodic1_ref
    st_periodic1_removed 3 [] ⟨DMM_TIMER_REGISTERED, ⟨110, 0⟩, ⟨10, 0⟩⟩ event_periodic1
    event_removed ⟨DMM_TIMER_INVALID, ⟨110, 0⟩, ⟨10, 0⟩⟩ 0 false rfl rfl rfl rfl rfl rfl rfl rfl
    rfl (by decide) (by decide) (by decide) rfl (fun _ => rfl)
    (fun q hq => by simp at hq)⟩

/-- C21: a periodic timer (address 3, id 1, interval 10 s) is due and has
two subscribers, node 1 and node 2, in that order; the `rcvmsg` handler of a
node answers `TIMER_TRIGGER` by sending `TIMER_REMOVE` for the timer that
fired.  The delivery to node 1 returns, and `dmm_timer_rm`, run by the
handler, has unsubscribed every node, which frees every subscriber record,
the record of node 2 among them.  The loop of `dmm_event_sendsubscribed` had
read that record as the next one before the handler ran and now goes on with
it: the records still to be visited are not linked any more, and the trigger
pass has no result, whatever the bounds `fuel` and `k`.  With node 1 as the
only subscriber the same pass returns `0` and the timer is not re-armed: it
is freed and in neither the trigger queue nor the list of timers. -/
theorem timer_remove_in_handler_faults (fuel k : Nat) :
    subscribers st_periodic 3 = some [1, 2] ∧
    (∃ s1 msg s2 s3, dmm_event_ref st_periodic 3 = some s1 ∧
      dmm_msg_create env_remove s1 0 DMM_MSG_TIMERTRIGGER DMM_MSGTYPE_GENERIC 0 0
        sizeof_timertrigger = (some msg, s2) ∧
      sendsubscribed_step env_remove (fuel + 1) { msg with cm_data := .timertrigger 1 } s2 1 =
        some s3 ∧
      subscribers s3 3 = some [] ∧ subscribers_linked s3 3 [2] = false) ∧
    dmm_timers_trigger env_remove (fuel + 1) (k + 1) st_periodic false = none ∧
    (dmm_timers_trigger env_remove (fuel + 1) (k + 2) st_periodic1 false).map
      (fun r => (r.1, (r.2.timer? 3).isSome, r.2.timerlist, r.2.timer_trigger_list)) =
      some (0, false, [], []) :=
  ⟨rfl, ⟨_, _, _, _, rfl, rfl, rfl, rfl, rfl⟩, rfl, rfl⟩

/-! ## The end of a wave: the claim -/

/-- A state without events and without subscriptions has well-formed
wave-finish events. -/
theorem wave_inv_of_no_events {st : State} (hl : st.wavefinishlist = [])
    (he : ∀ q, st.event? q = none)
    (hn : ∀ q n, st.node? q = some n → n.nd_events = [] ∧ 1 ≤ n.nd_refs) : wave_inv st := by
  refine ⟨by rw [hl]; exact List.nodup_nil, ?_, ?_, ?_, ?_⟩
  · intro p hp; rw [hl] at hp; cases hp
  · intro p hp; rw [hl] at hp; cases hp
  · intro q n hq
    obtain ⟨h1, h2⟩ := hn q n hq
    rw [h1]; simpa using h2
  · intro p _
    refine ⟨he p, by rw [hl]; simp, fun q n hq => ?_⟩
    rw [(hn q n hq).1]; simp

theorem wave_inv_st_AB : wave_inv st_AB :=
  wave_inv_of_no_events rfl (fun _ => rfl) (fun q n hq => by
    rw [st_AB_node] at hq
    split at hq
    · cases hq; exact ⟨rfl, by decide⟩
    · split at hq
      · cases hq; exact ⟨rfl, by decide⟩
      · cases hq)

theorem env_ack_keeps : env_ack.rcvmsg_keeps :=
  fun _ _ _ _ => ⟨rfl, rfl, rfl, rfl, [_], rfl⟩

/-- C23: when no wave-finish event is keyed by the current wave id,
`dmm_wave_finish` returns `0` and leaves the state as it is.  When the
wave-finish event of the current wave exists (at `p`), in a state whose
wave-finish events are as `dmm_wavefinish_subscribe` leaves them (a node may
have subscribed more than once), with `rcvmsg` callbacks that may do anything
but touch the events and the nodes, with room in the reference counts and the
`WAVEFINISH` message allocated, `dmm_wave_finish` returns `0`; every valid
subscriber whose type has a `rcvmsg` callback receives a copy of the message
(generic type, source 0, empty payload) when the copies can be allocated;
afterwards the event is freed and out of the list of wave-finish events, no
event of the list is keyed by the current wave id, and no subscription list of
any node refers to the event.  The condition on the state holds where there
are no events and no subscriptions, and every call of
`dmm_wavefinish_subscribe` that returns, successful or not, keeps it. -/
theorem wave_finish_teardown (env : Env) (hk : env.rcvmsg_keeps) (fuel : Nat) (st : State) :
    (find_wavefinish_id st st.dmm_wave_id st.wavefinishlist = some none →
      dmm_wave_finish env (fuel + 1) st = some (0, st)) ∧
    (wave_inv st → ∀ (p : Ptr) (e : dmm_event) (w : dmm_wavefinish),
      find_wavefinish_id st st.dmm_wave_id st.wavefinishlist = some (some p) →
      st.wavefinish? p = some (e, w) →
      e.ev_refs < DMM_REFNUM_MAX →
      (∀ q ∈ e.ev_nodes, ∀ n, st.node? q = some n → n.nd_refs < DMM_REFNUM_MAX) →
      env.malloc_ok st.nalloc = true →
      ∃ st', dmm_wave_finish env (fuel + 1) st = some (0, st') ∧
        st'.event? p = none ∧ p ∉ st'.wavefinishlist ∧
        find_wavefinish_id st' st'.dmm_wave_id st'.wavefinishlist = some none ∧
        (∀ q n1, st'.node? q = some n1 → p ∉ n1.nd_events) ∧
        (∀ q ∈ e.ev_nodes, ∀ n, st.node? q = some n → DMM_NODE_ISVALID n = true →
          n.nd_type.rcvmsg = true → (∀ k, env.malloc_ok k = true) →
          ∃ a, Ev.rcvmsg q (wavefinish_msg a) ∈ st'.trace)) ∧
    (st.wavefinishlist = [] → (∀ q, st.event? q = none) →
      (∀ q n, st.node? q = some n → n.nd_events = [] ∧ 1 ≤ n.nd_refs) → wave_inv st) ∧
    (wave_inv st → ∀ (node : Ptr) (err : Int) (st' : State),
      dmm_wavefinish_subscribe env st node = some (err, st') → wave_inv st') := by
  refine ⟨fun h => ?_, fun hI p e w h1 h2 h3 h4 h5 => ?_, wave_inv_of_no_events,
    fun hI node err st' h => wave_inv_subscribe hI h⟩
  · unfold dmm_wave_finish dmm_wavefinish_id2ref dmm_current_wave
    simp [h]
  · exact wave_finish_teardown_of_inv env hk fuel st hI p e w h1 h2 h3 h4 h5

theorem wave_finish_teardown_witness :
    dmm_wave_finish env_ack (0 + 1) st_AB = some (0, st_AB) ∧
    st_wave11.wavefinish? 3 = some (event_wave11, ⟨0⟩) ∧
    ∃ st', dmm_wave_finish env_ack (0 + 1) st_wave11 = some (0, st') ∧
      st'.event? 3 = none ∧ 3 ∉ st'.wavefinishlist ∧
      find_wavefinish_id st' st'.dmm_wave_id st'.wavefinishlist = some none ∧
      (∀ q n1, st'.node? q = some n1 → 3 ∉ n1.nd_events) ∧
      (∀ q ∈ event_wave11.ev_nodes, ∀ n, st_wave11.node? q = some n →
        DMM_NODE_ISVALID n = true → n.nd_type.rcvmsg = true →
        (∀ k, env_ack.malloc_ok k = true) → ∃ a, Ev.rcvmsg q (wavefinish_msg a) ∈ st'.trace) :=
  ⟨(wave_finish_teardown env_ack env_ack_keeps 0 st_AB).1 rfl, rfl,
   (wave_finish_teardown env_ack env_ack_keeps 0 st_wave11).2.1
    ((wave_finish_teardown env_ack env_ack_keeps 0 st_wave1).2.2.2
      ((wave_finish_teardown env_ack env_ack_keeps 0 st_AB).2.2.2 wave_inv_st_AB 1 0 st_wave1
        rfl) 1 0 st_wave11 rfl)
    3 event_wave11 ⟨0⟩ rfl rfl (by decide)
    (fun q hq n hn => by
      have h : q = 1 := by simpa [event_wave11] using hq
      subst h
      have h2 : st_wave11.node? 1 = some { node_A with nd_events := [3, 3], nd_refs := 3 } := rfl
      rw [h2] at hn
      cases hn
      decide)
    rfl⟩

/-! ## The wavebuf module -/

theorem scan_to_end_payload (part : List dmm_datanode) (e : dmm_datanode)
    (rest : List dmm_datanode) (hpart : ∀ dn ∈ part, DMM_DN_ISEND dn = false)
    (he : DMM_DN_ISEND e = true) : scan_to_end (part ++ e :: rest) = some part := by
  induction part with
  | nil => simp [scan_to_end, he]
  | cons dn part ih =>
    have h1 := hpart dn (List.mem_cons_self _ _)
    have h2 := ih (fun x hx => hpart x (List.mem_cons_of_mem _ hx))
    show scan_to_end (dn :: (part ++ e :: rest)) = some (dn :: part)
    unfold scan_to_end
    simp only [h1, Bool.false_eq_true, if_false, h2, Option.map_some']

theorem dnsumlen_append (a b : List dmm_datanode) : dnsumlen (a ++ b) = dnsumlen a + dnsumlen b := by
  simp [dnsumlen]

/-- The first loop of `rcvmsg` on well-formed frames: the payloads, and their
total size while it fits a `size_t`. -/
theorem wavebuf_measure_eq (mem : Mem) (payload : Ptr → List dmm_datanode) :
    ∀ fs : List Ptr,
      (∀ f ∈ fs, (∀ dn ∈ payload f, DMM_DN_ISEND dn = false) ∧
        ∃ e rest, DMM_DN_ISEND e = true ∧ mem f = some (payload f ++ e :: rest)) →
      dnsumlen (fs.map payload).flatten < SIZE_MOD →
      wavebuf_measure mem fs = some (fs.map payload, dnsumlen (fs.map payload).flatten) := by
  intro fs
  induction fs with
  | nil => intro _ _; rfl
  | cons f fs ih =>
    intro hfs hlt
    obtain ⟨hp, e, rest, he, hm⟩ := hfs f (List.mem_cons_self _ _)
    simp only [List.map_cons, List.flatten_cons, dnsumlen_append] at hlt ⊢
    unfold wavebuf_measure
    simp only [hm, Option.bind_eq_bind, Option.some_bind, scan_to_end_payload _ _ _ hp he,
      ih (fun x hx => hfs x (List.mem_cons_of_mem _ hx)) (by omega)]
    rw [Nat.mod_eq_of_lt hlt]

theorem dmm_data_create_raw_eq (env : Env) (st : State) (len : Nat)
    (hm0 : env.malloc_ok st.nalloc = true) (hm1 : env.malloc_ok (st.nalloc + 1) = true)
    (hfit : sizeof_dmm_datanode + len < UINT32_MOD) :
    dmm_data_create_raw env st 0 len = (some (st.nalloc + 1), st_frame st len) := by
  have h1 : (sizeof_dmm_datanode + len) % SIZE_MOD % UINT32_MOD =
      sizeof_dmm_datanode + len := by
    have h2 : sizeof_dmm_datanode + len < SIZE_MOD := by
      simp only [UINT32_MOD, SIZE_MOD] at *; omega
    rw [Nat.mod_eq_of_lt h2, Nat.mod_eq_of_lt hfit]
  simp [dmm_data_create_raw, DMM_MALLOC_size, DMM_MALLOC, hm0, hm1, h1, dmm_data_ref,
    dmm_refacquire, dmm_refinit, DMM_REFNUM_MAX, State.data?, State.setData, State.log,
    State.bump, st_frame]

theorem data?_delData_ne (st : State) {p q : Ptr} (h : q ≠ p) :
    (st.delData p).data? q = st.data? q := by
  simp [State.data?, State.delData, Function.update_noteq h]

/-- Releasing one reference of a frame changes that frame and the log only. -/
theorem dmm_data_unref_frame {s : State} {f : Ptr} {d : dmm_data} (hd : s.data? f = some d)
    (hr : 0 < d.da_refs) :
    ∃ s', dmm_data_unref s f = some s' ∧ (∀ q, s'.hook? q = s.hook? q) ∧
      (∀ q, s'.node? q = s.node? q) ∧ (∀ x, x ≠ f → s'.data? x = s.data? x) ∧
      (∃ t, s'.trace = t ++ s.trace) := by
  unfold dmm_data_unref
  simp only [hd, Option.bind_eq_bind, Option.some_bind, dmm_refrelease, hr, if_true]
  by_cases h1 : d.da_refs - 1 = 0
  · simp only [h1, beq_self_eq_true, if_true]
    refine ⟨_, rfl, fun _ => rfl, fun _ => rfl, fun x hx => ?_, ⟨[Ev.data_free f], rfl⟩⟩
    simp [dmm_data_free, data?_delData_ne _ hx, data?_setData_ne _ _ hx]
  · have : (d.da_refs - 1 == 0) = false := by simpa using h1
    simp only [this, Bool.false_eq_true, if_false]
    exact ⟨_, rfl, fun _ => rfl, fun _ => rfl, fun x hx => data?_setData_ne _ _ hx, ⟨[], rfl⟩⟩

/-- The second loop of `rcvmsg`: the buffered frames are released, the rest of
the state stays. -/
theorem wavebuf_release_frame :
    ∀ (fs : List Ptr) (s : State), fs.Nodup →
      (∀ f ∈ fs, ∃ d, s.data? f = some d ∧ 0 < d.da_refs) →
      ∃ s', wavebuf_release s fs = some s' ∧ (∀ q, s'.hook? q = s.hook? q) ∧
        (∀ q, s'.node? q = s.node? q) ∧ (∀ x, x ∉ fs → s'.data? x = s.data? x) ∧
        (∃ t, s'.trace = t ++ s.trace) := by
  intro fs
  induction fs with
  | nil => intro s _ _; exact ⟨s, rfl, fun _ => rfl, fun _ => rfl, fun _ _ => rfl, ⟨[], rfl⟩⟩
  | cons f fs ih =>
    intro s hnd hfs
    obtain ⟨d, hd, hr⟩ := hfs f (List.mem_cons_self _ _)
    obtain ⟨s1, h1, hh1, hn1, hd1, t1, ht1⟩ := dmm_data_unref_frame hd hr
    have hf : f ∉ fs := (List.nodup_cons.1 hnd).1
    obtain ⟨s2, h2, hh2, hn2, hd2, t2, ht2⟩ := ih s1 (List.nodup_cons.1 hnd).2
      (fun x hx => by
        obtain ⟨dx, hdx, hrx⟩ := hfs x (List.mem_cons_of_mem _ hx)
        exact ⟨dx, by rw [hd1 x (fun h => hf (h ▸ hx))]; exact hdx, hrx⟩)
    refine ⟨s2, ?_, fun q => by rw [hh2, hh1], fun q => by rw [hn2, hn1], fun x hx => ?_,
      ⟨t2 ++ t1, by rw [ht2, ht1, List.append_assoc]⟩⟩
    · unfold wavebuf_release
      simp only [h1, Option.bind_eq_bind, Option.some_bind, h2]
    · have hx1 : x ≠ f := fun h => hx (h ▸ List.mem_cons_self _ _)
      have hx2 : x ∉ fs := fun h => hx (List.mem_cons_of_mem _ h)
      rw [hd2 x hx2, hd1 x hx1]

/-- Within 32 bits the concatenation is emitted: a wavebuf node with its out-hook holds the
well-formed frames `f1..fk` of `databuf` in arrival order, each still
referenced, and receives `WAVEFINISH`; the callbacks are passive, the two
allocations of the outgoing frame succeed and the sizes of the buffered
datanodes plus one header stay below 2^32. Then `rcvmsg` returns `0`, hands
exactly one frame to `DMM_DATA_SEND`, whose buffer holds the datanodes of
`f1..fk` before their end nodes, in arrival order, followed by one end node
and was allocated with the sum of their sizes plus one header, and `databuf`
is empty afterwards. -/
theorem wavebuf_emits_concatenation (env : Env) (hp : env.Passive) (st : State) (mem : Mem)
    (pvt : wavebuf_pvt) (msg : dmm_msg) (hook : Ptr) (h : dmm_hook)
    (payload : Ptr → List dmm_datanode)
    (hmsg : msg.cm_flags &&& DMM_MSG_RESP = 0 ∧ msg.cm_type = DMM_MSGTYPE_GENERIC ∧
      msg.cm_cmd = DMM_MSG_WAVEFINISH)
    (hhook : pvt.hook = some hook)
    (hframes : ∀ f ∈ pvt.databuf, frame_holds mem f (payload f))
    (hnd : pvt.databuf.Nodup)
    (hrefs : ∀ f ∈ pvt.databuf, ∃ d, st.data? f = some d ∧ 0 < d.da_refs)
    (hold : ∀ f ∈ pvt.databuf, f ≤ st.nalloc)
    (hm0 : env.malloc_ok st.nalloc = true) (hm1 : env.malloc_ok (st.nalloc + 1) = true)
    (hfit : sizeof_dmm_datanode + dnsumlen (pvt.databuf.map payload).flatten < UINT32_MOD)
    (hh : st.hook? hook = some h) (hout : DMM_HOOK_ISOUT h = true)
    (hv : DMM_HOOK_ISVALID h = true) (hr : 0 < h.hk_refs ∧ h.hk_refs < DMM_REFNUM_MAX)
    (hlen : 1 + h.hk_peers.length < DMM_REFNUM_MAX)
    (hpeers : ∀ p ∈ h.hk_peers, ∃ x n, st.hook? p = some x ∧ DMM_HOOK_ISIN x = true ∧
      (0 < x.hk_refs ∧ x.hk_refs < DMM_REFNUM_MAX) ∧ st.node? x.hk_node = some n) :
    ∃ st', wavebuf_rcvmsg env st mem pvt msg =
        some ((0, { pvt with databuf := [] },
          Function.update mem (st.nalloc + 1)
            (some ((pvt.databuf.map payload).flatten ++ [dmm_empty_datanode])),
          [st.nalloc + 1]), st') ∧
      Ev.malloc (st.nalloc + 2)
        (dnsumlen (pvt.databuf.map payload).flatten + sizeof_dmm_datanode) ∈ st'.trace := by
  have hlt : dnsumlen (pvt.databuf.map payload).flatten < SIZE_MOD := by
    have h0 := hfit
    simp only [UINT32_MOD] at h0
    simp only [SIZE_MOD]; omega
  have hmeasure := wavebuf_measure_eq mem payload pvt.databuf hframes hlt
  have hcreate := dmm_data_create_raw_eq env st (dnsumlen (pvt.databuf.map payload).flatten)
    hm0 hm1 hfit
  have hnew : ∀ f ∈ pvt.databuf, f ≠ st.nalloc + 1 := fun f hf => by
    intro hf1
    have h1 := hold f hf
    rw [hf1] at h1
    exact Nat.not_succ_le_self _ h1
  have hdnew : (st_frame st (dnsumlen (pvt.databuf.map payload).flatten)).data? (st.nalloc + 1) =
      some { da_nodes := st.nalloc + 2,
             da_len := sizeof_dmm_datanode + dnsumlen (pvt.databuf.map payload).flatten,
             da_refs := 1 } := by
    simp [st_frame]
  -- the buffered frames are released
  obtain ⟨s2, hrel, hh2, hn2, hd2, t2, ht2⟩ := wavebuf_release_frame pvt.databuf
    (st_frame st (dnsumlen (pvt.databuf.map payload).flatten)) hnd
    (fun f hf => by
      obtain ⟨d, hd, hrd⟩ := hrefs f hf
      exact ⟨d, by simp [st_frame, data?_setData_ne _ _ (hnew f hf), hd], hrd⟩)
  have hd2new : s2.data? (st.nalloc + 1) =
      some { da_nodes := st.nalloc + 2,
             da_len := sizeof_dmm_datanode + dnsumlen (pvt.databuf.map payload).flatten,
             da_refs := 1 } := by
    rw [hd2 _ (fun hmem => hnew _ hmem rfl)]; exact hdnew
  have hhook2 : ∀ q, s2.hook? q = st.hook? q := fun q => by rw [hh2]; rfl
  have hnode2 : ∀ q, s2.node? q = st.node? q := fun q => by rw [hn2]; rfl
  -- the outgoing frame is sent
  obtain ⟨s3, hsend, hd3, ht3, _, _⟩ := (dmm_data_send_passive env hp s2 (st.nalloc + 1) hook h _
    (by rw [hhook2]; exact hh) hout hr hd2new (by simpa using hlen)
    (fun p hp1 => by
      obtain ⟨x, n, hx, hin, hrx, hn⟩ := hpeers p hp1
      exact ⟨x, n, by rw [hhook2]; exact hx, hin, hrx, by rw [hnode2]; exact hn⟩)).2 hv
  obtain ⟨s4, hun, _, _, _, t4, ht4⟩ := dmm_data_unref_frame hd3 (by simp)
  refine ⟨dmm_msg_free s4 msg, ?_, ?_⟩
  · unfold wavebuf_rcvmsg
    simp only [hmsg.1, ne_eq, not_true_eq_false, if_false, hmsg.2.1, hmsg.2.2, or_self,
      hmeasure, Option.bind_eq_bind, Option.some_bind, hhook, hcreate, hdnew]
    rw [if_neg (by simp only [sizeof_dmm_datanode]; omega)]
    simp only [hrel, Option.some_bind, hsend, hun]
  · have : Ev.malloc (st.nalloc + 2)
        (dnsumlen (pvt.databuf.map payload).flatten + sizeof_dmm_datanode) ∈
        (st_frame st (dnsumlen (pvt.databuf.map payload).flatten)).trace := by
      simp [st_frame, Nat.add_comm]
    simp only [dmm_msg_free, trace_log, ht4, ht3, ht2]
    simp [this]

theorem wavebuf_emits_concatenation_witness :
    (∀ f ∈ pvt_wavebuf.databuf, frame_holds mem_small f (payload_small f)) ∧
    (pvt_wavebuf.databuf.map payload_small).flatten =
      [⟨5, 4, 41⟩, ⟨6, 2, 42⟩, ⟨7, 6, 43⟩] ∧
    ∃ st', wavebuf_rcvmsg env0 (st_wavebuf 12 24) mem_small pvt_wavebuf (wavefinish_msg 20) =
        some ((0, { pvt_wavebuf with databuf := [] },
          Function.update mem_small ((st_wavebuf 12 24).nalloc + 1)
            (some ((pvt_wavebuf.databuf.map payload_small).flatten ++ [dmm_empty_datanode])),
          [(st_wavebuf 12 24).nalloc + 1]), st') ∧
      Ev.malloc ((st_wavebuf 12 24).nalloc + 2)
        (dnsumlen (pvt_wavebuf.databuf.map payload_small).flatten + sizeof_dmm_datanode) ∈
        st'.trace :=
  have hframes : ∀ f ∈ pvt_wavebuf.databuf, frame_holds mem_small f (payload_small f) := by
    intro f hf
    have h : f = 7 ∨ f = 9 := by simpa [pvt_wavebuf] using hf
    rcases h with h | h <;> subst h
    · exact ⟨by decide, dmm_empty_datanode, [], by decide, rfl⟩
    · exact ⟨by decide, dmm_empty_datanode, [], by decide, rfl⟩
  ⟨hframes, rfl,
    wavebuf_emits_concatenation env0 env0_passive (st_wavebuf 12 24) mem_small pvt_wavebuf
      (wavefinish_msg 20) 3 (hook_with 2 .DMM_HOOK_OUT ['o'] [4] 1) payload_small
      ⟨by decide, by decide, by decide⟩ rfl hframes (by decide)
      (fun f hf => by
        have h : f = 7 ∨ f = 9 := by simpa [pvt_wavebuf] using hf
        rcases h with h | h <;> subst h
        · exact ⟨⟨8, 20, 1⟩, rfl, by decide⟩
        · exact ⟨⟨10, 32, 1⟩, rfl, by decide⟩)
      (fun f hf => by
        have h : f = 7 ∨ f = 9 := by simpa [pvt_wavebuf] using hf
        rcases h with h | h <;> subst h
        · show 7 ≤ 10; decide
        · show 9 ≤ 10; decide)
      rfl rfl (by decide) rfl (by decide) (by decide) (by decide) (by decide)
      (fun p hp => by
        have h : p = 4 := by simpa [hook_with] using hp
        subst h
        exact ⟨hook_with 1 .DMM_HOOK_IN ['i'] [3] 1, node_with_hook node_A .DMM_HOOK_IN 4,
          rfl, by decide, by decide, rfl⟩)⟩

/-- C24: a wavebuf node that has buffered two well-formed frames of `2^31 + 8`
bytes each (one datanode of `2^31 - 8` bytes and the end node) does not emit
their concatenation on `WAVEFINISH`. The sizes of the datanodes plus one
header make `2^32 + 8` bytes, but the outgoing frame records and allocates
`da_len = 8`, the sum cut to 32 bits by `dmm_data_create_raw`, so the copy of
the buffered datanodes runs past the allocation: the call has no defined
result and no frame is emitted. -/
theorem wavebuf_large_frames_overflow :
    (∀ f ∈ pvt_wavebuf.databuf, frame_holds mem_large f (payload_large f)) ∧
    (st_wavebuf 2147483648 2147483648).data? 7 =
      some { da_nodes := 8, da_len := 2147483656, da_refs := 1 } ∧
    (st_wavebuf 2147483648 2147483648).data? 9 =
      some { da_nodes := 10, da_len := 2147483656, da_refs := 1 } ∧
    dnsumlen (pvt_wavebuf.databuf.map payload_large).flatten + sizeof_dmm_datanode =
      4294967304 ∧
    (dmm_data_create_raw env0 (st_wavebuf 2147483648 2147483648) 0
        (dnsumlen (pvt_wavebuf.databuf.map payload_large).flatten)).2.data? 11 =
      some { da_nodes := 12, da_len := 8, da_refs := 1 } ∧
    wavebuf_rcvmsg env0 (st_wavebuf 2147483648 2147483648) mem_large pvt_wavebuf
      (wavefinish_msg 20) = none := by
  refine ⟨?_, rfl, rfl, by decide, rfl, rfl⟩
  intro f hf
  have h : f = 7 ∨ f = 9 := by simpa [pvt_wavebuf] using hf
  rcases h with h | h <;> subst h
  · exact ⟨by decide, dmm_empty_datanode, [], by decide, rfl⟩
  · exact ⟨by decide, dmm_empty_datanode, [], by decide, rfl⟩

/-- The function `rcvdata` of wavebuf, when it accepts a frame, appends it at
the tail of `databuf` and leaves the out-hook: the buffer lists the frames in
arrival order. -/
theorem wavebuf_rcvdata_appends (env : Env)
    (send_id : State → Nat → dmm_msg → Option (Int × State)) (st st' : State)
    (pvt pvt' : wavebuf_pvt) (node_id : Nat) (data : Ptr)
    (h : wavebuf_rcvdata env send_id st pvt node_id data = some ((0, pvt'), st')) :
    pvt' = { pvt with databuf := pvt.databuf ++ [data] } := by
  unfold wavebuf_rcvdata at h
  split at h
  · obtain ⟨s, _, hs⟩ := Option.bind_eq_some.1 h
    simp [ENOMEM] at hs
  · split at h
    · split at h
      · obtain ⟨s, _, hs⟩ := Option.bind_eq_some.1 h
        simp [ENOMEM] at hs
      · obtain ⟨s, _, hs⟩ := Option.bind_eq_some.1 h
        simp at hs
        exact hs.1.symm
    · simp at h
      exact h.1.symm

/-! ## C27: the invariant of the trigger queue -/

/-- C25: start from a state without hooks and let the callbacks be passive.
In every state reached by calls of `dmm_node_create`, `dmm_node_connect`,
`dmm_node_disconnect`, `dmm_hook_rm` and `dmm_node_rm`, for every hook `H` and
every peer record of `H` that points at a hook `P`: `P` exists, its peer list
holds exactly one record that points back at `H`, and `H` is an out-hook
exactly when `P` is an in-hook. -/
theorem connections_symmetric (env : Env) (hp : env.Passive) (s0 s : State)
    (h0 : graph_init s0) (h : graph_reachable env s0 s) : peers_symmetric s :=
  peers_symmetric_of_ok (graph_reachable_inv hp h0 h)

theorem connections_symmetric_witness :
    graph_init st_boot ∧ graph_reachable env0 st_boot st_conn ∧
    st_conn.hook? 3 = some hook_o ∧ hook_o.hk_peers = [4] ∧ peers_symmetric st_conn :=
  have h0 : graph_init st_boot := ⟨fun _ => rfl, fun a n h => by cases h⟩
  have hr : graph_reachable env0 st_boot st_conn :=
    graph_reachable.step _ _
      (graph_reachable.step _ _
        (graph_reachable.step _ _ graph_reachable.init
          (graph_step.node_create st_boot st_A ['t'] (0, some 1) rfl))
        (graph_step.node_create st_A st_AB ['b'] (0, some 2) rfl))
      (graph_step.connect st_AB st_conn 1 ['o'] 2 ['i'] 0 rfl)
  ⟨h0, hr, rfl, rfl, connections_symmetric env0 env0_passive st_boot st_conn h0 hr⟩

end Dimmon
